import Mathlib

/-!
# Accurity `infer.cpp`: a shallow embedding and its checked properties

The embedding follows `src/Accurity/infer.cpp` function by function.

Conventions.
* C++ `int` values are `Int`; array indices that the code keeps non-negative
  are read through `rd`, which is total.
* `double`/`float` values are modelled in exact arithmetic: no rounding.
  Values that are only added and multiplied are rationals (`ℚ`).  The one
  exception is the peak location with `float` products (`find_peaks_float`),
  where the rounding of the products of lines 1680 and 1974 is a parameter.  Values that
  come out of a quotient by a run-time value (purity, ploidy) are `Dbl`: a
  rational, or one of the IEEE results `+inf`, `-inf`, `NaN` of a division
  by zero.  Signed zeros are not distinguished.
* `infer.h` is not part of the sources.  Its compile-time constants are the
  fields of `Constants`; its library functions (`log`, `sqrt`, `exp`, the
  `Prob` class) are parameters of the functions that call them.
-/

namespace Accurity

/-! ## Doubles in exact arithmetic -/

/-- A `double` without rounding: a finite rational or an IEEE special value. -/
inductive Dbl where
  | fin (q : ℚ)
  | pinf
  | ninf
  | nan
  deriving DecidableEq, Repr

namespace Dbl

/-- Unary minus. -/
def neg : Dbl → Dbl
  | fin q => fin (-q)
  | pinf => ninf
  | ninf => pinf
  | nan => nan

/-- IEEE addition. -/
def add : Dbl → Dbl → Dbl
  | fin a, fin b => fin (a + b)
  | nan, _ => nan
  | _, nan => nan
  | pinf, ninf => nan
  | ninf, pinf => nan
  | pinf, _ => pinf
  | _, pinf => pinf
  | ninf, _ => ninf
  | _, ninf => ninf

/-- IEEE subtraction. -/
def sub (x y : Dbl) : Dbl := add x (neg y)

/-- The infinity with the sign of `s * t` for `s ≠ 0`, `NaN` for `s = 0`. -/
def signedInf (s : ℚ) (positive : Bool) : Dbl :=
  if s = 0 then nan
  else if (0 < s) = positive then pinf
  else ninf

/-- IEEE multiplication. -/
def mul : Dbl → Dbl → Dbl
  | fin a, fin b => fin (a * b)
  | nan, _ => nan
  | _, nan => nan
  | fin a, pinf => signedInf a true
  | fin a, ninf => signedInf a false
  | pinf, fin b => signedInf b true
  | ninf, fin b => signedInf b false
  | pinf, pinf => pinf
  | ninf, ninf => pinf
  | pinf, ninf => ninf
  | ninf, pinf => ninf

/-- IEEE division; a zero divisor counts as `+0`. -/
def div : Dbl → Dbl → Dbl
  | fin a, fin b => if b = 0 then signedInf a true else fin (a / b)
  | nan, _ => nan
  | _, nan => nan
  | fin _, pinf => fin 0
  | fin _, ninf => fin 0
  | pinf, fin b => if 0 ≤ b then pinf else ninf
  | ninf, fin b => if 0 ≤ b then ninf else pinf
  | pinf, pinf => nan
  | pinf, ninf => nan
  | ninf, pinf => nan
  | ninf, ninf => nan

/-- The comparison `x < y` of C++; false when either side is `NaN`. -/
def lt : Dbl → Dbl → Bool
  | fin a, fin b => decide (a < b)
  | nan, _ => false
  | _, nan => false
  | ninf, ninf => false
  | ninf, _ => true
  | _, ninf => false
  | pinf, _ => false
  | _, pinf => true

/-- The comparison `x <= y` of C++; false when either side is `NaN`. -/
def le : Dbl → Dbl → Bool
  | fin a, fin b => decide (a ≤ b)
  | nan, _ => false
  | _, nan => false
  | ninf, _ => true
  | _, pinf => true
  | pinf, _ => false
  | _, ninf => false

end Dbl

/-! ## Constants of `infer.h` -/

/-- Compile-time constants that `infer.cpp` takes from `infer.h`. -/
structure Constants where
  FRESOLUTION : ℚ
  RESOLUTION : Int
  MAX_RATIO_HIGH_RES : Int
  kPeriodMax : Nat
  kPeriodMin : Int
  kPeriodHalfWidthMax : Int
  DEV1 : ℚ
  SHOULDER_RATIO : ℚ
  SHOULDER_RATIO_LEFT : ℚ
  MIN_PLOIDY : ℚ
  MAX_PLOIDY : ℚ
  MAX_NUM_OF_COR_TO_SUM : Int
  kGaussianDensityFrontScalar : ℚ
  kFirstPeakMin : Int
  kFirstPeakMax : Int
  kPeakHalfWidthMax : Int
  kPeakHeightMin : ℚ
  DEV2 : ℚ
  MAX_RATIO_RANGE_HIGH_RES : Int
  MAX_RATIO : ℚ
  MAX_RATIO_RANGE : ℚ

/-! ## Data model (`OneSegmentSNPs`, `OneSegment`, `OnePeak`, `OnePeriod`) -/

/-- SNP aggregate attached to a segment. -/
structure OneSegmentSNPs where
  maf_mean : ℚ
  maf_stddev : ℚ
  no_of_snps : Int
  coverage_mean : ℚ
  coverage_var : ℚ
  coverage_squared_sum : ℚ
  deriving DecidableEq

/-- One segment of the input, as stored by `getSegmentDataFromFile`. -/
structure OneSegment where
  chr_index : Int
  start_pos : Int
  end_pos : Int
  rc_ratio : ℚ
  stddev : ℚ
  no_of_windows : Int
  oneSegmentSNPs : OneSegmentSNPs
  deriving DecidableEq

/-- One peak of the read-count-ratio density. -/
structure OnePeak where
  peak_center_int : Int
  peak_index : Int
  lower_bound_int : Int
  upper_bound_int : Int
  half_width_int : Int
  no_of_periods_since_1st_peak : Int
  no_of_windows : Int
  no_of_snps : Int
  no_of_maf_peaks : Int
  snp_coverage_sum : ℚ
  snp_coverage_squared_sum : ℚ
  snp_coverage_var_sum : ℚ
  snp_coverage_mean : ℚ
  snp_coverage_var : ℚ
  snp_maf_var : ℚ
  segment_obj_vector : List OneSegment
  segment_rc_ratio_vector : List Int
  deriving DecidableEq

/-- One candidate period with everything the scoring accumulates on it.  The
fields written from a quotient (`best_purity`, `best_ploidy`, the two vectors
of them and the three `*_corrected` fields) are `Dbl`. -/
structure OnePeriod where
  period_int : Int
  lower_bound_int : Int
  upper_bound_int : Int
  auto_cor_value : ℚ
  first_peak_obj : OnePeak
  first_peak_int : Int
  width : Int
  peak_obj_vector : List OnePeak
  no_of_peaks_for_logL : Int
  no_of_windows : Int
  no_of_segments : Int
  no_of_rc_peaks : Int
  no_of_snps : Int
  no_of_maf_peaks : Int
  logL : ℚ
  logL_rc : ℚ
  logL_rc_penalty : ℚ
  adj_logL_rc : ℚ
  best_logL_snp : ℚ
  best_lod_snp : ℚ
  best_no_of_copy_nos_bf_1st_peak : Int
  best_purity : Dbl
  best_ploidy : Dbl
  best_adj_logL_snp : ℚ
  rc_ratio_int_of_cp_2 : Int
  best_logL_snp_penalty : ℚ
  best_logL_snp_no_of_parameters : Int
  logL_snp_vector : List ℚ
  lod_snp_vector : List ℚ
  purity_vector : List Dbl
  ploidy_vector : List Dbl
  no_of_copy_nos_bf_1st_peak_vector : List Int
  snp_penalty_vector : List ℚ
  snp_no_of_parameters_vector : List Int
  ploidy_corrected : Dbl
  rc_ratio_int_of_cp_2_corrected : Dbl
  purity_corrected : Dbl
  deriving DecidableEq

/-! ## Purity / ploidy algebra -/

/-- `Infer::calc_purity_ploidy_from_period_and_cp_no_two` (lines 1508-1517):
the pair `(purity, ploidy)` written to the two reference arguments. -/
def calc_purity_ploidy_from_period_and_cp_no_two (K : Constants)
    (cp_no_two_rc_ratio_int period_int : Int) : Dbl × Dbl :=
  let purity := Dbl.div (Dbl.fin (2 * (period_int : ℚ))) (Dbl.fin (cp_no_two_rc_ratio_int : ℚ))
  let ploidy := Dbl.add (Dbl.fin 2)
    (Dbl.div (Dbl.fin (K.FRESOLUTION - (cp_no_two_rc_ratio_int : ℚ))) (Dbl.fin (period_int : ℚ)))
  (purity, ploidy)

/-- `Infer::recalibrate_Q_and_purity_based_on_cnv_ploidy` (lines 141-151). -/
def recalibrate_Q_and_purity_based_on_cnv_ploidy (K : Constants)
    (best_period_obj : OnePeriod) : OnePeriod :=
  let q := Dbl.sub (Dbl.fin K.FRESOLUTION)
    (Dbl.mul (Dbl.sub best_period_obj.ploidy_corrected (Dbl.fin 2))
      (Dbl.fin (best_period_obj.period_int : ℚ)))
  let o1 := { best_period_obj with rc_ratio_int_of_cp_2_corrected := q }
  { o1 with purity_corrected :=
      Dbl.div (Dbl.fin (2 * (o1.period_int : ℚ))) o1.rc_ratio_int_of_cp_2_corrected }

/-! ## Small helpers for C++ idioms -/

/-- The conversion `int(x)` of a finite `double`: truncation toward zero. -/
def cpp_trunc (q : ℚ) : Int := if 0 ≤ q then ⌊q⌋ else ⌈q⌉

/-- The values `lo, lo+1, ..., hi` visited by `for (i = lo; i <= hi; i++)`. -/
def int_range (lo hi : Int) : List Int :=
  (List.range (hi - lo + 1).toNat).map (fun (k : Nat) => lo + (k : Int))

/-- Read `a[i]` of a C array; indices outside the array read as `0`. -/
def rd (a : List ℚ) (i : Int) : ℚ := if i < 0 then 0 else a.getD i.toNat 0

/-- Write `a[i] = v` of a C array; writes outside the array are dropped. -/
def wr (a : List ℚ) (i : Int) (v : ℚ) : List ℚ := if i < 0 then a else a.set i.toNat v

/-! ## Best-period selection (`infer_best_period_by_logL`) -/

/-- The variables `infer_best_period_by_logL` updates while it walks the
candidates: its two locals and the members `_first_peak_obj`,
`_periodObjVector` of `Infer`. -/
structure BestPeriodState where
  best_period_logL : ℚ
  best_period_obj : OnePeriod
  first_peak_obj : OnePeak
  periodObjVector : List OnePeriod

/-- One iteration of the candidate loop of `infer_best_period_by_logL`
(lines 935-1027).  `rc_stage` stands for lines 939-993 (first-peak search,
`find_peaks`, `ResetCounters`, coverage log-likelihood of the first peaks) and
`snp_stage` for lines 998-1013 (coverage penalty, SNP scoring, average over
the scored peaks); both leave the combined score in `logL`. -/
def infer_best_period_by_logL_step (rc_stage snp_stage : OnePeriod → OnePeriod)
    (st : BestPeriodState) (candidate_period : OnePeriod) : BestPeriodState :=
  let c1 := rc_stage candidate_period
  if c1.no_of_windows ≤ 0 then st
  else
    let c2 := snp_stage c1
    let st1 :=
      if Dbl.lt (Dbl.fin 0) c2.best_purity = true ∧ c2.logL > st.best_period_logL then
        { st with best_period_logL := c2.logL
                  first_peak_obj := c2.first_peak_obj
                  best_period_obj := c2 }
      else st
    { st1 with periodObjVector := st1.periodObjVector ++ [c2] }

/-- `Infer::infer_best_period_by_logL` (lines 929-1036).  `OnePeriod_ctor` is
the value of `OnePeriod()`; `first_peak_obj0` and `periodObjVector0` are the
members of `Infer` on entry.  The returned state holds the function result in
`best_period_obj`. -/
def infer_best_period_by_logL (rc_stage snp_stage : OnePeriod → OnePeriod)
    (OnePeriod_ctor : OnePeriod) (first_peak_obj0 : OnePeak) (periodObjVector0 : List OnePeriod)
    (candidate_period_vec : List OnePeriod) : BestPeriodState :=
  candidate_period_vec.foldl (infer_best_period_by_logL_step rc_stage snp_stage)
    { best_period_logL := -(10 : ℚ) ^ 99
      best_period_obj := OnePeriod_ctor
      first_peak_obj := first_peak_obj0
      periodObjVector := periodObjVector0 }

/-! ## SNP scoring of the "copy numbers before the first peak" hypotheses -/

/-- What lines 1239-1423 produce for one hypothesis: the candidate's counters
`no_of_snps` and `no_of_maf_peaks` after `ResetSNPCounters` and the per-peak
accumulation, the values `(no_of_maf_peaks, snp_maf_var)` written to each peak,
and the three local sums. -/
structure MafScore where
  no_of_snps : Int
  no_of_maf_peaks : Int
  peak_fields : OnePeak → Int × ℚ
  logL_snp : ℚ
  lod_snp : ℚ
  ssum_sq_diff : ℚ

/-- The adjustment of lines 1210-1216: from the prior `max(0, 2 - t)` and the
bound `floor(first_peak/period + 0.2)` to the first and last hypothesis of the
loop. -/
def copy_no_bounds (prior max_no : Int) : Int × Int :=
  if prior > max_no then (max_no, max_no)
  else if prior < max_no then (prior, prior)
  else (prior, max_no)

/-- The hypotheses `no_of_copy_nos_bf_1st_peak` the loop of line 1224 visits
(lines 1200, 1209-1216, 1224-1226), for a tallest peak of index
`tallest_peak_index` and `period_int ≠ 0`. -/
def copy_no_hypotheses (first_peak_int period_int tallest_peak_index : Int) : List Int :=
  let prior := max 0 (2 - tallest_peak_index)
  let max_no := ⌊(first_peak_int : ℚ) / (period_int : ℚ) + 1 / 5⌋
  let b := copy_no_bounds prior max_no
  int_range b.1 b.2

/-- The bin assigned to copy number 2 under one hypothesis (lines 1228-1234). -/
def cp_no_two_rc_ratio (peak_obj_vector : List OnePeak) (first_peak_int period_int : Int)
    (no_of_copy_nos_bf_1st_peak : Int) : Int :=
  let cp_no_two_peak_index := 2 - no_of_copy_nos_bf_1st_peak
  if 0 ≤ cp_no_two_peak_index ∧ cp_no_two_peak_index < (peak_obj_vector.length : Int) then
    match peak_obj_vector[cp_no_two_peak_index.toNat]? with
    | some pk => pk.peak_center_int
    | none => first_peak_int + cp_no_two_peak_index * period_int
  else first_peak_int + cp_no_two_peak_index * period_int

/-- Body of the hypothesis loop (lines 1228-1461) for one value of
`no_of_copy_nos_bf_1st_peak`.  `maf_scoring` stands for lines 1239-1423,
`logf` and `sqrtf` for `log` and `sqrt`. -/
def snp_hypothesis_step (K : Constants)
    (maf_scoring : OnePeriod → Int → Dbl → Dbl → MafScore) (logf sqrtf : ℚ → ℚ)
    (first_peak_int period_int : Int)
    (candidate_period : OnePeriod) (no_of_copy_nos_bf_1st_peak : Int) : OnePeriod :=
  let cp_no_two_rc_ratio_int := cp_no_two_rc_ratio candidate_period.peak_obj_vector
    first_peak_int period_int no_of_copy_nos_bf_1st_peak
  let pp := calc_purity_ploidy_from_period_and_cp_no_two K cp_no_two_rc_ratio_int period_int
  let purity := pp.1
  let ploidy := pp.2
  if Dbl.lt ploidy (Dbl.fin K.MIN_PLOIDY) = true ∨ Dbl.lt (Dbl.fin K.MAX_PLOIDY) ploidy = true then
    candidate_period
  else
    let sc := maf_scoring candidate_period no_of_copy_nos_bf_1st_peak purity ploidy
    let c := { candidate_period with
      no_of_snps := sc.no_of_snps
      no_of_maf_peaks := sc.no_of_maf_peaks
      peak_obj_vector := candidate_period.peak_obj_vector.map (fun pk =>
        { pk with no_of_maf_peaks := (sc.peak_fields pk).1, snp_maf_var := (sc.peak_fields pk).2 }) }
    if c.no_of_snps ≤ 5 then c
    else
      let snp_logL_penalty : ℚ := -(1 / 2) * (c.no_of_maf_peaks : ℚ) * logf (c.no_of_snps : ℚ)
      let logL_snp := sc.logL_snp + snp_logL_penalty
      let c1 := { c with
        logL_snp_vector := c.logL_snp_vector ++ [logL_snp]
        lod_snp_vector := c.lod_snp_vector ++ [sc.lod_snp]
        purity_vector := c.purity_vector ++ [purity]
        ploidy_vector := c.ploidy_vector ++ [ploidy]
        no_of_copy_nos_bf_1st_peak_vector :=
          c.no_of_copy_nos_bf_1st_peak_vector ++ [no_of_copy_nos_bf_1st_peak]
        snp_penalty_vector := c.snp_penalty_vector ++ [snp_logL_penalty]
        snp_no_of_parameters_vector := c.snp_no_of_parameters_vector ++ [c.no_of_maf_peaks] }
      if logL_snp > c1.best_logL_snp then
        { c1 with
          best_logL_snp := logL_snp
          best_lod_snp := sc.lod_snp
          best_no_of_copy_nos_bf_1st_peak := no_of_copy_nos_bf_1st_peak
          best_purity := purity
          best_ploidy := ploidy
          best_adj_logL_snp := sqrtf (sc.ssum_sq_diff / (c1.no_of_snps : ℚ))
          rc_ratio_int_of_cp_2 := cp_no_two_rc_ratio_int
          best_logL_snp_penalty := snp_logL_penalty
          best_logL_snp_no_of_parameters := c1.no_of_maf_peaks }
      else c1

/-- `Infer::infer_no_of_copy_nos_bf_1st_peak_for_one_period_by_logL_snp`
(lines 1174-1465): the returned `best_logL_snp` and the candidate as left
behind.  `sort_by_windows` is `std::sort` with `peak_greater_no_of_windows`,
`sort_by_center` is `std::sort` with `OnePeak::operator<` (line 1202).
The result is `none` where the C++ has no defined behaviour: `peak_obj_vector[0]`
of an empty vector, or `int(floor(x))` of a non-finite `x` (`period_int = 0`). -/
def infer_no_of_copy_nos_bf_1st_peak_for_one_period_by_logL_snp (K : Constants)
    (sort_by_windows sort_by_center : List OnePeak → List OnePeak)
    (maf_scoring : OnePeriod → Int → Dbl → Dbl → MafScore) (logf sqrtf : ℚ → ℚ)
    (candidate_period : OnePeriod) : Option (ℚ × OnePeriod) :=
  let c0 := { candidate_period with best_logL_snp := -(10 : ℚ) ^ 99 }
  let first_peak_int := c0.first_peak_obj.peak_center_int
  let period_int := c0.period_int
  let c1 := { c0 with peak_obj_vector := sort_by_windows c0.peak_obj_vector }
  match c1.peak_obj_vector with
  | [] => none
  | tallest_peak :: _ =>
    if tallest_peak.peak_index > 2 then some (c1.best_logL_snp, c1)
    else
      let c2 := { c1 with peak_obj_vector := sort_by_center c1.peak_obj_vector }
      if period_int = 0 then none
      else
        let c3 := (copy_no_hypotheses first_peak_int period_int tallest_peak.peak_index).foldl
          (snp_hypothesis_step K maf_scoring logf sqrtf first_peak_int period_int) c2
        some (c3.best_logL_snp, c3)

/-! ## Peak location (`find_peaks`, `refine_peak_center`) -/

/-- Modelled from the spec: the constructor
`OnePeak(peak_center_int, peak_index, lower_bound_int, upper_bound_int, half_width_int)`
of `infer.h`, which is not in the sources.  A peak is its "center bin,
half-width (bins), lower/upper bounds (bins), ordinal index since the first
peak" with empty lists of contributing segments and bins and zero aggregates.
The per-peak MAF density `maf_int_pdf_vec` is not tracked. -/
def OnePeak.ctor5 (peak_center_int peak_index lower_bound_int upper_bound_int
    half_width_int : Int) : OnePeak :=
  { peak_center_int := peak_center_int
    peak_index := peak_index
    lower_bound_int := lower_bound_int
    upper_bound_int := upper_bound_int
    half_width_int := half_width_int
    no_of_periods_since_1st_peak := 0
    no_of_windows := 0
    no_of_snps := 0
    no_of_maf_peaks := 0
    snp_coverage_sum := 0
    snp_coverage_squared_sum := 0
    snp_coverage_var_sum := 0
    snp_coverage_mean := 0
    snp_coverage_var := 0
    snp_maf_var := 0
    segment_obj_vector := []
    segment_rc_ratio_vector := [] }

/-- Modelled from the spec: `OnePeak::ResetCounters` of `infer.h`, which is
not in the sources.  It clears the per-peak aggregates ("list of contributing
segments, list of contributing ratio bins, aggregated SNP count/coverage") and
leaves centre, index, bounds and half-width alone. -/
def OnePeak.ResetCounters (p : OnePeak) : OnePeak :=
  { p with
    no_of_windows := 0
    no_of_snps := 0
    no_of_maf_peaks := 0
    snp_coverage_sum := 0
    snp_coverage_squared_sum := 0
    snp_coverage_var_sum := 0
    snp_coverage_mean := 0
    snp_coverage_var := 0
    snp_maf_var := 0
    segment_obj_vector := []
    segment_rc_ratio_vector := [] }

/-- The bin `int(read_count_ratio * RESOLUTION)` under which
`getSegmentDataFromFile` files a segment (line 1680), the product taken
without rounding; `ratio_high_res_float` rounds it to `float`. -/
def ratio_high_res (K : Constants) (sg : OneSegment) : Int :=
  cpp_trunc (sg.rc_ratio * (K.RESOLUTION : ℚ))

/-- The row `_rc_ratio_segments[b]` after `getSegmentDataFromFile` (line 1697):
the used segments filed under bin `b`, in input order.  `segments` is the list
of used segments in input order. -/
def rc_ratio_segments (K : Constants) (segments : List OneSegment) (b : Int) : List OneSegment :=
  segments.filter (fun sg => ratio_high_res K sg = b)

/-- `Infer::refine_peak_center` (lines 1959-1996): the peak after the call,
the products and the mean taken without rounding; `refine_peak_center_float`
rounds the product of line 1974 to `float`. -/
def refine_peak_center (K : Constants) (segments : List OneSegment) (peak_obj : OnePeak)
    (segment_rc_ratio_vector : List Int) : OnePeak :=
  let all := segment_rc_ratio_vector.flatMap (rc_ratio_segments K segments)
  let cnt : Int := (all.map (fun sg => sg.no_of_windows)).sum
  let total : ℚ := (all.map (fun sg => sg.rc_ratio * (sg.no_of_windows : ℚ))).sum
  if cnt > 0 then
    let mean_rc_ratio_of_one_peak := total / (cnt : ℚ)
    let c := cpp_trunc (mean_rc_ratio_of_one_peak * (K.RESOLUTION : ℚ))
    { peak_obj with
      peak_center_int := c
      lower_bound_int := max (c - peak_obj.half_width_int) 0
      upper_bound_int := min (c + peak_obj.half_width_int) K.MAX_RATIO_HIGH_RES }
  else peak_obj

/-- The half-width `find_peaks` works with (lines 820-823). -/
def find_peaks_half_width (period_int : Int) (first_peak_obj : OnePeak) : Int :=
  if first_peak_obj.half_width_int > Int.tdiv period_int 2 then
    cpp_trunc (((Int.tdiv period_int 2 : Int) : ℚ) * (9 / 10))
  else first_peak_obj.half_width_int

/-- One iteration of the projection loop of `find_peaks` (lines 828-846). -/
def find_peaks_project_one (K : Constants) (segments : List OneSegment)
    (period_int half_width_int first_peak_center_int : Int) (i : Int) : OnePeak :=
  let peak_center_int := first_peak_center_int + period_int * i
  let lower_bound_int := max (peak_center_int - half_width_int) 0
  let upper_bound_int := min (peak_center_int + half_width_int) K.MAX_RATIO_HIGH_RES
  let peak_obj :=
    (OnePeak.ctor5 peak_center_int i lower_bound_int upper_bound_int half_width_int).ResetCounters
  let peak_obj := { peak_obj with no_of_periods_since_1st_peak := i }
  refine_peak_center K segments peak_obj (int_range lower_bound_int upper_bound_int)

/-- The projection loop of `find_peaks` (lines 825-847), from index `i` on,
for at most `fuel` iterations. -/
def find_peaks_project (K : Constants) (segments : List OneSegment)
    (period_int half_width_int first_peak_center_int : Int) : Nat → Int → List OnePeak
  | 0, _ => []
  | fuel + 1, i =>
    if first_peak_center_int + period_int * i ≤ K.MAX_RATIO_HIGH_RES then
      find_peaks_project_one K segments period_int half_width_int first_peak_center_int i ::
        find_peaks_project K segments period_int half_width_int first_peak_center_int fuel (i + 1)
    else []

/-- What one segment adds to a peak in the aggregation loop of `find_peaks`
(lines 860-877); the second component is the local `coverage_squared_sum`. -/
def find_peaks_add_segment (acc : OnePeak × ℚ) (sg : OneSegment) : OnePeak × ℚ :=
  let pk := { acc.1 with segment_obj_vector := acc.1.segment_obj_vector ++ [sg] }
  let snps := sg.oneSegmentSNPs
  if snps.no_of_snps ≤ 0 then (pk, acc.2)
  else
    ({ pk with
        snp_coverage_sum := pk.snp_coverage_sum + snps.coverage_mean * (snps.no_of_snps : ℚ)
        snp_coverage_squared_sum := pk.snp_coverage_squared_sum +
          snps.coverage_mean * snps.coverage_mean * (snps.no_of_snps : ℚ)
        snp_coverage_var_sum := pk.snp_coverage_var_sum + snps.coverage_var
        no_of_snps := pk.no_of_snps + snps.no_of_snps
        no_of_windows := pk.no_of_windows + sg.no_of_windows },
      acc.2 + snps.coverage_squared_sum)

/-- The aggregation of one peak in `find_peaks` (lines 851-887). -/
def find_peaks_aggregate (K : Constants) (segments : List OneSegment) (peak_obj : OnePeak) :
    OnePeak :=
  let p0 := peak_obj.ResetCounters
  let r := (int_range p0.lower_bound_int p0.upper_bound_int).foldl
    (fun acc rc_ratio_int =>
      (rc_ratio_segments K segments rc_ratio_int).foldl find_peaks_add_segment
        ({ acc.1 with segment_rc_ratio_vector := acc.1.segment_rc_ratio_vector ++ [rc_ratio_int] },
          acc.2))
    (p0, (0 : ℚ))
  if r.1.no_of_snps > 0 then
    let m := r.1.snp_coverage_sum / (r.1.no_of_snps : ℚ)
    { r.1 with
      snp_coverage_mean := m
      snp_coverage_var := r.2 / (r.1.no_of_snps : ℚ) - m * m }
  else r.1

/-- `Infer::find_peaks` (lines 813-894): the returned `peak_obj_vector`.
The result is `none` when the projection loop does not end (`period_int <= 0`
with a first centre on the axis). -/
def find_peaks (K : Constants) (segments : List OneSegment) (period_obj : OnePeriod)
    (first_peak_obj : OnePeak) : Option (List OnePeak) :=
  let period_int := period_obj.period_int
  let half_width_int := find_peaks_half_width period_int first_peak_obj
  let first_peak_center_int := first_peak_obj.peak_center_int
  if period_int ≤ 0 ∧ first_peak_center_int ≤ K.MAX_RATIO_HIGH_RES then none
  else
    let projected := find_peaks_project K segments period_int half_width_int
      first_peak_center_int (K.MAX_RATIO_HIGH_RES - first_peak_center_int + 1).toNat 0
    some (projected.map (find_peaks_aggregate K segments))

/-! ## Autocorrelation (`calculate_autocor`) -/

/-- The raw correlation `cor_raw_array[shift]` of `calculate_autocor`
(lines 308-332): the products `pdf[i] * pdf[i + shift]`, sorted by `larger`
(largest first), the first `min(size, MAX_NUM_OF_COR_TO_SUM)` of them summed. -/
def autocor_raw (K : Constants) (ratio_int_pdf_vec : List ℚ) (shift : Nat) : ℚ :=
  let all_terms := (List.range (ratio_int_pdf_vec.length - shift)).map
    (fun i => ratio_int_pdf_vec.getD i 0 * ratio_int_pdf_vec.getD (i + shift) 0)
  let sorted := all_terms.insertionSort (fun a b => b ≤ a)
  let num_term := (min (all_terms.length : Int) K.MAX_NUM_OF_COR_TO_SUM).toNat
  if num_term > 0 then (sorted.take num_term).sum else 0

/-- `Infer::calculate_autocor` (lines 301-354): the member `_cor_array` after
the call, from its contents `cor_array` before the call. -/
def calculate_autocor (K : Constants) (ratio_int_pdf_vec : List ℚ) (cor_array : List ℚ) : List ℚ :=
  let cor_raw_array := (List.range (K.kPeriodMax + 1)).map (autocor_raw K ratio_int_pdf_vec)
  let raw := rd cor_raw_array
  let n : Int := (K.kPeriodMax : Int)
  let a := wr cor_array 0 ((raw 0 + raw 1 + raw 2) / 3)
  let a := wr a 1 ((raw 0 + raw 1 + raw 2 + raw 3) / 4)
  let a := (int_range 2 (n - 2)).foldl
    (fun a i => wr a i ((raw (i - 2) + raw (i - 1) + raw i + raw (i + 1) + raw (i + 2)) / 5)) a
  let a := wr a (n - 1) ((raw (n - 3) + raw (n - 2) + raw (n - 1) + raw n) / 4)
  wr a n ((raw (n - 2) + raw (n - 1) + raw n) / 3)

/-! ## Kernel smoothing (`kernel_smoothing`) -/

/-- The loop of `kernel_smoothing` (lines 1952-1956) over the indices in `is`;
`none` as soon as an index is outside the vector. -/
def kernel_smoothing_loop (K : Constants) (expf : ℚ → ℚ) (mean_value stddev : ℚ)
    (sample_size : Int) : List Int → List ℚ → Option (List ℚ)
  | [], vec => some vec
  | i :: rest, vec =>
    if 0 ≤ i ∧ i < (vec.length : Int) then
      kernel_smoothing_loop K expf mean_value stddev sample_size rest
        (vec.set i.toNat (vec.getD i.toNat 0 +
          (sample_size : ℚ) * K.kGaussianDensityFrontScalar / stddev *
            expf (-((i : ℚ) - mean_value) * ((i : ℚ) - mean_value) / (2 * stddev * stddev))))
    else none

/-- `Infer::kernel_smoothing` (lines 1947-1957): the vector after the call.
`expf` is `exp`.  `vec.size() - 1` is computed in `size_t` (64 bits).  The
result is `none` when an index outside the vector is used, and for
`stddev = 0`, where the summand is not a finite number. -/
def kernel_smoothing (K : Constants) (expf : ℚ → ℚ) (mean_value stddev : ℚ) (sample_size : Int)
    (vec_to_hold_data : List ℚ) : Option (List ℚ) :=
  if stddev = 0 then none
  else
    let i_start : Int := cpp_trunc (max (0 : ℚ) ((⌊mean_value - 2 * stddev⌋ : Int) : ℚ))
    let size_minus_one : Int := ((vec_to_hold_data.length : Int) - 1) % 2 ^ 64
    let i_end : Int :=
      cpp_trunc (min ((⌈mean_value + 2 * stddev⌉ : Int) : ℚ) (size_minus_one : ℚ))
    kernel_smoothing_loop K expf mean_value stddev sample_size (int_range i_start i_end)
      vec_to_hold_data

/-! ## Candidate period from the autocorrelation (`infer_candidate_period_by_autocor`) -/

/-- Locals of the scan of lines 561-582, and the member `_valley`.  The
sentinels `-1e99` and `1e99` are kept as written (as `float` they are the two
infinities; the scan is the same for correlations below `1e99`, since every
difference to the running minimum is non-negative). -/
structure AutocorScan where
  dmax_idx : Int
  pmin_idx : Int
  dmax : ℚ
  pmin : ℚ
  all_dif : List ℚ
  valley : Int

/-- One iteration of the scan (lines 568-581). -/
def autocor_scan_step (cor_array : List ℚ) (st : AutocorScan) (i : Nat) : AutocorScan :=
  let st1 :=
    if rd cor_array i < st.pmin then { st with pmin := rd cor_array i, pmin_idx := i } else st
  let dif := rd cor_array i - st1.pmin
  let st2 := { st1 with all_dif := st1.all_dif ++ [dif] }
  if dif > st2.dmax then { st2 with dmax := dif, dmax_idx := i, valley := st2.pmin_idx }
  else st2

/-- The scan of lines 561-582 over the shifts `0 .. kPeriodMax`. -/
def autocor_scan (K : Constants) (cor_array : List ℚ) (valley0 : Int) : AutocorScan :=
  (List.range (K.kPeriodMax + 1)).foldl (autocor_scan_step cor_array)
    { dmax_idx := -1, pmin_idx := -1, dmax := -(10 : ℚ) ^ 99, pmin := (10 : ℚ) ^ 99,
      all_dif := [], valley := valley0 }

/-- The downward loop of lines 585-590 (and 670-675) from `period_min`. -/
def scan_period_min (K : Constants) (cor_array : List ℚ) (thre : ℚ) (dmax_idx : Int) :
    Nat → Int → Int
  | 0, period_min => period_min
  | fuel + 1, period_min =>
    if period_min > K.kPeriodMin ∧
        (rd cor_array period_min > thre ∨ dmax_idx - period_min < K.kPeriodHalfWidthMax) then
      scan_period_min K cor_array thre dmax_idx fuel (period_min - 1)
    else period_min

/-- The upward loop of lines 591-596 (and 676-681) from `period_max`. -/
def scan_period_max (K : Constants) (cor_array : List ℚ) (thre : ℚ) (dmax_idx : Int) :
    Nat → Int → Int
  | 0, period_max => period_max
  | fuel + 1, period_max =>
    if period_max ≤ (K.kPeriodMax : Int) ∧
        (rd cor_array period_max > thre ∨ period_max - dmax_idx < K.kPeriodHalfWidthMax) then
      scan_period_max K cor_array thre dmax_idx fuel (period_max + 1)
    else period_max

/-- The bounds `(period_min, period_max)` around `dmax_idx` (lines 583-596). -/
def period_bounds (K : Constants) (cor_array : List ℚ) (dmax_idx : Int) : Int × Int :=
  let thre := K.DEV1 * rd cor_array dmax_idx
  (scan_period_min K cor_array thre dmax_idx (dmax_idx - 1 - K.kPeriodMin).toNat (dmax_idx - 1),
   scan_period_max K cor_array thre dmax_idx ((K.kPeriodMax : Int) - dmax_idx).toNat (dmax_idx + 1))

/-- The local `shoulder_left` after the loop of lines 600-605. -/
def find_shoulder_left (K : Constants) (cor_array : List ℚ) (dmax_idx : Int) : Int :=
  match (int_range (max 0 (dmax_idx - 200) + 1) (dmax_idx - 1)).reverse.find?
      (fun i => rd cor_array i ≤ K.SHOULDER_RATIO * rd cor_array dmax_idx) with
  | some i => i
  | none => -1

/-- The local `shoulder_right` after the loop of lines 606-611. -/
def find_shoulder_right (K : Constants) (cor_array : List ℚ) (dmax_idx : Int) : Int :=
  match (int_range (dmax_idx + 1) (min (K.kPeriodMax : Int) (dmax_idx + 200) - 1)).find?
      (fun i => rd cor_array i ≤ K.SHOULDER_RATIO_LEFT * rd cor_array dmax_idx) with
  | some i => i
  | none => -1

/-- The test of lines 626-645: `shift` is a local peak of the autocorrelation. -/
def is_autocor_peak (K : Constants) (cor_array : List ℚ) (shift : Int) : Bool :=
  (int_range (max 0 (shift - 20)) (shift - 1)).all
      (fun i => !decide (rd cor_array i ≥ rd cor_array shift)) &&
    (int_range (shift + 1) (min (K.kPeriodMax : Int) (shift + 20))).all
      (fun i => !decide (rd cor_array i > rd cor_array shift))

/-- The refinement of lines 648-685: `(dmax_idx, period_min, period_max)`
after it.  The loop stops at the first listed peak that passes the three tests
of lines 655-658 and the test against `min_discrepancy = 9999`; `abs` is the
`double` overload. -/
def refine_period (K : Constants) (cor_array all_dif : List ℚ)
    (autocor_hist_peak_pos_vector : List Int) (dmax_idx period_min period_max : Int) :
    Int × Int × Int :=
  if period_max - period_min ≤ 100 then
    let half : ℚ := (dmax_idx : ℚ) / 2
    let width : ℚ := ((period_max - period_min : Int) : ℚ) / 6
    let half_max := half + width
    let half_min := max 0 (half - width)
    match autocor_hist_peak_pos_vector.find? (fun pos =>
        decide (rd all_dif pos ≥ (1 / 4) * rd cor_array dmax_idx ∧ (pos : ℚ) ≥ half_min ∧
          (pos : ℚ) ≤ half_max ∧ |(pos : ℚ) - half| < 9999)) with
    | some pos =>
      let b := period_bounds K cor_array pos
      (pos, b.1, b.2)
    | none => (dmax_idx, period_min, period_max)
  else (dmax_idx, period_min, period_max)

/-- `Infer::infer_candidate_period_by_autocor` (lines 552-694): the returned
status, the period object after the call, and the member `_valley`. -/
def infer_candidate_period_by_autocor (K : Constants) (cor_array : List ℚ) (valley0 : Int)
    (period_obj : OnePeriod) : Int × OnePeriod × Int :=
  let sc := autocor_scan K cor_array valley0
  let dmax_idx := sc.dmax_idx
  let b := period_bounds K cor_array dmax_idx
  let shoulder_left := find_shoulder_left K cor_array dmax_idx
  let shoulder_right := find_shoulder_right K cor_array dmax_idx
  if shoulder_left = -1 ∨ shoulder_right = -1 then (1, period_obj, sc.valley)
  else if rd cor_array dmax_idx < (1 / 1000) * rd cor_array 0 then (2, period_obj, sc.valley)
  else
    let autocor_hist_peak_pos_vector :=
      (int_range 1 (K.kPeriodMax : Int)).filter (is_autocor_peak K cor_array)
    let r := refine_period K cor_array sc.all_dif autocor_hist_peak_pos_vector dmax_idx b.1 b.2
    (0, { period_obj with
            period_int := r.1
            lower_bound_int := r.2.1
            upper_bound_int := r.2.2 }, sc.valley)

/-! ## Concrete objects used in examples -/

/-- A peak with every field zero. -/
def example_peak : OnePeak := OnePeak.ctor5 0 0 0 0 0

/-- A period object with every field zero and no peaks; it stands for
`OnePeriod()` in examples. -/
def example_period : OnePeriod :=
  { period_int := 0, lower_bound_int := 0, upper_bound_int := 0, auto_cor_value := 0
    first_peak_obj := example_peak, first_peak_int := 0, width := 0, peak_obj_vector := []
    no_of_peaks_for_logL := 0, no_of_windows := 0, no_of_segments := 0, no_of_rc_peaks := 0
    no_of_snps := 0, no_of_maf_peaks := 0, logL := 0, logL_rc := 0, logL_rc_penalty := 0
    adj_logL_rc := 0, best_logL_snp := 0, best_lod_snp := 0
    best_no_of_copy_nos_bf_1st_peak := 0, best_purity := Dbl.fin 0, best_ploidy := Dbl.fin 0
    best_adj_logL_snp := 0, rc_ratio_int_of_cp_2 := 0, best_logL_snp_penalty := 0
    best_logL_snp_no_of_parameters := 0, logL_snp_vector := [], lod_snp_vector := []
    purity_vector := [], ploidy_vector := [], no_of_copy_nos_bf_1st_peak_vector := []
    snp_penalty_vector := [], snp_no_of_parameters_vector := []
    ploidy_corrected := Dbl.fin 0, rc_ratio_int_of_cp_2_corrected := Dbl.fin 0
    purity_corrected := Dbl.fin 0 }

/-- A scored candidate with purity 1 whose combined score is exactly `-1e99`. -/
def c2_candidate : OnePeriod :=
  { example_period with
    period_int := 500, no_of_windows := 1, best_purity := Dbl.fin 1, logL := -(10 : ℚ) ^ 99 }


/-! ## Predicates used in the statements -/


/-- Invariant of the selection loop over the scored candidates `l`, with
sentinel `b0` and initial object `o0`: `(b, o)` is the current best. -/
def BestInv (b0 : ℚ) (o0 : OnePeriod) (l : List OnePeriod) (b : ℚ) (o : OnePeriod) : Prop :=
  (∀ x ∈ l, Dbl.lt (Dbl.fin 0) x.best_purity = true → x.logL ≤ b) ∧
  ((b = b0 ∧ o = o0) ∨
    (b0 < b ∧ o.logL = b ∧ Dbl.lt (Dbl.fin 0) o.best_purity = true ∧
      ∃ pre post, l = pre ++ o :: post ∧
        (∀ x ∈ pre, Dbl.lt (Dbl.fin 0) x.best_purity = true → x.logL < b)))


/-- Relation between a candidate `c` before and `c2` after the hypothesis loop
over `ns`: peak centres are kept, `purity_vector` and
`no_of_copy_nos_bf_1st_peak_vector` grow by entries that come from hypotheses
in `ns`, and the best purity / best hypothesis are untouched or come from one
hypothesis in `ns`. -/
def SnpRecorded (K : Constants) (fp p : Int) (ns : List Int) (c c2 : OnePeriod) : Prop :=
  (c2.peak_obj_vector.map (fun pk => pk.peak_center_int) =
    c.peak_obj_vector.map (fun pk => pk.peak_center_int)) ∧
  (∃ recP recN, c2.purity_vector = c.purity_vector ++ recP ∧
    c2.no_of_copy_nos_bf_1st_peak_vector = c.no_of_copy_nos_bf_1st_peak_vector ++ recN ∧
    (∀ d ∈ recP, ∃ n ∈ ns, d = (calc_purity_ploidy_from_period_and_cp_no_two K
      (cp_no_two_rc_ratio c.peak_obj_vector fp p n) p).1) ∧
    (∀ m ∈ recN, m ∈ ns)) ∧
  ((c2.best_purity = c.best_purity ∧
      c2.best_no_of_copy_nos_bf_1st_peak = c.best_no_of_copy_nos_bf_1st_peak) ∨
    ∃ n ∈ ns, c2.best_purity = (calc_purity_ploidy_from_period_and_cp_no_two K
        (cp_no_two_rc_ratio c.peak_obj_vector fp p n) p).1 ∧
      c2.best_no_of_copy_nos_bf_1st_peak = n)


/-- What holds of a purity `d` recorded for a candidate of period `p`: it is
positive, and it is the quotient `2*p/Q` of a bin `Q ≥ 0`, at most one exactly
when `Q ≥ 2*p`. -/
def RecordedPurity (K : Constants) (p : Int) (d : Dbl) : Prop :=
  Dbl.lt (Dbl.fin 0) d = true ∧
  ∃ Q : Int, 0 ≤ Q ∧ d = (calc_purity_ploidy_from_period_and_cp_no_two K Q p).1 ∧
    (Dbl.le d (Dbl.fin 1) = true ↔ 2 * p ≤ Q)

/-- Constants used in examples.  `RESOLUTION = 1000` agrees with the output
column `readCountRatioX1000` of line 1741; the other values are small
stand-ins (an axis of 2501 bins, shifts `0 .. 8`). -/
def example_constants : Constants :=
  { FRESOLUTION := 1000, RESOLUTION := 1000, MAX_RATIO_HIGH_RES := 2500
    kPeriodMax := 8, kPeriodMin := 1, kPeriodHalfWidthMax := 2
    DEV1 := 1 / 2, SHOULDER_RATIO := 4 / 5, SHOULDER_RATIO_LEFT := 4 / 5
    MIN_PLOIDY := 1, MAX_PLOIDY := 8
    MAX_NUM_OF_COR_TO_SUM := 100, kGaussianDensityFrontScalar := 3989 / 10000
    kFirstPeakMin := 100, kFirstPeakMax := 1500, kPeakHalfWidthMax := 50
    kPeakHeightMin := 1 / 100, DEV2 := 1 / 2, MAX_RATIO_RANGE_HIGH_RES := 5000
    MAX_RATIO := 5 / 2, MAX_RATIO_RANGE := 5 }

/-- A sort by descending `no_of_windows`, one admissible result of line 1184. -/
def example_sort_by_windows (l : List OnePeak) : List OnePeak :=
  l.insertionSort (fun a b => a.no_of_windows ≥ b.no_of_windows)

/-- A sort by ascending `peak_center_int`, one admissible result of line 1202. -/
def example_sort_by_center (l : List OnePeak) : List OnePeak :=
  l.insertionSort (fun a b => a.peak_center_int ≤ b.peak_center_int)

/-- A MAF scoring outcome with 100 SNPs used and three MAF sub-peaks. -/
def example_maf_scoring (_c : OnePeriod) (_n : Int) (_purity _ploidy : Dbl) : MafScore :=
  { no_of_snps := 100, no_of_maf_peaks := 3
    peak_fields := fun pk => (pk.no_of_maf_peaks, pk.snp_maf_var)
    logL_snp := -50, lod_snp := 0, ssum_sq_diff := 0 }

/-- A candidate of period 500 with peaks at bins 450, 950 (the tallest) and
1450: the first peak lies 50 bins short of one period. -/
def c3_candidate : OnePeriod :=
  { example_period with
    period_int := 500
    first_peak_obj := OnePeak.ctor5 450 0 350 550 100
    first_peak_int := 450
    no_of_peaks_for_logL := 3
    peak_obj_vector :=
      [ { OnePeak.ctor5 450 0 350 550 100 with no_of_windows := 10, no_of_snps := 40 },
        { OnePeak.ctor5 950 1 850 1050 100 with no_of_windows := 50, no_of_snps := 40 },
        { OnePeak.ctor5 1450 2 1350 1550 100 with no_of_windows := 5, no_of_snps := 20 } ] }


/-- The position of a peak on the axis: centre, index, bounds, half-width. -/
def OnePeak.position (pk : OnePeak) : Int × Int × Int × Int × Int :=
  (pk.peak_center_int, pk.peak_index, pk.lower_bound_int, pk.upper_bound_int, pk.half_width_int)

/-- A segment of the given ratio and window count with a null SNP aggregate. -/
def example_segment (rc_ratio : ℚ) (no_of_windows : Int) : OneSegment :=
  { chr_index := 0, start_pos := 1, end_pos := 1000, rc_ratio := rc_ratio, stddev := 1 / 100
    no_of_windows := no_of_windows
    oneSegmentSNPs :=
      { maf_mean := 0, maf_stddev := 0, no_of_snps := 0, coverage_mean := 0, coverage_var := 0
        coverage_squared_sum := 0 } }

/-- Three segments at ratios 1.1, 1.3 and 1.2 (bins 1100, 1300, 1200). -/
def c5_segments : List OneSegment :=
  [example_segment (11 / 10) 10, example_segment (13 / 10) 10, example_segment (6 / 5) 10]

/-- A candidate of period 400. -/
def c5_period : OnePeriod := { example_period with period_int := 400 }

/-- A first peak at bin 1000 with half-width 99. -/
def c5_narrow_first_peak : OnePeak := OnePeak.ctor5 1000 0 901 1099 99


/-- The moving average that `calculate_autocor` stores at shift `s` of
`0 .. n` (lines 335-352): window `±2`, narrower at the two ends. -/
def autocor_smoothed (raw : Int → ℚ) (n s : Int) : ℚ :=
  if s = n then (raw (n - 2) + raw (n - 1) + raw n) / 3
  else if s = n - 1 then (raw (n - 3) + raw (n - 2) + raw (n - 1) + raw n) / 4
  else if 2 ≤ s then (raw (s - 2) + raw (s - 1) + raw s + raw (s + 1) + raw (s + 2)) / 5
  else if s = 1 then (raw 0 + raw 1 + raw 2 + raw 3) / 4
  else (raw 0 + raw 1 + raw 2) / 3

/-- A density with two unit spikes three bins apart. -/
def c7_density : List ℚ := [1, 0, 0, 1]


/-- The summand `kernel_smoothing` adds at index `i` (lines 1954-1955). -/
def kernel_term (K : Constants) (expf : ℚ → ℚ) (mean_value stddev : ℚ) (sample_size : Int)
    (i : Int) : ℚ :=
  (sample_size : ℚ) * K.kGaussianDensityFrontScalar / stddev *
    expf (-((i : ℚ) - mean_value) * ((i : ℚ) - mean_value) / (2 * stddev * stddev))


/-- A left shoulder exists around the peak position `d`: some shift `i` with
`max(0, d - 200) < i < d` has correlation at most `SHOULDER_RATIO` times the
peak correlation. -/
def LeftShoulderFound (K : Constants) (cor_array : List ℚ) (d : Int) : Prop :=
  ∃ i : Int, max 0 (d - 200) < i ∧ i ≤ d - 1 ∧
    rd cor_array i ≤ K.SHOULDER_RATIO * rd cor_array d

/-- A right shoulder exists around the peak position `d`: some shift `i` with
`d < i < min(kPeriodMax, d + 200)` has correlation at most
`SHOULDER_RATIO_LEFT` times the peak correlation. -/
def RightShoulderFound (K : Constants) (cor_array : List ℚ) (d : Int) : Prop :=
  ∃ i : Int, d + 1 ≤ i ∧ i < min (K.kPeriodMax : Int) (d + 200) ∧
    rd cor_array i ≤ K.SHOULDER_RATIO_LEFT * rd cor_array d


/-! ## Changepoint candidates (`infer_candidate_period_by_GADA`) -/

/-- Checked read `a[i]` of an array or vector: `none` outside the array. -/
def getc {α : Type} (a : List α) (i : Int) : Option α :=
  if 0 ≤ i then a[i.toNat]? else none

/-- What the changepoint solver leaves in `BaseGADA` after `SBLandBE`,
`IextToSegLen` and `IextWextToSegAmp`: the number `K` of breakpoints, the
breakpoint positions `Iext`, and length and amplitude of the `K + 1` segments.
The solver is an external library. -/
structure GADAResult where
  K : Int
  Iext : List Int
  SegLen : List Int
  SegAmp : List ℚ

/-- The thresholded sign signal of lines 413-435: the shifts kept in
`period_int_vec`, each with its label `1` or `-1` of `_cor_array_shift_one_vec`. -/
def gada_thresholded (K : Constants) (all_diff : List ℚ) (left_x right_x : ℚ) (run_type : Int) :
    List (Int × ℚ) :=
  let positive_slope_min := if run_type = 2 then right_x else max 0 right_x
  let negative_slope_max := if run_type = 2 then left_x else min 0 left_x
  (List.range K.kPeriodMax).filterMap (fun (i : Nat) =>
    let shift_diff := rd all_diff i
    if shift_diff > positive_slope_min then some ((i : Int), (1 : ℚ))
    else if shift_diff < negative_slope_max then some ((i : Int), (-1 : ℚ))
    else none)

/-- The scan of lines 504-515 (run type 1): `(max_auto_cor, candidate_period_int)`
over the shifts `lo, ..., min(600, hi) - 1`. -/
def gada_best_shift (cor_array : List ℚ) (lo hi : Int) : ℚ × Int :=
  (int_range lo (min 600 hi - 1)).foldl
    (fun st period_int_tmp =>
      if rd cor_array period_int_tmp > st.1 then (rd cor_array period_int_tmp, period_int_tmp)
      else st)
    (-1, -1)

/-- Lines 504-518: `(max_auto_cor, candidate_period_int)` for the transition
between the shifts `lo` and `hi`: the scan for run type 1, else the midpoint
(with `max_auto_cor` left at `-1`). -/
def gada_pick (cor_array : List ℚ) (run_type : Int) (lo hi : Int) : ℚ × Int :=
  if run_type = 1 then gada_best_shift cor_array lo hi
  else (-1, Int.tdiv (lo + hi) 2)

/-- One iteration of the selection loop (lines 498-528) for the boundary between
segment `i` and segment `i + 1`: `some none` when no candidate is pushed,
`some (some c)` when `c` is pushed, `none` on a read outside an array.
`OnePeriod_ctor` is the value of `OnePeriod()`. -/
def gada_candidate (cor_array : List ℚ) (OnePeriod_ctor : OnePeriod) (run_type : Int)
    (period_int_vec : List Int) (g : GADAResult) (i : Int) : Option (Option OnePeriod) :=
  match getc g.SegAmp i, getc g.SegAmp (i + 1), getc g.SegLen i, getc g.SegLen i with
  | some amp, some amp_next, some current_segment_len, some next_segment_len =>
    if amp > 0 ∧ amp_next < 0 ∧ current_segment_len ≥ 10 ∧ next_segment_len ≥ 10 then
      match getc g.Iext (i + 1) with
      | none => none
      | some ie =>
        match getc period_int_vec (ie - 1), getc period_int_vec ie with
        | some lo, some hi =>
          let r := gada_pick cor_array run_type lo hi
          if r.2 > 0 ∧ r.2 ≤ 600 then
            some (some { OnePeriod_ctor with
              period_int := r.2
              lower_bound_int := r.2
              upper_bound_int := r.2
              auto_cor_value := r.1 })
          else some none
        | _, _ => none
    else some none
  | _, _, _, _ => none

/-- The selection loop of lines 493-529: `candidate_period_vec` after it. -/
def gada_select_candidates (cor_array : List ℚ) (OnePeriod_ctor : OnePeriod) (run_type : Int)
    (period_int_vec : List Int) (g : GADAResult) : Option (List OnePeriod) :=
  (int_range 0 (g.K - 1)).foldlM
    (fun candidate_period_vec i =>
      match gada_candidate cor_array OnePeriod_ctor run_type period_int_vec g i with
      | none => none
      | some none => some candidate_period_vec
      | some (some c) => some (candidate_period_vec ++ [c]))
    []

/-- Lines 531-544: the candidates returned.  `sort_desc` is `std::sort` with
`greater<OnePeriod>` (line 534), whose result has the size of its argument. -/
def gada_top_two (sort_desc : List OnePeriod → List OnePeriod)
    (candidate_period_vec : List OnePeriod) : List OnePeriod :=
  if candidate_period_vec.length ≥ 2 then
    match sort_desc candidate_period_vec with
    | c0 :: c1 :: _ =>
      [c0, c1].filter (fun c =>
        Dbl.lt (Dbl.div (Dbl.fin c0.auto_cor_value) (Dbl.fin c.auto_cor_value)) (Dbl.fin 10))
    | _ => []
  else candidate_period_vec

/-- `Infer::infer_candidate_period_by_GADA` (lines 407-550).  `solver` maps the
sign signal to the solver state read by lines 497-517; the debug dump of
lines 477-491 is not modelled.  The result is `none` on a read outside an
array. -/
def infer_candidate_period_by_GADA (K : Constants) (cor_array : List ℚ)
    (OnePeriod_ctor : OnePeriod) (solver : List ℚ → GADAResult)
    (sort_desc : List OnePeriod → List OnePeriod)
    (all_diff : List ℚ) (left_x right_x : ℚ) (run_type : Int) : Option (List OnePeriod) :=
  let sig := gada_thresholded K all_diff left_x right_x run_type
  let g := solver (sig.map (fun x => x.2))
  (gada_select_candidates cor_array OnePeriod_ctor run_type (sig.map (fun x => x.1)) g).map
    (gada_top_two sort_desc)

/-- Constants for small examples: an axis of 26 density bins at resolution 10,
a segment table of 31 bins, shifts `0 .. 20`. -/
def small_constants : Constants :=
  { FRESOLUTION := 10, RESOLUTION := 10, MAX_RATIO_HIGH_RES := 25
    kPeriodMax := 20, kPeriodMin := 1, kPeriodHalfWidthMax := 2
    DEV1 := 1 / 2, SHOULDER_RATIO := 4 / 5, SHOULDER_RATIO_LEFT := 4 / 5
    MIN_PLOIDY := 1, MAX_PLOIDY := 8
    MAX_NUM_OF_COR_TO_SUM := 100, kGaussianDensityFrontScalar := 3989 / 10000
    kFirstPeakMin := 2, kFirstPeakMax := 10, kPeakHalfWidthMax := 3
    kPeakHeightMin := 1, DEV2 := 1 / 2, MAX_RATIO_RANGE_HIGH_RES := 30
    MAX_RATIO := 5 / 2, MAX_RATIO_RANGE := 3 }

/-- A derivative signal: rising on shifts `0 .. 9`, flat on `10 .. 13`, falling
on `14 .. 16`, flat after. -/
def c11_all_diff : List ℚ :=
  List.replicate 10 1 ++ List.replicate 4 0 ++ List.replicate 3 (-1) ++ List.replicate 3 0

/-- A solver state with one breakpoint: a segment of length 10 and amplitude 1
followed by a segment of length 3 and amplitude -1. -/
def c11_solver (_input_array : List ℚ) : GADAResult :=
  { K := 1, Iext := [0, 10, 13], SegLen := [10, 3], SegAmp := [1, -1] }

/-- An autocorrelation array over the shifts `0 .. 20` with its largest value
past shift 0 at shift 12. -/
def c11_cor_array : List ℚ :=
  [9, 8, 7, 6, 5, 4, 3, 2, 1, 1, 2, 3, 5, 3, 2, 1, 1, 1, 1, 1, 1]

/-- A sort by descending `auto_cor_value`, one admissible result of line 534. -/
def example_sort_desc (l : List OnePeriod) : List OnePeriod :=
  l.insertionSort (fun a b => a.auto_cor_value ≥ b.auto_cor_value)

/-- The solver state fits a signal of `M` points: `K + 1` segments, `K + 2`
breakpoint positions, the inner ones in `1 .. M - 1`. -/
def GADAWellFormed (M : Nat) (g : GADAResult) : Prop :=
  0 ≤ g.K ∧ (g.SegAmp.length : Int) = g.K + 1 ∧ (g.SegLen.length : Int) = g.K + 1 ∧
    (g.Iext.length : Int) = g.K + 2 ∧
    ∀ j : Nat, 1 ≤ j → (j : Int) ≤ g.K → ∀ ie, g.Iext[j]? = some ie → 1 ≤ ie ∧ ie ≤ (M : Int) - 1

/-- What every pushed candidate looks like (lines 520-526). -/
def GADACandidateShape (c : OnePeriod) : Prop :=
  0 < c.period_int ∧ c.period_int ≤ 600 ∧ c.lower_bound_int = c.period_int ∧
    c.upper_bound_int = c.period_int


/-! ## First-peak search (`find_first_peak_given_bounds`) -/

/-- Checked update `a[i] += v` of an array: `none` outside the array. -/
def addc (a : List ℚ) (i : Int) (v : ℚ) : Option (List ℚ) :=
  if 0 ≤ i ∧ i < (a.length : Int) then some (a.set i.toNat (a.getD i.toNat 0 + v)) else none

/-- Lines 735-743 and 749-758: `all_sum[f]` takes the density at bin `c` and at
the bins `c - j`, `c + j` for `j = 1 .. peak_width_assumed`. -/
def first_peak_window_sum (ratio_int_pdf_vec : List ℚ) (peak_width_assumed f c : Int)
    (all_sum : List ℚ) : Option (List ℚ) :=
  match getc ratio_int_pdf_vec c with
  | none => none
  | some v =>
    match addc all_sum f v with
    | none => none
    | some a =>
      (int_range 1 peak_width_assumed).foldlM
        (fun a j =>
          match getc ratio_int_pdf_vec (c - j), getc ratio_int_pdf_vec (c + j) with
          | some l, some r =>
            match addc a f l with
            | none => none
            | some a1 => addc a1 f r
          | _, _ => none)
        a

/-- The loop of lines 745-759 over the periodic positions `a_peak_int`, for at
most `fuel` iterations.  The loop test compares in `size_t` (64 bits).  An
iteration reads the density at `a_peak_int`, so with a period other than zero
at most `size()` iterations succeed; `none` is a read outside an array, or a
loop that does not end (period zero). -/
def first_peak_periodic (ratio_int_pdf_vec : List ℚ) (candidate_period_int peak_width_assumed
    f : Int) : Nat → Int → List ℚ → Option (List ℚ)
  | 0, _, _ => none
  | fuel + 1, a_peak_int, all_sum =>
    if a_peak_int % 2 ^ 64 < ((ratio_int_pdf_vec.length : Int) - peak_width_assumed) % 2 ^ 64 then
      match first_peak_window_sum ratio_int_pdf_vec peak_width_assumed f a_peak_int all_sum with
      | none => none
      | some a =>
        first_peak_periodic ratio_int_pdf_vec candidate_period_int peak_width_assumed f fuel
          (a_peak_int + candidate_period_int) a
    else some all_sum

/-- One iteration of the search loop (lines 733-764) on the state
`(all_sum, max_sum, first_peak_obj.peak_center_int)`. -/
def first_peak_scan_step (K : Constants) (ratio_int_pdf_vec : List ℚ) (candidate_period_int : Int)
    (st : List ℚ × ℚ × Int) (first_peak_int : Int) : Option (List ℚ × ℚ × Int) :=
  let peak_width_assumed := Int.tdiv candidate_period_int 4
  match getc ratio_int_pdf_vec first_peak_int with
  | none => none
  | some v =>
    if v < K.kPeakHeightMin then some st
    else
      match first_peak_window_sum ratio_int_pdf_vec peak_width_assumed first_peak_int
          first_peak_int st.1 with
      | none => none
      | some a =>
        match first_peak_periodic ratio_int_pdf_vec candidate_period_int peak_width_assumed
            first_peak_int (ratio_int_pdf_vec.length + 1) (first_peak_int + candidate_period_int)
            a with
        | none => none
        | some a2 =>
          match getc a2 first_peak_int with
          | none => none
          | some s => if s > st.2.1 then some (a2, s, first_peak_int) else some (a2, st.2.1, st.2.2)

/-- The half-width loop of lines 770-781 from `candidate_peak_half_width` on,
for at most `fuel` iterations (the loop has at most `kPeakHalfWidthMax`). -/
def first_peak_half_width (K : Constants) (all_sum : List ℚ) (best_first_peak : Int) :
    Nat → Int → Option Int
  | 0, _ => none
  | fuel + 1, candidate_peak_half_width =>
    if candidate_peak_half_width ≤ K.kPeakHalfWidthMax ∧
        best_first_peak - candidate_peak_half_width ≥ K.kFirstPeakMin ∧
        best_first_peak + candidate_peak_half_width ≤ K.kFirstPeakMax + K.kPeakHalfWidthMax then
      match getc all_sum (best_first_peak - candidate_peak_half_width),
          getc all_sum (best_first_peak + candidate_peak_half_width),
          getc all_sum best_first_peak with
      | some l, some r, some c =>
        if l + r < 2 * K.DEV2 * c then some candidate_peak_half_width
        else first_peak_half_width K all_sum best_first_peak fuel (candidate_peak_half_width + 1)
      | _, _, _ => none
    else some candidate_peak_half_width

/-- `Infer::find_first_peak_given_bounds` (lines 707-798).  `OnePeak_ctor` is the
value of `OnePeak()`, `debug` the member `_debug` (the dump of lines 790-796
reads `all_sum[best_first_peak]`); `all_sum` has `kFirstPeakMax +
kPeakHalfWidthMax` entries.  The result is `none` on a read or write outside an
array and when a loop does not end. -/
def find_first_peak_given_bounds (K : Constants) (OnePeak_ctor : OnePeak) (debug : Int)
    (ratio_int_pdf_vec : List ℚ) (candidate_period_int first_peak_lower_bound_int
    first_peak_upper_bound_int : Int) : Option OnePeak :=
  let all_sum0 : List ℚ := List.replicate (K.kFirstPeakMax + K.kPeakHalfWidthMax).toNat 0
  let peak_width_assumed := Int.tdiv candidate_period_int 4
  match (int_range first_peak_lower_bound_int first_peak_upper_bound_int).foldlM
      (first_peak_scan_step K ratio_int_pdf_vec candidate_period_int)
      (all_sum0, (-1 : ℚ), OnePeak_ctor.peak_center_int) with
  | none => none
  | some st =>
    let best_first_peak := st.2.2
    match first_peak_half_width K st.1 best_first_peak (K.kPeakHalfWidthMax.toNat + 1) 1 with
    | none => none
    | some hw =>
      let candidate_peak_half_width := min hw peak_width_assumed
      match (if debug > 0 then getc st.1 best_first_peak else some 0) with
      | none => none
      | some _ =>
        some { OnePeak_ctor with
          peak_center_int := best_first_peak
          half_width_int := candidate_peak_half_width
          lower_bound_int := max 0 (best_first_peak - candidate_peak_half_width)
          upper_bound_int := best_first_peak + candidate_peak_half_width }

/-- `Infer::find_first_peak_ab_init` (lines 696-705). -/
def find_first_peak_ab_init (K : Constants) (OnePeak_ctor : OnePeak) (debug : Int)
    (ratio_int_pdf_vec : List ℚ) (candidate_period_int : Int) : Option OnePeak :=
  find_first_peak_given_bounds K OnePeak_ctor debug ratio_int_pdf_vec candidate_period_int
    K.kFirstPeakMin (K.kFirstPeakMax + K.kPeakHalfWidthMax)

/-- A density of 26 bins, each below `kPeakHeightMin = 1`. -/
def c13_flat_density : List ℚ := List.replicate 26 (1 / 2)

/-- A density of 26 bins with mass at bins 5, 10, 15 and 20. -/
def c13_peaked_density : List ℚ :=
  [0, 0, 0, 0, 1, 3, 1, 0, 0, 1, 2, 1, 0, 0, 0, 2, 0, 0, 0, 0, 1, 0, 0, 0, 0, 0]

/-- The window total of the segments of `l` that carry SNPs
(`oneSegmentSNPs.no_of_snps > 0`). -/
def snp_windows (l : List OneSegment) : Int :=
  ((l.filter (fun sg => decide (0 < sg.oneSegmentSNPs.no_of_snps))).map
    (fun sg => sg.no_of_windows)).sum

/-- Two segments near ratio 1.0: one of 10 windows with an aggregate of 20 SNPs,
one of 7 windows with a null SNP aggregate. -/
def c14_segments : List OneSegment :=
  [ { example_segment 1 10 with
      oneSegmentSNPs :=
        { maf_mean := -1 / 5, maf_stddev := 1 / 50, no_of_snps := 20, coverage_mean := 30
          coverage_var := 36, coverage_squared_sum := 18720 } },
    example_segment (101 / 100) 7 ]

/-! ## Coverage log-likelihood of one peak (`calc_one_peak_logL_rc`) -/

/-- The segments `calc_one_peak_logL_rc` visits for a peak (lines 1476-1480):
those filed under the bins of its `segment_rc_ratio_vector`. -/
def peak_segments (K : Constants) (segments : List OneSegment) (peak_obj : OnePeak) :
    List OneSegment :=
  peak_obj.segment_rc_ratio_vector.flatMap (rc_ratio_segments K segments)

/-- The local `ssum_diff` after the loops of lines 1476-1494: the
window-weighted sum of squared deviations of the segment ratios from the peak
centre. -/
def peak_ssum_diff (K : Constants) (segments : List OneSegment) (peak_center_float : ℚ)
    (peak_obj : OnePeak) : ℚ :=
  ((peak_segments K segments peak_obj).map (fun sg =>
    (sg.rc_ratio - peak_center_float) * (sg.rc_ratio - peak_center_float) *
      (sg.no_of_windows : ℚ))).sum

/-- The local `no_of_windows_in_peak` after the loops of lines 1476-1494. -/
def peak_windows (K : Constants) (segments : List OneSegment) (peak_obj : OnePeak) : Int :=
  ((peak_segments K segments peak_obj).map (fun sg => sg.no_of_windows)).sum

/-- `Infer::calc_one_peak_logL_rc` (lines 1467-1506): the returned value, the
period object after the call and the reference argument `adj_logL` after the
call.  The value lives in a field `F` that holds the results of `sqrt` and
`log`; `sqrtf`, `logf` stand for these functions and `PI` for
`_probInstance.PI`. -/
def calc_one_peak_logL_rc {F : Type} [Field F] (sqrtf logf : F → F) (PI : F) (K : Constants)
    (segments : List OneSegment) (peak_center_float : ℚ) (peak_obj : OnePeak)
    (period_obj : OnePeriod) (adj_logL : ℚ) : F × OnePeriod × ℚ :=
  let ssum_diff := peak_ssum_diff K segments peak_center_float peak_obj
  let no_of_windows_in_peak := peak_windows K segments peak_obj
  let p1 := { period_obj with
    no_of_segments := period_obj.no_of_segments + (peak_segments K segments peak_obj).length
    no_of_rc_peaks := period_obj.no_of_rc_peaks + 1 }
  if no_of_windows_in_peak < 1 then (0, p1, adj_logL)
  else
    let p2 := { p1 with no_of_windows := p1.no_of_windows + no_of_windows_in_peak }
    let std_t : F := sqrtf (((ssum_diff / (no_of_windows_in_peak : ℚ) : ℚ)) : F)
    let logL : F := -(ssum_diff : F) / 2 / std_t / std_t -
      (logf std_t + (1 / 2) * logf (2 * PI)) * ((no_of_windows_in_peak : ℚ) : F)
    (logL, p2, ssum_diff)

/-- A peak over the bins 1100 .. 1200 of `c5_segments` (ratios 1.1 and 1.2,
ten windows each). -/
def c15_peak : OnePeak :=
  { OnePeak.ctor5 1150 0 1100 1200 50 with segment_rc_ratio_vector := int_range 1100 1200 }

/-! ## Expected MAF values and the copy-number caller (`output_copy_number_segments`) -/

/-- The comparison `x == y` of C++; false when either side is `NaN`. -/
def Dbl.eq : Dbl → Dbl → Bool
  | Dbl.fin a, Dbl.fin b => decide (a = b)
  | Dbl.pinf, Dbl.pinf => true
  | Dbl.ninf, Dbl.ninf => true
  | _, _ => false

/-- The conversion `(int) x` of a `double`: truncation toward zero; `none` for
a value that is not finite (no defined behaviour). -/
def Dbl.toInt : Dbl → Option Int
  | Dbl.fin q => some (cpp_trunc q)
  | _ => none

/-- The theoretical MAF of lines 1257-1259 and 2128-2130:
`(1 - purity + major_allele_cp * purity) / (2 - 2 * purity + cp * purity)`. -/
def maf_expected (purity : Dbl) (cp major_allele_cp : Int) : Dbl :=
  Dbl.div
    (Dbl.add (Dbl.sub (Dbl.fin 1) purity) (Dbl.mul (Dbl.fin (major_allele_cp : ℚ)) purity))
    (Dbl.add (Dbl.sub (Dbl.fin 2) (Dbl.mul (Dbl.fin 2) purity)) (Dbl.mul (Dbl.fin (cp : ℚ)) purity))

/-- The `maf_expected_vector` the SNP scoring builds for a peak of copy number
`cp` (lines 1254-1266, past the test of line 1253).  `adjust_maf_expect` is the
function of that name, `snp_coverage_var_vs_mean_ratio` the member
`_snp_coverage_var_vs_mean_ratio`. -/
def scorer_maf_expected_vector (adjust_maf_expect : Dbl → ℚ → ℚ → ℚ)
    (snp_coverage_var_vs_mean_ratio : ℚ) (purity : Dbl) (cp : Int) (peak_obj : OnePeak) :
    List ℚ :=
  (int_range ⌈(cp : ℚ) / 2⌉ cp).filterMap (fun major_allele_cp =>
    if Dbl.lt (maf_expected purity cp major_allele_cp) (Dbl.fin (1 / 2)) = true ∨
        Dbl.lt (Dbl.fin 1) (maf_expected purity cp major_allele_cp) = true then none
    else some (adjust_maf_expect (maf_expected purity cp major_allele_cp)
      peak_obj.snp_coverage_mean (peak_obj.snp_coverage_mean * snp_coverage_var_vs_mean_ratio)))

/-- The `maf_expected_vector` the copy-number caller builds for a peak of copy
number `cp` (lines 2124-2138). -/
def caller_maf_expected_vector (adjust_maf_expect : Dbl → ℚ → ℚ → ℚ)
    (snp_coverage_var_vs_mean_ratio : ℚ) (purity : Dbl) (cp : Int) (peak_obj : OnePeak) :
    List ℚ :=
  (int_range ⌈(cp : ℚ) / 2⌉ cp).filterMap (fun major_allele_cp =>
    if Dbl.lt (maf_expected purity cp major_allele_cp) (Dbl.fin (1 / 2)) = true ∨
        Dbl.eq (maf_expected purity cp major_allele_cp) (Dbl.fin 1) = true then none
    else some (adjust_maf_expect (maf_expected purity cp major_allele_cp)
      peak_obj.snp_coverage_mean (peak_obj.snp_coverage_mean * snp_coverage_var_vs_mean_ratio)))

/-- The theoretical MAF as a rational number, for a finite purity. -/
def theoretical_maf (purity : ℚ) (cp major_allele_cp : Int) : ℚ :=
  (1 - purity + (major_allele_cp : ℚ) * purity) / (2 - 2 * purity + (cp : ℚ) * purity)

/-- An adjustment of the expected MAF that returns a finite value as it is. -/
def example_adjust_maf_expect (m : Dbl) (_coverage_mean _coverage_var : ℚ) : ℚ :=
  match m with
  | Dbl.fin q => q
  | _ => 0

/-- One row of `cnv.output.tsv`: the segment it is written for (its chromosome,
coordinates, standard deviation and MAF statistics fill the other columns) and
the columns `cp` (an integer copy number, or the fractional one), `major_allele_cp`,
`copy_no_float` and `maf_expected`, with `none` for `NA`.  For `maf_expected`
`none` also stands for a read of `maf_expected_vector` at index `-1`. -/
structure CopyNumberRow where
  segment : OneSegment
  cp : Dbl
  major_allele_cp : Option Int
  copy_no_float : Option Dbl
  maf_expected : Option ℚ
  deriving DecidableEq

/-- The variables `output_copy_number_segments` updates: the rows written, the
bins marked in `is_ratio_looked`, the members `_genome_len_cnv_all` and
`_genome_len_clonal`, the locals `cp_number_multi_len` and
`cp_number_multi_len_clonal`, and the trace `added_lengths` of every value of
`segment_length` added to them (lines 2152-2155 and 2215-2216), in order. -/
structure CallerState where
  rows : List CopyNumberRow
  looked : List Int
  genome_len_cnv_all : Int
  genome_len_clonal : Int
  cp_number_multi_len : Dbl
  cp_number_multi_len_clonal : Int
  added_lengths : List Int

/-- The index `best_maf_peak_index` of lines 2161-2172. -/
def nearest_maf_peak (maf_expected_vector : List ℚ) (maf_mean : ℚ) : Int :=
  ((List.range (min maf_expected_vector.length 100)).foldl
    (fun (st : ℚ × Int) (i : Nat) =>
      let diff_sq := (maf_expected_vector.getD i 0 - maf_mean) *
        (maf_expected_vector.getD i 0 - maf_mean)
      if diff_sq < st.1 then (diff_sq, (i : Int)) else st)
    ((10 : ℚ) ^ 99, -1)).2

/-- One segment of a peak in the clonal pass (lines 2147-2191).  The bin
`get_rc_ratio_high_res()` of the segment is taken to be the bin of line 1680. -/
def clonal_segment_step (K : Constants) (first_peak_center_int best_period_int
    no_of_copy_nos_bf_1st_peak cp : Int) (maf_expected_vector : List ℚ)
    (st : CallerState) (oneSegment : OneSegment) : CallerState :=
  let segment_length := oneSegment.end_pos - oneSegment.start_pos + 1
  let st1 := { st with
    genome_len_cnv_all := st.genome_len_cnv_all + segment_length
    genome_len_clonal := st.genome_len_clonal + segment_length
    cp_number_multi_len := Dbl.add st.cp_number_multi_len (Dbl.fin ((segment_length * cp : Int) : ℚ))
    cp_number_multi_len_clonal := st.cp_number_multi_len_clonal + segment_length * cp
    added_lengths := st.added_lengths ++ [segment_length] }
  if oneSegment.oneSegmentSNPs.no_of_snps ≤ 0 then st1
  else
    let best_maf_peak_index := nearest_maf_peak maf_expected_vector oneSegment.oneSegmentSNPs.maf_mean
    let cp_float := Dbl.add
      (Dbl.div (Dbl.fin ((ratio_high_res K oneSegment - first_peak_center_int : Int) : ℚ))
        (Dbl.fin (best_period_int : ℚ)))
      (Dbl.fin (no_of_copy_nos_bf_1st_peak : ℚ))
    { st1 with rows := st1.rows ++ [
      { segment := oneSegment
        cp := Dbl.fin (cp : ℚ)
        major_allele_cp := some (best_maf_peak_index + Int.tdiv (1 + cp) 2)
        copy_no_float := some cp_float
        maf_expected := getc maf_expected_vector best_maf_peak_index }] }

/-- One peak in the clonal pass (lines 2113-2192), of copy number `cp`: the
state and the peak (its `no_of_maf_peaks` is written at line 2139). -/
def clonal_peak_step (K : Constants) (adjust_maf_expect : Dbl → ℚ → ℚ → ℚ)
    (snp_coverage_var_vs_mean_ratio : ℚ) (purity : Dbl) (first_peak_center_int best_period_int
    no_of_copy_nos_bf_1st_peak cp : Int) (st : CallerState) (peak_obj : OnePeak) :
    CallerState × OnePeak :=
  let st1 := { st with looked := st.looked ++ peak_obj.segment_rc_ratio_vector }
  if peak_obj.no_of_snps ≤ 0 then (st1, peak_obj)
  else
    let maf_expected_vector := caller_maf_expected_vector adjust_maf_expect
      snp_coverage_var_vs_mean_ratio purity cp peak_obj
    let peak1 := { peak_obj with no_of_maf_peaks := (maf_expected_vector.length : Int) }
    if peak1.no_of_maf_peaks ≤ 0 then (st1, peak1)
    else
      (peak1.segment_obj_vector.foldl
        (clonal_segment_step K first_peak_center_int best_period_int no_of_copy_nos_bf_1st_peak cp
          maf_expected_vector) st1, peak1)

/-- The clonal pass (lines 2111-2193) over the peaks from copy number `cp` on. -/
def clonal_pass (K : Constants) (adjust_maf_expect : Dbl → ℚ → ℚ → ℚ)
    (snp_coverage_var_vs_mean_ratio : ℚ) (purity : Dbl) (first_peak_center_int best_period_int
    no_of_copy_nos_bf_1st_peak : Int) : Int → CallerState → List OnePeak → CallerState × List OnePeak
  | _, st, [] => (st, [])
  | cp, st, peak_obj :: rest =>
    let r := clonal_peak_step K adjust_maf_expect snp_coverage_var_vs_mean_ratio purity
      first_peak_center_int best_period_int no_of_copy_nos_bf_1st_peak cp st peak_obj
    let r2 := clonal_pass K adjust_maf_expect snp_coverage_var_vs_mean_ratio purity
      first_peak_center_int best_period_int no_of_copy_nos_bf_1st_peak (cp + 1) r.1 rest
    (r2.1, r.2 :: r2.2)

/-- The row of a segment filed under the bin `ratio_int` in the subclonal pass
(lines 2211-2277), with the fractional copy number `cp_float`; `none` when a
value converted to `int` is not finite. -/
def subclonal_row (segment_stddev_divider : ℚ) (purity ploidy cp_float : Dbl)
    (oneSegment : OneSegment) : Option CopyNumberRow :=
  let cp_stddev := Dbl.div
    (Dbl.mul (Dbl.add (Dbl.mul purity ploidy) (Dbl.mul (Dbl.fin 2) (Dbl.sub (Dbl.fin 1) purity)))
      (Dbl.fin (oneSegment.stddev * segment_stddev_divider)))
    purity
  let interval_left := Dbl.sub cp_float cp_stddev
  let interval_right := Dbl.add cp_float cp_stddev
  match Dbl.toInt interval_left, Dbl.toInt interval_right with
  | some interval_left_int, some interval_right_int =>
    if interval_right_int - interval_left_int ≠ 1 then
      some { segment := oneSegment, cp := cp_float, major_allele_cp := none
             copy_no_float := none, maf_expected := none }
    else
      match Dbl.toInt cp_float with
      | none => none
      | some t =>
        let cp : Int :=
          t + (if Dbl.lt (Dbl.fin (1 / 2)) (Dbl.sub cp_float (Dbl.fin (t : ℚ))) = true then 1 else 0)
        some { segment := oneSegment, cp := Dbl.fin (cp : ℚ), major_allele_cp := none
               copy_no_float := some cp_float, maf_expected := none }
  | _, _ => none

/-- One segment in the subclonal pass (lines 2206-2277). -/
def subclonal_segment_step (segment_stddev_divider : ℚ) (purity ploidy : Dbl)
    (cp_float : Dbl) (st : CallerState) (oneSegment : OneSegment) : Option CallerState :=
  let segment_length := oneSegment.end_pos - oneSegment.start_pos + 1
  match subclonal_row segment_stddev_divider purity ploidy cp_float oneSegment with
  | none => none
  | some row =>
    some { st with
      genome_len_cnv_all := st.genome_len_cnv_all + segment_length
      cp_number_multi_len :=
        Dbl.add st.cp_number_multi_len (Dbl.mul (Dbl.fin (segment_length : ℚ)) cp_float)
      added_lengths := st.added_lengths ++ [segment_length]
      rows := st.rows ++ [row] }

/-- One bin in the subclonal pass (lines 2198-2278). -/
def subclonal_bin_step (K : Constants) (segments : List OneSegment) (segment_stddev_divider : ℚ)
    (purity ploidy : Dbl) (first_peak_int best_period_int no_of_copy_nos_bf_1st_peak : Int)
    (st : CallerState) (ratio_int : Int) : Option CallerState :=
  if ratio_int ∈ st.looked then some st
  else
    let cp_float := Dbl.add
      (Dbl.div (Dbl.fin ((ratio_int - first_peak_int : Int) : ℚ)) (Dbl.fin (best_period_int : ℚ)))
      (Dbl.fin (no_of_copy_nos_bf_1st_peak : ℚ))
    (rc_ratio_segments K segments ratio_int).foldlM
      (subclonal_segment_step segment_stddev_divider purity ploidy cp_float) st

/-- What `output_copy_number_segments` leaves behind: the final state, the
peaks, the members `_ploidy_cnv_all` and `_ploidy_clonal`, and the value
returned. -/
structure CopyNumberOutput where
  state : CallerState
  peak_obj_vector : List OnePeak
  ploidy_cnv_all : Dbl
  ploidy_clonal : Dbl
  returned : Dbl

/-- `Infer::output_copy_number_segments` (lines 2039-2290).  `segments` is the
list of used segments behind the table `_rc_ratio_segments`,
`segment_stddev_divider` the member `_segment_stddev_divider`.  The cumulative
coordinates of a row (segment coordinates plus a per-chromosome constant) and
the debug file `cnv.interval.tsv` are not tracked.  The result is `none` when a
value converted to `int` is not finite. -/
def output_copy_number_segments (K : Constants) (segments : List OneSegment)
    (adjust_maf_expect : Dbl → ℚ → ℚ → ℚ) (snp_coverage_var_vs_mean_ratio : ℚ)
    (segment_stddev_divider : ℚ) (best_period_obj : OnePeriod) (peak_obj_vector : List OnePeak) :
    Option CopyNumberOutput :=
  let st0 : CallerState :=
    { rows := [], looked := [], genome_len_cnv_all := 0, genome_len_clonal := 0
      cp_number_multi_len := Dbl.fin 0, cp_number_multi_len_clonal := 0, added_lengths := [] }
  let best_period_int := best_period_obj.period_int
  let first_peak_int := best_period_obj.first_peak_int
  let no_of_copy_nos_bf_1st_peak := best_period_obj.best_no_of_copy_nos_bf_1st_peak
  let purity := best_period_obj.best_purity
  let ploidy := best_period_obj.best_ploidy
  let r := clonal_pass K adjust_maf_expect snp_coverage_var_vs_mean_ratio purity
    best_period_obj.first_peak_obj.peak_center_int best_period_int no_of_copy_nos_bf_1st_peak
    no_of_copy_nos_bf_1st_peak st0 peak_obj_vector
  match (int_range 0 K.MAX_RATIO_RANGE_HIGH_RES).foldlM
      (subclonal_bin_step K segments segment_stddev_divider purity ploidy first_peak_int
        best_period_int no_of_copy_nos_bf_1st_peak) r.1 with
  | none => none
  | some st =>
    let ploidy_cnv_all := Dbl.div st.cp_number_multi_len (Dbl.fin (st.genome_len_cnv_all : ℚ))
    let ploidy_clonal := Dbl.div (Dbl.fin (st.cp_number_multi_len_clonal : ℚ))
      (Dbl.fin (st.genome_len_clonal : ℚ))
    some { state := st, peak_obj_vector := r.2, ploidy_cnv_all := ploidy_cnv_all
           ploidy_clonal := ploidy_clonal, returned := ploidy_clonal }

/-- The value `segment_length` of lines 2151 and 2209. -/
def segment_length (sg : OneSegment) : Int := sg.end_pos - sg.start_pos + 1

/-- The peak of copy number `cp` is handled by the clonal pass: it has SNPs
(line 2122) and at least one expected MAF (line 2140). -/
def clonal_peak_called (adjust_maf_expect : Dbl → ℚ → ℚ → ℚ)
    (snp_coverage_var_vs_mean_ratio : ℚ) (purity : Dbl) (cp : Int) (peak_obj : OnePeak) : Bool :=
  decide (0 < peak_obj.no_of_snps) &&
    decide (0 < (caller_maf_expected_vector adjust_maf_expect snp_coverage_var_vs_mean_ratio
      purity cp peak_obj).length)

/-- The segments the clonal pass visits, each with the integer copy number of
its peak: the `segment_obj_vector` of every peak handled, peaks in order from
copy number `cp` on. -/
def clonal_pass_segments (adjust_maf_expect : Dbl → ℚ → ℚ → ℚ)
    (snp_coverage_var_vs_mean_ratio : ℚ) (purity : Dbl) :
    Int → List OnePeak → List (Int × OneSegment)
  | _, [] => []
  | cp, peak_obj :: rest =>
    (if clonal_peak_called adjust_maf_expect snp_coverage_var_vs_mean_ratio purity cp peak_obj
      then peak_obj.segment_obj_vector.map (fun sg => (cp, sg)) else []) ++
    clonal_pass_segments adjust_maf_expect snp_coverage_var_vs_mean_ratio purity (cp + 1) rest

/-- The segments the subclonal pass visits: those filed under the bins of
`0 .. MAX_RATIO_RANGE_HIGH_RES` that are in the bin list of no peak. -/
def subclonal_pass_segments (K : Constants) (segments : List OneSegment)
    (peak_obj_vector : List OnePeak) : List OneSegment :=
  ((int_range 0 K.MAX_RATIO_RANGE_HIGH_RES).filter (fun ratio_int =>
    decide (ratio_int ∉ peak_obj_vector.flatMap (fun pk => pk.segment_rc_ratio_vector)))).flatMap
    (rc_ratio_segments K segments)

/-- What a step of the caller does to the state, on the parts the statements
below use: rows are written for the segments `rowsegs`, the bins `bins` are
marked, the clonal sums grow by `dlen` and `dcp`, the lengths `lens` are
added. -/
def CallerEffect (st st2 : CallerState) (rowsegs : List OneSegment) (bins : List Int)
    (dlen dcp : Int) (lens : List Int) : Prop :=
  st2.rows.map (fun r => r.segment) = st.rows.map (fun r => r.segment) ++ rowsegs ∧
  st2.looked = st.looked ++ bins ∧
  st2.genome_len_clonal = st.genome_len_clonal + dlen ∧
  st2.cp_number_multi_len_clonal = st.cp_number_multi_len_clonal + dcp ∧
  st2.added_lengths = st.added_lengths ++ lens

/-- Lines 218-220 of `Infer::run`: the winning period after the copy-number
output and the recalibration; `none` when the output has no defined result. -/
def run_recalibration (K : Constants) (segments : List OneSegment)
    (adjust_maf_expect : Dbl → ℚ → ℚ → ℚ) (snp_coverage_var_vs_mean_ratio : ℚ)
    (segment_stddev_divider : ℚ) (period_obj_from_logL : OnePeriod) : Option OnePeriod :=
  match output_copy_number_segments K segments adjust_maf_expect snp_coverage_var_vs_mean_ratio
      segment_stddev_divider period_obj_from_logL period_obj_from_logL.peak_obj_vector with
  | none => none
  | some out =>
    some (recalibrate_Q_and_purity_based_on_cnv_ploidy K
      { period_obj_from_logL with
        peak_obj_vector := out.peak_obj_vector
        ploidy_corrected := out.returned })

/-- A segment of ten windows at ratio 1.0 (bin 10 at resolution 10) over the
positions 1 .. 100, with an aggregate of 20 SNPs. -/
def c17_segment_a : OneSegment :=
  { example_segment 1 10 with
    start_pos := 1, end_pos := 100
    oneSegmentSNPs :=
      { maf_mean := -3 / 10, maf_stddev := 1 / 50, no_of_snps := 20, coverage_mean := 30
        coverage_var := 36, coverage_squared_sum := 18720 } }

/-- A segment of ten windows at ratio 1.5 (bin 15) over the positions
101 .. 200, without SNPs. -/
def c17_segment_b : OneSegment :=
  { example_segment (3 / 2) 10 with start_pos := 101, end_pos := 200 }

/-- The peak at bin 10 over the bins 9 .. 11, holding `c17_segment_a`. -/
def c17_peak : OnePeak :=
  { OnePeak.ctor5 10 0 9 11 1 with
    no_of_windows := 10, no_of_snps := 20, snp_coverage_mean := 30
    segment_obj_vector := [c17_segment_a], segment_rc_ratio_vector := [9, 10, 11] }

/-- A winning period of 5 bins with first peak at bin 10, two copy numbers
before the first peak, purity 1 and ploidy 2. -/
def c17_period : OnePeriod :=
  { example_period with
    period_int := 5, first_peak_obj := OnePeak.ctor5 10 0 9 11 1, first_peak_int := 10
    best_no_of_copy_nos_bf_1st_peak := 2, best_purity := Dbl.fin 1, best_ploidy := Dbl.fin 2
    peak_obj_vector := [c17_peak], logL := 1 }

/-- A segment of ten windows at ratio 1.0 (bin 10) without SNPs. -/
def c18_segment : OneSegment :=
  { example_segment 1 10 with start_pos := 1, end_pos := 100 }

/-- The peak at bin 10 over the bins 9 .. 11, holding `c18_segment`; it has no
SNPs. -/
def c18_peak : OnePeak :=
  { OnePeak.ctor5 10 0 9 11 1 with
    segment_obj_vector := [c18_segment], segment_rc_ratio_vector := [9, 10, 11] }

/-! ## Segment loading (`findSNPsWithinSegment`, `getSegmentDataFromFile`) -/

/-- One SNP of a chromosome, as stored in `_SNPs[chr_index]`. -/
structure OneSNP where
  position : Int
  maf : ℚ
  coverage : Int
  deriving DecidableEq

/-- `Infer::findSNPsWithinSegment` (lines 1883-1942): the segment after the
call and the member `_total_no_of_snps_used` after the call.
`OneSegmentSNPs_ctor` is the value of `OneSegmentSNPs()`; `robust` stands for
`calculate_robust_mean_stddev` with trim parameter 30 and returns
`(mean, stddev, squared_sum, no_of_snps_to_use)`.  The result is `none` when
`chr_index` is no index of `_SNPs`. -/
def findSNPsWithinSegment (OneSegmentSNPs_ctor : OneSegmentSNPs)
    (robust : List ℚ → ℚ × ℚ × ℚ × Int) (snp_maf_stddev_divider : ℚ)
    (SNPs : List (List OneSNP)) (total_no_of_snps_used : Int) (oneSegment : OneSegment) :
    Option (OneSegment × Int) :=
  if oneSegment.end_pos ≤ oneSegment.start_pos then
    some ({ oneSegment with oneSegmentSNPs := OneSegmentSNPs_ctor }, total_no_of_snps_used)
  else
    match getc SNPs oneSegment.chr_index with
    | none => none
    | some snps =>
      let inside := snps.filter (fun s =>
        decide (s.position ≥ oneSegment.start_pos ∧ s.position ≤ oneSegment.end_pos))
      let total_no_of_snps : Int := (inside.length : Int)
      if total_no_of_snps ≤ 10 then
        some ({ oneSegment with oneSegmentSNPs := OneSegmentSNPs_ctor }, total_no_of_snps_used)
      else
        let m := robust (inside.map (fun s => s.maf))
        let c := robust (inside.map (fun s => (s.coverage : ℚ)))
        some ({ oneSegment with oneSegmentSNPs :=
            { maf_mean := m.1
              maf_stddev := m.2.1 / snp_maf_stddev_divider
              no_of_snps := c.2.2.2
              coverage_mean := c.1
              coverage_var := c.2.1 * c.2.1
              coverage_squared_sum := c.2.2.1 } },
          total_no_of_snps_used + c.2.2.2)

/-- One data line of the segment file after parsing (lines 1653-1668):
`chr_index` is the value of `chrStr_to_index(chr_string)`, `stddev_column` the
fifth column before the division by `_segment_stddev_divider`. -/
structure SegmentRecord where
  chr_index : Int
  start_pos : Int
  end_pos : Int
  read_count_ratio : ℚ
  stddev_column : ℚ
  no_of_valid_windows : Int
  deriving DecidableEq

/-- The members `getSegmentDataFromFile` updates: the used segments in input
order (the table `_rc_ratio_segments` files each under its bin),
`_total_no_of_snps_used`, `_ratio_int_pdf_vec`, `_total_no_of_segments` and
`_total_no_of_segments_used`. -/
structure SegmentLoadState where
  segments : List OneSegment
  total_no_of_snps_used : Int
  ratio_int_pdf_vec : List ℚ
  total_no_of_segments : Int
  total_no_of_segments_used : Int
  deriving DecidableEq

/-- Lines 1689-1696 for a segment of ratio at most `MAX_RATIO`: the segment
with its SNP aggregate, `_total_no_of_snps_used` and `_ratio_int_pdf_vec` after
the calls of `findSNPsWithinSegment` and `kernel_smoothing`; the segment as it
is for a larger ratio.  The debug table `noOfWindowsByRatioAndChr` is not
tracked. -/
def segment_snps_and_density (K : Constants) (OneSegmentSNPs_ctor : OneSegmentSNPs)
    (robust : List ℚ → ℚ × ℚ × ℚ × Int) (snp_maf_stddev_divider : ℚ) (expf : ℚ → ℚ)
    (SNPs : List (List OneSNP)) (total_no_of_snps_used : Int) (ratio_int_pdf_vec : List ℚ)
    (oneSegment : OneSegment) : Option (OneSegment × Int × List ℚ) :=
  if oneSegment.rc_ratio ≤ K.MAX_RATIO then
    match findSNPsWithinSegment OneSegmentSNPs_ctor robust snp_maf_stddev_divider SNPs
        total_no_of_snps_used oneSegment with
    | none => none
    | some found =>
      match kernel_smoothing K expf (oneSegment.rc_ratio * (K.RESOLUTION : ℚ))
          (oneSegment.stddev * (K.RESOLUTION : ℚ)) oneSegment.no_of_windows ratio_int_pdf_vec with
      | none => none
      | some pdf => some (found.1, found.2, pdf)
  else some (oneSegment, total_no_of_snps_used, ratio_int_pdf_vec)

/-- One data line in the loop of `getSegmentDataFromFile` (lines 1662-1699).
The six-argument constructor of `OneSegment` is taken to store its arguments
and `OneSegmentSNPs()`; the table is taken to have the bins
`0 .. MAX_RATIO_RANGE_HIGH_RES`, like `is_ratio_looked`.  The result is `none`
on an index outside an array and where `kernel_smoothing` has none. -/
def getSegmentDataFromFile_step (K : Constants) (OneSegmentSNPs_ctor : OneSegmentSNPs)
    (robust : List ℚ → ℚ × ℚ × ℚ × Int) (snp_maf_stddev_divider segment_stddev_divider : ℚ)
    (expf : ℚ → ℚ) (SNPs : List (List OneSNP)) (st : SegmentLoadState) (r : SegmentRecord) :
    Option SegmentLoadState :=
  let st1 := { st with total_no_of_segments := st.total_no_of_segments + 1 }
  let read_count_ratio := r.read_count_ratio
  let ratio_stddev := r.stddev_column / segment_stddev_divider
  if read_count_ratio > 1 / 10 ∧ ratio_stddev > read_count_ratio then some st1
  else
    let ratio_high_res := cpp_trunc (read_count_ratio * (K.RESOLUTION : ℚ))
    if read_count_ratio ≤ K.MAX_RATIO_RANGE ∧ ratio_stddev > 1 / (10 : ℚ) ^ 12 then
      if r.chr_index = -1 then some st1
      else
        let oneSegment : OneSegment :=
          { chr_index := r.chr_index, start_pos := r.start_pos, end_pos := r.end_pos
            rc_ratio := read_count_ratio, stddev := ratio_stddev
            no_of_windows := r.no_of_valid_windows, oneSegmentSNPs := OneSegmentSNPs_ctor }
        match segment_snps_and_density K OneSegmentSNPs_ctor robust snp_maf_stddev_divider expf
            SNPs st1.total_no_of_snps_used st1.ratio_int_pdf_vec oneSegment with
        | none => none
        | some filed =>
          if 0 ≤ ratio_high_res ∧ ratio_high_res ≤ K.MAX_RATIO_RANGE_HIGH_RES then
            some { st1 with
              segments := st1.segments ++ [filed.1]
              total_no_of_snps_used := filed.2.1
              ratio_int_pdf_vec := filed.2.2
              total_no_of_segments_used := st1.total_no_of_segments_used + 1 }
          else none
    else some st1

/-- `Infer::getSegmentDataFromFile` (lines 1615-1713) on the parsed data lines
of the file; `total_no_of_snps_used` and `ratio_int_pdf_vec` are the members
on entry. -/
def getSegmentDataFromFile (K : Constants) (OneSegmentSNPs_ctor : OneSegmentSNPs)
    (robust : List ℚ → ℚ × ℚ × ℚ × Int) (snp_maf_stddev_divider segment_stddev_divider : ℚ)
    (expf : ℚ → ℚ) (SNPs : List (List OneSNP)) (total_no_of_snps_used : Int)
    (ratio_int_pdf_vec : List ℚ) (records : List SegmentRecord) : Option SegmentLoadState :=
  records.foldlM
    (getSegmentDataFromFile_step K OneSegmentSNPs_ctor robust snp_maf_stddev_divider
      segment_stddev_divider expf SNPs)
    { segments := [], total_no_of_snps_used := total_no_of_snps_used
      ratio_int_pdf_vec := ratio_int_pdf_vec, total_no_of_segments := 0
      total_no_of_segments_used := 0 }

/-- A null SNP aggregate with every value `-1`. -/
def example_null_snps : OneSegmentSNPs :=
  { maf_mean := -1, maf_stddev := -1, no_of_snps := -1, coverage_mean := -1, coverage_var := -1
    coverage_squared_sum := -1 }

/-- A robust estimator stand-in: plain mean, zero deviation, sum of squares and
the number of values. -/
def example_robust (l : List ℚ) : ℚ × ℚ × ℚ × Int :=
  (l.sum / (l.length : ℚ), 0, (l.map (fun x => x * x)).sum, (l.length : Int))

/-- Twelve SNPs of one chromosome at positions 10, 20, ..., 120. -/
def c19_snps : List OneSNP :=
  (List.range 12).map (fun (k : Nat) =>
    { position := 10 * ((k : Int) + 1), maf := -1 / 5, coverage := 30 })

/-- A segment over the positions 1 .. 100 of chromosome 0: ten of the SNPs of
`c19_snps` fall into it. -/
def c19_segment : OneSegment :=
  { example_segment 1 10 with start_pos := 1, end_pos := 100 }

/-- Twelve SNPs of one chromosome at positions 5, 10, ..., 60. -/
def c20_snps : List OneSNP :=
  (List.range 12).map (fun (k : Nat) =>
    { position := 5 * ((k : Int) + 1), maf := -1 / 5, coverage := 30 })

/-- The products `density[i] * density[i + s]` over the valid indices `i`. -/
def shift_products (density : List ℚ) (s : Nat) : List ℚ :=
  (List.range (density.length - s)).map (fun i => density.getD i 0 * density.getD (i + s) 0)

/-- The sum of the `k` largest entries of `l` (of all entries when `l` has
fewer than `k`). -/
def top_sum (k : Nat) (l : List ℚ) : ℚ :=
  ((l.insertionSort (fun a b => b ≤ a)).take k).sum

/-- The value `cp_stddev` of lines 2218-2219, the uncertainty of the fractional
copy number of a segment of the subclonal pass. -/
def subclonal_cp_stddev (segment_stddev_divider : ℚ) (purity ploidy : Dbl)
    (oneSegment : OneSegment) : Dbl :=
  Dbl.div
    (Dbl.mul (Dbl.add (Dbl.mul purity ploidy) (Dbl.mul (Dbl.fin 2) (Dbl.sub (Dbl.fin 1) purity)))
      (Dbl.fin (oneSegment.stddev * segment_stddev_divider)))
    purity

/-! ## The peak loop of the SNP scoring (lines 1239-1423) -/

/-- Modelled from the spec: `OnePeriod::ResetSNPCounters` of `infer.h`, which is
not in the sources.  The "total SNPs" of a candidate and its number of
expected-MAF sub-peaks are accumulated anew for every hypothesis; the call sets
both to zero. -/
def OnePeriod.ResetSNPCounters (c : OnePeriod) : OnePeriod :=
  { c with no_of_snps := 0, no_of_maf_peaks := 0 }

/-- The state of the peak loop of lines 1244-1423: the peak vector (written in
place), the two counters of the candidate, and the locals `logL_snp`,
`lod_snp`, `ssum_sq_diff`. -/
structure MafLoopState where
  peak_obj_vector : List OnePeak
  no_of_snps : Int
  no_of_maf_peaks : Int
  logL_snp : ℚ
  lod_snp : ℚ
  ssum_sq_diff : ℚ
  deriving DecidableEq

/-- One entry of the arrays `var_of_maf_per_maf_peak`, `sq_diff_per_maf_peak`
and `no_of_snps_per_maf_peak` (lines 1291-1303). -/
structure MafPeakSums where
  var_of_maf : ℚ
  sq_diff : ℚ
  no_of_snps : ℚ
  deriving DecidableEq

/-- The pair `(min_diff_sq, best_maf_peak_index)` of lines 1314-1325. -/
def nearest_expected_maf (maf_expected_vector : List ℚ) (maf_mean : ℚ) : ℚ × Int :=
  (List.range maf_expected_vector.length).foldl
    (fun (st : ℚ × Int) (i : Nat) =>
      let diff_sq := (maf_expected_vector.getD i 0 - maf_mean) *
        (maf_expected_vector.getD i 0 - maf_mean)
      if diff_sq < st.1 then (diff_sq, (i : Int)) else st)
    ((10 : ℚ) ^ 99, -1)

/-- One segment of a peak (lines 1305-1336): the three arrays after it.  The
result is `none` when `best_maf_peak_index` is still `-1` at the writes.  The
array `seg_count_per_maf_peak` is only printed and is not tracked. -/
def maf_segment_step (maf_expected_vector : List ℚ) (sums : List MafPeakSums)
    (oneSegment : OneSegment) : Option (List MafPeakSums) :=
  let oneSegmentSNPs := oneSegment.oneSegmentSNPs
  if oneSegmentSNPs.no_of_snps ≤ 5 ∨ oneSegmentSNPs.maf_stddev ≤ 0 then some sums
  else
    let r := nearest_expected_maf maf_expected_vector oneSegmentSNPs.maf_mean
    let min_diff_sq := r.1
    let best_maf_peak_index := r.2
    if best_maf_peak_index < 0 then none
    else
      match sums[best_maf_peak_index.toNat]? with
      | none => none
      | some e =>
        some (sums.set best_maf_peak_index.toNat
          { var_of_maf := e.var_of_maf +
              (min_diff_sq * (oneSegmentSNPs.no_of_snps : ℚ) +
                oneSegmentSNPs.maf_stddev * oneSegmentSNPs.maf_stddev *
                  (oneSegmentSNPs.no_of_snps : ℚ) * (oneSegmentSNPs.no_of_snps : ℚ))
            sq_diff := e.sq_diff + min_diff_sq * (oneSegmentSNPs.no_of_snps : ℚ)
            no_of_snps := e.no_of_snps + (oneSegmentSNPs.no_of_snps : ℚ) })

/-- One expected-MAF sub-peak of a peak (lines 1339-1390) on the tuple
`(peak_obj.snp_maf_var, ssum_sq_diff, logL_snp, candidate_period.no_of_maf_peaks)`.
`logf` and `sqrtf` stand for `log` and `sqrt`, `PI` for `_probInstance.PI`. -/
def maf_sub_peak_step (logf sqrtf : ℚ → ℚ) (PI : ℚ) (acc : ℚ × ℚ × ℚ × Int)
    (e : MafPeakSums) : ℚ × ℚ × ℚ × Int :=
  let no_of_maf_peaks := acc.2.2.2 + 1
  if e.no_of_snps ≤ 5 ∨ e.var_of_maf ≤ 0 then (acc.1, acc.2.1, acc.2.2.1, no_of_maf_peaks)
  else
    let std := sqrtf (e.var_of_maf / (e.no_of_snps - 1))
    let logL_of_one_maf_peak :=
      -e.sq_diff / (2 * std * std) - (logf std + 1 / 2 * logf (2 * PI)) * e.no_of_snps
    (acc.1 + e.var_of_maf, acc.2.1 + e.sq_diff, acc.2.2.1 + logL_of_one_maf_peak, no_of_maf_peaks)

/-- Body of the peak loop (lines 1247-1421) for the peak at `peak_index`, under
the hypothesis `no_of_copy_nos_bf_1st_peak`.  A peak with at most 5 SNPs is
skipped at line 1253, before anything is written.  The result is `none` when
`peak_index` is past the end of the vector. -/
def maf_peak_step (adjust_maf_expect : Dbl → ℚ → ℚ → ℚ) (snp_coverage_var_vs_mean_ratio : ℚ)
    (logf sqrtf : ℚ → ℚ) (PI : ℚ) (no_of_copy_nos_bf_1st_peak : Int) (purity : Dbl)
    (st : MafLoopState) (peak_index : Nat) : Option MafLoopState :=
  match st.peak_obj_vector[peak_index]? with
  | none => none
  | some peak_obj =>
    let cp := no_of_copy_nos_bf_1st_peak + (peak_index : Int)
    if peak_obj.no_of_snps ≤ 5 then some st
    else
      let maf_expected_vector := scorer_maf_expected_vector adjust_maf_expect
        snp_coverage_var_vs_mean_ratio purity cp peak_obj
      let pk1 := { peak_obj with no_of_maf_peaks := (maf_expected_vector.length : Int) }
      if pk1.no_of_maf_peaks ≤ 0 then
        some { st with peak_obj_vector := st.peak_obj_vector.set peak_index pk1 }
      else
        match peak_obj.segment_obj_vector.foldlM (maf_segment_step maf_expected_vector)
            (List.replicate maf_expected_vector.length
              { var_of_maf := 0, sq_diff := 0, no_of_snps := 0 }) with
        | none => none
        | some sums =>
          let r := sums.foldl (maf_sub_peak_step logf sqrtf PI)
            (0, st.ssum_sq_diff, st.logL_snp, st.no_of_maf_peaks)
          let pk2 := { pk1 with snp_maf_var := r.1 }
          let st1 := { st with
            peak_obj_vector := st.peak_obj_vector.set peak_index pk2
            no_of_maf_peaks := r.2.2.2
            logL_snp := r.2.2.1
            ssum_sq_diff := r.2.1 }
          if pk2.no_of_snps ≤ 5 ∨ pk2.snp_maf_var ≤ 0 then some st1
          else
            let std_of_maf_of_one_rc_peak :=
              sqrtf (pk2.snp_maf_var / ((pk2.no_of_snps : ℚ) - 1))
            let lod_of_one_rc_peak :=
              -(logf std_of_maf_of_one_rc_peak) * (pk2.no_of_snps : ℚ) -
                logf ((pk2.no_of_maf_peaks : ℚ) * 2 * sqrtf 12) * (pk2.no_of_snps : ℚ)
            some { st1 with
              no_of_snps := st1.no_of_snps + pk2.no_of_snps
              lod_snp := st1.lod_snp + lod_of_one_rc_peak }

/-- Lines 1239-1423 for one hypothesis: the reset of the counters and of the
local sums, and the loop over the first `no_of_peaks_for_logL` peaks.  The
result is `none` when the loop reads past the end of the peak vector (the loop
variable is `unsigned`, so a negative `no_of_peaks_for_logL` is such a case). -/
def maf_peak_loop (adjust_maf_expect : Dbl → ℚ → ℚ → ℚ) (snp_coverage_var_vs_mean_ratio : ℚ)
    (logf sqrtf : ℚ → ℚ) (PI : ℚ) (candidate_period : OnePeriod)
    (no_of_copy_nos_bf_1st_peak : Int) (purity : Dbl) : Option MafLoopState :=
  let c := candidate_period.ResetSNPCounters
  if c.no_of_peaks_for_logL < 0 then none
  else
    (List.range c.no_of_peaks_for_logL.toNat).foldlM
      (maf_peak_step adjust_maf_expect snp_coverage_var_vs_mean_ratio logf sqrtf PI
        no_of_copy_nos_bf_1st_peak purity)
      { peak_obj_vector := c.peak_obj_vector, no_of_snps := c.no_of_snps
        no_of_maf_peaks := c.no_of_maf_peaks, logL_snp := 0, lod_snp := 0, ssum_sq_diff := 0 }

/-- The outcome of lines 1239-1423 in the form `snp_hypothesis_step` takes it:
the counters and sums of `maf_peak_loop`, and for each peak the two fields the
loop left at its place in the vector (the place of its first occurrence; a peak
vector holds no peak twice).  Where the loop has no defined behaviour the
outcome is that of the state right after the reset. -/
def maf_scoring (adjust_maf_expect : Dbl → ℚ → ℚ → ℚ) (snp_coverage_var_vs_mean_ratio : ℚ)
    (logf sqrtf : ℚ → ℚ) (PI : ℚ) (candidate_period : OnePeriod)
    (no_of_copy_nos_bf_1st_peak : Int) (purity _ploidy : Dbl) : MafScore :=
  match maf_peak_loop adjust_maf_expect snp_coverage_var_vs_mean_ratio logf sqrtf PI
      candidate_period no_of_copy_nos_bf_1st_peak purity with
  | none =>
    { no_of_snps := candidate_period.ResetSNPCounters.no_of_snps
      no_of_maf_peaks := candidate_period.ResetSNPCounters.no_of_maf_peaks
      peak_fields := fun pk => (pk.no_of_maf_peaks, pk.snp_maf_var)
      logL_snp := 0, lod_snp := 0, ssum_sq_diff := 0 }
  | some st =>
    { no_of_snps := st.no_of_snps
      no_of_maf_peaks := st.no_of_maf_peaks
      peak_fields := fun pk =>
        ((st.peak_obj_vector.getD (candidate_period.peak_obj_vector.indexOf pk) pk).no_of_maf_peaks,
         (st.peak_obj_vector.getD (candidate_period.peak_obj_vector.indexOf pk) pk).snp_maf_var)
      logL_snp := st.logL_snp, lod_snp := st.lod_snp, ssum_sq_diff := st.ssum_sq_diff }

/-- The candidate `c3_candidate` with segments whose SNP aggregates are all
null: no peak has a SNP. -/
def c21_candidate : OnePeriod :=
  { c3_candidate with
    peak_obj_vector :=
      [ { OnePeak.ctor5 450 0 350 550 100 with no_of_windows := 10 },
        { OnePeak.ctor5 950 1 850 1050 100 with no_of_windows := 50 },
        { OnePeak.ctor5 1450 2 1350 1550 100 with no_of_windows := 5 } ] }

/-- What the hypothesis loop keeps of a candidate when no hypothesis is
recorded. -/
def SnpUntouched (c c2 : OnePeriod) : Prop :=
  c2.peak_obj_vector = c.peak_obj_vector ∧
  c2.no_of_peaks_for_logL = c.no_of_peaks_for_logL ∧
  c2.best_logL_snp = c.best_logL_snp ∧
  c2.logL_snp_vector = c.logL_snp_vector ∧
  c2.lod_snp_vector = c.lod_snp_vector ∧
  c2.purity_vector = c.purity_vector ∧
  c2.ploidy_vector = c.ploidy_vector ∧
  c2.no_of_copy_nos_bf_1st_peak_vector = c.no_of_copy_nos_bf_1st_peak_vector ∧
  c2.snp_penalty_vector = c.snp_penalty_vector ∧
  c2.snp_no_of_parameters_vector = c.snp_no_of_parameters_vector ∧
  c2.best_purity = c.best_purity ∧
  c2.best_ploidy = c.best_ploidy ∧
  c2.best_no_of_copy_nos_bf_1st_peak = c.best_no_of_copy_nos_bf_1st_peak ∧
  c2.logL = c.logL


/-! ## The combined score of a candidate (lines 998-1013) -/

/-- The value `logL_rc_penalty` of lines 998-1000 for a candidate.
`first_peak_int` is the local of line 956, the centre of the candidate's first
peak. -/
def logL_rc_penalty_value (K : Constants) (logf : ℚ → ℚ) (candidate_period : OnePeriod) : ℚ :=
  -(1 / 2) * logf (candidate_period.no_of_windows : ℚ) *
    ((10 * K.RESOLUTION - candidate_period.first_peak_obj.peak_center_int : Int) : ℚ) /
    (candidate_period.period_int : ℚ)

/-- Lines 998-1013 of `infer_best_period_by_logL`, past the test of line 994:
the coverage penalty, the call of the SNP scoring, the sum of the two scores and
the average over the scored peaks.  On entry `logL` holds the sum of the
per-peak coverage log-likelihoods of lines 975-992 and `sum_adj_logL` is the
local of that name.  The result is `none` when a divisor (`period_int`,
`no_of_peaks_for_logL`) is zero or the SNP scoring has no defined behaviour. -/
def combined_logL_stage (K : Constants)
    (sort_by_windows sort_by_center : List OnePeak → List OnePeak)
    (maf_scoring : OnePeriod → Int → Dbl → Dbl → MafScore) (logf sqrtf : ℚ → ℚ)
    (sum_adj_logL : ℚ) (candidate_period : OnePeriod) : Option OnePeriod :=
  if candidate_period.period_int = 0 then none
  else
    let logL_rc_penalty := logL_rc_penalty_value K logf candidate_period
    let c1 := { candidate_period with
      logL_rc_penalty := logL_rc_penalty
      logL := candidate_period.logL + logL_rc_penalty
      logL_rc := candidate_period.logL + logL_rc_penalty
      adj_logL_rc :=
        -logf (sqrtf (sum_adj_logL / (candidate_period.no_of_windows : ℚ)) /
          (candidate_period.period_int : ℚ) * K.FRESOLUTION) }
    match infer_no_of_copy_nos_bf_1st_peak_for_one_period_by_logL_snp K sort_by_windows
        sort_by_center maf_scoring logf sqrtf c1 with
    | none => none
    | some r =>
      let c2 := r.2
      if c2.no_of_peaks_for_logL = 0 then none
      else
        some { c2 with
          logL := (c2.logL + c2.best_logL_snp) / (c2.no_of_peaks_for_logL : ℚ) }

/-- The candidate `c21_candidate` after the coverage stage: 65 windows in its
peaks and a coverage log-likelihood sum of -30. -/
def c22_candidate : OnePeriod :=
  { c21_candidate with no_of_windows := 65, logL := -30 }

/-! ## The shift-1 difference of the autocorrelation (`calc_autocor_shift_diff`) -/

/-- The value `scale_cor` of lines 365-370.  `log10f` stands for `log10`. -/
def autocor_scale {F : Type} [Field F] (log10f : ℚ → F) (cor_array : List ℚ) : F :=
  if cor_array.getD 0 0 ≤ 0 then 10 else log10f (cor_array.getD 0 0)

/-- The value `shift_diff` of lines 372-377 for the shift `i`; `none` when the
quotients are by a `scale_cor` of zero, where the value is not a finite number. -/
def autocor_shift_diff {F : Type} [Field F] [DecidableEq F] (log10f : ℚ → F)
    (cor_array : List ℚ) (i : Nat) : Option F :=
  if cor_array.getD (i + 1) 0 ≤ 0 ∨ cor_array.getD i 0 ≤ 0 then some 0
  else if autocor_scale log10f cor_array = 0 then none
  else
    some (log10f (cor_array.getD (i + 1) 0) / autocor_scale log10f cor_array -
      log10f (cor_array.getD i 0) / autocor_scale log10f cor_array)

/-- The array `all_diff` that `Infer::calc_autocor_shift_diff` fills
(lines 356-387): the entries `0 .. kPeriodMax - 1`.  The file `GADA.in.tsv` and
the fit of `left_x` and `right_x` that follows are not tracked. -/
def calc_autocor_shift_diff {F : Type} [Field F] [DecidableEq F] (K : Constants)
    (log10f : ℚ → F) (cor_array : List ℚ) : List (Option F) :=
  (List.range K.kPeriodMax).map (autocor_shift_diff log10f cor_array)

/-- A density of 26 bins with mass 2 at bin 13 only; with `small_constants`
bin 13 is `kFirstPeakMax + kPeakHalfWidthMax`, the last bin of the search
window of `find_first_peak_ab_init`. -/
def c28_density : List ℚ := List.replicate 13 0 ++ [2] ++ List.replicate 12 0

/-- A density of 26 bins with mass 2 at bin 12 only. -/
def c28_density_b : List ℚ := List.replicate 12 0 ++ [2] ++ List.replicate 13 0

/-- The constants `small_constants` with an autocorrelation array of 161
entries (`kPeriodMax = 160`). -/
def c25_constants : Constants := { small_constants with kPeriodMax := 160 }

/-- An autocorrelation array of 161 entries: 10 at shift 0, a valley of 0 at
shift 10, a local peak of 5.5 at shift 35, a plateau of 5 over the shifts
53 .. 147 with a local peak of 6 at shift 60 and the main peak of 8 at shift
100, and 1 elsewhere. -/
def c25_cor_array : List ℚ :=
  [10] ++ List.replicate 9 1 ++ [0] ++ List.replicate 24 1 ++ [11 / 2] ++ List.replicate 17 1 ++
    List.replicate 7 5 ++ [6] ++ List.replicate 39 5 ++ [8] ++ List.replicate 47 5 ++
    List.replicate 13 1

/-! ## The periodic windowed sum of the first-peak search -/

/-- The array `a` after `a[f] += x`. -/
def add_at (a : List ℚ) (f : Int) (x : ℚ) : List ℚ :=
  a.set f.toNat (a.getD f.toNat 0 + x)

/-- The density in the window of `peak_width` bins to either side of bin `c`. -/
def window_mass (ratio_int_pdf_vec : List ℚ) (peak_width c : Int) : ℚ :=
  rd ratio_int_pdf_vec c +
    ((int_range 1 peak_width).map
      (fun j => rd ratio_int_pdf_vec (c - j) + rd ratio_int_pdf_vec (c + j))).sum

/-- The periodic windowed sum `S(p)`: the density in the window of `period/4`
bins to either side of `p` and of every `p + k * period` with `k >= 1` that
lies below `size - period/4`. -/
def periodic_window_sum (ratio_int_pdf_vec : List ℚ) (period p : Int) : ℚ :=
  window_mass ratio_int_pdf_vec (Int.tdiv period 4) p +
    Finset.sum
      ((Finset.range ratio_int_pdf_vec.length).filter
        (fun k : Nat => p + ((k : Int) + 1) * period <
          (ratio_int_pdf_vec.length : Int) - Int.tdiv period 4))
      (fun k : Nat =>
        window_mass ratio_int_pdf_vec (Int.tdiv period 4) (p + ((k : Int) + 1) * period))

/-- What the search loop of `find_first_peak_given_bounds` has established
after the bins `done`: `all_sum` is untouched outside `done`, and `max_sum` and
the centre are those of the first bin of `done` that reaches `kPeakHeightMin`
and has the largest sum `S`, or are as on entry when no bin of `done` reaches
`kPeakHeightMin`. -/
def FirstPeakInv (K : Constants) (pdf : List ℚ) (period : Int) (n : Nat) (center0 : Int)
    (done : List Int) (st : List ℚ × ℚ × Int) : Prop :=
  st.1.length = n ∧
  (∀ q : Int, 0 ≤ q → q ∉ done → st.1.getD q.toNat 0 = 0) ∧
  ((st.2.1 = -1 ∧ st.2.2 = center0 ∧ ∀ q ∈ done, rd pdf q < K.kPeakHeightMin) ∨
   (st.2.2 ∈ done ∧ K.kPeakHeightMin ≤ rd pdf st.2.2 ∧
    st.2.1 = periodic_window_sum pdf period st.2.2 ∧
    ∀ q ∈ done, K.kPeakHeightMin ≤ rd pdf q →
      periodic_window_sum pdf period q ≤ periodic_window_sum pdf period st.2.2 ∧
      (q < st.2.2 → periodic_window_sum pdf period q < periodic_window_sum pdf period st.2.2)))

/-! ## Peak location with the `float` products of lines 1680 and 1974

`read_count_ratio` and `rc_ratio` are `float`, so the products
`read_count_ratio * RESOLUTION` (line 1680) and `rc_ratio * no_of_windows`
(line 1974) are `float` products: the `int` factor is converted to `float`
(without error below `2^24`) and the product is rounded to `float`.  The sum of
line 1974, the mean of line 1979 and its product with `RESOLUTION` (line 1981)
are `double` and are kept exact, as in the rest of this development.  The
definitions below are those of `find_peaks` with the rounding `fl` of a `float`
product as a parameter; `find_peaks` is the case of products without rounding,
and `float_round` is the rounding of IEEE 754 binary32. -/

/-- What is used of the rounding of a real number to `float` (round to nearest,
24-bit significand, no overflow): zero is kept, and the error is at most
`|x| / 2^24` plus half the spacing `2^-149` of the smallest numbers. -/
def FloatRounding (fl : ℚ → ℚ) : Prop :=
  fl 0 = 0 ∧ ∀ x : ℚ, |fl x - x| ≤ |x| / 2 ^ 24 + 1 / 2 ^ 150

/-- The power `2^e` of two, `e` an integer. -/
def pow2 (e : Int) : ℚ :=
  if 0 ≤ e then ((2 ^ e.toNat : Nat) : ℚ) else 1 / ((2 ^ (-e).toNat : Nat) : ℚ)

/-- The number of binary digits of `n`, by at most `fuel` halvings. -/
def bit_length : Nat → Nat → Nat
  | 0, _ => 0
  | fuel + 1, n => if n = 0 then 0 else bit_length fuel (n / 2) + 1

/-- The binary exponent `e` of a positive number `a`: `2^e ≤ a < 2^(e+1)`. -/
def float_exponent (a : ℚ) : Int :=
  let e0 : Int := (bit_length a.num.natAbs a.num.natAbs : Int) - (bit_length a.den a.den : Int)
  if pow2 e0 ≤ a then e0 else e0 - 1

/-- Rounding of a real number to `float` (IEEE 754 binary32: 24-bit
significand, least exponent -126, round to nearest, ties to even); overflow is
left out. -/
def float_round (x : ℚ) : ℚ :=
  if x = 0 then 0
  else
    let e := max (float_exponent |x|) (-126)
    let ulp := pow2 (e - 23)
    let q := x / ulp
    let f := ⌊q⌋
    let n := if q - (f : ℚ) < 1 / 2 then f
      else if 1 / 2 < q - (f : ℚ) then f + 1
      else if f % 2 = 0 then f else f + 1
    (n : ℚ) * ulp

/-- The bin `int(read_count_ratio * RESOLUTION)` of line 1680, the product
rounded to `float`. -/
def ratio_high_res_float (fl : ℚ → ℚ) (K : Constants) (sg : OneSegment) : Int :=
  cpp_trunc (fl (sg.rc_ratio * (K.RESOLUTION : ℚ)))

/-- The row `_rc_ratio_segments[b]` (line 1697) with the bin of line 1680
computed as a `float` product. -/
def rc_ratio_segments_float (fl : ℚ → ℚ) (K : Constants) (segments : List OneSegment)
    (b : Int) : List OneSegment :=
  segments.filter (fun sg => ratio_high_res_float fl K sg = b)

/-- `Infer::refine_peak_center` (lines 1959-1996) with the product
`rc_ratio * no_of_windows` of line 1974 rounded to `float` before it is added
to the `double` sum. -/
def refine_peak_center_float (fl : ℚ → ℚ) (K : Constants) (segments : List OneSegment)
    (peak_obj : OnePeak) (segment_rc_ratio_vector : List Int) : OnePeak :=
  let all := segment_rc_ratio_vector.flatMap (rc_ratio_segments_float fl K segments)
  let cnt : Int := (all.map (fun sg => sg.no_of_windows)).sum
  let total : ℚ := (all.map (fun sg => fl (sg.rc_ratio * (sg.no_of_windows : ℚ)))).sum
  if cnt > 0 then
    let mean_rc_ratio_of_one_peak := total / (cnt : ℚ)
    let c := cpp_trunc (mean_rc_ratio_of_one_peak * (K.RESOLUTION : ℚ))
    { peak_obj with
      peak_center_int := c
      lower_bound_int := max (c - peak_obj.half_width_int) 0
      upper_bound_int := min (c + peak_obj.half_width_int) K.MAX_RATIO_HIGH_RES }
  else peak_obj

/-- One iteration of the projection loop of `find_peaks` (lines 828-846). -/
def find_peaks_project_one_float (fl : ℚ → ℚ) (K : Constants) (segments : List OneSegment)
    (period_int half_width_int first_peak_center_int : Int) (i : Int) : OnePeak :=
  let peak_center_int := first_peak_center_int + period_int * i
  let lower_bound_int := max (peak_center_int - half_width_int) 0
  let upper_bound_int := min (peak_center_int + half_width_int) K.MAX_RATIO_HIGH_RES
  let peak_obj :=
    (OnePeak.ctor5 peak_center_int i lower_bound_int upper_bound_int half_width_int).ResetCounters
  let peak_obj := { peak_obj with no_of_periods_since_1st_peak := i }
  refine_peak_center_float fl K segments peak_obj (int_range lower_bound_int upper_bound_int)

/-- The projection loop of `find_peaks` (lines 825-847), from index `i` on,
for at most `fuel` iterations. -/
def find_peaks_project_float (fl : ℚ → ℚ) (K : Constants) (segments : List OneSegment)
    (period_int half_width_int first_peak_center_int : Int) : Nat → Int → List OnePeak
  | 0, _ => []
  | fuel + 1, i =>
    if first_peak_center_int + period_int * i ≤ K.MAX_RATIO_HIGH_RES then
      find_peaks_project_one_float fl K segments period_int half_width_int
          first_peak_center_int i ::
        find_peaks_project_float fl K segments period_int half_width_int first_peak_center_int
          fuel (i + 1)
    else []

/-- The aggregation of one peak in `find_peaks` (lines 851-887). -/
def find_peaks_aggregate_float (fl : ℚ → ℚ) (K : Constants) (segments : List OneSegment)
    (peak_obj : OnePeak) : OnePeak :=
  let p0 := peak_obj.ResetCounters
  let r := (int_range p0.lower_bound_int p0.upper_bound_int).foldl
    (fun acc rc_ratio_int =>
      (rc_ratio_segments_float fl K segments rc_ratio_int).foldl find_peaks_add_segment
        ({ acc.1 with segment_rc_ratio_vector := acc.1.segment_rc_ratio_vector ++ [rc_ratio_int] },
          acc.2))
    (p0, (0 : ℚ))
  if r.1.no_of_snps > 0 then
    let m := r.1.snp_coverage_sum / (r.1.no_of_snps : ℚ)
    { r.1 with
      snp_coverage_mean := m
      snp_coverage_var := r.2 / (r.1.no_of_snps : ℚ) - m * m }
  else r.1

/-- `Infer::find_peaks` (lines 813-894) with the `float` products of lines 1680
and 1974 rounded by `fl`: the returned `peak_obj_vector`.  The result is `none`
when the projection loop does not end (`period_int <= 0` with a first centre on
the axis). -/
def find_peaks_float (fl : ℚ → ℚ) (K : Constants) (segments : List OneSegment)
    (period_obj : OnePeriod) (first_peak_obj : OnePeak) : Option (List OnePeak) :=
  let period_int := period_obj.period_int
  let half_width_int := find_peaks_half_width period_int first_peak_obj
  let first_peak_center_int := first_peak_obj.peak_center_int
  if period_int ≤ 0 ∧ first_peak_center_int ≤ K.MAX_RATIO_HIGH_RES then none
  else
    let projected := find_peaks_project_float fl K segments period_int half_width_int
      first_peak_center_int (K.MAX_RATIO_HIGH_RES - first_peak_center_int + 1).toNat 0
    some (projected.map (find_peaks_aggregate_float fl K segments))

/-- Three segments of 5 windows whose ratio columns read 1.017, 1.114 and
1.0655: line 1680 files them under the bins 1016, 1114 and 1065, and the mean
of line 1979 of the first alone is above 1.017, that of the second alone below
1.114. -/
def c5_float_segments : List OneSegment :=
  [example_segment (float_round (1017 / 1000)) 5, example_segment (float_round (1114 / 1000)) 5,
    example_segment (float_round (2131 / 2000)) 5]

/-- A candidate of period 194. -/
def c5_float_period : OnePeriod := { example_period with period_int := 194 }

/-- A first peak at bin 968 with half-width 48: `4 * 48 + 2 = 194`. -/
def c5_float_first_peak : OnePeak := OnePeak.ctor5 968 0 920 1016 48

/-- A first peak at bin 968 with half-width 47. -/
def c5_float_narrow_first_peak : OnePeak := OnePeak.ctor5 968 0 921 1015 47

/-! ## Further example inputs -/

/-- An autocorrelation array over the shifts `0 .. 20` that rises by a factor
10 per shift up to shift 10 and falls by a factor 10 per shift after it. -/
def c11_peak_cor_array : List ℚ :=
  (List.range 11).map (fun (k : Nat) => (10 : ℚ) ^ (k + 1)) ++
    (List.range 10).map (fun (k : Nat) => (10 : ℚ) ^ (10 - k))

/-- The shift-1 difference of `c11_peak_cor_array` (lines 372-377, with
`scale_cor = log10(10) = 1`): `1` on the shifts `0 .. 9`, `-1` on `10 .. 19`. -/
def c11_peak_all_diff : List ℚ :=
  List.replicate 10 1 ++ List.replicate 10 (-1)

/-- The solver state for the sign signal of `c11_peak_all_diff` (ten `1`, ten
`-1`): one breakpoint, two segments of length 10 with amplitudes 1 and -1. -/
def c11_peak_solver (_input_array : List ℚ) : GADAResult :=
  { K := 1, Iext := [0, 10, 20], SegLen := [10, 10], SegAmp := [1, -1] }

/-- Two data lines of chromosome 0: one over the positions 1 .. 100 at ratio
1.0, and one with `start = 100 > end = 50` at ratio 1.25; the column of the
standard deviation holds 0.125 in both.  All values are `float` numbers, and
so are their products with the resolution 10. -/
def c20_failing_records : List SegmentRecord :=
  [ { chr_index := 0, start_pos := 1, end_pos := 100, read_count_ratio := 1
      stddev_column := 1 / 8, no_of_valid_windows := 10 },
    { chr_index := 0, start_pos := 100, end_pos := 50, read_count_ratio := 5 / 4
      stddev_column := 1 / 8, no_of_valid_windows := 10 } ]

/-- A density of 26 bins with the value 1 at bin 5 and the value 3 at bin 13;
with `small_constants` bin 13 is the last bin of the search window of
`find_first_peak_ab_init`. -/
def c26_failing_density : List ℚ :=
  [0, 0, 0, 0, 0, 1, 0, 0, 0, 0, 0, 0, 0, 3, 0, 0, 0, 0, 0, 0, 0, 0, 0, 0, 0, 0]

/-- Two data lines of chromosome 0 for `_segment_stddev_divider = 16`: one over
the positions 1 .. 100 at ratio 1.0, and one over the positions 101 .. 200 at
ratio 0.25 with the value 0.5 in the standard-deviation column, stored as
`0.5 / 16 = 0.03125`.  All values are `float` numbers, and so are their
products with the resolution 10. -/
def c27_records : List SegmentRecord :=
  [ { chr_index := 0, start_pos := 1, end_pos := 100, read_count_ratio := 1
      stddev_column := 1 / 8, no_of_valid_windows := 10 },
    { chr_index := 0, start_pos := 101, end_pos := 200, read_count_ratio := 1 / 4
      stddev_column := 1 / 2, no_of_valid_windows := 10 } ]

/-- The second line of `c27_records` as loaded. -/
def c27_loaded_segment : OneSegment :=
  { chr_index := 0, start_pos := 101, end_pos := 200, rc_ratio := 1 / 4, stddev := 1 / 32
    no_of_windows := 10, oneSegmentSNPs := example_null_snps }

/-! ## Theorems -/

/-- C1: for `period ≠ 0` and `Q ≠ 0`, feeding the ploidy computed by
`calc_purity_ploidy_from_period_and_cp_no_two` from `(Q, period)` back through
`recalibrate_Q_and_purity_based_on_cnv_ploidy` recovers `Q` and the purity;
the two values are the finite numbers `2*period/Q` and
`2 + (FRESOLUTION - Q)/period`. -/
theorem C1_purity_ploidy_round_trip (K : Constants) (o : OnePeriod) (Q period : Int)
    (hp : period ≠ 0) (hQ : Q ≠ 0) :
    let pp := calc_purity_ploidy_from_period_and_cp_no_two K Q period
    let o2 := recalibrate_Q_and_purity_based_on_cnv_ploidy K
      { o with period_int := period, ploidy_corrected := pp.2 }
    pp.1 = Dbl.fin (2 * (period : ℚ) / (Q : ℚ)) ∧
    pp.2 = Dbl.fin (2 + (K.FRESOLUTION - (Q : ℚ)) / (period : ℚ)) ∧
    o2.rc_ratio_int_of_cp_2_corrected = Dbl.fin (Q : ℚ) ∧
    o2.purity_corrected = pp.1 := by
  have hp2 : (period : ℚ) ≠ 0 := by exact_mod_cast hp
  have hQ2 : (Q : ℚ) ≠ 0 := by exact_mod_cast hQ
  have hq : K.FRESOLUTION + -((2 + (K.FRESOLUTION - (Q : ℚ)) / (period : ℚ) + -2) * (period : ℚ))
      = (Q : ℚ) := by
    field_simp
  simp only [calc_purity_ploidy_from_period_and_cp_no_two,
    recalibrate_Q_and_purity_based_on_cnv_ploidy, Dbl.div, Dbl.add, Dbl.sub, Dbl.mul, Dbl.neg,
    hp2, hQ2, if_false, hq]
  exact ⟨trivial, trivial, trivial, trivial⟩

theorem scored_append (rc_stage snp_stage : OnePeriod → OnePeriod) (l : List OnePeriod)
    (c : OnePeriod) :
    (((l ++ [c]).map rc_stage).filter (fun c => decide (0 < c.no_of_windows))).map snp_stage =
      ((l.map rc_stage).filter (fun c => decide (0 < c.no_of_windows))).map snp_stage ++
        (if 0 < (rc_stage c).no_of_windows then [snp_stage (rc_stage c)] else []) := by
  by_cases h : 0 < (rc_stage c).no_of_windows <;> simp [List.filter_cons, h]

theorem best_period_fold_inv (rc_stage snp_stage : OnePeriod → OnePeriod)
    (o0 : OnePeriod) (f0 : OnePeak) (v0 : List OnePeriod) (cands : List OnePeriod) :
    BestInv (-(10 : ℚ) ^ 99) o0
      (((cands.map rc_stage).filter (fun c => decide (0 < c.no_of_windows))).map snp_stage)
      (infer_best_period_by_logL rc_stage snp_stage o0 f0 v0 cands).best_period_logL
      (infer_best_period_by_logL rc_stage snp_stage o0 f0 v0 cands).best_period_obj := by
  induction cands using List.reverseRecOn with
  | nil =>
    refine ⟨?_, Or.inl ⟨rfl, rfl⟩⟩
    intro x hx
    simp at hx
  | append_singleton l c ih =>
    rw [scored_append]
    have hstep : infer_best_period_by_logL rc_stage snp_stage o0 f0 v0 (l ++ [c]) =
        infer_best_period_by_logL_step rc_stage snp_stage
          (infer_best_period_by_logL rc_stage snp_stage o0 f0 v0 l) c := by
      simp [infer_best_period_by_logL, List.foldl_append]
    rw [hstep]
    generalize infer_best_period_by_logL rc_stage snp_stage o0 f0 v0 l = st at ih ⊢
    generalize ((l.map rc_stage).filter (fun c => decide (0 < c.no_of_windows))).map snp_stage
      = sc at ih ⊢
    obtain ⟨hall, hcase⟩ := ih
    unfold infer_best_period_by_logL_step
    by_cases hw : 0 < (rc_stage c).no_of_windows
    · have hw' : ¬ (rc_stage c).no_of_windows ≤ 0 := not_le.mpr hw
      simp only [hw', if_false, hw, if_true]
      by_cases hsel : Dbl.lt (Dbl.fin 0) (snp_stage (rc_stage c)).best_purity = true ∧
          (snp_stage (rc_stage c)).logL > st.best_period_logL
      · simp only [hsel, and_self, if_true]
        refine ⟨?_, Or.inr ⟨?_, rfl, hsel.1, sc, [], rfl, ?_⟩⟩
        · intro x hx hp
          rcases List.mem_append.mp hx with h | h
          · exact le_of_lt (lt_of_le_of_lt (hall x h hp) hsel.2)
          · simp at h; subst h; exact le_refl _
        · rcases hcase with ⟨hb, _⟩ | ⟨hb, _⟩
          · rw [← hb]; exact hsel.2
          · exact lt_trans hb hsel.2
        · intro x hx hp
          exact lt_of_le_of_lt (hall x hx hp) hsel.2
      · simp only [hsel, if_false]
        refine ⟨?_, ?_⟩
        · intro x hx hp
          rcases List.mem_append.mp hx with h | h
          · exact hall x h hp
          · simp at h; subst h
            by_contra hlt
            exact hsel ⟨hp, not_le.mp hlt⟩
        · rcases hcase with h | ⟨hb, hl, hp, pre, post, hsplit, hpre⟩
          · exact Or.inl h
          · refine Or.inr ⟨hb, hl, hp, pre, post ++ [snp_stage (rc_stage c)], ?_, hpre⟩
            rw [hsplit]; simp
    · have hw' : (rc_stage c).no_of_windows ≤ 0 := not_lt.mp hw
      simp only [hw', if_true, hw, if_false, List.append_nil]
      exact ⟨hall, hcase⟩

/-- C2 (amended): `infer_best_period_by_logL` returns the first candidate in
input order, among the scored candidates (positive window total) with
`best_purity > 0` and combined `logL` above the sentinel `-1e99`, whose `logL`
is maximal; when there is no such candidate it returns `OnePeriod()`. -/
theorem C2_best_period_selection (rc_stage snp_stage : OnePeriod → OnePeriod)
    (OnePeriod_ctor : OnePeriod) (first_peak_obj0 : OnePeak) (periodObjVector0 : List OnePeriod)
    (candidate_period_vec : List OnePeriod) :
    let scored := ((candidate_period_vec.map rc_stage).filter
      (fun c => decide (0 < c.no_of_windows))).map snp_stage
    let eligible := fun c : OnePeriod =>
      Dbl.lt (Dbl.fin 0) c.best_purity = true ∧ -(10 : ℚ) ^ 99 < c.logL
    let best := (infer_best_period_by_logL rc_stage snp_stage OnePeriod_ctor first_peak_obj0
      periodObjVector0 candidate_period_vec).best_period_obj
    ((∀ c ∈ scored, ¬ eligible c) → best = OnePeriod_ctor) ∧
    ((∃ c ∈ scored, eligible c) →
      ∃ pre post, scored = pre ++ best :: post ∧ eligible best ∧
        (∀ c ∈ pre, eligible c → c.logL < best.logL) ∧
        (∀ c ∈ post, eligible c → c.logL ≤ best.logL)) := by
  intro scored eligible best
  obtain ⟨hall, hcase⟩ := best_period_fold_inv rc_stage snp_stage OnePeriod_ctor first_peak_obj0
    periodObjVector0 candidate_period_vec
  constructor
  · intro hnone
    rcases hcase with ⟨_, ho⟩ | ⟨hb, hl, hp, pre, post, hsplit, _⟩
    · exact ho
    · exfalso
      refine hnone best ?_ ⟨hp, ?_⟩
      · show best ∈ scored
        have : scored = pre ++ best :: post := hsplit
        rw [this]; simp
      · show -(10 : ℚ) ^ 99 < best.logL
        rw [hl]; exact hb
  · rintro ⟨c, hc, hpc, hlc⟩
    rcases hcase with ⟨hb, _⟩ | ⟨hb, hl, hp, pre, post, hsplit, hpre⟩
    · exfalso
      have := hall c hc hpc
      rw [hb] at this
      exact absurd hlc (not_lt.mpr this)
    · refine ⟨pre, post, hsplit, ⟨hp, ?_⟩, ?_, ?_⟩
      · show -(10 : ℚ) ^ 99 < best.logL
        rw [hl]; exact hb
      · intro x hx hex
        have := hpre x hx hex.1
        rw [← hl] at this
        exact this
      · intro x hx hex
        have hmem : x ∈ scored := by
          have : scored = pre ++ best :: post := hsplit
          rw [this]; simp [hx]
        have := hall x hmem hex.1
        rw [← hl] at this
        exact this

/-- C2 (as stated) fails: a single scored candidate with `best_purity = 1 > 0`
whose combined `logL` equals the initial `best_period_logL = -1e99` is not
returned; the function returns `OnePeriod()` although a scored candidate with
positive purity exists. -/
theorem C2_counterexample :
    (infer_best_period_by_logL id id example_period example_peak [] [c2_candidate]).best_period_obj
      = example_period ∧
    0 < c2_candidate.no_of_windows ∧
    Dbl.lt (Dbl.fin 0) c2_candidate.best_purity = true ∧
    c2_candidate ≠ example_period := by
  decide!

/-- C1 at `Q = 900`, `period = 500`. -/
theorem C1_witness :
    (500 : Int) ≠ 0 ∧ (900 : Int) ≠ 0 ∧
    (recalibrate_Q_and_purity_based_on_cnv_ploidy example_constants
        { example_period with
          period_int := 500
          ploidy_corrected :=
            (calc_purity_ploidy_from_period_and_cp_no_two example_constants 900 500).2 }
      ).rc_ratio_int_of_cp_2_corrected = Dbl.fin ((900 : Int) : ℚ) ∧
    (recalibrate_Q_and_purity_based_on_cnv_ploidy example_constants
        { example_period with
          period_int := 500
          ploidy_corrected :=
            (calc_purity_ploidy_from_period_and_cp_no_two example_constants 900 500).2 }
      ).purity_corrected =
      (calc_purity_ploidy_from_period_and_cp_no_two example_constants 900 500).1 :=
  ⟨by decide, by decide,
    (C1_purity_ploidy_round_trip example_constants example_period 900 500
      (by decide) (by decide)).2.2⟩

/-! ### Hypothesis range and SNP scoring -/

theorem mem_int_range (lo hi n : Int) : n ∈ int_range lo hi ↔ lo ≤ n ∧ n ≤ hi := by
  unfold int_range
  simp only [List.mem_map, List.mem_range]
  constructor
  · rintro ⟨k, hk, rfl⟩
    omega
  · rintro ⟨h1, h2⟩
    refine ⟨(n - lo).toNat, ?_, ?_⟩ <;> omega

theorem copy_no_hypotheses_le (first_peak_int period_int t n : Int)
    (hn : n ∈ copy_no_hypotheses first_peak_int period_int t) :
    n ≤ ⌊(first_peak_int : ℚ) / (period_int : ℚ) + 1 / 5⌋ := by
  unfold copy_no_hypotheses copy_no_bounds at hn
  simp only at hn
  split_ifs at hn with h1 h2 <;> rw [mem_int_range] at hn <;> simp only at hn <;> omega

theorem cp_no_two_rc_ratio_map (peaks : List OnePeak) (fp p n : Int) (f : OnePeak → OnePeak)
    (hf : ∀ pk, (f pk).peak_center_int = pk.peak_center_int) :
    cp_no_two_rc_ratio (peaks.map f) fp p n = cp_no_two_rc_ratio peaks fp p n := by
  unfold cp_no_two_rc_ratio
  simp only [List.length_map, List.getElem?_map]
  split_ifs with h
  · cases hget : peaks[(2 - n).toNat]? with
    | none => simp
    | some pk => simp [hf]
  · rfl

/-- The bin of copy number 2 is a recorded peak centre or lies at least `9/5`
periods up the axis. -/
theorem cp_no_two_rc_ratio_cases (peaks : List OnePeak) (fp p n : Int) (hp : 0 < p)
    (hn : n ≤ ⌊(fp : ℚ) / (p : ℚ) + 1 / 5⌋) :
    (∃ pk ∈ peaks, cp_no_two_rc_ratio peaks fp p n = pk.peak_center_int) ∨
      (9 * p ≤ 5 * cp_no_two_rc_ratio peaks fp p n) := by
  have hpq : (0 : ℚ) < (p : ℚ) := by exact_mod_cast hp
  have hext : 9 * p ≤ 5 * (fp + (2 - n) * p) := by
    have h1 : ((n : ℤ) : ℚ) ≤ (fp : ℚ) / (p : ℚ) + 1 / 5 := Int.le_floor.mp hn
    have h2 : (n : ℚ) * (p : ℚ) ≤ (fp : ℚ) + (p : ℚ) / 5 := by
      have := mul_le_mul_of_nonneg_right h1 (le_of_lt hpq)
      have e : ((fp : ℚ) / (p : ℚ) + 1 / 5) * (p : ℚ) = (fp : ℚ) + (p : ℚ) / 5 := by
        field_simp
        ring
      rw [e] at this
      exact this
    have h3 : (9 : ℚ) * (p : ℚ) ≤ 5 * ((fp : ℚ) + (2 - (n : ℚ)) * (p : ℚ)) := by linarith
    exact_mod_cast h3
  unfold cp_no_two_rc_ratio
  simp only
  split_ifs with h
  · cases hget : peaks[(2 - n).toNat]? with
    | none => right; simpa using hext
    | some pk =>
      left
      exact ⟨pk, List.mem_iff_getElem?.mpr ⟨_, hget⟩, rfl⟩
  · right; exact hext

/-- The purity `2*period/Q` of a bin `Q ≥ 0` for `period > 0`: positive, and at
most one exactly when `Q ≥ 2*period`. -/
theorem purity_of_nonneg_bin (K : Constants) (Q p : Int) (hp : 0 < p) (hQ : 0 ≤ Q) :
    Dbl.lt (Dbl.fin 0) (calc_purity_ploidy_from_period_and_cp_no_two K Q p).1 = true ∧
    (Dbl.le (calc_purity_ploidy_from_period_and_cp_no_two K Q p).1 (Dbl.fin 1) = true ↔
      2 * p ≤ Q) := by
  have hpq : (0 : ℚ) < (p : ℚ) := by exact_mod_cast hp
  unfold calc_purity_ploidy_from_period_and_cp_no_two
  simp only [Dbl.div]
  rcases eq_or_lt_of_le hQ with h0 | hpos
  · subst h0
    have h2p : (0 : ℚ) < 2 * (p : ℚ) := by linarith
    have hne : (2 * (p : ℚ)) ≠ 0 := ne_of_gt h2p
    simp [Dbl.signedInf, hne, h2p, Dbl.lt, Dbl.le]
    omega
  · have hQq : (0 : ℚ) < (Q : ℚ) := by exact_mod_cast hpos
    have hne : (Q : ℚ) ≠ 0 := ne_of_gt hQq
    simp only [hne, if_false, Dbl.lt, Dbl.le, decide_eq_true_eq]
    constructor
    · positivity
    · rw [div_le_one hQq]
      constructor
      · intro h; exact_mod_cast h
      · intro h; exact_mod_cast h

theorem cp_no_two_rc_ratio_congr (l1 l2 : List OnePeak) (fp p n : Int)
    (h : l1.map (fun pk => pk.peak_center_int) = l2.map (fun pk => pk.peak_center_int)) :
    cp_no_two_rc_ratio l1 fp p n = cp_no_two_rc_ratio l2 fp p n := by
  have hlen : l1.length = l2.length := by simpa using congrArg List.length h
  have hget : (l1[(2 - n).toNat]?).map (fun pk => pk.peak_center_int) =
      (l2[(2 - n).toNat]?).map (fun pk => pk.peak_center_int) := by
    rw [← List.getElem?_map, ← List.getElem?_map, h]
  unfold cp_no_two_rc_ratio
  simp only [hlen]
  split_ifs with hc
  · cases h1 : l1[(2 - n).toNat]? <;> cases h2 : l2[(2 - n).toNat]? <;>
      simp_all
  · rfl

/-- What one iteration of the hypothesis loop does to the fields the claims
speak of. -/
theorem snp_hypothesis_step_facts (K : Constants)
    (maf_scoring : OnePeriod → Int → Dbl → Dbl → MafScore) (logf sqrtf : ℚ → ℚ)
    (fp p : Int) (c : OnePeriod) (n : Int) :
    ((snp_hypothesis_step K maf_scoring logf sqrtf fp p c n).peak_obj_vector.map
        (fun pk => pk.peak_center_int) = c.peak_obj_vector.map (fun pk => pk.peak_center_int)) ∧
    (((snp_hypothesis_step K maf_scoring logf sqrtf fp p c n).purity_vector = c.purity_vector ∧
      (snp_hypothesis_step K maf_scoring logf sqrtf fp p c n).no_of_copy_nos_bf_1st_peak_vector =
        c.no_of_copy_nos_bf_1st_peak_vector ∧
      (snp_hypothesis_step K maf_scoring logf sqrtf fp p c n).best_purity = c.best_purity ∧
      (snp_hypothesis_step K maf_scoring logf sqrtf fp p c n).best_no_of_copy_nos_bf_1st_peak =
        c.best_no_of_copy_nos_bf_1st_peak) ∨
     ((snp_hypothesis_step K maf_scoring logf sqrtf fp p c n).purity_vector = c.purity_vector ++
        [(calc_purity_ploidy_from_period_and_cp_no_two K
          (cp_no_two_rc_ratio c.peak_obj_vector fp p n) p).1] ∧
      (snp_hypothesis_step K maf_scoring logf sqrtf fp p c n).no_of_copy_nos_bf_1st_peak_vector =
        c.no_of_copy_nos_bf_1st_peak_vector ++ [n] ∧
      (((snp_hypothesis_step K maf_scoring logf sqrtf fp p c n).best_purity = c.best_purity ∧
        (snp_hypothesis_step K maf_scoring logf sqrtf fp p c n).best_no_of_copy_nos_bf_1st_peak =
          c.best_no_of_copy_nos_bf_1st_peak) ∨
       ((snp_hypothesis_step K maf_scoring logf sqrtf fp p c n).best_purity =
          (calc_purity_ploidy_from_period_and_cp_no_two K
            (cp_no_two_rc_ratio c.peak_obj_vector fp p n) p).1 ∧
        (snp_hypothesis_step K maf_scoring logf sqrtf fp p c n).best_no_of_copy_nos_bf_1st_peak
          = n)))) := by
  unfold snp_hypothesis_step
  simp only
  split_ifs <;> simp [Function.comp_def]

theorem snp_fold_facts (K : Constants)
    (maf_scoring : OnePeriod → Int → Dbl → Dbl → MafScore) (logf sqrtf : ℚ → ℚ)
    (fp p : Int) (ns : List Int) (c : OnePeriod) :
    SnpRecorded K fp p ns c
      (ns.foldl (snp_hypothesis_step K maf_scoring logf sqrtf fp p) c) := by
  induction ns generalizing c with
  | nil =>
    refine ⟨rfl, ⟨[], [], by simp, by simp, by simp, by simp⟩, Or.inl ⟨rfl, rfl⟩⟩
  | cons n rest ih =>
    simp only [List.foldl_cons]
    obtain ⟨hc, hrec, hbest⟩ := ih (snp_hypothesis_step K maf_scoring logf sqrtf fp p c n)
    obtain ⟨sc, sfacts⟩ := snp_hypothesis_step_facts K maf_scoring logf sqrtf fp p c n
    have hQ : ∀ m, cp_no_two_rc_ratio
        (snp_hypothesis_step K maf_scoring logf sqrtf fp p c n).peak_obj_vector fp p m =
        cp_no_two_rc_ratio c.peak_obj_vector fp p m :=
      fun m => cp_no_two_rc_ratio_congr _ _ fp p m sc
    generalize snp_hypothesis_step K maf_scoring logf sqrtf fp p c n = c1 at *
    generalize List.foldl (snp_hypothesis_step K maf_scoring logf sqrtf fp p) c1 rest = c2 at *
    obtain ⟨recP, recN, hP, hN, hPall, hNall⟩ := hrec
    refine ⟨hc.trans sc, ?_, ?_⟩
    · rcases sfacts with ⟨s1, s2, _, _⟩ | ⟨s1, s2, _⟩
      · refine ⟨recP, recN, by rw [hP, s1], by rw [hN, s2], ?_, ?_⟩
        · intro d hd
          obtain ⟨m, hm, hd2⟩ := hPall d hd
          exact ⟨m, List.mem_cons_of_mem _ hm, by rw [hd2, hQ]⟩
        · intro m hm
          exact List.mem_cons_of_mem _ (hNall m hm)
      · refine ⟨(calc_purity_ploidy_from_period_and_cp_no_two K
            (cp_no_two_rc_ratio c.peak_obj_vector fp p n) p).1 :: recP, n :: recN,
          by rw [hP, s1]; simp, by rw [hN, s2]; simp, ?_, ?_⟩
        · intro d hd
          rcases List.mem_cons.mp hd with h | h
          · exact ⟨n, List.mem_cons_self _ _, h⟩
          · obtain ⟨m, hm, hd2⟩ := hPall d h
            exact ⟨m, List.mem_cons_of_mem _ hm, by rw [hd2, hQ]⟩
        · intro m hm
          rcases List.mem_cons.mp hm with h | h
          · rw [h]; exact List.mem_cons_self _ _
          · exact List.mem_cons_of_mem _ (hNall m h)
    · rcases hbest with ⟨b1, b2⟩ | ⟨m, hm, b1, b2⟩
      · rcases sfacts with ⟨_, _, s3, s4⟩ | ⟨_, _, ⟨s3, s4⟩ | ⟨s3, s4⟩⟩
        · exact Or.inl ⟨b1.trans s3, b2.trans s4⟩
        · exact Or.inl ⟨b1.trans s3, b2.trans s4⟩
        · exact Or.inr ⟨n, List.mem_cons_self _ _, b1.trans s3, b2.trans s4⟩
      · exact Or.inr ⟨m, List.mem_cons_of_mem _ hm, by rw [b1, hQ], b2⟩

/-- C4: for `period > 0` (and a non-empty peak list), every hypothesis `n` the
loop visits, every `n` it records and the best `n` when set are at most
`floor(first_peak_int / period_int + 0.2)`. -/
theorem C4_copy_no_deficit_bound (K : Constants)
    (sort_by_windows sort_by_center : List OnePeak → List OnePeak)
    (maf_scoring : OnePeriod → Int → Dbl → Dbl → MafScore) (logf sqrtf : ℚ → ℚ)
    (c : OnePeriod) (hp : 0 < c.period_int)
    (hne : sort_by_windows c.peak_obj_vector ≠ []) :
    (∀ t n, n ∈ copy_no_hypotheses c.first_peak_obj.peak_center_int c.period_int t →
      n ≤ ⌊(c.first_peak_obj.peak_center_int : ℚ) / (c.period_int : ℚ) + 1 / 5⌋) ∧
    ∃ r, infer_no_of_copy_nos_bf_1st_peak_for_one_period_by_logL_snp K sort_by_windows
        sort_by_center maf_scoring logf sqrtf c = some r ∧
      ∃ recN, r.2.no_of_copy_nos_bf_1st_peak_vector =
          c.no_of_copy_nos_bf_1st_peak_vector ++ recN ∧
        (∀ n ∈ recN,
          n ≤ ⌊(c.first_peak_obj.peak_center_int : ℚ) / (c.period_int : ℚ) + 1 / 5⌋) ∧
        (r.2.best_no_of_copy_nos_bf_1st_peak = c.best_no_of_copy_nos_bf_1st_peak ∨
          r.2.best_no_of_copy_nos_bf_1st_peak ≤
            ⌊(c.first_peak_obj.peak_center_int : ℚ) / (c.period_int : ℚ) + 1 / 5⌋) := by
  refine ⟨fun t n hn => copy_no_hypotheses_le _ _ t n hn, ?_⟩
  unfold infer_no_of_copy_nos_bf_1st_peak_for_one_period_by_logL_snp
  simp only
  cases hs : sort_by_windows c.peak_obj_vector with
  | nil => exact absurd hs hne
  | cons tallest rest =>
    simp only
    split_ifs with ht h0
    · exact ⟨_, rfl, [], by simp, by simp, Or.inl rfl⟩
    · exact absurd h0 (ne_of_gt hp)
    · refine ⟨_, rfl, ?_⟩
      obtain ⟨_, ⟨_, recN, _, hN, _, hNall⟩, hbest⟩ := snp_fold_facts K maf_scoring logf sqrtf
        c.first_peak_obj.peak_center_int c.period_int
        (copy_no_hypotheses c.first_peak_obj.peak_center_int c.period_int tallest.peak_index)
        { c with best_logL_snp := -(10 : ℚ) ^ 99
                 peak_obj_vector := sort_by_center (tallest :: rest) }
      refine ⟨recN, hN, ?_, ?_⟩
      · intro n hn
        exact copy_no_hypotheses_le _ _ _ n (hNall n hn)
      · rcases hbest with ⟨_, h⟩ | ⟨n, hn, _, h⟩
        · exact Or.inl h
        · right
          rw [h]
          exact copy_no_hypotheses_le _ _ _ n hn

/-- C4 at a concrete candidate (period 500, first peak at bin 450). -/
theorem C4_witness :
    0 < c3_candidate.period_int ∧
    ∃ r, infer_no_of_copy_nos_bf_1st_peak_for_one_period_by_logL_snp example_constants
        example_sort_by_windows example_sort_by_center example_maf_scoring (fun _ => 0)
        (fun x => x) c3_candidate = some r ∧
      ∃ recN, r.2.no_of_copy_nos_bf_1st_peak_vector =
          c3_candidate.no_of_copy_nos_bf_1st_peak_vector ++ recN ∧
        (∀ n ∈ recN, n ≤ ⌊(c3_candidate.first_peak_obj.peak_center_int : ℚ) /
          (c3_candidate.period_int : ℚ) + 1 / 5⌋) ∧
        (r.2.best_no_of_copy_nos_bf_1st_peak = c3_candidate.best_no_of_copy_nos_bf_1st_peak ∨
          r.2.best_no_of_copy_nos_bf_1st_peak ≤
            ⌊(c3_candidate.first_peak_obj.peak_center_int : ℚ) /
              (c3_candidate.period_int : ℚ) + 1 / 5⌋) :=
  ⟨by decide!, (C4_copy_no_deficit_bound example_constants example_sort_by_windows
    example_sort_by_center example_maf_scoring (fun _ => 0) (fun x => x) c3_candidate
    (by decide!) (by decide!)).2⟩

/-- C3 (amended): for `period > 0` and non-negative peak centres, every purity
that the function appends to `purity_vector` or stores in `best_purity` is
positive and equals `2*period/Q` for the bin `Q ≥ 0` assigned to copy number 2;
it is at most one exactly when `Q ≥ 2*period`, which the function does not
test. -/
theorem C3_recorded_purity (K : Constants)
    (sort_by_windows sort_by_center : List OnePeak → List OnePeak)
    (maf_scoring : OnePeriod → Int → Dbl → Dbl → MafScore) (logf sqrtf : ℚ → ℚ)
    (c : OnePeriod) (hp : 0 < c.period_int)
    (hcent : ∀ pk ∈ c.peak_obj_vector, 0 ≤ pk.peak_center_int)
    (hne : c.peak_obj_vector ≠ [])
    (hs1 : ∀ l, (sort_by_windows l).Perm l) (hs2 : ∀ l, (sort_by_center l).Perm l) :
    ∃ r, infer_no_of_copy_nos_bf_1st_peak_for_one_period_by_logL_snp K sort_by_windows
        sort_by_center maf_scoring logf sqrtf c = some r ∧
      ∃ recP, r.2.purity_vector = c.purity_vector ++ recP ∧
        (∀ d ∈ recP, RecordedPurity K c.period_int d) ∧
        (r.2.best_purity = c.best_purity ∨ RecordedPurity K c.period_int r.2.best_purity) := by
  have hne2 : sort_by_windows c.peak_obj_vector ≠ [] := by
    intro h
    have := (hs1 c.peak_obj_vector).length_eq
    rw [h] at this
    exact hne (List.length_eq_zero.mp this.symm)
  unfold infer_no_of_copy_nos_bf_1st_peak_for_one_period_by_logL_snp
  simp only
  cases hs : sort_by_windows c.peak_obj_vector with
  | nil => exact absurd hs hne2
  | cons tallest rest =>
    simp only
    split_ifs with ht h0
    · exact ⟨_, rfl, [], by simp, by simp, Or.inl rfl⟩
    · exact absurd h0 (ne_of_gt hp)
    · refine ⟨_, rfl, ?_⟩
      obtain ⟨_, ⟨recP, _, hP, _, hPall, _⟩, hbest⟩ := snp_fold_facts K maf_scoring logf sqrtf
        c.first_peak_obj.peak_center_int c.period_int
        (copy_no_hypotheses c.first_peak_obj.peak_center_int c.period_int tallest.peak_index)
        { c with best_logL_snp := -(10 : ℚ) ^ 99
                 peak_obj_vector := sort_by_center (tallest :: rest) }
      have hcent2 : ∀ pk ∈ sort_by_center (tallest :: rest), 0 ≤ pk.peak_center_int := by
        intro pk hpk
        have h1 : pk ∈ tallest :: rest := (hs2 _).mem_iff.mp hpk
        rw [← hs] at h1
        exact hcent pk ((hs1 _).mem_iff.mp h1)
      have hgood : ∀ n ∈ copy_no_hypotheses c.first_peak_obj.peak_center_int c.period_int
          tallest.peak_index,
          RecordedPurity K c.period_int (calc_purity_ploidy_from_period_and_cp_no_two K
            (cp_no_two_rc_ratio (sort_by_center (tallest :: rest))
              c.first_peak_obj.peak_center_int c.period_int n) c.period_int).1 := by
        intro n hn
        have hle := copy_no_hypotheses_le _ _ _ n hn
        have hQ : 0 ≤ cp_no_two_rc_ratio (sort_by_center (tallest :: rest))
            c.first_peak_obj.peak_center_int c.period_int n := by
          rcases cp_no_two_rc_ratio_cases (sort_by_center (tallest :: rest))
            c.first_peak_obj.peak_center_int c.period_int n hp hle with ⟨pk, hpk, he⟩ | h9
          · rw [he]; exact hcent2 pk hpk
          · omega
        obtain ⟨g1, g2⟩ := purity_of_nonneg_bin K _ c.period_int hp hQ
        exact ⟨g1, _, hQ, rfl, g2⟩
      refine ⟨recP, hP, ?_, ?_⟩
      · intro d hd
        obtain ⟨n, hn, rfl⟩ := hPall d hd
        exact hgood n hn
      · rcases hbest with ⟨h, _⟩ | ⟨n, hn, h, _⟩
        · exact Or.inl h
        · right
          rw [h]
          exact hgood n hn

/-- C3 at a concrete candidate (period 500, peaks at 450, 950, 1450). -/
theorem C3_witness :
    0 < c3_candidate.period_int ∧
    ∃ r, infer_no_of_copy_nos_bf_1st_peak_for_one_period_by_logL_snp example_constants
        example_sort_by_windows example_sort_by_center example_maf_scoring (fun _ => 0)
        (fun x => x) c3_candidate = some r ∧
      ∃ recP, r.2.purity_vector = c3_candidate.purity_vector ++ recP ∧
        (∀ d ∈ recP, RecordedPurity example_constants c3_candidate.period_int d) ∧
        (r.2.best_purity = c3_candidate.best_purity ∨
          RecordedPurity example_constants c3_candidate.period_int r.2.best_purity) :=
  ⟨by decide!, C3_recorded_purity example_constants example_sort_by_windows
    example_sort_by_center example_maf_scoring (fun _ => 0) (fun x => x) c3_candidate
    (by decide!) (by decide!) (by decide!)
    (fun l => List.perm_insertionSort _ l) (fun l => List.perm_insertionSort _ l)⟩

/-- C3 (as stated) fails: for the candidate of period 500 with non-negative
peak centres 450, 950, 1450 (tallest peak of index 1), the one hypothesis
`n = 1` assigns copy number 2 to bin 950; ploidy `2 + 50/500 = 2.1` passes the
range test and the purity `1000/950 = 20/19 > 1` is appended to
`purity_vector` and stored in `best_purity`. -/
theorem C3_counterexample :
    0 < c3_candidate.period_int ∧
    (∀ pk ∈ c3_candidate.peak_obj_vector, 0 ≤ pk.peak_center_int) ∧
    (infer_no_of_copy_nos_bf_1st_peak_for_one_period_by_logL_snp example_constants
        example_sort_by_windows example_sort_by_center example_maf_scoring (fun _ => 0)
        (fun x => x) c3_candidate).map (fun r => (r.2.purity_vector, r.2.best_purity, r.2.best_ploidy))
      = some ([Dbl.fin (20 / 19)], Dbl.fin (20 / 19), Dbl.fin (21 / 10)) ∧
    Dbl.le (Dbl.fin (20 / 19)) (Dbl.fin 1) = false := by
  decide!

/-! ### Peak location -/

/-- The projection loop with enough fuel: its peaks are exactly the projections
for the indices `k ≥ i` with centre on the axis, in increasing order. -/
theorem find_peaks_project_spec (K : Constants) (segments : List OneSegment)
    (p hw c0 : Int) (hp : 1 ≤ p) (fuel : Nat) (i : Int)
    (hfuel : (K.MAX_RATIO_HIGH_RES - (c0 + p * i) + 1).toNat ≤ fuel) :
    ∃ n : Nat, find_peaks_project K segments p hw c0 fuel i =
        (List.range n).map (fun (k : Nat) => find_peaks_project_one K segments p hw c0 (i + k)) ∧
      (∀ k : Nat, k < n ↔ c0 + p * (i + k) ≤ K.MAX_RATIO_HIGH_RES) := by
  induction fuel generalizing i with
  | zero =>
    refine ⟨0, by simp [find_peaks_project], ?_⟩
    intro k
    have hk : p * (i + k) = p * i + p * k := by ring
    have hpk : 0 ≤ p * (k : Int) := mul_nonneg (by omega) (by omega)
    constructor
    · intro h; omega
    · intro h; omega
  | succ fuel ih =>
    unfold find_peaks_project
    split_ifs with hcond
    · have hi1 : p * (i + 1) = p * i + p := by ring
      obtain ⟨n, hn, hspec⟩ := ih (i + 1) (by omega)
      refine ⟨n + 1, ?_, ?_⟩
      · rw [hn, List.range_succ_eq_map]
        simp only [List.map_cons, List.map_map, Nat.cast_zero, add_zero]
        congr 1
        apply List.map_congr_left
        intro k _
        simp only [Function.comp]
        congr 1
        push_cast
        ring
      · intro k
        cases k with
        | zero => simpa using hcond
        | succ k =>
          have := hspec k
          have e : i + ((k + 1 : Nat) : Int) = i + 1 + (k : Int) := by push_cast; ring
          rw [e]
          omega
    · refine ⟨0, by simp, ?_⟩
      intro k
      have hk : p * (i + k) = p * i + p * k := by ring
      have hpk : 0 ≤ p * (k : Int) := mul_nonneg (by omega) (by omega)
      constructor
      · intro h; omega
      · intro h; omega

theorem find_peaks_add_segment_facts (acc : OnePeak × ℚ) (sg : OneSegment) :
    (find_peaks_add_segment acc sg).1.position = acc.1.position ∧
    (find_peaks_add_segment acc sg).1.segment_obj_vector = acc.1.segment_obj_vector ++ [sg] := by
  unfold find_peaks_add_segment
  simp only
  split_ifs <;> simp [OnePeak.position]

theorem find_peaks_add_segments_facts (l : List OneSegment) (acc : OnePeak × ℚ) :
    (l.foldl find_peaks_add_segment acc).1.position = acc.1.position ∧
    (l.foldl find_peaks_add_segment acc).1.segment_obj_vector = acc.1.segment_obj_vector ++ l := by
  induction l generalizing acc with
  | nil => simp
  | cons a rest ih =>
    simp only [List.foldl_cons]
    obtain ⟨h1, h2⟩ := ih (find_peaks_add_segment acc a)
    obtain ⟨h3, h4⟩ := find_peaks_add_segment_facts acc a
    exact ⟨h1.trans h3, by rw [h2, h4]; simp⟩

theorem find_peaks_bins_facts (K : Constants) (segments : List OneSegment) (bins : List Int)
    (acc : OnePeak × ℚ) :
    (bins.foldl (fun acc rc_ratio_int =>
      (rc_ratio_segments K segments rc_ratio_int).foldl find_peaks_add_segment
        ({ acc.1 with segment_rc_ratio_vector := acc.1.segment_rc_ratio_vector ++ [rc_ratio_int] },
          acc.2)) acc).1.position = acc.1.position ∧
    (bins.foldl (fun acc rc_ratio_int =>
      (rc_ratio_segments K segments rc_ratio_int).foldl find_peaks_add_segment
        ({ acc.1 with segment_rc_ratio_vector := acc.1.segment_rc_ratio_vector ++ [rc_ratio_int] },
          acc.2)) acc).1.segment_obj_vector =
      acc.1.segment_obj_vector ++ bins.flatMap (rc_ratio_segments K segments) := by
  induction bins generalizing acc with
  | nil => simp
  | cons b rest ih =>
    simp only [List.foldl_cons, List.flatMap_cons]
    obtain ⟨h1, h2⟩ := ih ((rc_ratio_segments K segments b).foldl find_peaks_add_segment
      ({ acc.1 with segment_rc_ratio_vector := acc.1.segment_rc_ratio_vector ++ [b] }, acc.2))
    obtain ⟨h3, h4⟩ := find_peaks_add_segments_facts (rc_ratio_segments K segments b)
      ({ acc.1 with segment_rc_ratio_vector := acc.1.segment_rc_ratio_vector ++ [b] }, acc.2)
    refine ⟨h1.trans (h3.trans rfl), ?_⟩
    rw [h2, h4]
    simp

/-- The aggregation pass keeps a peak where it is and fills its
`segment_obj_vector` with the segments filed under the bins of its range. -/
theorem find_peaks_aggregate_facts (K : Constants) (segments : List OneSegment) (pk : OnePeak) :
    (find_peaks_aggregate K segments pk).position = pk.position ∧
    (find_peaks_aggregate K segments pk).segment_obj_vector =
      (int_range pk.lower_bound_int pk.upper_bound_int).flatMap
        (rc_ratio_segments K segments) := by
  unfold find_peaks_aggregate
  simp only
  obtain ⟨h1, h2⟩ := find_peaks_bins_facts K segments
    (int_range pk.ResetCounters.lower_bound_int pk.ResetCounters.upper_bound_int)
    (pk.ResetCounters, 0)
  have hpos : pk.ResetCounters.position = pk.position := rfl
  have hseg : pk.ResetCounters.segment_obj_vector = [] := rfl
  have hlo : pk.ResetCounters.lower_bound_int = pk.lower_bound_int := rfl
  have hup : pk.ResetCounters.upper_bound_int = pk.upper_bound_int := rfl
  rw [hlo, hup] at h1 h2 ⊢
  split_ifs
  · refine ⟨?_, ?_⟩
    · exact (h1.trans hpos)
    · simpa [hseg] using h2
  · exact ⟨h1.trans hpos, by simpa [hseg] using h2⟩

/-- Shape of the result of `find_peaks` for `period ≥ 1`: one aggregated
projection per index `k` with `first centre + k*period` on the axis. -/
theorem find_peaks_shape (K : Constants) (segments : List OneSegment) (period_obj : OnePeriod)
    (first_peak_obj : OnePeak) (hp : 1 ≤ period_obj.period_int) :
    ∃ n : Nat, find_peaks K segments period_obj first_peak_obj =
        some ((List.range n).map (fun (k : Nat) =>
          find_peaks_aggregate K segments (find_peaks_project_one K segments
            period_obj.period_int (find_peaks_half_width period_obj.period_int first_peak_obj)
            first_peak_obj.peak_center_int k))) ∧
      (∀ k : Nat, k < n ↔
        first_peak_obj.peak_center_int + period_obj.period_int * k ≤ K.MAX_RATIO_HIGH_RES) := by
  obtain ⟨n, hn, hspec⟩ := find_peaks_project_spec K segments period_obj.period_int
    (find_peaks_half_width period_obj.period_int first_peak_obj)
    first_peak_obj.peak_center_int hp
    (K.MAX_RATIO_HIGH_RES - first_peak_obj.peak_center_int + 1).toNat 0 (by simp)
  refine ⟨n, ?_, ?_⟩
  · unfold find_peaks
    simp only
    rw [if_neg (by omega), hn]
    simp [List.map_map, Function.comp_def]
  · intro k
    simpa using hspec k

/-- In a list sorted largest first with non-negative entries, no sublist of at
most `k` entries sums to more than the first `k` entries. -/
theorem sum_sublist_le_take (l : List ℚ) (hs : l.Sorted (fun a b => b ≤ a))
    (h0 : ∀ x ∈ l, 0 ≤ x) (m : List ℚ) (k : Nat) (hm : m.Sublist l) (hk : m.length ≤ k) :
    m.sum ≤ (l.take k).sum := by
  induction l generalizing m k with
  | nil =>
    have : m = [] := List.sublist_nil.mp hm
    subst this
    simp
  | cons a l' ih =>
    have hs' : l'.Sorted (fun a b => b ≤ a) := hs.of_cons
    have h0' : ∀ x ∈ l', 0 ≤ x := fun x hx => h0 x (List.mem_cons_of_mem _ hx)
    cases m with
    | nil =>
      simp only [List.sum_nil]
      apply List.sum_nonneg
      intro x hx
      exact h0 x (List.mem_of_mem_take hx)
    | cons x t =>
      cases k with
      | zero => simp at hk
      | succ k' =>
        simp only [List.take_succ_cons, List.sum_cons]
        have hxa : x ≤ a := by
          have hx : x ∈ a :: l' := hm.subset (List.mem_cons_self _ _)
          rcases List.mem_cons.mp hx with h | h
          · rw [h]
          · exact List.rel_of_sorted_cons hs x h
        have ht : t.Sublist l' := by
          cases hm with
          | cons _ h => exact (List.sublist_cons_self x t).trans h
          | cons₂ _ h => exact h
        have := ih hs' h0' t k' ht (by simpa using hk)
        linarith

/-- The sum of the `k` largest entries of a non-negative list bounds the sum
of any sublist of at most `k` entries. -/
theorem sum_sublist_le_top (l : List ℚ) (h0 : ∀ x ∈ l, 0 ≤ x) (m : List ℚ) (k : Nat)
    (hm : m.Sublist l) (hk : m.length ≤ k) :
    m.sum ≤ ((l.insertionSort (fun a b => b ≤ a)).take k).sum := by
  have hperm : (l.insertionSort (fun a b => b ≤ a)).Perm l := List.perm_insertionSort _ l
  have hsub : m.Subperm (l.insertionSort (fun a b => b ≤ a)) :=
    hm.subperm.trans hperm.symm.subperm
  obtain ⟨m', hm'p, hm's⟩ := hsub
  have hsorted : (l.insertionSort (fun a b => b ≤ a)).Sorted (fun a b => b ≤ a) := by
    haveI : IsTotal ℚ (fun a b => b ≤ a) := ⟨fun a b => le_total b a⟩
    haveI : IsTrans ℚ (fun a b => b ≤ a) := ⟨fun a b c hab hbc => le_trans hbc hab⟩
    exact List.sorted_insertionSort _ l
  have h0s : ∀ x ∈ l.insertionSort (fun a b => b ≤ a), 0 ≤ x :=
    fun x hx => h0 x (hperm.mem_iff.mp hx)
  have := sum_sublist_le_take _ hsorted h0s m' k hm's (by rw [hm'p.length_eq]; exact hk)
  rw [hm'p.sum_eq] at this
  exact this

theorem autocor_raw_eq (K : Constants) (pdf : List ℚ) (shift : Nat) :
    autocor_raw K pdf shift =
      ((((List.range (pdf.length - shift)).map
          (fun i => pdf.getD i 0 * pdf.getD (i + shift) 0)).insertionSort
          (fun a b => b ≤ a)).take
        (min (((List.range (pdf.length - shift)).map
          (fun i => pdf.getD i 0 * pdf.getD (i + shift) 0)).length : Int)
          K.MAX_NUM_OF_COR_TO_SUM).toNat).sum := by
  unfold autocor_raw
  simp only
  split_ifs with h
  · rfl
  · have : (min (((List.range (pdf.length - shift)).map
          (fun i => pdf.getD i 0 * pdf.getD (i + shift) 0)).length : Int)
          K.MAX_NUM_OF_COR_TO_SUM).toNat = 0 := by omega
    rw [this]
    simp

theorem getD_nonneg (pdf : List ℚ) (h0 : ∀ x ∈ pdf, 0 ≤ x) (i : Nat) : 0 ≤ pdf.getD i 0 := by
  rw [List.getD_eq_getElem?_getD]
  cases h : pdf[i]? with
  | none => simp
  | some x => simpa using h0 x (List.mem_iff_getElem?.mpr ⟨i, h⟩)

theorem map_add_range_sublist (n s : Nat) :
    ((List.range n).map (fun i => i + s)).Sublist (List.range (n + s)) := by
  have h : List.range (n + s) = List.range s ++ (List.range n).map (fun i => i + s) := by
    rw [Nat.add_comm n s, List.range_add]
    congr 1
    apply List.map_congr_left
    intro i _
    exact Nat.add_comm s i
  rw [h]
  exact List.sublist_append_right _ _

/-- The raw correlation at any shift is at most the raw correlation at shift
zero: `2ab ≤ a² + b²`, and the squares picked this way are among the squares
that shift zero sorts. -/
theorem autocor_raw_le_zero_shift (K : Constants) (pdf : List ℚ)
    (shift : Nat) : autocor_raw K pdf shift ≤ autocor_raw K pdf 0 := by
  rw [autocor_raw_eq K pdf shift, autocor_raw_eq K pdf 0]
  simp only [List.length_map, List.length_range, Nat.sub_zero, Nat.add_zero]
  -- the top products are the products over a sublist `is` of the index range
  have hperm := List.perm_insertionSort (fun a b : ℚ => b ≤ a)
    ((List.range (pdf.length - shift)).map (fun i => pdf.getD i 0 * pdf.getD (i + shift) 0))
  have hsub : (((List.range (pdf.length - shift)).map
      (fun i => pdf.getD i 0 * pdf.getD (i + shift) 0)).insertionSort (fun a b => b ≤ a)).take
      (min ((pdf.length - shift : Nat) : Int) K.MAX_NUM_OF_COR_TO_SUM).toNat |>.Subperm
      ((List.range (pdf.length - shift)).map (fun i => pdf.getD i 0 * pdf.getD (i + shift) 0)) :=
    (List.take_sublist _ _).subperm.trans hperm.subperm
  obtain ⟨m', hm'p, hm's⟩ := hsub
  obtain ⟨is, his, rfl⟩ := List.sublist_map_iff.mp hm's
  rw [← hm'p.sum_eq]
  have hlen : is.length ≤ (min ((pdf.length : Nat) : Int) K.MAX_NUM_OF_COR_TO_SUM).toNat := by
    have h1 : (is.map (fun i => pdf.getD i 0 * pdf.getD (i + shift) 0)).length ≤
        (min ((pdf.length - shift : Nat) : Int) K.MAX_NUM_OF_COR_TO_SUM).toNat := by
      rw [hm'p.length_eq]
      exact List.length_take_le _ _
    rw [List.length_map] at h1
    omega
  -- squares at the indices and at the shifted indices are sublists of the squares
  have hsq0 : ∀ x ∈ (List.range pdf.length).map (fun i => pdf.getD i 0 * pdf.getD i 0),
      0 ≤ x := by
    intro x hx
    obtain ⟨i, _, rfl⟩ := List.mem_map.mp hx
    exact mul_self_nonneg _
  have hA : (is.map (fun i => pdf.getD i 0 * pdf.getD i 0)).sum ≤
      ((((List.range pdf.length).map (fun i => pdf.getD i 0 * pdf.getD i 0)).insertionSort
        (fun a b => b ≤ a)).take
        (min ((pdf.length : Nat) : Int) K.MAX_NUM_OF_COR_TO_SUM).toNat).sum := by
    apply sum_sublist_le_top _ hsq0 _ _ _ (by simpa using hlen)
    apply List.Sublist.map
    exact his.trans (List.range_sublist.mpr (Nat.sub_le _ _))
  have hB : (is.map (fun i => pdf.getD (i + shift) 0 * pdf.getD (i + shift) 0)).sum ≤
      ((((List.range pdf.length).map (fun i => pdf.getD i 0 * pdf.getD i 0)).insertionSort
        (fun a b => b ≤ a)).take
        (min ((pdf.length : Nat) : Int) K.MAX_NUM_OF_COR_TO_SUM).toNat).sum := by
    have e : is.map (fun i => pdf.getD (i + shift) 0 * pdf.getD (i + shift) 0) =
        (is.map (fun i => i + shift)).map (fun i => pdf.getD i 0 * pdf.getD i 0) := by
      simp [List.map_map, Function.comp_def]
    rw [e]
    apply sum_sublist_le_top _ hsq0 _ _ _ (by simpa using hlen)
    apply List.Sublist.map
    by_cases hsh : shift ≤ pdf.length
    · have h1 : (is.map (fun i => i + shift)).Sublist
          ((List.range (pdf.length - shift)).map (fun i => i + shift)) := his.map _
      exact h1.trans (by
        have := map_add_range_sublist (pdf.length - shift) shift
        have e2 : pdf.length - shift + shift = pdf.length := by omega
        rw [e2] at this
        exact this)
    · have : pdf.length - shift = 0 := by omega
      rw [this] at his
      simp only [List.range_zero, List.sublist_nil] at his
      subst his
      simp
  -- `2ab ≤ a² + b²` termwise
  have hC : (is.map (fun i => pdf.getD i 0 * pdf.getD (i + shift) 0)).sum ≤
      ((is.map (fun i => pdf.getD i 0 * pdf.getD i 0)).sum +
        (is.map (fun i => pdf.getD (i + shift) 0 * pdf.getD (i + shift) 0)).sum) / 2 := by
    clear hA hB hlen his hm'p hm's
    induction is with
    | nil => simp
    | cons a rest ih =>
      simp only [List.map_cons, List.sum_cons]
      have := sq_nonneg (pdf.getD a 0 - pdf.getD (a + shift) 0)
      nlinarith
  linarith

theorem length_wr (a : List ℚ) (i : Int) (v : ℚ) : (wr a i v).length = a.length := by
  unfold wr
  split_ifs <;> simp

theorem rd_wr (a : List ℚ) (i j : Int) (v : ℚ) (hj0 : 0 ≤ j) (hj : j < a.length) :
    rd (wr a i v) j = if i = j then v else rd a j := by
  have hjn : j.toNat < a.length := by omega
  unfold rd
  rw [if_neg (not_lt.mpr hj0), if_neg (not_lt.mpr hj0)]
  unfold wr
  by_cases hi : i < 0
  · rw [if_pos hi, if_neg (by omega)]
  · rw [if_neg hi, List.getD_eq_getElem?_getD, List.getD_eq_getElem?_getD, List.getElem?_set]
    by_cases hij : i = j
    · subst hij
      simp [hjn]
    · have hne : i.toNat ≠ j.toNat := by omega
      simp [hne, hij]

theorem foldl_wr (f : Int → ℚ) (l : List Int) (a : List ℚ) :
    (l.foldl (fun a i => wr a i (f i)) a).length = a.length ∧
    ∀ j : Int, 0 ≤ j → j < a.length →
      rd (l.foldl (fun a i => wr a i (f i)) a) j = if j ∈ l then f j else rd a j := by
  induction l generalizing a with
  | nil => simp
  | cons i rest ih =>
    simp only [List.foldl_cons]
    obtain ⟨h1, h2⟩ := ih (wr a i (f i))
    refine ⟨by rw [h1, length_wr], ?_⟩
    intro j hj0 hj
    rw [h2 j hj0 (by rw [length_wr]; exact hj), rd_wr a i j (f i) hj0 hj]
    by_cases hr : j ∈ rest
    · simp [hr]
    · by_cases hij : i = j
      · subst hij; simp
      · have : j ∉ i :: rest := by
          intro h
          rcases List.mem_cons.mp h with h | h
          · exact hij h.symm
          · exact hr h
        simp [hr, hij, this]

/-- Every entry of `_cor_array` is overwritten with the moving average of the
raw correlations. -/
theorem calculate_autocor_rd (K : Constants) (pdf cor : List ℚ) (hn : 3 ≤ K.kPeriodMax)
    (hlen : cor.length = K.kPeriodMax + 1) :
    (calculate_autocor K pdf cor).length = K.kPeriodMax + 1 ∧
    ∀ s : Int, 0 ≤ s → s ≤ K.kPeriodMax →
      rd (calculate_autocor K pdf cor) s =
        autocor_smoothed (rd ((List.range (K.kPeriodMax + 1)).map (autocor_raw K pdf)))
          K.kPeriodMax s := by
  unfold calculate_autocor
  simp only
  obtain ⟨n, hnn⟩ : ∃ n : Nat, n = K.kPeriodMax := ⟨_, rfl⟩
  rw [← hnn] at hn hlen ⊢
  generalize rd ((List.range (n + 1)).map (autocor_raw K pdf)) = raw
  obtain ⟨fl, fr⟩ := foldl_wr
    (fun i => (raw (i - 2) + raw (i - 1) + raw i + raw (i + 1) + raw (i + 2)) / 5)
    (int_range 2 ((n : Int) - 2))
    (wr (wr cor 0 ((raw 0 + raw 1 + raw 2) / 3)) 1 ((raw 0 + raw 1 + raw 2 + raw 3) / 4))
  refine ⟨by rw [length_wr, length_wr, fl, length_wr, length_wr, hlen], ?_⟩
  intro s hs0 hsn
  have hl1 : (wr cor 0 ((raw 0 + raw 1 + raw 2) / 3)).length = n + 1 := by rw [length_wr, hlen]
  have hl2 : (wr (wr cor 0 ((raw 0 + raw 1 + raw 2) / 3)) 1
      ((raw 0 + raw 1 + raw 2 + raw 3) / 4)).length = n + 1 := by rw [length_wr, hl1]
  rw [rd_wr _ _ _ _ hs0 (by rw [length_wr, fl, hl2]; omega),
    rd_wr _ _ _ _ hs0 (by rw [fl, hl2]; omega),
    fr s hs0 (by rw [hl2]; omega),
    rd_wr _ _ _ _ hs0 (by rw [hl1]; omega),
    rd_wr _ _ _ _ hs0 (by rw [hlen]; omega)]
  unfold autocor_smoothed
  simp only [mem_int_range]
  split_ifs <;> first | rfl | omega

theorem rd_range_map (f : Nat → ℚ) (n : Nat) (i : Int) (h0 : 0 ≤ i) (hn : i ≤ n) :
    rd ((List.range (n + 1)).map f) i = f i.toNat := by
  unfold rd
  rw [if_neg (not_lt.mpr h0), List.getD_eq_getElem?_getD, List.getElem?_map,
    List.getElem?_range (by omega)]
  rfl

theorem autocor_raw_zero_nonneg (K : Constants) (pdf : List ℚ) : 0 ≤ autocor_raw K pdf 0 := by
  rw [autocor_raw_eq]
  apply List.sum_nonneg
  intro x hx
  have hx2 := (List.perm_insertionSort (fun a b : ℚ => b ≤ a) _).mem_iff.mp
    (List.mem_of_mem_take hx)
  obtain ⟨i, _, rfl⟩ := List.mem_map.mp hx2
  exact mul_self_nonneg _

theorem autocor_raw_nonneg (K : Constants) (pdf : List ℚ) (h0 : ∀ x ∈ pdf, 0 ≤ x) (s : Nat) :
    0 ≤ autocor_raw K pdf s := by
  rw [autocor_raw_eq]
  apply List.sum_nonneg
  intro x hx
  have hx2 := (List.perm_insertionSort (fun a b : ℚ => b ≤ a) _).mem_iff.mp
    (List.mem_of_mem_take hx)
  obtain ⟨i, _, rfl⟩ := List.mem_map.mp hx2
  exact mul_nonneg (getD_nonneg pdf h0 _) (getD_nonneg pdf h0 _)

theorem rd_raw_le (K : Constants) (pdf : List ℚ) (n : Nat) (i : Int) :
    rd ((List.range (n + 1)).map (autocor_raw K pdf)) i ≤ autocor_raw K pdf 0 := by
  by_cases h : 0 ≤ i ∧ i ≤ n
  · rw [rd_range_map _ n i h.1 h.2]
    exact autocor_raw_le_zero_shift K pdf _
  · unfold rd
    split_ifs with h1
    · exact autocor_raw_zero_nonneg K pdf
    · rw [List.getD_eq_getElem?_getD, List.getElem?_eq_none (by simp; omega)]
      exact autocor_raw_zero_nonneg K pdf

theorem rd_raw_nonneg (K : Constants) (pdf : List ℚ) (h0 : ∀ x ∈ pdf, 0 ≤ x) (n : Nat) (i : Int) :
    0 ≤ rd ((List.range (n + 1)).map (autocor_raw K pdf)) i := by
  by_cases h : 0 ≤ i ∧ i ≤ n
  · rw [rd_range_map _ n i h.1 h.2]
    exact autocor_raw_nonneg K pdf h0 _
  · unfold rd
    split_ifs with h1
    · exact le_refl _
    · rw [List.getD_eq_getElem?_getD, List.getElem?_eq_none (by simp; omega)]
      exact le_refl _

theorem ext_rd (a b : List ℚ) (hlen : a.length = b.length)
    (h : ∀ s : Int, 0 ≤ s → s < a.length → rd a s = rd b s) : a = b := by
  apply List.ext_getElem hlen
  intro i h1 h2
  have := h i (by omega) (by omega)
  unfold rd at this
  simp only [Int.toNat_ofNat] at this
  rw [if_neg (by omega), if_neg (by omega), List.getD_eq_getElem?_getD,
    List.getD_eq_getElem?_getD, List.getElem?_eq_getElem h1, List.getElem?_eq_getElem h2] at this
  simpa using this

/-- C7 (amended): for a non-negative density and `kPeriodMax ≥ 3`,
`calculate_autocor` assigns all `kPeriodMax + 1` entries of `_cor_array` (the
result does not depend on the old contents), every entry is at most the raw
zero-shift correlation `cor_raw_array[0]`, and `cor_raw_array[0]` is at most
three times `_cor_array[0]`. -/
theorem C7_smoothed_autocor_bound (K : Constants) (pdf cor : List ℚ)
    (h0 : ∀ x ∈ pdf, 0 ≤ x) (hn : 3 ≤ K.kPeriodMax) (hlen : cor.length = K.kPeriodMax + 1) :
    (calculate_autocor K pdf cor).length = K.kPeriodMax + 1 ∧
    (∀ cor2 : List ℚ, cor2.length = K.kPeriodMax + 1 →
      calculate_autocor K pdf cor2 = calculate_autocor K pdf cor) ∧
    (∀ s : Nat, s ≤ K.kPeriodMax →
      rd (calculate_autocor K pdf cor) s ≤ autocor_raw K pdf 0) ∧
    autocor_raw K pdf 0 ≤ 3 * rd (calculate_autocor K pdf cor) 0 := by
  obtain ⟨hl, hf⟩ := calculate_autocor_rd K pdf cor hn hlen
  have hle := rd_raw_le K pdf K.kPeriodMax
  have hnn := rd_raw_nonneg K pdf h0 K.kPeriodMax
  refine ⟨hl, ?_, ?_, ?_⟩
  · intro cor2 hlen2
    obtain ⟨hl2, hf2⟩ := calculate_autocor_rd K pdf cor2 hn hlen2
    apply ext_rd _ _ (by rw [hl, hl2])
    intro s hs0 hs
    rw [hl2] at hs
    rw [hf s hs0 (by omega), hf2 s hs0 (by omega)]
  · intro s hs
    rw [hf s (by omega) (by exact_mod_cast hs)]
    unfold autocor_smoothed
    split_ifs
    · linarith [hle ((K.kPeriodMax : Int) - 2), hle ((K.kPeriodMax : Int) - 1),
        hle (K.kPeriodMax : Int)]
    · linarith [hle ((K.kPeriodMax : Int) - 3), hle ((K.kPeriodMax : Int) - 2),
        hle ((K.kPeriodMax : Int) - 1), hle (K.kPeriodMax : Int)]
    · linarith [hle ((s : Int) - 2), hle ((s : Int) - 1), hle (s : Int), hle ((s : Int) + 1),
        hle ((s : Int) + 2)]
    · linarith [hle 0, hle 1, hle 2, hle 3]
    · linarith [hle 0, hle 1, hle 2]
  · rw [hf 0 (le_refl _) (by omega)]
    unfold autocor_smoothed
    rw [if_neg (by omega), if_neg (by omega), if_neg (by omega), if_neg (by omega)]
    have e0 : rd ((List.range (K.kPeriodMax + 1)).map (autocor_raw K pdf)) 0 =
        autocor_raw K pdf 0 := rd_range_map _ _ 0 (le_refl _) (by omega)
    linarith [hnn 1, hnn 2]

/-- C7 (amended) at the density `[1, 0, 0, 1]` with `kPeriodMax = 8`. -/
theorem C7_witness :
    (calculate_autocor example_constants c7_density (List.replicate 9 0)).length =
      example_constants.kPeriodMax + 1 ∧
    (∀ cor2 : List ℚ, cor2.length = example_constants.kPeriodMax + 1 →
      calculate_autocor example_constants c7_density cor2 =
        calculate_autocor example_constants c7_density (List.replicate 9 0)) ∧
    (∀ s : Nat, s ≤ example_constants.kPeriodMax →
      rd (calculate_autocor example_constants c7_density (List.replicate 9 0)) s ≤
        autocor_raw example_constants c7_density 0) ∧
    autocor_raw example_constants c7_density 0 ≤
      3 * rd (calculate_autocor example_constants c7_density (List.replicate 9 0)) 0 :=
  C7_smoothed_autocor_bound example_constants c7_density (List.replicate 9 0)
    (by decide!) (by decide) (by decide)

/-- C7 (as stated) fails: for the non-negative density `[1, 0, 0, 1]` the raw
correlations are `2, 0, 0, 1, 0, ...`, so `_cor_array[0] = (2+0+0)/3 = 2/3`
while `_cor_array[1] = (2+0+0+1)/4 = 3/4`. -/
theorem C7_counterexample :
    (∀ x ∈ c7_density, 0 ≤ x) ∧
    rd (calculate_autocor example_constants c7_density (List.replicate 9 0)) 0 = 2 / 3 ∧
    rd (calculate_autocor example_constants c7_density (List.replicate 9 0)) 1 = 3 / 4 ∧
    rd (calculate_autocor example_constants c7_density (List.replicate 9 0)) 0 <
      rd (calculate_autocor example_constants c7_density (List.replicate 9 0)) 1 := by
  decide!

/-! ### Kernel smoothing -/

theorem cpp_trunc_intCast (z : Int) : cpp_trunc (z : ℚ) = z := by
  unfold cpp_trunc
  split_ifs <;> simp

theorem nodup_int_range (lo hi : Int) : (int_range lo hi).Nodup := by
  unfold int_range
  apply List.Nodup.map _ (List.nodup_range _)
  intro a b h
  simp only at h
  omega

/-- The loop of `kernel_smoothing` over distinct in-range indices: it ends
without leaving the vector, keeps the length, and adds the kernel term at the
listed indices only. -/
theorem kernel_smoothing_loop_spec (K : Constants) (expf : ℚ → ℚ) (mean_value stddev : ℚ)
    (sample_size : Int) (is : List Int) (vec : List ℚ) (hnd : is.Nodup)
    (hin : ∀ i ∈ is, 0 ≤ i ∧ i < (vec.length : Int)) :
    ∃ v, kernel_smoothing_loop K expf mean_value stddev sample_size is vec = some v ∧
      v.length = vec.length ∧
      ∀ j : Nat, v.getD j 0 =
        if (j : Int) ∈ is then vec.getD j 0 + kernel_term K expf mean_value stddev sample_size j
        else vec.getD j 0 := by
  induction is generalizing vec with
  | nil => exact ⟨vec, rfl, rfl, by simp⟩
  | cons i rest ih =>
    have hi := hin i (List.mem_cons_self _ _)
    have hnd' : rest.Nodup := (List.nodup_cons.mp hnd).2
    have hnot : i ∉ rest := (List.nodup_cons.mp hnd).1
    unfold kernel_smoothing_loop
    rw [if_pos hi]
    obtain ⟨v, hv, hlen, hget⟩ := ih
      (vec.set i.toNat (vec.getD i.toNat 0 +
        (sample_size : ℚ) * K.kGaussianDensityFrontScalar / stddev *
          expf (-((i : ℚ) - mean_value) * ((i : ℚ) - mean_value) / (2 * stddev * stddev))))
      hnd' (by
        intro k hk
        rw [List.length_set]
        exact hin k (List.mem_cons_of_mem _ hk))
    refine ⟨v, hv, by rw [hlen, List.length_set], ?_⟩
    intro j
    rw [hget j]
    have hset : ∀ x : ℚ, (vec.set i.toNat x).getD j 0 =
        if i.toNat = j then x else vec.getD j 0 := by
      intro x
      rw [List.getD_eq_getElem?_getD, List.getD_eq_getElem?_getD, List.getElem?_set]
      by_cases hij : i.toNat = j
      · have hlt : i.toNat < vec.length := by omega
        rw [if_pos hij, if_pos hij, if_pos hlt]
        rfl
      · rw [if_neg hij, if_neg hij]
    rw [hset]
    by_cases hji : (j : Int) = i
    · have h1 : i.toNat = j := by omega
      have h2 : (j : Int) ∉ rest := by rw [hji]; exact hnot
      have h3 : (j : Int) ∈ i :: rest := by rw [hji]; exact List.mem_cons_self _ _
      rw [if_neg h2, if_pos h1, if_pos h3]
      unfold kernel_term
      rw [h1, hji]
    · have h1 : i.toNat ≠ j := by omega
      have h3 : (j : Int) ∈ i :: rest ↔ (j : Int) ∈ rest := by
        simp [List.mem_cons, hji]
      rw [if_neg h1]
      by_cases h2 : (j : Int) ∈ rest
      · rw [if_pos h2, if_pos (h3.mpr h2)]
      · rw [if_neg h2, if_neg (fun h => h2 (h3.mp h))]

/-- `kernel_smoothing` on a non-empty vector, for `stddev ≠ 0`: it stays inside
the vector, keeps the length and adds the kernel term exactly at the indices
from `max(0, floor(mean - 2*stddev))` to `min(ceil(mean + 2*stddev), size - 1)`. -/
theorem kernel_smoothing_spec (K : Constants) (expf : ℚ → ℚ) (mean_value stddev : ℚ)
    (sample_size : Int) (vec : List ℚ) (hs : stddev ≠ 0) (hne : 0 < vec.length)
    (hsz : vec.length < 2 ^ 64) :
    ∃ v, kernel_smoothing K expf mean_value stddev sample_size vec = some v ∧
      v.length = vec.length ∧
      ∀ j : Nat, v.getD j 0 =
        if ⌊mean_value - 2 * stddev⌋ ≤ (j : Int) ∧ (j : Int) ≤ ⌈mean_value + 2 * stddev⌉ ∧
            j < vec.length then
          vec.getD j 0 + kernel_term K expf mean_value stddev sample_size j
        else vec.getD j 0 := by
  unfold kernel_smoothing
  rw [if_neg hs]
  simp only
  have hmod : ((vec.length : Int) - 1) % 2 ^ 64 = (vec.length : Int) - 1 := by
    apply Int.emod_eq_of_lt
    · omega
    · have : (vec.length : Int) < 2 ^ 64 := by exact_mod_cast hsz
      omega
  rw [hmod]
  have e1 : cpp_trunc (max (0 : ℚ) ((⌊mean_value - 2 * stddev⌋ : Int) : ℚ)) =
      max 0 ⌊mean_value - 2 * stddev⌋ := by
    have : max (0 : ℚ) ((⌊mean_value - 2 * stddev⌋ : Int) : ℚ) =
        ((max 0 ⌊mean_value - 2 * stddev⌋ : Int) : ℚ) := by
      push_cast; rfl
    rw [this, cpp_trunc_intCast]
  have e2 : cpp_trunc (min ((⌈mean_value + 2 * stddev⌉ : Int) : ℚ)
      (((vec.length : Int) - 1 : Int) : ℚ)) =
      min ⌈mean_value + 2 * stddev⌉ ((vec.length : Int) - 1) := by
    have : min ((⌈mean_value + 2 * stddev⌉ : Int) : ℚ) (((vec.length : Int) - 1 : Int) : ℚ) =
        ((min ⌈mean_value + 2 * stddev⌉ ((vec.length : Int) - 1) : Int) : ℚ) := by
      push_cast; rfl
    rw [this, cpp_trunc_intCast]
  rw [e1, e2]
  obtain ⟨v, hv, hlen, hget⟩ := kernel_smoothing_loop_spec K expf mean_value stddev sample_size
    (int_range (max 0 ⌊mean_value - 2 * stddev⌋)
      (min ⌈mean_value + 2 * stddev⌉ ((vec.length : Int) - 1))) vec (nodup_int_range _ _)
    (by
      intro i hi
      rw [mem_int_range] at hi
      omega)
  refine ⟨v, hv, hlen, ?_⟩
  intro j
  rw [hget j]
  simp only [mem_int_range]
  by_cases hc : ⌊mean_value - 2 * stddev⌋ ≤ (j : Int) ∧ (j : Int) ≤ ⌈mean_value + 2 * stddev⌉ ∧
      j < vec.length
  · rw [if_pos hc, if_pos (by omega)]
  · rw [if_neg hc, if_neg (by omega)]

/-- C8 (amended): for `stddev > 0` and a non-empty target vector,
`kernel_smoothing` never indexes outside the vector, keeps its length, and
leaves unchanged every entry whose index lies outside the integer window
`[floor(mean - 2*stddev), ceil(mean + 2*stddev)]`. -/
theorem C8_kernel_truncation (K : Constants) (expf : ℚ → ℚ) (mean_value stddev : ℚ)
    (sample_size : Int) (vec : List ℚ) (hs : 0 < stddev) (hne : 0 < vec.length)
    (hsz : vec.length < 2 ^ 64) :
    ∃ v, kernel_smoothing K expf mean_value stddev sample_size vec = some v ∧
      v.length = vec.length ∧
      ∀ j : Nat, ((j : Int) < ⌊mean_value - 2 * stddev⌋ ∨ ⌈mean_value + 2 * stddev⌉ < (j : Int)) →
        v[j]? = vec[j]? := by
  obtain ⟨v, hv, hlen, hget⟩ := kernel_smoothing_spec K expf mean_value stddev sample_size vec
    (ne_of_gt hs) hne hsz
  refine ⟨v, hv, hlen, ?_⟩
  intro j hj
  have h := hget j
  rw [if_neg (by omega)] at h
  by_cases hjl : j < vec.length
  · have hjv : j < v.length := by omega
    rw [List.getD_eq_getElem?_getD, List.getD_eq_getElem?_getD,
      List.getElem?_eq_getElem hjl, List.getElem?_eq_getElem hjv] at h
    rw [List.getElem?_eq_getElem hjl, List.getElem?_eq_getElem hjv]
    simpa using h
  · rw [List.getElem?_eq_none (by omega), List.getElem?_eq_none (by omega)]

/-- C8 (amended) at `mean = 5.5`, `stddev = 1`, weight 1 and ten zero bins. -/
theorem C8_witness :
    ∃ v, kernel_smoothing example_constants (fun _ => 1) (11 / 2) 1 1 (List.replicate 10 0)
        = some v ∧
      v.length = (List.replicate 10 (0 : ℚ)).length ∧
      ∀ j : Nat, ((j : Int) < ⌊(11 / 2 : ℚ) - 2 * 1⌋ ∨ ⌈(11 / 2 : ℚ) + 2 * 1⌉ < (j : Int)) →
        v[j]? = (List.replicate 10 (0 : ℚ))[j]? :=
  C8_kernel_truncation example_constants (fun _ => 1) (11 / 2) 1 1 (List.replicate 10 0)
    (by decide!) (by decide) (by decide)

/-- C8 (as stated) fails twice.  With `mean = 5.5`, `stddev = 1`, weight 1 and
ten zero bins, the loop runs from `floor(3.5) = 3` to `ceil(7.5) = 8`: index 3
lies outside the real interval `[3.5, 7.5]`, yet bin 3 receives the positive
amount `kGaussianDensityFrontScalar * exp(-3.125)`, whatever positive function
`exp` is.  With an empty vector, `size() - 1` wraps to `2^64 - 1` and the loop
indexes bin 3 of a vector without bins. -/
theorem C8_counterexample :
    ((3 : ℚ) < 11 / 2 - 2 * 1) ∧
    (∀ expf : ℚ → ℚ, (∀ x, 0 < expf x) →
      ∃ v, kernel_smoothing example_constants expf (11 / 2) 1 1 (List.replicate 10 0) = some v ∧
        v[3]? ≠ (List.replicate 10 (0 : ℚ))[3]?) ∧
    (∀ expf : ℚ → ℚ, kernel_smoothing example_constants expf (11 / 2) 1 1 [] = none) := by
  refine ⟨by norm_num, ?_, ?_⟩
  · intro expf hpos
    obtain ⟨v, hv, hlen, hget⟩ := kernel_smoothing_spec example_constants expf (11 / 2) 1 1
      (List.replicate 10 0) (by norm_num) (by decide) (by decide)
    refine ⟨v, hv, ?_⟩
    have h3 := hget 3
    have hfl : ⌊(11 / 2 : ℚ) - 2 * 1⌋ = 3 := by decide!
    have hcl : ⌈(11 / 2 : ℚ) + 2 * 1⌉ = 8 := by decide!
    rw [hfl, hcl] at h3
    rw [if_pos (by decide)] at h3
    have hterm : 0 < kernel_term example_constants expf (11 / 2) 1 1 (3 : Nat) := by
      unfold kernel_term example_constants
      have := hpos (-(((3 : Nat) : Int) - 11 / 2 : ℚ) * ((((3 : Nat) : Int) : ℚ) - 11 / 2) / (2 * 1 * 1))
      simp only
      positivity
    intro hcon
    have h3len : 3 < v.length := by rw [hlen]; decide
    rw [List.getD_eq_getElem?_getD, hcon] at h3
    simp at h3
    linarith
  · intro expf
    have hfl : ⌊(11 / 2 : ℚ) - 2 * 1⌋ = 3 := by decide!
    have hcl : ⌈(11 / 2 : ℚ) + 2 * 1⌉ = 8 := by decide!
    unfold kernel_smoothing
    rw [if_neg (by norm_num)]
    simp only [hfl, hcl]
    have e1 : cpp_trunc (max (0 : ℚ) ((3 : Int) : ℚ)) = 3 := by decide!
    have e2 : cpp_trunc (min ((8 : Int) : ℚ)
        (((((([] : List ℚ).length : Int) - 1) % 2 ^ 64 : Int)) : ℚ)) = 8 := by decide!
    rw [e1, e2]
    have e3 : int_range 3 8 = [3, 4, 5, 6, 7, 8] := by decide
    rw [e3]
    unfold kernel_smoothing_loop
    rw [if_neg (by decide)]

/-! ### Candidate period from the autocorrelation -/

theorem autocor_scan_step_dmax_idx (cor : List ℚ) (st : AutocorScan) (i : Nat)
    (h : -1 ≤ st.dmax_idx) : -1 ≤ (autocor_scan_step cor st i).dmax_idx := by
  unfold autocor_scan_step
  simp only
  split_ifs <;> simp <;> omega

theorem autocor_scan_dmax_idx (K : Constants) (cor : List ℚ) (valley0 : Int) :
    -1 ≤ (autocor_scan K cor valley0).dmax_idx := by
  unfold autocor_scan
  have key : ∀ (l : List Nat) (st : AutocorScan), -1 ≤ st.dmax_idx →
      -1 ≤ (l.foldl (autocor_scan_step cor) st).dmax_idx := by
    intro l
    induction l with
    | nil => intro st h; exact h
    | cons a rest ih =>
      intro st h
      exact ih _ (autocor_scan_step_dmax_idx cor st a h)
  exact key _ _ (le_refl _)

theorem find_shoulder_left_eq (K : Constants) (cor : List ℚ) (d : Int) :
    find_shoulder_left K cor d = -1 ↔ ¬ LeftShoulderFound K cor d := by
  unfold find_shoulder_left LeftShoulderFound
  cases hf : (int_range (max 0 (d - 200) + 1) (d - 1)).reverse.find?
      (fun i => decide (rd cor i ≤ K.SHOULDER_RATIO * rd cor d)) with
  | none =>
    simp only [true_iff]
    rintro ⟨i, h1, h2, h3⟩
    have := List.find?_eq_none.mp hf i
      (List.mem_reverse.mpr ((mem_int_range _ _ _).mpr ⟨by omega, h2⟩))
    simp at this
    exact absurd h3 (not_le.mpr this)
  | some i =>
    have hmem := (mem_int_range _ _ _).mp (List.mem_reverse.mp (List.mem_of_find?_eq_some hf))
    have hp := List.find?_some hf
    simp only [decide_eq_true_eq] at hp
    constructor
    · intro h
      have h' : i = -1 := h
      omega
    · intro h
      exact absurd ⟨i, by omega, hmem.2, hp⟩ h

theorem find_shoulder_right_eq (K : Constants) (cor : List ℚ) (d : Int) (hd : -1 ≤ d) :
    find_shoulder_right K cor d = -1 ↔ ¬ RightShoulderFound K cor d := by
  unfold find_shoulder_right RightShoulderFound
  cases hf : (int_range (d + 1) (min (K.kPeriodMax : Int) (d + 200) - 1)).find?
      (fun i => decide (rd cor i ≤ K.SHOULDER_RATIO_LEFT * rd cor d)) with
  | none =>
    simp only [true_iff]
    rintro ⟨i, h1, h2, h3⟩
    have := List.find?_eq_none.mp hf i ((mem_int_range _ _ _).mpr ⟨h1, by omega⟩)
    simp at this
    exact absurd h3 (not_le.mpr this)
  | some i =>
    have hmem := (mem_int_range _ _ _).mp (List.mem_of_find?_eq_some hf)
    have hp := List.find?_some hf
    simp only [decide_eq_true_eq] at hp
    constructor
    · intro h
      have h' : i = -1 := h
      omega
    · intro h
      exact absurd ⟨i, hmem.1, by omega, hp⟩ h

/-- C9: `infer_candidate_period_by_autocor` returns 1 exactly when no left or
no right shoulder exists around the peak position, 2 exactly when both exist
and the peak correlation is below `0.001 * _cor_array[0]`, and 0 exactly in
the remaining case. -/
theorem C9_status_classification (K : Constants) (cor_array : List ℚ) (valley0 : Int)
    (period_obj : OnePeriod) :
    ((infer_candidate_period_by_autocor K cor_array valley0 period_obj).1 = 1 ↔
      (¬ LeftShoulderFound K cor_array (autocor_scan K cor_array valley0).dmax_idx ∨
        ¬ RightShoulderFound K cor_array (autocor_scan K cor_array valley0).dmax_idx)) ∧
    ((infer_candidate_period_by_autocor K cor_array valley0 period_obj).1 = 2 ↔
      (LeftShoulderFound K cor_array (autocor_scan K cor_array valley0).dmax_idx ∧
        RightShoulderFound K cor_array (autocor_scan K cor_array valley0).dmax_idx ∧
        rd cor_array (autocor_scan K cor_array valley0).dmax_idx <
          (1 / 1000) * rd cor_array 0)) ∧
    ((infer_candidate_period_by_autocor K cor_array valley0 period_obj).1 = 0 ↔
      (LeftShoulderFound K cor_array (autocor_scan K cor_array valley0).dmax_idx ∧
        RightShoulderFound K cor_array (autocor_scan K cor_array valley0).dmax_idx ∧
        ¬ rd cor_array (autocor_scan K cor_array valley0).dmax_idx <
          (1 / 1000) * rd cor_array 0)) := by
  have hl := find_shoulder_left_eq K cor_array (autocor_scan K cor_array valley0).dmax_idx
  have hr := find_shoulder_right_eq K cor_array (autocor_scan K cor_array valley0).dmax_idx
    (autocor_scan_dmax_idx K cor_array valley0)
  unfold infer_candidate_period_by_autocor
  simp only
  by_cases h1 : find_shoulder_left K cor_array (autocor_scan K cor_array valley0).dmax_idx = -1 ∨
      find_shoulder_right K cor_array (autocor_scan K cor_array valley0).dmax_idx = -1
  · rw [if_pos h1]
    have h1' : ¬ LeftShoulderFound K cor_array (autocor_scan K cor_array valley0).dmax_idx ∨
        ¬ RightShoulderFound K cor_array (autocor_scan K cor_array valley0).dmax_idx := by
      rcases h1 with h | h
      · exact Or.inl (hl.mp h)
      · exact Or.inr (hr.mp h)
    refine ⟨by simp [h1'], ?_, ?_⟩
    · simp only [OfNat.one_ne_ofNat, false_iff]
      rintro ⟨a, b, _⟩
      rcases h1' with h | h
      · exact h a
      · exact h b
    · simp only [one_ne_zero, false_iff]
      rintro ⟨a, b, _⟩
      rcases h1' with h | h
      · exact h a
      · exact h b
  · rw [if_neg h1]
    push_neg at h1
    have hL : LeftShoulderFound K cor_array (autocor_scan K cor_array valley0).dmax_idx := by
      by_contra h
      exact h1.1 (hl.mpr h)
    have hR : RightShoulderFound K cor_array (autocor_scan K cor_array valley0).dmax_idx := by
      by_contra h
      exact h1.2 (hr.mpr h)
    by_cases h2 : rd cor_array (autocor_scan K cor_array valley0).dmax_idx <
        (1 / 1000) * rd cor_array 0
    · rw [if_pos h2]
      refine ⟨by simp [hL, hR], ?_, ?_⟩
      · simp only [true_iff]
        exact ⟨hL, hR, h2⟩
      · simp only [OfNat.ofNat_ne_zero, false_iff]
        rintro ⟨_, _, h⟩
        exact h h2
    · rw [if_neg h2]
      refine ⟨by simp [hL, hR], ?_, ?_⟩
      · simp only [OfNat.zero_ne_ofNat, false_iff]
        rintro ⟨_, _, h⟩
        exact h2 h
      · simp only [true_iff]
        exact ⟨hL, hR, h2⟩

theorem autocor_scan_step_fields (cor : List ℚ) (st : AutocorScan) (i : Nat) :
    (autocor_scan_step cor st i).pmin = (if rd cor i < st.pmin then rd cor i else st.pmin) ∧
    (autocor_scan_step cor st i).dmax =
      (if rd cor i - (if rd cor i < st.pmin then rd cor i else st.pmin) > st.dmax then
        rd cor i - (if rd cor i < st.pmin then rd cor i else st.pmin) else st.dmax) ∧
    (autocor_scan_step cor st i).dmax_idx =
      (if rd cor i - (if rd cor i < st.pmin then rd cor i else st.pmin) > st.dmax then
        (i : Int) else st.dmax_idx) := by
  unfold autocor_scan_step
  simp only
  by_cases h : rd cor i < st.pmin
  · simp only [if_pos h]
    by_cases h2 : rd cor i - rd cor i > st.dmax
    · simp only [if_pos h2]
      exact ⟨trivial, trivial, trivial⟩
    · simp only [if_neg h2]
      exact ⟨trivial, trivial, trivial⟩
  · simp only [if_neg h]
    by_cases h2 : rd cor i - st.pmin > st.dmax
    · simp only [if_pos h2]
      exact ⟨trivial, trivial, trivial⟩
    · simp only [if_neg h2]
      exact ⟨trivial, trivial, trivial⟩

/-- On an array that does not increase with the shift, the scan keeps the
peak position at shift 0. -/
theorem autocor_scan_nonincreasing (cor : List ℚ) (st0 : AutocorScan) (n : Nat)
    (hd : st0.dmax = -(10 : ℚ) ^ 99) (hp : st0.pmin = (10 : ℚ) ^ 99)
    (hmono : ∀ i j : Nat, i ≤ j → j ≤ n → rd cor j ≤ rd cor i) (k : Nat) (hk : k ≤ n) :
    ((List.range (k + 1)).foldl (autocor_scan_step cor) st0).dmax_idx = 0 ∧
    ((List.range (k + 1)).foldl (autocor_scan_step cor) st0).dmax =
      max (rd cor 0 - (10 : ℚ) ^ 99) 0 ∧
    ((List.range (k + 1)).foldl (autocor_scan_step cor) st0).pmin =
      min ((10 : ℚ) ^ 99) (rd cor k) := by
  have hbig : (0 : ℚ) < (10 : ℚ) ^ 99 := by positivity
  induction k with
  | zero =>
    rw [List.range_succ, List.foldl_append]
    simp only [List.range_zero, List.foldl_nil, List.foldl_cons]
    obtain ⟨f1, f2, f3⟩ := autocor_scan_step_fields cor st0 0
    rw [f1, f2, f3, hd, hp]
    simp only [Nat.cast_zero]
    by_cases h : rd cor 0 < (10 : ℚ) ^ 99
    · simp only [if_pos h, sub_self]
      rw [if_pos (by linarith), if_pos (by linarith)]
      exact ⟨rfl, by rw [max_eq_right (by linarith)], by rw [min_eq_right (le_of_lt h)]⟩
    · simp only [if_neg h]
      rw [if_pos (by linarith), if_pos (by linarith)]
      exact ⟨rfl, by rw [max_eq_left (by linarith)], by rw [min_eq_left (by linarith)]⟩
  | succ k ih =>
    obtain ⟨h1, h2, h3⟩ := ih (by omega)
    rw [List.range_succ, List.foldl_append]
    simp only [List.foldl_cons, List.foldl_nil]
    generalize (List.range (k + 1)).foldl (autocor_scan_step cor) st0 = st at h1 h2 h3
    have hstep : rd cor ((k + 1 : Nat) : Int) ≤ rd cor (k : Int) :=
      hmono k (k + 1) (by omega) hk
    have h0 : rd cor ((k + 1 : Nat) : Int) ≤ rd cor 0 := by
      have := hmono 0 (k + 1) (by omega) hk
      simpa using this
    obtain ⟨f1, f2, f3⟩ := autocor_scan_step_fields cor st (k + 1)
    rw [f1, f2, f3, h1, h2, h3]
    have hdif : ¬ rd cor ((k + 1 : Nat) : Int) -
        (if rd cor ((k + 1 : Nat) : Int) < min ((10 : ℚ) ^ 99) (rd cor (k : Int)) then
          rd cor ((k + 1 : Nat) : Int) else min ((10 : ℚ) ^ 99) (rd cor (k : Int))) >
        max (rd cor 0 - (10 : ℚ) ^ 99) 0 := by
      apply not_lt.mpr
      by_cases h : rd cor ((k + 1 : Nat) : Int) < min ((10 : ℚ) ^ 99) (rd cor (k : Int))
      · rw [if_pos h, sub_self]
        exact le_max_right _ _
      · rw [if_neg h]
        have hge := not_lt.mp h
        rcases le_total ((10 : ℚ) ^ 99) (rd cor (k : Int)) with hc | hc
        · rw [min_eq_left hc]
          exact le_trans (by linarith) (le_max_left _ _)
        · rw [min_eq_right hc]
          exact le_trans (by linarith) (le_max_right _ _)
    rw [if_neg hdif, if_neg hdif]
    refine ⟨rfl, rfl, ?_⟩
    by_cases h : rd cor ((k + 1 : Nat) : Int) < min ((10 : ℚ) ^ 99) (rd cor (k : Int))
    · rw [if_pos h]
      rw [min_eq_right (le_trans (le_of_lt h) (min_le_left _ _))]
    · rw [if_neg h]
      have hge := not_lt.mp h
      rcases le_total ((10 : ℚ) ^ 99) (rd cor (k : Int)) with hc | hc
      · rw [min_eq_left hc] at hge ⊢
        rw [min_eq_left hge]
      · rw [min_eq_right hc] at hge ⊢
        have : rd cor ((k + 1 : Nat) : Int) = rd cor (k : Int) := le_antisymm hstep hge
        rw [this, min_eq_right hc]

/-- C10: on an autocorrelation array that does not increase with the shift
(a constant array in particular), `infer_candidate_period_by_autocor` returns
status 1 and leaves the period object as it was. -/
theorem C10_flat_signal_too_noisy (K : Constants) (cor_array : List ℚ) (valley0 : Int)
    (period_obj : OnePeriod)
    (hmono : ∀ i j : Nat, i ≤ j → j ≤ K.kPeriodMax → rd cor_array j ≤ rd cor_array i) :
    (infer_candidate_period_by_autocor K cor_array valley0 period_obj).1 = 1 ∧
    (infer_candidate_period_by_autocor K cor_array valley0 period_obj).2.1 = period_obj := by
  have hd : (autocor_scan K cor_array valley0).dmax_idx = 0 := by
    unfold autocor_scan
    exact (autocor_scan_nonincreasing cor_array
      { dmax_idx := -1, pmin_idx := -1, dmax := -(10 : ℚ) ^ 99, pmin := (10 : ℚ) ^ 99,
        all_dif := [], valley := valley0 } K.kPeriodMax rfl rfl hmono K.kPeriodMax
      (le_refl _)).1
  have hleft : find_shoulder_left K cor_array 0 = -1 := by
    unfold find_shoulder_left
    have : int_range (max 0 ((0 : Int) - 200) + 1) (0 - 1) = [] := by decide
    rw [this]
    rfl
  unfold infer_candidate_period_by_autocor
  simp only
  rw [hd, if_pos (Or.inl hleft)]
  exact ⟨rfl, rfl⟩

/-- C10 at the constant array of nine entries 5 (`kPeriodMax = 8`). -/
theorem C10_witness :
    (infer_candidate_period_by_autocor example_constants (List.replicate 9 5) 0
      example_period).1 = 1 ∧
    (infer_candidate_period_by_autocor example_constants (List.replicate 9 5) 0
      example_period).2.1 = example_period :=
  C10_flat_signal_too_noisy example_constants (List.replicate 9 5) 0 example_period (by
    have h : ∀ k : Nat, k ≤ 8 → rd (List.replicate 9 5) (k : Int) = 5 := by
      intro k hk
      interval_cases k <;> decide!
    intro i j hij hj
    have hj8 : j ≤ 8 := hj
    rw [h j hj8, h i (by omega)])

/-! ### Changepoint candidates -/

theorem getc_isSome {α : Type} (a : List α) (i : Int) (h0 : 0 ≤ i) (h1 : i < (a.length : Int)) :
    ∃ v, getc a i = some v := by
  unfold getc
  rw [if_pos h0]
  have h : i.toNat < a.length := by omega
  exact ⟨a[i.toNat], List.getElem?_eq_getElem h⟩

theorem gada_candidate_shape (cor_array : List ℚ) (OnePeriod_ctor : OnePeriod) (run_type : Int)
    (period_int_vec : List Int) (g : GADAResult) (i : Int) (c : OnePeriod)
    (h : gada_candidate cor_array OnePeriod_ctor run_type period_int_vec g i = some (some c)) :
    GADACandidateShape c := by
  unfold gada_candidate at h
  split at h
  · split at h
    · split at h
      · exact absurd h (by simp)
      · split at h
        · simp only at h
          split at h
          · rename_i h2
            simp only [Option.some.injEq] at h
            subst h
            exact ⟨h2.1, h2.2, rfl, rfl⟩
          · simp at h
        · exact absurd h (by simp)
    · simp at h
  · exact absurd h (by simp)

theorem gada_candidate_isSome (cor_array : List ℚ) (OnePeriod_ctor : OnePeriod) (run_type : Int)
    (period_int_vec : List Int) (g : GADAResult) (i : Int)
    (hwf : GADAWellFormed period_int_vec.length g) (h0 : 0 ≤ i) (h1 : i ≤ g.K - 1) :
    ∃ o, gada_candidate cor_array OnePeriod_ctor run_type period_int_vec g i = some o := by
  obtain ⟨_, hA, hL, hI, hie⟩ := hwf
  obtain ⟨amp, hamp⟩ := getc_isSome g.SegAmp i h0 (by omega)
  obtain ⟨amp2, hamp2⟩ := getc_isSome g.SegAmp (i + 1) (by omega) (by omega)
  obtain ⟨len, hlen⟩ := getc_isSome g.SegLen i h0 (by omega)
  obtain ⟨ie, hi⟩ := getc_isSome g.Iext (i + 1) (by omega) (by omega)
  have hie2 : 1 ≤ ie ∧ ie ≤ (period_int_vec.length : Int) - 1 := by
    have hi2 := hi
    unfold getc at hi2
    rw [if_pos (by omega)] at hi2
    exact hie (i + 1).toNat (by omega) (by omega) ie hi2
  obtain ⟨lo, hlo⟩ := getc_isSome period_int_vec (ie - 1) (by omega) (by omega)
  obtain ⟨hi', hhi⟩ := getc_isSome period_int_vec ie (by omega) (by omega)
  unfold gada_candidate
  simp only [hamp, hamp2, hlen, hi, hlo, hhi]
  split_ifs <;> exact ⟨_, rfl⟩

theorem gada_select_fold (cor_array : List ℚ) (OnePeriod_ctor : OnePeriod) (run_type : Int)
    (period_int_vec : List Int) (g : GADAResult)
    (hwf : GADAWellFormed period_int_vec.length g) (l : List Int)
    (hl : ∀ i ∈ l, 0 ≤ i ∧ i ≤ g.K - 1) (acc : List OnePeriod)
    (hacc : ∀ c ∈ acc, GADACandidateShape c) :
    ∃ found, l.foldlM
        (fun candidate_period_vec i =>
          match gada_candidate cor_array OnePeriod_ctor run_type period_int_vec g i with
          | none => none
          | some none => some candidate_period_vec
          | some (some c) => some (candidate_period_vec ++ [c]))
        acc = some found ∧ ∀ c ∈ found, GADACandidateShape c := by
  induction l generalizing acc with
  | nil => exact ⟨acc, rfl, hacc⟩
  | cons i rest ih =>
    obtain ⟨o, ho⟩ := gada_candidate_isSome cor_array OnePeriod_ctor run_type period_int_vec g i
      hwf (hl i (List.mem_cons_self _ _)).1 (hl i (List.mem_cons_self _ _)).2
    have hrest : ∀ j ∈ rest, 0 ≤ j ∧ j ≤ g.K - 1 := fun j hj => hl j (List.mem_cons_of_mem _ hj)
    rw [List.foldlM_cons]
    cases o with
    | none =>
      simp only [ho]
      exact ih hrest acc hacc
    | some c =>
      simp only [ho]
      refine ih hrest (acc ++ [c]) ?_
      intro x hx
      rcases List.mem_append.mp hx with hx | hx
      · exact hacc x hx
      · rw [List.mem_singleton] at hx
        subst hx
        exact gada_candidate_shape _ _ _ _ _ _ _ ho

theorem gada_select_candidates_spec (cor_array : List ℚ) (OnePeriod_ctor : OnePeriod)
    (run_type : Int) (period_int_vec : List Int) (g : GADAResult)
    (hwf : GADAWellFormed period_int_vec.length g) :
    ∃ found, gada_select_candidates cor_array OnePeriod_ctor run_type period_int_vec g = some found ∧
      ∀ c ∈ found, GADACandidateShape c := by
  unfold gada_select_candidates
  refine gada_select_fold cor_array OnePeriod_ctor run_type period_int_vec g hwf _ ?_ [] ?_
  · intro i hi
    rw [mem_int_range] at hi
    exact hi
  · intro c hc
    exact absurd hc (List.not_mem_nil _)

theorem gada_top_two_spec (sort_desc : List OnePeriod → List OnePeriod)
    (hperm : ∀ l, (sort_desc l).Perm l)
    (hsorted : ∀ l, (sort_desc l).Sorted (fun a b => a.auto_cor_value ≥ b.auto_cor_value))
    (found : List OnePeriod) :
    (gada_top_two sort_desc found).length ≤ 2 ∧
    (∀ c ∈ gada_top_two sort_desc found, c ∈ found) ∧
    ((∃ c ∈ found, 0 < c.auto_cor_value) →
      ∃ m ∈ gada_top_two sort_desc found, ∀ c ∈ found, c.auto_cor_value ≤ m.auto_cor_value) := by
  unfold gada_top_two
  by_cases hlen : found.length ≥ 2
  · rw [if_pos hlen]
    have hp := hperm found
    have hs := hsorted found
    cases hsort : sort_desc found with
    | nil =>
      have := hp.length_eq
      rw [hsort] at this
      simp at this
      omega
    | cons c0 tl =>
      cases tl with
      | nil =>
        have := hp.length_eq
        rw [hsort] at this
        simp at this
        omega
      | cons c1 tl2 =>
        rw [hsort] at hp hs
        simp only
        refine ⟨?_, ?_, ?_⟩
        · exact le_trans (List.length_filter_le _ _) (by simp)
        · intro c hc
          have hc2 := List.mem_of_mem_filter hc
          apply hp.subset
          rcases List.mem_cons.mp hc2 with h | h
          · subst h
            exact List.mem_cons_self _ _
          · rw [List.mem_singleton] at h
            subst h
            exact List.mem_cons_of_mem _ (List.mem_cons_self _ _)
        · rintro ⟨c, hc, hpos⟩
          have hmax : ∀ x ∈ found, x.auto_cor_value ≤ c0.auto_cor_value := by
            intro x hx
            have hx2 : x ∈ c0 :: c1 :: tl2 := hp.symm.subset hx
            rcases List.mem_cons.mp hx2 with h | h
            · subst h
              exact le_refl _
            · exact (List.sorted_cons.mp hs).1 x h
          have hc0 : 0 < c0.auto_cor_value := lt_of_lt_of_le hpos (hmax c hc)
          refine ⟨c0, ?_, hmax⟩
          rw [List.mem_filter]
          refine ⟨List.mem_cons_self _ _, ?_⟩
          have hne : c0.auto_cor_value ≠ 0 := ne_of_gt hc0
          simp only [Dbl.div, hne, if_false, Dbl.lt, div_self hne]
          norm_num
  · rw [if_neg hlen]
    refine ⟨by omega, fun c hc => hc, ?_⟩
    rintro ⟨c, hc, _⟩
    refine ⟨c, hc, ?_⟩
    intro x hx
    match found, hlen, hc, hx with
    | [y], _, hc, hx =>
      rw [List.mem_singleton] at hc hx
      rw [hc, hx]
    | [], _, hc, _ => exact absurd hc (List.not_mem_nil _)
    | _ :: _ :: _, hlen, _, _ => simp at hlen

/-- C12: for a solver state that fits the sign signal and a sort that orders
the candidates by descending autocorrelation, `infer_candidate_period_by_GADA`
returns at most two candidates, each with `0 < period_int ≤ 600` and
`lower_bound_int = upper_bound_int = period_int`; when a candidate with
positive autocorrelation was found, the returned list contains a found
candidate of maximal autocorrelation. -/
theorem C12_changepoint_list_shape (K : Constants) (cor_array : List ℚ)
    (OnePeriod_ctor : OnePeriod) (solver : List ℚ → GADAResult)
    (sort_desc : List OnePeriod → List OnePeriod)
    (all_diff : List ℚ) (left_x right_x : ℚ) (run_type : Int)
    (hperm : ∀ l, (sort_desc l).Perm l)
    (hsorted : ∀ l, (sort_desc l).Sorted (fun a b => a.auto_cor_value ≥ b.auto_cor_value))
    (hwf : GADAWellFormed (gada_thresholded K all_diff left_x right_x run_type).length
      (solver ((gada_thresholded K all_diff left_x right_x run_type).map (fun x => x.2)))) :
    ∃ found r,
      gada_select_candidates cor_array OnePeriod_ctor run_type
        ((gada_thresholded K all_diff left_x right_x run_type).map (fun x => x.1))
        (solver ((gada_thresholded K all_diff left_x right_x run_type).map (fun x => x.2)))
        = some found ∧
      infer_candidate_period_by_GADA K cor_array OnePeriod_ctor solver sort_desc all_diff
        left_x right_x run_type = some r ∧
      r.length ≤ 2 ∧
      (∀ c ∈ r, 0 < c.period_int ∧ c.period_int ≤ 600 ∧ c.lower_bound_int = c.period_int ∧
        c.upper_bound_int = c.period_int) ∧
      ((∃ c ∈ found, 0 < c.auto_cor_value) →
        ∃ m ∈ r, m ∈ found ∧ ∀ c ∈ found, c.auto_cor_value ≤ m.auto_cor_value) := by
  have hwf2 : GADAWellFormed
      ((gada_thresholded K all_diff left_x right_x run_type).map (fun x => x.1)).length
      (solver ((gada_thresholded K all_diff left_x right_x run_type).map (fun x => x.2))) := by
    rw [List.length_map]
    exact hwf
  obtain ⟨found, hfound, hshape⟩ := gada_select_candidates_spec cor_array OnePeriod_ctor run_type
    _ _ hwf2
  obtain ⟨hlen, hsub, hmax⟩ := gada_top_two_spec sort_desc hperm hsorted found
  refine ⟨found, gada_top_two sort_desc found, hfound, ?_, hlen, ?_, ?_⟩
  · unfold infer_candidate_period_by_GADA
    simp only [hfound, Option.map_some']
  · intro c hc
    exact hshape c (hsub c hc)
  · intro hpos
    obtain ⟨m, hm, hmm⟩ := hmax hpos
    exact ⟨m, hm, hsub m hm, hmm⟩
theorem example_sort_desc_perm (l : List OnePeriod) : (example_sort_desc l).Perm l :=
  List.perm_insertionSort _ l

theorem example_sort_desc_sorted (l : List OnePeriod) :
    (example_sort_desc l).Sorted (fun a b => a.auto_cor_value ≥ b.auto_cor_value) := by
  haveI : IsTotal OnePeriod (fun a b => a.auto_cor_value ≥ b.auto_cor_value) :=
    ⟨fun a b => le_total b.auto_cor_value a.auto_cor_value⟩
  haveI : IsTrans OnePeriod (fun a b => a.auto_cor_value ≥ b.auto_cor_value) :=
    ⟨fun _ _ _ h1 h2 => ge_trans h1 h2⟩
  exact List.sorted_insertionSort _ l

theorem c11_solver_wellFormed (M : Nat) (hM : 11 ≤ M) (input_array : List ℚ) :
    GADAWellFormed M (c11_solver input_array) := by
  refine ⟨by simp [c11_solver], by simp [c11_solver], by simp [c11_solver],
    by simp [c11_solver], ?_⟩
  intro j hj1 hjK ie hie
  have hK : (c11_solver input_array).K = 1 := rfl
  rw [hK] at hjK
  have hj : j = 1 := by omega
  subst hj
  have : ie = 10 := by
    simp [c11_solver] at hie
    exact hie.symm
  subst this
  omega

/-- C12 at the signal of `c11_all_diff`: one candidate, of period 12. -/
theorem C12_witness :
    ∃ found r,
      gada_select_candidates c11_cor_array example_period 1
        ((gada_thresholded small_constants c11_all_diff (-1 / 10) (1 / 10) 1).map (fun x => x.1))
        (c11_solver ((gada_thresholded small_constants c11_all_diff (-1 / 10) (1 / 10) 1).map
          (fun x => x.2)))
        = some found ∧
      infer_candidate_period_by_GADA small_constants c11_cor_array example_period c11_solver
        example_sort_desc c11_all_diff (-1 / 10) (1 / 10) 1 = some r ∧
      r.length ≤ 2 ∧
      (∀ c ∈ r, 0 < c.period_int ∧ c.period_int ≤ 600 ∧ c.lower_bound_int = c.period_int ∧
        c.upper_bound_int = c.period_int) ∧
      ((∃ c ∈ found, 0 < c.auto_cor_value) →
        ∃ m ∈ r, m ∈ found ∧ ∀ c ∈ found, c.auto_cor_value ≤ m.auto_cor_value) :=
  C12_changepoint_list_shape small_constants c11_cor_array example_period c11_solver
    example_sort_desc c11_all_diff (-1 / 10) (1 / 10) 1 example_sort_desc_perm
    example_sort_desc_sorted
    (c11_solver_wellFormed _ (by decide!) _)

/-! ### First-peak search -/

theorem getc_replicate_zero (n : Nat) (i : Int) (h0 : 0 ≤ i) (h1 : i < (n : Int)) :
    getc (List.replicate n (0 : ℚ)) i = some 0 := by
  unfold getc
  rw [if_pos h0]
  have h : i.toNat < n := by omega
  rw [List.getElem?_replicate]
  simp [h]

theorem first_peak_scan_flat (K : Constants) (pdf : List ℚ) (period : Int) (l : List Int)
    (hl : ∀ i ∈ l, ∃ v, getc pdf i = some v ∧ v < K.kPeakHeightMin) (st : List ℚ × ℚ × Int) :
    l.foldlM (first_peak_scan_step K pdf period) st = some st := by
  induction l with
  | nil => rfl
  | cons i rest ih =>
    obtain ⟨v, hv, hlt⟩ := hl i (List.mem_cons_self _ _)
    rw [List.foldlM_cons]
    have hstep : first_peak_scan_step K pdf period st i = some st := by
      unfold first_peak_scan_step
      simp only [hv, if_pos hlt]
    rw [hstep]
    exact ih (fun j hj => hl j (List.mem_cons_of_mem _ hj))

theorem first_peak_half_width_flat (K : Constants) (n : Nat) (d : Int)
    (hn : (n : Int) = K.kFirstPeakMax + K.kPeakHalfWidthMax)
    (hmin : 0 ≤ K.kFirstPeakMin) (hd : d < K.kFirstPeakMax) (fuel : Nat) (hw : Int)
    (hhw : 1 ≤ hw) (hfuel : K.kPeakHalfWidthMax + 2 ≤ (fuel : Int) + hw) (hf1 : 1 ≤ fuel) :
    ∃ r, first_peak_half_width K (List.replicate n 0) d fuel hw = some r := by
  induction fuel generalizing hw with
  | zero => omega
  | succ fuel ih =>
    unfold first_peak_half_width
    split_ifs with hc
    · obtain ⟨h1, h2, h3⟩ := hc
      rw [getc_replicate_zero n (d - hw) (by omega) (by omega),
        getc_replicate_zero n (d + hw) (by omega) (by omega),
        getc_replicate_zero n d (by omega) (by omega)]
      simp only [add_zero, mul_zero, lt_self_iff_false, if_false]
      exact ih (hw + 1) (by omega) (by push_cast at hfuel ⊢; omega) (by push_cast at hfuel; omega)
    · exact ⟨hw, rfl⟩

/-- C13: when every bin of the search window is a bin of the density with a
value below `kPeakHeightMin`, `find_first_peak_given_bounds` returns, without a
read or write outside an array, a peak whose centre is the centre set by
`OnePeak()`.  The constants of `infer.h` are assumed to satisfy
`kFirstPeakMin ≥ 0`, `kFirstPeakMax ≥ 0`, `kPeakHalfWidthMax ≥ 0` and a centre
of `OnePeak()` below `kFirstPeakMax`; with `_debug > 0` the centre of `OnePeak()` is assumed
non-negative (the dump reads `all_sum` at it). -/
theorem C13_flat_density_first_peak (K : Constants) (OnePeak_ctor : OnePeak) (debug : Int)
    (pdf : List ℚ) (period lower upper : Int)
    (hwin : ∀ i, lower ≤ i → i ≤ upper → ∃ v, getc pdf i = some v ∧ v < K.kPeakHeightMin)
    (hmin : 0 ≤ K.kFirstPeakMin) (hmax : 0 ≤ K.kFirstPeakMax) (hhalf : 0 ≤ K.kPeakHalfWidthMax)
    (hd : OnePeak_ctor.peak_center_int < K.kFirstPeakMax)
    (hdbg : 0 < debug → 0 ≤ OnePeak_ctor.peak_center_int) :
    ∃ pk, find_first_peak_given_bounds K OnePeak_ctor debug pdf period lower upper = some pk ∧
      pk.peak_center_int = OnePeak_ctor.peak_center_int := by
  have hscan := first_peak_scan_flat K pdf period (int_range lower upper)
    (fun i hi => hwin i ((mem_int_range _ _ _).mp hi).1 ((mem_int_range _ _ _).mp hi).2)
    (List.replicate (K.kFirstPeakMax + K.kPeakHalfWidthMax).toNat 0, (-1 : ℚ),
      OnePeak_ctor.peak_center_int)
  have hsz : 0 ≤ K.kFirstPeakMax + K.kPeakHalfWidthMax := by omega
  · have hn : (((K.kFirstPeakMax + K.kPeakHalfWidthMax).toNat : Nat) : Int) =
        K.kFirstPeakMax + K.kPeakHalfWidthMax := Int.toNat_of_nonneg hsz
    obtain ⟨r, hr⟩ := first_peak_half_width_flat K _ OnePeak_ctor.peak_center_int hn hmin hd
      (K.kPeakHalfWidthMax.toNat + 1) 1 (le_refl _) (by push_cast; omega) (by omega)
    unfold find_first_peak_given_bounds
    simp only [hscan, hr]
    by_cases hdb : debug > 0
    · rw [if_pos hdb, getc_replicate_zero _ _ (hdbg hdb) (by omega)]
      exact ⟨_, rfl, rfl⟩
    · rw [if_neg hdb]
      exact ⟨_, rfl, rfl⟩

/-- C13 at a flat density of 26 bins, period 5 and the window `[2, 13]`. -/
theorem C13_witness :
    ∃ pk, find_first_peak_given_bounds small_constants example_peak 1 c13_flat_density 5 2 13
        = some pk ∧
      pk.peak_center_int = example_peak.peak_center_int :=
  C13_flat_density_first_peak small_constants example_peak 1 c13_flat_density 5 2 13
    (by
      intro i h1 h2
      refine ⟨1 / 2, ?_, by decide!⟩
      unfold getc c13_flat_density
      rw [if_pos (by omega), List.getElem?_replicate]
      have : i.toNat < 26 := by omega
      simp [this])
    (by decide) (by decide) (by decide) (by decide) (by intro _; decide)

/-! ### Peak window totals -/

theorem snp_windows_append (l : List OneSegment) (sg : OneSegment) :
    snp_windows (l ++ [sg]) =
      snp_windows l + (if 0 < sg.oneSegmentSNPs.no_of_snps then sg.no_of_windows else 0) := by
  unfold snp_windows
  rw [List.filter_append, List.map_append, List.sum_append]
  by_cases h : 0 < sg.oneSegmentSNPs.no_of_snps
  · simp [List.filter_cons, h]
  · simp [List.filter_cons, h]

theorem find_peaks_add_segment_windows (acc : OnePeak × ℚ) (sg : OneSegment)
    (h : acc.1.no_of_windows = snp_windows acc.1.segment_obj_vector) :
    (find_peaks_add_segment acc sg).1.no_of_windows =
      snp_windows (find_peaks_add_segment acc sg).1.segment_obj_vector := by
  unfold find_peaks_add_segment
  simp only
  split_ifs with h1
  · simp only
    rw [snp_windows_append, if_neg (by omega), add_zero]
    exact h
  · simp only
    rw [snp_windows_append, if_pos (by omega), h]

theorem find_peaks_add_segments_windows (l : List OneSegment) (acc : OnePeak × ℚ)
    (h : acc.1.no_of_windows = snp_windows acc.1.segment_obj_vector) :
    (l.foldl find_peaks_add_segment acc).1.no_of_windows =
      snp_windows (l.foldl find_peaks_add_segment acc).1.segment_obj_vector := by
  induction l generalizing acc with
  | nil => exact h
  | cons a rest ih =>
    simp only [List.foldl_cons]
    exact ih _ (find_peaks_add_segment_windows acc a h)

theorem find_peaks_bins_windows (K : Constants) (segments : List OneSegment) (bins : List Int)
    (acc : OnePeak × ℚ) (h : acc.1.no_of_windows = snp_windows acc.1.segment_obj_vector) :
    (bins.foldl (fun acc rc_ratio_int =>
      (rc_ratio_segments K segments rc_ratio_int).foldl find_peaks_add_segment
        ({ acc.1 with segment_rc_ratio_vector := acc.1.segment_rc_ratio_vector ++ [rc_ratio_int] },
          acc.2)) acc).1.no_of_windows =
    snp_windows (bins.foldl (fun acc rc_ratio_int =>
      (rc_ratio_segments K segments rc_ratio_int).foldl find_peaks_add_segment
        ({ acc.1 with segment_rc_ratio_vector := acc.1.segment_rc_ratio_vector ++ [rc_ratio_int] },
          acc.2)) acc).1.segment_obj_vector := by
  induction bins generalizing acc with
  | nil => exact h
  | cons b rest ih =>
    simp only [List.foldl_cons]
    exact ih _ (find_peaks_add_segments_windows _ _ h)

/-- The aggregation pass leaves in `no_of_windows` the window total of the
contributing segments that carry SNPs. -/
theorem find_peaks_aggregate_windows (K : Constants) (segments : List OneSegment) (pk : OnePeak) :
    (find_peaks_aggregate K segments pk).no_of_windows =
      snp_windows (find_peaks_aggregate K segments pk).segment_obj_vector := by
  unfold find_peaks_aggregate
  simp only
  have h := find_peaks_bins_windows K segments
    (int_range pk.ResetCounters.lower_bound_int pk.ResetCounters.upper_bound_int)
    (pk.ResetCounters, 0) rfl
  split_ifs
  · exact h
  · exact h

/-- C14 (amended): `find_peaks` returns for `period ≥ 1`, and every peak it
returns holds in `segment_obj_vector` every segment filed under a bin of
`[lower_bound_int, upper_bound_int]`, while its `no_of_windows` is the sum of
`no_of_windows` over those of these segments that carry SNPs
(`no_of_snps > 0`). -/
theorem C14_peak_window_total (K : Constants) (segments : List OneSegment)
    (period_obj : OnePeriod) (first_peak_obj : OnePeak) :
    (1 ≤ period_obj.period_int →
      ∃ peaks, find_peaks K segments period_obj first_peak_obj = some peaks) ∧
    ∀ peaks, find_peaks K segments period_obj first_peak_obj = some peaks → ∀ pk ∈ peaks,
      pk.segment_obj_vector =
        (int_range pk.lower_bound_int pk.upper_bound_int).flatMap (rc_ratio_segments K segments) ∧
      pk.no_of_windows =
        ((pk.segment_obj_vector.filter
          (fun sg => decide (0 < sg.oneSegmentSNPs.no_of_snps))).map
            (fun sg => sg.no_of_windows)).sum := by
  refine ⟨?_, ?_⟩
  · intro hp
    obtain ⟨n, hn, _⟩ := find_peaks_shape K segments period_obj first_peak_obj hp
    exact ⟨_, hn⟩
  · intro peaks hpeaks pk hpk
    unfold find_peaks at hpeaks
    simp only at hpeaks
    split_ifs at hpeaks
    simp only [Option.some.injEq] at hpeaks
    subst hpeaks
    obtain ⟨p0, _, rfl⟩ := List.mem_map.mp hpk
    obtain ⟨hpos, hseg⟩ := find_peaks_aggregate_facts K segments p0
    refine ⟨?_, find_peaks_aggregate_windows K segments p0⟩
    have hlo : (find_peaks_aggregate K segments p0).lower_bound_int = p0.lower_bound_int := by
      have := congrArg (fun t => t.2.2.1) hpos
      simpa [OnePeak.position] using this
    have hup : (find_peaks_aggregate K segments p0).upper_bound_int = p0.upper_bound_int := by
      have := congrArg (fun t => t.2.2.2.1) hpos
      simpa [OnePeak.position] using this
    rw [hlo, hup]
    exact hseg

/-- C14 (as stated) fails: with period 400 and a first peak at bin 1000 of
half-width 99, the first peak holds both segments (10 windows with SNPs, 7
windows without), so the window total of its `segment_obj_vector` is 17, but
its `no_of_windows` is 10: the segment without SNPs is not counted. -/
theorem C14_counterexample :
    (find_peaks example_constants c14_segments c5_period c5_narrow_first_peak).map
      (fun peaks => peaks.map (fun pk =>
        (pk.no_of_windows, (pk.segment_obj_vector.map (fun sg => sg.no_of_windows)).sum)))
    = some [(10, 17), (0, 0), (0, 0), (0, 0)] := by
  decide!

/-! ### Coverage log-likelihood -/

theorem logL_rc_value (SS W c : ℝ) (hSS : 0 < SS) (hW : 0 < W) :
    -SS / 2 / Real.sqrt (SS / W) / Real.sqrt (SS / W) -
        (Real.log (Real.sqrt (SS / W)) + c) * W =
      -W / 2 - (Real.log (Real.sqrt (SS / W)) + c) * W := by
  have hs : 0 < SS / W := div_pos hSS hW
  have hsq : Real.sqrt (SS / W) * Real.sqrt (SS / W) = SS / W := Real.mul_self_sqrt hs.le
  have h1 : -SS / 2 / Real.sqrt (SS / W) / Real.sqrt (SS / W) = -W / 2 := by
    rw [div_div, hsq]
    field_simp
    ring
  rw [h1]

theorem logL_rc_strict_anti (SS1 SS2 W c : ℝ) (h1 : 0 < SS1) (h12 : SS1 < SS2) (hW : 0 < W) :
    -SS2 / 2 / Real.sqrt (SS2 / W) / Real.sqrt (SS2 / W) -
        (Real.log (Real.sqrt (SS2 / W)) + c) * W <
      -SS1 / 2 / Real.sqrt (SS1 / W) / Real.sqrt (SS1 / W) -
        (Real.log (Real.sqrt (SS1 / W)) + c) * W := by
  rw [logL_rc_value SS1 W c h1 hW, logL_rc_value SS2 W c (lt_trans h1 h12) hW]
  have hs1 : 0 < SS1 / W := div_pos h1 hW
  have hlt : SS1 / W < SS2 / W := div_lt_div_of_pos_right h12 hW
  have hsq : Real.sqrt (SS1 / W) < Real.sqrt (SS2 / W) := Real.sqrt_lt_sqrt hs1.le hlt
  have hlog : Real.log (Real.sqrt (SS1 / W)) < Real.log (Real.sqrt (SS2 / W)) :=
    Real.log_lt_log (Real.sqrt_pos.mpr hs1) hsq
  have := mul_lt_mul_of_pos_right hlog hW
  nlinarith

theorem calc_one_peak_logL_rc_real (K : Constants) (segments : List OneSegment) (c : ℚ)
    (pk : OnePeak) (po : OnePeriod) (a : ℚ) (hW : 1 ≤ peak_windows K segments pk) :
    (calc_one_peak_logL_rc Real.sqrt Real.log Real.pi K segments c pk po a).1 =
      -(peak_ssum_diff K segments c pk : ℝ) / 2 /
          Real.sqrt ((peak_ssum_diff K segments c pk : ℝ) / (peak_windows K segments pk : ℝ)) /
          Real.sqrt ((peak_ssum_diff K segments c pk : ℝ) / (peak_windows K segments pk : ℝ)) -
        (Real.log (Real.sqrt
            ((peak_ssum_diff K segments c pk : ℝ) / (peak_windows K segments pk : ℝ))) +
          1 / 2 * Real.log (2 * Real.pi)) * (peak_windows K segments pk : ℝ) := by
  unfold calc_one_peak_logL_rc
  simp only
  rw [if_neg (by omega)]
  simp only
  push_cast
  rfl

/-- C15: for a peak of total window count `W ≥ 1`, `calc_one_peak_logL_rc`
returns `-SS/(2*sigma^2) - (ln sigma + 0.5*ln(2*pi))*W` with
`sigma = sqrt(SS/W)`, where `SS` is the window-weighted sum of squared
deviations of the segment ratios from the peak centre (real arithmetic, `sqrt`
and `ln` the real functions); of two peaks with the same `W` and
`0 < SS1 < SS2` the second gets the strictly smaller value. -/
theorem C15_coverage_logL_decreasing (K : Constants) (segments1 segments2 : List OneSegment)
    (c1 c2 : ℚ) (pk1 pk2 : OnePeak) (po1 po2 : OnePeriod) (a1 a2 : ℚ)
    (hW : 1 ≤ peak_windows K segments1 pk1)
    (hWeq : peak_windows K segments2 pk2 = peak_windows K segments1 pk1)
    (hpos : 0 < peak_ssum_diff K segments1 c1 pk1)
    (hlt : peak_ssum_diff K segments1 c1 pk1 < peak_ssum_diff K segments2 c2 pk2) :
    (calc_one_peak_logL_rc Real.sqrt Real.log Real.pi K segments1 c1 pk1 po1 a1).1 =
      -(peak_ssum_diff K segments1 c1 pk1 : ℝ) /
          (2 * Real.sqrt ((peak_ssum_diff K segments1 c1 pk1 : ℝ) /
            (peak_windows K segments1 pk1 : ℝ)) ^ 2) -
        (Real.log (Real.sqrt ((peak_ssum_diff K segments1 c1 pk1 : ℝ) /
            (peak_windows K segments1 pk1 : ℝ))) +
          1 / 2 * Real.log (2 * Real.pi)) * (peak_windows K segments1 pk1 : ℝ) ∧
    (calc_one_peak_logL_rc Real.sqrt Real.log Real.pi K segments2 c2 pk2 po2 a2).1 <
      (calc_one_peak_logL_rc Real.sqrt Real.log Real.pi K segments1 c1 pk1 po1 a1).1 := by
  have hW2 : 1 ≤ peak_windows K segments2 pk2 := by omega
  have hWr : (0 : ℝ) < (peak_windows K segments1 pk1 : ℝ) := by
    have : (1 : ℝ) ≤ (peak_windows K segments1 pk1 : ℝ) := by exact_mod_cast hW
    linarith
  have h1r : (0 : ℝ) < (peak_ssum_diff K segments1 c1 pk1 : ℝ) := by exact_mod_cast hpos
  have h12r : (peak_ssum_diff K segments1 c1 pk1 : ℝ) < (peak_ssum_diff K segments2 c2 pk2 : ℝ) := by
    exact_mod_cast hlt
  refine ⟨?_, ?_⟩
  · rw [calc_one_peak_logL_rc_real K segments1 c1 pk1 po1 a1 hW]
    congr 1
    rw [div_div, div_div, pow_two]
  · rw [calc_one_peak_logL_rc_real K segments1 c1 pk1 po1 a1 hW,
      calc_one_peak_logL_rc_real K segments2 c2 pk2 po2 a2 hW2, hWeq]
    exact logL_rc_strict_anti _ _ _ _ h1r h12r hWr

/-- C15 at the peak over bins 1100 .. 1200 (two segments of ten windows at
ratios 1.1 and 1.2): centre 1.15 gives `SS = 0.05`, centre 1.0 gives
`SS = 0.5`, so the second value is the smaller one. -/
theorem C15_witness :
    (calc_one_peak_logL_rc Real.sqrt Real.log Real.pi example_constants c5_segments (23 / 20)
        c15_peak example_period 0).1 =
      -(peak_ssum_diff example_constants c5_segments (23 / 20) c15_peak : ℝ) /
          (2 * Real.sqrt ((peak_ssum_diff example_constants c5_segments (23 / 20) c15_peak : ℝ) /
            (peak_windows example_constants c5_segments c15_peak : ℝ)) ^ 2) -
        (Real.log (Real.sqrt
            ((peak_ssum_diff example_constants c5_segments (23 / 20) c15_peak : ℝ) /
              (peak_windows example_constants c5_segments c15_peak : ℝ))) +
          1 / 2 * Real.log (2 * Real.pi)) *
          (peak_windows example_constants c5_segments c15_peak : ℝ) ∧
    (calc_one_peak_logL_rc Real.sqrt Real.log Real.pi example_constants c5_segments 1
        c15_peak example_period 0).1 <
      (calc_one_peak_logL_rc Real.sqrt Real.log Real.pi example_constants c5_segments (23 / 20)
        c15_peak example_period 0).1 :=
  C15_coverage_logL_decreasing example_constants c5_segments c5_segments (23 / 20) 1
    c15_peak c15_peak example_period example_period 0 0
    (by decide!) rfl (by decide!) (by decide!)

/-! ### Expected MAF values -/

theorem maf_expected_fin (p : ℚ) (cp j : Int) (hden : 2 - 2 * p + (cp : ℚ) * p ≠ 0) :
    maf_expected (Dbl.fin p) cp j = Dbl.fin (theoretical_maf p cp j) := by
  have hden2 : 2 + -(2 * p) + (cp : ℚ) * p ≠ 0 := by
    intro h
    apply hden
    linarith
  unfold maf_expected theoretical_maf
  simp only [Dbl.sub, Dbl.neg, Dbl.add, Dbl.mul, Dbl.div, if_neg hden2]
  congr 1
  simp only [sub_eq_add_neg]

theorem scorer_keeps_iff (q : ℚ) :
    ¬ (Dbl.lt (Dbl.fin q) (Dbl.fin (1 / 2)) = true ∨ Dbl.lt (Dbl.fin 1) (Dbl.fin q) = true) ↔
      1 / 2 ≤ q ∧ q ≤ 1 := by
  simp only [Dbl.lt, decide_eq_true_eq, not_or, not_lt]

theorem caller_keeps_iff (q : ℚ) :
    ¬ (Dbl.lt (Dbl.fin q) (Dbl.fin (1 / 2)) = true ∨ Dbl.eq (Dbl.fin q) (Dbl.fin 1) = true) ↔
      1 / 2 ≤ q ∧ q ≠ 1 := by
  simp only [Dbl.lt, Dbl.eq, decide_eq_true_eq, not_or, not_lt]

/-- C16 (amended): for a finite purity `p` and a copy number `cp` with
`2 - 2*p + cp*p ≠ 0`, the theoretical MAF of every major-allele copy number is
the number `(1 - p + major*p)/(2 - 2*p + cp*p)`; the SNP scoring keeps, for the
major-allele copy numbers in `[ceil(cp/2), cp]`, exactly the values in the
closed interval `[0.5, 1]`; the copy-number caller keeps no value below `0.5`
and keeps every value in `[0.5, 1)`. -/
theorem C16_expected_maf_filter (adjust_maf_expect : Dbl → ℚ → ℚ → ℚ) (ratio p : ℚ) (cp : Int)
    (pk : OnePeak) (hden : 2 - 2 * p + (cp : ℚ) * p ≠ 0) :
    (∀ j, maf_expected (Dbl.fin p) cp j = Dbl.fin (theoretical_maf p cp j)) ∧
    (∀ x, x ∈ scorer_maf_expected_vector adjust_maf_expect ratio (Dbl.fin p) cp pk ↔
      ∃ j, ⌈(cp : ℚ) / 2⌉ ≤ j ∧ j ≤ cp ∧
        1 / 2 ≤ theoretical_maf p cp j ∧ theoretical_maf p cp j ≤ 1 ∧
        x = adjust_maf_expect (Dbl.fin (theoretical_maf p cp j)) pk.snp_coverage_mean
          (pk.snp_coverage_mean * ratio)) ∧
    (∀ x, x ∈ caller_maf_expected_vector adjust_maf_expect ratio (Dbl.fin p) cp pk →
      ∃ j, ⌈(cp : ℚ) / 2⌉ ≤ j ∧ j ≤ cp ∧ 1 / 2 ≤ theoretical_maf p cp j ∧
        x = adjust_maf_expect (Dbl.fin (theoretical_maf p cp j)) pk.snp_coverage_mean
          (pk.snp_coverage_mean * ratio)) ∧
    (∀ j, ⌈(cp : ℚ) / 2⌉ ≤ j → j ≤ cp → 1 / 2 ≤ theoretical_maf p cp j →
      theoretical_maf p cp j < 1 →
      adjust_maf_expect (Dbl.fin (theoretical_maf p cp j)) pk.snp_coverage_mean
          (pk.snp_coverage_mean * ratio) ∈
        caller_maf_expected_vector adjust_maf_expect ratio (Dbl.fin p) cp pk) := by
  have hm := fun j => maf_expected_fin p cp j hden
  refine ⟨hm, ?_, ?_, ?_⟩
  · intro x
    unfold scorer_maf_expected_vector
    rw [List.mem_filterMap]
    constructor
    · rintro ⟨j, hj, hx⟩
      rw [mem_int_range] at hj
      rw [hm j] at hx
      split_ifs at hx with hc
      have hk := (scorer_keeps_iff _).mp hc
      simp only [Option.some.injEq] at hx
      exact ⟨j, hj.1, hj.2, hk.1, hk.2, hx.symm⟩
    · rintro ⟨j, h1, h2, h3, h4, hx⟩
      refine ⟨j, (mem_int_range _ _ _).mpr ⟨h1, h2⟩, ?_⟩
      rw [hm j, if_neg ((scorer_keeps_iff _).mpr ⟨h3, h4⟩), hx]
  · intro x
    unfold caller_maf_expected_vector
    rw [List.mem_filterMap]
    rintro ⟨j, hj, hx⟩
    rw [mem_int_range] at hj
    rw [hm j] at hx
    split_ifs at hx with hc
    have hk := (caller_keeps_iff _).mp hc
    simp only [Option.some.injEq] at hx
    exact ⟨j, hj.1, hj.2, hk.1, hx.symm⟩
  · intro j h1 h2 h3 h4
    unfold caller_maf_expected_vector
    rw [List.mem_filterMap]
    refine ⟨j, (mem_int_range _ _ _).mpr ⟨h1, h2⟩, ?_⟩
    rw [hm j, if_neg ((caller_keeps_iff _).mpr ⟨h3, ne_of_lt h4⟩)]

/-- C16 (amended) at purity 1 and copy number 2. -/
theorem C16_witness :
    (∀ j, maf_expected (Dbl.fin 1) 2 j = Dbl.fin (theoretical_maf 1 2 j)) ∧
    (∀ x, x ∈ scorer_maf_expected_vector example_adjust_maf_expect 1 (Dbl.fin 1) 2 example_peak ↔
      ∃ j, ⌈((2 : Int) : ℚ) / 2⌉ ≤ j ∧ j ≤ 2 ∧
        1 / 2 ≤ theoretical_maf 1 2 j ∧ theoretical_maf 1 2 j ≤ 1 ∧
        x = example_adjust_maf_expect (Dbl.fin (theoretical_maf 1 2 j))
          example_peak.snp_coverage_mean (example_peak.snp_coverage_mean * 1)) ∧
    (∀ x, x ∈ caller_maf_expected_vector example_adjust_maf_expect 1 (Dbl.fin 1) 2 example_peak →
      ∃ j, ⌈((2 : Int) : ℚ) / 2⌉ ≤ j ∧ j ≤ 2 ∧ 1 / 2 ≤ theoretical_maf 1 2 j ∧
        x = example_adjust_maf_expect (Dbl.fin (theoretical_maf 1 2 j))
          example_peak.snp_coverage_mean (example_peak.snp_coverage_mean * 1)) ∧
    (∀ j, ⌈((2 : Int) : ℚ) / 2⌉ ≤ j → j ≤ 2 → 1 / 2 ≤ theoretical_maf 1 2 j →
      theoretical_maf 1 2 j < 1 →
      example_adjust_maf_expect (Dbl.fin (theoretical_maf 1 2 j)) example_peak.snp_coverage_mean
          (example_peak.snp_coverage_mean * 1) ∈
        caller_maf_expected_vector example_adjust_maf_expect 1 (Dbl.fin 1) 2 example_peak) :=
  C16_expected_maf_filter example_adjust_maf_expect 1 1 2 example_peak (by norm_num)

/-- C16 (as stated) fails: at purity 1 and copy number 2 the theoretical MAF
values are `1/2` (major-allele copy number 1) and `1` (major-allele copy
number 2).  The SNP scoring keeps both, although `1/2` is not in `(0.5, 1]`;
the copy-number caller keeps `1/2` only, so the two filters differ. -/
theorem C16_counterexample :
    theoretical_maf 1 2 1 = 1 / 2 ∧ theoretical_maf 1 2 2 = 1 ∧
    scorer_maf_expected_vector example_adjust_maf_expect 1 (Dbl.fin 1) 2 example_peak
      = [1 / 2, 1] ∧
    caller_maf_expected_vector example_adjust_maf_expect 1 (Dbl.fin 1) 2 example_peak
      = [1 / 2] := by
  decide!

/-! ### The copy-number caller -/

theorem CallerEffect.refl (st : CallerState) : CallerEffect st st [] [] 0 0 [] := by
  simp [CallerEffect]

theorem CallerEffect.trans {st1 st2 st3 : CallerState} {r1 r2 : List OneSegment}
    {b1 b2 : List Int} {l1 l2 c1 c2 : Int} {n1 n2 : List Int}
    (h1 : CallerEffect st1 st2 r1 b1 l1 c1 n1) (h2 : CallerEffect st2 st3 r2 b2 l2 c2 n2) :
    CallerEffect st1 st3 (r1 ++ r2) (b1 ++ b2) (l1 + l2) (c1 + c2) (n1 ++ n2) := by
  obtain ⟨a1, a2, a3, a4, a5⟩ := h1
  obtain ⟨e1, e2, e3, e4, e5⟩ := h2
  refine ⟨?_, ?_, ?_, ?_, ?_⟩
  · rw [e1, a1, List.append_assoc]
  · rw [e2, a2, List.append_assoc]
  · rw [e3, a3]; ring
  · rw [e4, a4]; ring
  · rw [e5, a5, List.append_assoc]

theorem clonal_segment_step_effect (K : Constants) (fp period no cp : Int) (mafs : List ℚ)
    (st : CallerState) (sg : OneSegment) :
    CallerEffect st (clonal_segment_step K fp period no cp mafs st sg)
      (if 0 < sg.oneSegmentSNPs.no_of_snps then [sg] else []) []
      (segment_length sg) (segment_length sg * cp) [segment_length sg] := by
  unfold clonal_segment_step CallerEffect segment_length
  by_cases h : sg.oneSegmentSNPs.no_of_snps ≤ 0
  · simp [h, not_lt.mpr h]
  · simp [h, not_le.mp h]

theorem clonal_segments_effect (K : Constants) (fp period no cp : Int) (mafs : List ℚ)
    (l : List OneSegment) (st : CallerState) :
    CallerEffect st (l.foldl (clonal_segment_step K fp period no cp mafs) st)
      (l.filter (fun sg => decide (0 < sg.oneSegmentSNPs.no_of_snps))) []
      ((l.map segment_length).sum) ((l.map (fun sg => segment_length sg * cp)).sum)
      (l.map segment_length) := by
  induction l generalizing st with
  | nil => exact CallerEffect.refl st
  | cons sg rest ih =>
    have h1 := clonal_segment_step_effect K fp period no cp mafs st sg
    have h2 := ih (clonal_segment_step K fp period no cp mafs st sg)
    have h := CallerEffect.trans h1 h2
    simp only [List.foldl_cons, List.map_cons, List.sum_cons, List.filter_cons]
    by_cases hs : 0 < sg.oneSegmentSNPs.no_of_snps
    · simpa [hs] using h
    · simpa [hs] using h

theorem clonal_peak_step_effect (K : Constants) (adjust : Dbl → ℚ → ℚ → ℚ) (ratio : ℚ)
    (purity : Dbl) (fp period no cp : Int) (st : CallerState) (pk : OnePeak) :
    CallerEffect st (clonal_peak_step K adjust ratio purity fp period no cp st pk).1
      (((clonal_pass_segments adjust ratio purity cp [pk]).filter
        (fun x => decide (0 < x.2.oneSegmentSNPs.no_of_snps))).map (fun x => x.2))
      pk.segment_rc_ratio_vector
      (((clonal_pass_segments adjust ratio purity cp [pk]).map (fun x => segment_length x.2)).sum)
      (((clonal_pass_segments adjust ratio purity cp [pk]).map
        (fun x => segment_length x.2 * x.1)).sum)
      ((clonal_pass_segments adjust ratio purity cp [pk]).map (fun x => segment_length x.2)) := by
  have hmark : CallerEffect st { st with looked := st.looked ++ pk.segment_rc_ratio_vector }
      [] pk.segment_rc_ratio_vector 0 0 [] := by
    simp [CallerEffect]
  unfold clonal_peak_step
  simp only [clonal_pass_segments, List.append_nil, clonal_peak_called]
  by_cases h1 : pk.no_of_snps ≤ 0
  · simp only [if_pos h1]
    have : ¬ 0 < pk.no_of_snps := not_lt.mpr h1
    simpa [this] using hmark
  · have h1' : 0 < pk.no_of_snps := not_le.mp h1
    simp only [if_neg h1]
    by_cases h2 : ((caller_maf_expected_vector adjust ratio purity cp pk).length : Int) ≤ 0
    · simp only [if_pos h2]
      have : ¬ 0 < (caller_maf_expected_vector adjust ratio purity cp pk).length := by omega
      simpa [this] using hmark
    · simp only [if_neg h2]
      have h2' : 0 < (caller_maf_expected_vector adjust ratio purity cp pk).length := by omega
      have hseg := clonal_segments_effect K fp period no cp
        (caller_maf_expected_vector adjust ratio purity cp pk) pk.segment_obj_vector
        { st with looked := st.looked ++ pk.segment_rc_ratio_vector }
      have h := CallerEffect.trans hmark hseg
      simp only [h1', h2', decide_True, Bool.and_self, if_true, List.map_map, Function.comp_def,
        List.filter_map]
      simpa [Function.comp_def] using h

theorem clonal_pass_effect (K : Constants) (adjust : Dbl → ℚ → ℚ → ℚ) (ratio : ℚ)
    (purity : Dbl) (fp period no : Int) (peaks : List OnePeak) (cp : Int) (st : CallerState) :
    CallerEffect st (clonal_pass K adjust ratio purity fp period no cp st peaks).1
      (((clonal_pass_segments adjust ratio purity cp peaks).filter
        (fun x => decide (0 < x.2.oneSegmentSNPs.no_of_snps))).map (fun x => x.2))
      (peaks.flatMap (fun pk => pk.segment_rc_ratio_vector))
      (((clonal_pass_segments adjust ratio purity cp peaks).map (fun x => segment_length x.2)).sum)
      (((clonal_pass_segments adjust ratio purity cp peaks).map
        (fun x => segment_length x.2 * x.1)).sum)
      ((clonal_pass_segments adjust ratio purity cp peaks).map (fun x => segment_length x.2)) := by
  induction peaks generalizing cp st with
  | nil =>
    simpa [clonal_pass, clonal_pass_segments] using CallerEffect.refl st
  | cons pk rest ih =>
    have h1 := clonal_peak_step_effect K adjust ratio purity fp period no cp st pk
    have h2 := ih (cp + 1) (clonal_peak_step K adjust ratio purity fp period no cp st pk).1
    have h := CallerEffect.trans h1 h2
    simp only [clonal_pass_segments, List.append_nil] at h
    simp only [clonal_pass, clonal_pass_segments, List.flatMap_cons, List.filter_append,
      List.map_append, List.sum_append]
    exact h

theorem subclonal_row_some (d p q c : ℚ) (sg : OneSegment) (hp : p ≠ 0) :
    ∃ row, subclonal_row d (Dbl.fin p) (Dbl.fin q) (Dbl.fin c) sg = some row ∧
      row.segment = sg := by
  unfold subclonal_row
  simp only [Dbl.mul, Dbl.add, Dbl.sub, Dbl.neg, Dbl.div, if_neg hp, Dbl.toInt]
  split_ifs <;> exact ⟨_, rfl, rfl⟩

theorem subclonal_segment_step_effect (d p q c : ℚ) (hp : p ≠ 0) (st : CallerState)
    (sg : OneSegment) :
    ∃ st2, subclonal_segment_step d (Dbl.fin p) (Dbl.fin q) (Dbl.fin c) st sg = some st2 ∧
      CallerEffect st st2 [sg] [] 0 0 [segment_length sg] := by
  obtain ⟨row, hrow, hseg⟩ := subclonal_row_some d p q c sg hp
  unfold subclonal_segment_step
  simp only [hrow]
  refine ⟨_, rfl, ?_⟩
  simp [CallerEffect, hseg, segment_length]

theorem subclonal_segments_effect (d p q c : ℚ) (hp : p ≠ 0) (l : List OneSegment)
    (st : CallerState) :
    ∃ st2, l.foldlM (subclonal_segment_step d (Dbl.fin p) (Dbl.fin q) (Dbl.fin c)) st = some st2 ∧
      CallerEffect st st2 l [] 0 0 (l.map segment_length) := by
  induction l generalizing st with
  | nil => exact ⟨st, rfl, CallerEffect.refl st⟩
  | cons sg rest ih =>
    obtain ⟨st1, h1, e1⟩ := subclonal_segment_step_effect d p q c hp st sg
    obtain ⟨st2, h2, e2⟩ := ih st1
    refine ⟨st2, ?_, ?_⟩
    · rw [List.foldlM_cons, h1]
      exact h2
    · simpa using CallerEffect.trans e1 e2

theorem subclonal_bins_effect (K : Constants) (segments : List OneSegment) (d p q : ℚ)
    (fp period no : Int) (hp : p ≠ 0) (hper : period ≠ 0) (bins : List Int) (st : CallerState) :
    ∃ st2, bins.foldlM (subclonal_bin_step K segments d (Dbl.fin p) (Dbl.fin q) fp period no) st
        = some st2 ∧
      CallerEffect st st2
        ((bins.filter (fun r => decide (r ∉ st.looked))).flatMap (rc_ratio_segments K segments))
        [] 0 0
        (((bins.filter (fun r => decide (r ∉ st.looked))).flatMap
          (rc_ratio_segments K segments)).map segment_length) := by
  induction bins generalizing st with
  | nil => exact ⟨st, rfl, CallerEffect.refl st⟩
  | cons r rest ih =>
    have hperq : (period : ℚ) ≠ 0 := by exact_mod_cast hper
    by_cases hr : r ∈ st.looked
    · obtain ⟨st2, h2, e2⟩ := ih st
      refine ⟨st2, ?_, ?_⟩
      · rw [List.foldlM_cons]
        have : subclonal_bin_step K segments d (Dbl.fin p) (Dbl.fin q) fp period no st r
            = some st := by
          unfold subclonal_bin_step
          rw [if_pos hr]
        rw [this]
        exact h2
      · simpa [List.filter_cons, hr] using e2
    · obtain ⟨st1, h1, e1⟩ := subclonal_segments_effect d p q
        (((r - fp : Int) : ℚ) / (period : ℚ) + (no : ℚ)) hp (rc_ratio_segments K segments r) st
      obtain ⟨st2, h2, e2⟩ := ih st1
      have hlooked : st1.looked = st.looked := by
        have := e1.2.1
        simpa using this
      refine ⟨st2, ?_, ?_⟩
      · rw [List.foldlM_cons]
        have : subclonal_bin_step K segments d (Dbl.fin p) (Dbl.fin q) fp period no st r
            = some st1 := by
          unfold subclonal_bin_step
          rw [if_neg hr]
          simp only [Dbl.div, Dbl.add, if_neg hperq]
          exact h1
        rw [this]
        exact h2
      · rw [hlooked] at e2
        have h := CallerEffect.trans e1 e2
        simpa [List.filter_cons, hr] using h

/-- The caller as a whole, for a period other than zero, a finite purity other
than zero and a finite ploidy: it returns; rows are written for the segments
with SNPs of the clonal pass and then for every segment of the subclonal pass;
the lengths added are those of all segments of the clonal pass and of the
subclonal pass; the value returned is the quotient of the two clonal sums. -/
theorem output_copy_number_segments_spec (K : Constants) (segments : List OneSegment)
    (adjust : Dbl → ℚ → ℚ → ℚ) (ratio d : ℚ) (best : OnePeriod) (peaks : List OnePeak)
    (p q : ℚ) (hper : best.period_int ≠ 0) (hpur : best.best_purity = Dbl.fin p) (hp : p ≠ 0)
    (hplo : best.best_ploidy = Dbl.fin q) :
    ∃ out, output_copy_number_segments K segments adjust ratio d best peaks = some out ∧
      out.state.rows.map (fun r => r.segment) =
        ((clonal_pass_segments adjust ratio best.best_purity
            best.best_no_of_copy_nos_bf_1st_peak peaks).filter
          (fun x => decide (0 < x.2.oneSegmentSNPs.no_of_snps))).map (fun x => x.2) ++
        subclonal_pass_segments K segments peaks ∧
      out.state.added_lengths =
        (clonal_pass_segments adjust ratio best.best_purity
            best.best_no_of_copy_nos_bf_1st_peak peaks).map (fun x => segment_length x.2) ++
        (subclonal_pass_segments K segments peaks).map segment_length ∧
      out.returned = Dbl.div
        (Dbl.fin ((((clonal_pass_segments adjust ratio best.best_purity
            best.best_no_of_copy_nos_bf_1st_peak peaks).map
              (fun x => segment_length x.2 * x.1)).sum : Int) : ℚ))
        (Dbl.fin ((((clonal_pass_segments adjust ratio best.best_purity
            best.best_no_of_copy_nos_bf_1st_peak peaks).map
              (fun x => segment_length x.2)).sum : Int) : ℚ)) := by
  have e1 := clonal_pass_effect K adjust ratio best.best_purity
    best.first_peak_obj.peak_center_int best.period_int best.best_no_of_copy_nos_bf_1st_peak
    peaks best.best_no_of_copy_nos_bf_1st_peak
    { rows := [], looked := [], genome_len_cnv_all := 0, genome_len_clonal := 0
      cp_number_multi_len := Dbl.fin 0, cp_number_multi_len_clonal := 0, added_lengths := [] }
  obtain ⟨st2, h2, e2⟩ := subclonal_bins_effect K segments d p q best.first_peak_int
    best.period_int best.best_no_of_copy_nos_bf_1st_peak hp hper
    (int_range 0 K.MAX_RATIO_RANGE_HIGH_RES)
    (clonal_pass K adjust ratio best.best_purity best.first_peak_obj.peak_center_int
      best.period_int best.best_no_of_copy_nos_bf_1st_peak best.best_no_of_copy_nos_bf_1st_peak
      { rows := [], looked := [], genome_len_cnv_all := 0, genome_len_clonal := 0
        cp_number_multi_len := Dbl.fin 0, cp_number_multi_len_clonal := 0, added_lengths := [] }
      peaks).1
  have hlooked := e1.2.1
  simp only [List.nil_append] at hlooked
  rw [hlooked] at e2
  have e := CallerEffect.trans e1 e2
  obtain ⟨r1, _, r3, r4, r5⟩ := e
  simp only [List.map_nil, List.nil_append, zero_add, add_zero] at r1 r3 r4 r5
  unfold output_copy_number_segments
  simp only
  rw [hpur, hplo] at *
  rw [h2]
  refine ⟨_, rfl, ?_, ?_, ?_⟩
  · simpa [subclonal_pass_segments] using r1
  · simpa [subclonal_pass_segments] using r5
  · simp only [r3, r4]

theorem filter_or_perm {α : Type} (l : List α) (p q : α → Bool)
    (hdisj : ∀ a, p a = true → q a = false) :
    (l.filter (fun a => p a || q a)).Perm (l.filter p ++ l.filter q) := by
  induction l with
  | nil => simp
  | cons a rest ih =>
    by_cases hp : p a = true
    · have hq : q a = false := hdisj a hp
      simp only [List.filter_cons, hp, hq, Bool.or_false, if_true, Bool.false_eq_true, if_false,
        List.cons_append]
      exact List.Perm.cons a ih
    · have hp' : p a = false := by simpa using hp
      by_cases hq : q a = true
      · simp only [List.filter_cons, hp', hq, Bool.or_true, if_true, Bool.false_eq_true, if_false]
        exact (List.Perm.cons a ih).trans List.perm_middle.symm
      · have hq' : q a = false := by simpa using hq
        simp only [List.filter_cons, hp', hq', Bool.or_false, Bool.false_eq_true, if_false]
        exact ih

theorem flatMap_rc_ratio_segments_perm (K : Constants) (segments : List OneSegment)
    (bins : List Int) (hbins : bins.Nodup) :
    (bins.flatMap (rc_ratio_segments K segments)).Perm
      (segments.filter (fun sg => decide (ratio_high_res K sg ∈ bins))) := by
  induction bins with
  | nil => simp
  | cons b rest ih =>
    have hb : b ∉ rest := (List.nodup_cons.mp hbins).1
    have h1 := ih (List.nodup_cons.mp hbins).2
    have h2 := filter_or_perm segments (fun sg => decide (ratio_high_res K sg = b))
      (fun sg => decide (ratio_high_res K sg ∈ rest))
      (by
        intro sg hsg
        simp only [decide_eq_true_eq] at hsg
        simp only [decide_eq_false_iff_not]
        rw [hsg]
        exact hb)
    have h3 : (segments.filter (fun sg => decide (ratio_high_res K sg ∈ b :: rest))) =
        segments.filter (fun sg => decide (ratio_high_res K sg = b) ||
          decide (ratio_high_res K sg ∈ rest)) := by
      congr 1
      funext sg
      simp [List.mem_cons]
    rw [h3, List.flatMap_cons]
    refine (List.Perm.append_left _ h1).trans ?_
    exact h2.symm

/-- The subclonal pass visits every used segment whose bin lies in
`0 .. MAX_RATIO_RANGE_HIGH_RES` and in the bin list of no peak, once per
occurrence. -/
theorem subclonal_pass_segments_perm (K : Constants) (segments : List OneSegment)
    (peaks : List OnePeak) :
    (subclonal_pass_segments K segments peaks).Perm
      (segments.filter (fun sg =>
        decide (0 ≤ ratio_high_res K sg ∧ ratio_high_res K sg ≤ K.MAX_RATIO_RANGE_HIGH_RES ∧
          ratio_high_res K sg ∉ peaks.flatMap (fun pk => pk.segment_rc_ratio_vector)))) := by
  unfold subclonal_pass_segments
  have hnd : ((int_range 0 K.MAX_RATIO_RANGE_HIGH_RES).filter (fun ratio_int =>
      decide (ratio_int ∉ peaks.flatMap (fun pk => pk.segment_rc_ratio_vector)))).Nodup :=
    (nodup_int_range _ _).filter _
  have h := flatMap_rc_ratio_segments_perm K segments _ hnd
  have heq : (segments.filter (fun sg => decide (ratio_high_res K sg ∈
      (int_range 0 K.MAX_RATIO_RANGE_HIGH_RES).filter (fun ratio_int =>
        decide (ratio_int ∉ peaks.flatMap (fun pk => pk.segment_rc_ratio_vector)))))) =
      segments.filter (fun sg =>
        decide (0 ≤ ratio_high_res K sg ∧ ratio_high_res K sg ≤ K.MAX_RATIO_RANGE_HIGH_RES ∧
          ratio_high_res K sg ∉ peaks.flatMap (fun pk => pk.segment_rc_ratio_vector))) := by
    congr 1
    funext sg
    simp only [List.mem_filter, mem_int_range, decide_eq_true_eq, and_assoc]
  rw [← heq]
  exact h

/-- C17 (amended): for a winning period other than zero with a finite purity
other than zero and a finite ploidy, `output_copy_number_segments` returns
`_ploidy_clonal`, the value stored as `ploidy_corrected`: the length-weighted
mean of the integer copy number over the segments of the peaks handled by the
clonal pass (peaks with SNPs and at least one expected MAF), that is
`sum(length * cp) / sum(length)` over these segments alone. -/
theorem C17_returned_ploidy (K : Constants) (segments : List OneSegment)
    (adjust : Dbl → ℚ → ℚ → ℚ) (ratio d : ℚ) (best : OnePeriod) (p q : ℚ)
    (hper : best.period_int ≠ 0) (hpur : best.best_purity = Dbl.fin p) (hp : p ≠ 0)
    (hplo : best.best_ploidy = Dbl.fin q) :
    ∃ out best2,
      output_copy_number_segments K segments adjust ratio d best best.peak_obj_vector = some out ∧
      run_recalibration K segments adjust ratio d best = some best2 ∧
      best2.ploidy_corrected = out.returned ∧
      out.returned = out.ploidy_clonal ∧
      out.returned = Dbl.div
        (Dbl.fin ((((clonal_pass_segments adjust ratio best.best_purity
            best.best_no_of_copy_nos_bf_1st_peak best.peak_obj_vector).map
              (fun x => segment_length x.2 * x.1)).sum : Int) : ℚ))
        (Dbl.fin ((((clonal_pass_segments adjust ratio best.best_purity
            best.best_no_of_copy_nos_bf_1st_peak best.peak_obj_vector).map
              (fun x => segment_length x.2)).sum : Int) : ℚ)) := by
  obtain ⟨out, hout, _, _, hret⟩ := output_copy_number_segments_spec K segments adjust ratio d
    best best.peak_obj_vector p q hper hpur hp hplo
  refine ⟨out, recalibrate_Q_and_purity_based_on_cnv_ploidy K
    { best with peak_obj_vector := out.peak_obj_vector, ploidy_corrected := out.returned },
    hout, ?_, ?_, ?_, hret⟩
  · unfold run_recalibration
    rw [hout]
  · rfl
  · unfold output_copy_number_segments at hout
    simp only at hout
    split at hout
    · exact absurd hout (by simp)
    · simp only [Option.some.injEq] at hout
      rw [← hout]

/-- C17 at the period of `c17_period` with the segments `c17_segment_a` (in the
peak) and `c17_segment_b` (outside it). -/
theorem C17_witness :
    ∃ out best2,
      output_copy_number_segments small_constants [c17_segment_a, c17_segment_b]
        example_adjust_maf_expect 1 1 c17_period c17_period.peak_obj_vector = some out ∧
      run_recalibration small_constants [c17_segment_a, c17_segment_b]
        example_adjust_maf_expect 1 1 c17_period = some best2 ∧
      best2.ploidy_corrected = out.returned ∧
      out.returned = out.ploidy_clonal ∧
      out.returned = Dbl.div
        (Dbl.fin ((((clonal_pass_segments example_adjust_maf_expect 1 c17_period.best_purity
            c17_period.best_no_of_copy_nos_bf_1st_peak c17_period.peak_obj_vector).map
              (fun x => segment_length x.2 * x.1)).sum : Int) : ℚ))
        (Dbl.fin ((((clonal_pass_segments example_adjust_maf_expect 1 c17_period.best_purity
            c17_period.best_no_of_copy_nos_bf_1st_peak c17_period.peak_obj_vector).map
              (fun x => segment_length x.2)).sum : Int) : ℚ)) :=
  C17_returned_ploidy small_constants [c17_segment_a, c17_segment_b] example_adjust_maf_expect
    1 1 c17_period 1 2 (by decide) rfl (by norm_num) rfl

/-- C17 (as stated) fails: segment A (positions 1 .. 100) lies in the peak of
copy number 2, segment B (positions 101 .. 200) lies outside every peak and is
called with the fractional copy number 3.  Both get a row, so the
length-weighted mean over all called segments is `(100*2 + 100*3)/200 = 5/2`
(this is `_ploidy_cnv_all`), but the value returned and stored as
`ploidy_corrected` is `100*2/100 = 2`. -/
theorem C17_counterexample :
    (output_copy_number_segments small_constants [c17_segment_a, c17_segment_b]
        example_adjust_maf_expect 1 1 c17_period c17_period.peak_obj_vector).map
      (fun out => (out.state.rows.map (fun r => (r.segment.start_pos, r.segment.end_pos, r.cp)),
        out.ploidy_cnv_all, out.returned))
      = some ([(1, 100, Dbl.fin 2), (101, 200, Dbl.fin 3)], Dbl.fin (5 / 2), Dbl.fin 2) ∧
    (run_recalibration small_constants [c17_segment_a, c17_segment_b]
        example_adjust_maf_expect 1 1 c17_period).map (fun b => b.ploidy_corrected)
      = some (Dbl.fin 2) := by
  decide!

/-- C18 (amended): for a winning period other than zero with a finite purity
other than zero and a finite ploidy, `output_copy_number_segments` writes its
rows in two passes.  The clonal pass writes one row for every segment with SNPs
in the `segment_obj_vector` of every peak that has SNPs and at least one
expected MAF, and no row for the other segments of the peaks.  The subclonal
pass then writes one row for every stored segment whose bin lies in
`0 .. MAX_RATIO_RANGE_HIGH_RES` and in the bin list of no peak. -/
theorem C18_rows_written (K : Constants) (segments : List OneSegment)
    (adjust : Dbl → ℚ → ℚ → ℚ) (ratio d : ℚ) (best : OnePeriod) (peaks : List OnePeak)
    (p q : ℚ) (hper : best.period_int ≠ 0) (hpur : best.best_purity = Dbl.fin p) (hp : p ≠ 0)
    (hplo : best.best_ploidy = Dbl.fin q) :
    ∃ out, output_copy_number_segments K segments adjust ratio d best peaks = some out ∧
      out.state.rows.map (fun r => r.segment) =
        ((clonal_pass_segments adjust ratio best.best_purity
            best.best_no_of_copy_nos_bf_1st_peak peaks).filter
          (fun x => decide (0 < x.2.oneSegmentSNPs.no_of_snps))).map (fun x => x.2) ++
        subclonal_pass_segments K segments peaks ∧
      (subclonal_pass_segments K segments peaks).Perm
        (segments.filter (fun sg =>
          decide (0 ≤ ratio_high_res K sg ∧ ratio_high_res K sg ≤ K.MAX_RATIO_RANGE_HIGH_RES ∧
            ratio_high_res K sg ∉ peaks.flatMap (fun pk => pk.segment_rc_ratio_vector)))) := by
  obtain ⟨out, hout, hrows, _, _⟩ := output_copy_number_segments_spec K segments adjust ratio d
    best peaks p q hper hpur hp hplo
  exact ⟨out, hout, hrows, subclonal_pass_segments_perm K segments peaks⟩

/-- C18 (amended) at the period of `c17_period`. -/
theorem C18_witness :
    ∃ out, output_copy_number_segments small_constants [c17_segment_a, c17_segment_b]
        example_adjust_maf_expect 1 1 c17_period [c17_peak] = some out ∧
      out.state.rows.map (fun r => r.segment) =
        ((clonal_pass_segments example_adjust_maf_expect 1 c17_period.best_purity
            c17_period.best_no_of_copy_nos_bf_1st_peak [c17_peak]).filter
          (fun x => decide (0 < x.2.oneSegmentSNPs.no_of_snps))).map (fun x => x.2) ++
        subclonal_pass_segments small_constants [c17_segment_a, c17_segment_b] [c17_peak] ∧
      (subclonal_pass_segments small_constants [c17_segment_a, c17_segment_b] [c17_peak]).Perm
        ([c17_segment_a, c17_segment_b].filter (fun sg =>
          decide (0 ≤ ratio_high_res small_constants sg ∧
            ratio_high_res small_constants sg ≤ small_constants.MAX_RATIO_RANGE_HIGH_RES ∧
            ratio_high_res small_constants sg ∉
              [c17_peak].flatMap (fun pk => pk.segment_rc_ratio_vector)))) :=
  C18_rows_written small_constants [c17_segment_a, c17_segment_b] example_adjust_maf_expect
    1 1 c17_period [c17_peak] 1 2 (by decide) rfl (by norm_num) rfl

/-- C18 (as stated) fails: the one stored segment lies in bin 10, a bin of the
one peak, and carries no SNPs (so the peak has none).  The clonal pass marks
the bins of the peak and skips the peak (line 2122); the subclonal pass skips
the marked bins.  No row is written for the segment. -/
theorem C18_counterexample :
    ratio_high_res small_constants c18_segment = 10 ∧
    10 ∈ c18_peak.segment_rc_ratio_vector ∧
    (output_copy_number_segments small_constants [c18_segment] example_adjust_maf_expect 1 1
        { c17_period with peak_obj_vector := [c18_peak] } [c18_peak]).map
      (fun out => out.state.rows) = some [] := by
  decide!

/-! ### Segment loading -/

/-- C19: `findSNPsWithinSegment` assigns `OneSegmentSNPs()` to the segment and
leaves `_total_no_of_snps_used` as it was when the segment has `start > end`,
and when at most 10 SNPs of its chromosome have a position in `[start, end]`. -/
theorem C19_null_snp_aggregate (OneSegmentSNPs_ctor : OneSegmentSNPs)
    (robust : List ℚ → ℚ × ℚ × ℚ × Int) (snp_maf_stddev_divider : ℚ)
    (SNPs : List (List OneSNP)) (total_no_of_snps_used : Int) (sg : OneSegment)
    (h : sg.end_pos < sg.start_pos ∨
      ∃ snps, getc SNPs sg.chr_index = some snps ∧
        ((snps.filter (fun s =>
          decide (s.position ≥ sg.start_pos ∧ s.position ≤ sg.end_pos))).length : Int) ≤ 10) :
    findSNPsWithinSegment OneSegmentSNPs_ctor robust snp_maf_stddev_divider SNPs
        total_no_of_snps_used sg =
      some ({ sg with oneSegmentSNPs := OneSegmentSNPs_ctor }, total_no_of_snps_used) := by
  unfold findSNPsWithinSegment
  by_cases hle : sg.end_pos ≤ sg.start_pos
  · rw [if_pos hle]
  · rw [if_neg hle]
    rcases h with h | ⟨snps, hs, hcount⟩
    · omega
    · simp only [hs]
      rw [if_pos hcount]

/-- C19 at a segment over the positions 1 .. 100 that holds ten SNPs. -/
theorem C19_witness :
    findSNPsWithinSegment example_null_snps example_robust 1 [c19_snps] 7 c19_segment =
      some ({ c19_segment with oneSegmentSNPs := example_null_snps }, 7) :=
  C19_null_snp_aggregate example_null_snps example_robust 1 [c19_snps] 7 c19_segment
    (Or.inr ⟨c19_snps, rfl, by decide!⟩)

theorem findSNPsWithinSegment_coordinates (OneSegmentSNPs_ctor : OneSegmentSNPs)
    (robust : List ℚ → ℚ × ℚ × ℚ × Int) (snp_maf_stddev_divider : ℚ)
    (SNPs : List (List OneSNP)) (total : Int) (sg sg2 : OneSegment) (total2 : Int)
    (h : findSNPsWithinSegment OneSegmentSNPs_ctor robust snp_maf_stddev_divider SNPs total sg
      = some (sg2, total2)) :
    sg2.start_pos = sg.start_pos ∧ sg2.end_pos = sg.end_pos := by
  unfold findSNPsWithinSegment at h
  split_ifs at h with h1
  · simp only [Option.some.injEq, Prod.mk.injEq] at h
    rw [← h.1]
    exact ⟨rfl, rfl⟩
  · split at h
    · exact absurd h (by simp)
    · simp only at h
      split_ifs at h
      · simp only [Option.some.injEq, Prod.mk.injEq] at h
        rw [← h.1]
        exact ⟨rfl, rfl⟩
      · simp only [Option.some.injEq, Prod.mk.injEq] at h
        rw [← h.1]
        exact ⟨rfl, rfl⟩

theorem segment_snps_and_density_coordinates (K : Constants)
    (OneSegmentSNPs_ctor : OneSegmentSNPs) (robust : List ℚ → ℚ × ℚ × ℚ × Int)
    (snp_maf_stddev_divider : ℚ) (expf : ℚ → ℚ) (SNPs : List (List OneSNP)) (total : Int)
    (pdf : List ℚ) (sg : OneSegment) (filed : OneSegment × Int × List ℚ)
    (h : segment_snps_and_density K OneSegmentSNPs_ctor robust snp_maf_stddev_divider expf SNPs
      total pdf sg = some filed) :
    filed.1.start_pos = sg.start_pos ∧ filed.1.end_pos = sg.end_pos := by
  unfold segment_snps_and_density at h
  by_cases hr : sg.rc_ratio ≤ K.MAX_RATIO
  · rw [if_pos hr] at h
    cases hfind : findSNPsWithinSegment OneSegmentSNPs_ctor robust snp_maf_stddev_divider SNPs
        total sg with
    | none =>
      rw [hfind] at h
      exact absurd h (by simp)
    | some found =>
      rw [hfind] at h
      simp only at h
      split at h
      · exact absurd h (by simp)
      · simp only [Option.some.injEq] at h
        rw [← h]
        exact findSNPsWithinSegment_coordinates _ _ _ _ _ _ found.1 found.2 hfind
  · rw [if_neg hr] at h
    simp only [Option.some.injEq] at h
    rw [← h]
    exact ⟨rfl, rfl⟩

theorem getSegmentDataFromFile_step_coordinates (K : Constants)
    (OneSegmentSNPs_ctor : OneSegmentSNPs) (robust : List ℚ → ℚ × ℚ × ℚ × Int)
    (snp_maf_stddev_divider segment_stddev_divider : ℚ) (expf : ℚ → ℚ)
    (SNPs : List (List OneSNP)) (st st2 : SegmentLoadState) (r : SegmentRecord)
    (h : getSegmentDataFromFile_step K OneSegmentSNPs_ctor robust snp_maf_stddev_divider
      segment_stddev_divider expf SNPs st r = some st2) :
    st2.segments = st.segments ∨
      ∃ sg, st2.segments = st.segments ++ [sg] ∧ sg.start_pos = r.start_pos ∧
        sg.end_pos = r.end_pos := by
  unfold getSegmentDataFromFile_step at h
  simp only at h
  by_cases h1 : r.read_count_ratio > 1 / 10 ∧
      r.stddev_column / segment_stddev_divider > r.read_count_ratio
  · rw [if_pos h1] at h
    simp only [Option.some.injEq] at h
    rw [← h]
    exact Or.inl rfl
  · rw [if_neg h1] at h
    by_cases h2 : r.read_count_ratio ≤ K.MAX_RATIO_RANGE ∧
        r.stddev_column / segment_stddev_divider > 1 / (10 : ℚ) ^ 12
    · rw [if_pos h2] at h
      by_cases h3 : r.chr_index = -1
      · rw [if_pos h3] at h
        simp only [Option.some.injEq] at h
        rw [← h]
        exact Or.inl rfl
      · rw [if_neg h3] at h
        split at h
        · exact absurd h (by simp)
        · rename_i filed hfiled
          have hc := segment_snps_and_density_coordinates _ _ _ _ _ _ _ _ _ _ hfiled
          split_ifs at h
          simp only [Option.some.injEq] at h
          rw [← h]
          exact Or.inr ⟨filed.1, rfl, hc.1, hc.2⟩
    · rw [if_neg h2] at h
      simp only [Option.some.injEq] at h
      rw [← h]
      exact Or.inl rfl

theorem getSegmentDataFromFile_fold_coordinates (K : Constants)
    (OneSegmentSNPs_ctor : OneSegmentSNPs) (robust : List ℚ → ℚ × ℚ × ℚ × Int)
    (snp_maf_stddev_divider segment_stddev_divider : ℚ) (expf : ℚ → ℚ)
    (SNPs : List (List OneSNP)) (records : List SegmentRecord) (st st2 : SegmentLoadState)
    (h : records.foldlM (getSegmentDataFromFile_step K OneSegmentSNPs_ctor robust
      snp_maf_stddev_divider segment_stddev_divider expf SNPs) st = some st2)
    (P : Int → Int → Prop) (hst : ∀ sg ∈ st.segments, P sg.start_pos sg.end_pos)
    (hrec : ∀ r ∈ records, P r.start_pos r.end_pos) :
    ∀ sg ∈ st2.segments, P sg.start_pos sg.end_pos := by
  induction records generalizing st with
  | nil =>
    simp only [List.foldlM_nil, Option.pure_def, Option.some.injEq] at h
    rw [← h]
    exact hst
  | cons r rest ih =>
    rw [List.foldlM_cons] at h
    cases hstep : getSegmentDataFromFile_step K OneSegmentSNPs_ctor robust snp_maf_stddev_divider
        segment_stddev_divider expf SNPs st r with
    | none =>
      rw [hstep] at h
      exact absurd h (by simp)
    | some st1 =>
      rw [hstep] at h
      simp only [Option.bind_eq_bind, Option.some_bind] at h
      refine ih st1 h ?_ (fun r' hr' => hrec r' (List.mem_cons_of_mem _ hr'))
      rcases getSegmentDataFromFile_step_coordinates _ _ _ _ _ _ _ _ _ _ hstep with he | ⟨sg, he, h1, h2⟩
      · rw [he]
        exact hst
      · rw [he]
        intro x hx
        rcases List.mem_append.mp hx with hx | hx
        · exact hst x hx
        · rw [List.mem_singleton] at hx
          rw [hx, h1, h2]
          exact hrec r (List.mem_cons_self _ _)

theorem mem_clonal_pass_segments (adjust : Dbl → ℚ → ℚ → ℚ) (ratio : ℚ) (purity : Dbl)
    (peaks : List OnePeak) (cp : Int) (x : Int × OneSegment)
    (hx : x ∈ clonal_pass_segments adjust ratio purity cp peaks) :
    ∃ pk ∈ peaks, x.2 ∈ pk.segment_obj_vector := by
  induction peaks generalizing cp with
  | nil => simp [clonal_pass_segments] at hx
  | cons pk rest ih =>
    simp only [clonal_pass_segments] at hx
    rcases List.mem_append.mp hx with h | h
    · split_ifs at h
      · obtain ⟨sg, hsg, rfl⟩ := List.mem_map.mp h
        exact ⟨pk, List.mem_cons_self _ _, hsg⟩
      · exact absurd h (List.not_mem_nil _)
    · obtain ⟨pk2, hpk2, hmem⟩ := ih (cp + 1) h
      exact ⟨pk2, List.mem_cons_of_mem _ hpk2, hmem⟩

/-! ### Raw autocorrelation -/

/-- C23: `cor_raw_array[s]` is the sum of the `MAX_NUM_OF_COR_TO_SUM` largest
products `density[i] * density[i + s]` over the valid `i`, and it is at most
`cor_raw_array[0]`, the sum of the largest squares, for every density vector,
every cap and every shift. -/
theorem C23_raw_zero_shift_maximal (K : Constants) (density : List ℚ) (s : Nat) :
    autocor_raw K density s = top_sum K.MAX_NUM_OF_COR_TO_SUM.toNat (shift_products density s) ∧
    autocor_raw K density 0 = top_sum K.MAX_NUM_OF_COR_TO_SUM.toNat (shift_products density 0) ∧
    autocor_raw K density s ≤ autocor_raw K density 0 := by
  have key : ∀ t : Nat, autocor_raw K density t =
      top_sum K.MAX_NUM_OF_COR_TO_SUM.toNat (shift_products density t) := by
    intro t
    rw [autocor_raw_eq K density t]
    unfold top_sum shift_products
    congr 1
    rw [List.take_eq_take]
    simp only [List.length_insertionSort, List.length_map, List.length_range]
    omega
  exact ⟨key s, key 0, autocor_raw_le_zero_shift K density s⟩

/-! ### The hypothesis loop of the SNP scoring -/

theorem int_range_self (n : Int) : int_range n n = [n] := by
  unfold int_range
  have h : (n - n + 1).toNat = 1 := by simp
  rw [h]
  simp [List.range_succ]

theorem copy_no_hypotheses_single (first_peak_int period_int t : Int) (hp : 0 < period_int)
    (hfp : 0 ≤ first_peak_int) (ht0 : 0 ≤ t) (ht2 : t ≤ 2) :
    copy_no_hypotheses first_peak_int period_int t =
        [min (2 - t) ⌊(first_peak_int : ℚ) / (period_int : ℚ) + 1 / 5⌋] ∧
      0 ≤ min (2 - t) ⌊(first_peak_int : ℚ) / (period_int : ℚ) + 1 / 5⌋ ∧
      min (2 - t) ⌊(first_peak_int : ℚ) / (period_int : ℚ) + 1 / 5⌋ ≤ 2 := by
  have hq : (0 : ℚ) ≤ (first_peak_int : ℚ) / (period_int : ℚ) + 1 / 5 := by
    have h1 : (0 : ℚ) ≤ (first_peak_int : ℚ) := by exact_mod_cast hfp
    have h2 : (0 : ℚ) < (period_int : ℚ) := by exact_mod_cast hp
    have := div_nonneg h1 h2.le
    linarith
  have hfl : 0 ≤ ⌊(first_peak_int : ℚ) / (period_int : ℚ) + 1 / 5⌋ := Int.floor_nonneg.mpr hq
  refine ⟨?_, le_min (by omega) hfl, le_trans (min_le_left _ _) (by omega)⟩
  unfold copy_no_hypotheses copy_no_bounds
  simp only
  have hprior : max 0 (2 - t) = 2 - t := max_eq_right (by omega)
  rw [hprior]
  split_ifs with h1 h2
  · simp only
    rw [int_range_self, min_eq_right (le_of_lt h1)]
  · simp only
    rw [int_range_self, min_eq_left (le_of_lt h2)]
  · simp only
    have : 2 - t = ⌊(first_peak_int : ℚ) / (period_int : ℚ) + 1 / 5⌋ := by omega
    rw [← this, int_range_self, min_self]

/-- C29: for `period > 0`, `first_peak_int >= 0` and a tallest peak of index
`t` in `[0, 2]`, the hypothesis loop visits the one value
`n = min(2 - t, floor(first_peak_int/period + 0.2))`, with `0 <= n <= 2`, and
the function returns what the loop body leaves for this `n`; for `t > 2` no
hypothesis is visited and the function returns the sentinel `-1e99`. -/
theorem C29_single_hypothesis (K : Constants)
    (sort_by_windows sort_by_center : List OnePeak → List OnePeak)
    (maf_scoring : OnePeriod → Int → Dbl → Dbl → MafScore) (logf sqrtf : ℚ → ℚ)
    (c : OnePeriod) (tallest : OnePeak) (rest : List OnePeak)
    (hsort : sort_by_windows c.peak_obj_vector = tallest :: rest)
    (hp : 0 < c.period_int) (hfp : 0 ≤ c.first_peak_obj.peak_center_int) :
    (0 ≤ tallest.peak_index → tallest.peak_index ≤ 2 →
      copy_no_hypotheses c.first_peak_obj.peak_center_int c.period_int tallest.peak_index =
        [min (2 - tallest.peak_index)
          ⌊(c.first_peak_obj.peak_center_int : ℚ) / (c.period_int : ℚ) + 1 / 5⌋] ∧
      0 ≤ min (2 - tallest.peak_index)
          ⌊(c.first_peak_obj.peak_center_int : ℚ) / (c.period_int : ℚ) + 1 / 5⌋ ∧
      min (2 - tallest.peak_index)
          ⌊(c.first_peak_obj.peak_center_int : ℚ) / (c.period_int : ℚ) + 1 / 5⌋ ≤ 2 ∧
      infer_no_of_copy_nos_bf_1st_peak_for_one_period_by_logL_snp K sort_by_windows
          sort_by_center maf_scoring logf sqrtf c =
        some ((snp_hypothesis_step K maf_scoring logf sqrtf c.first_peak_obj.peak_center_int
            c.period_int
            { c with
              best_logL_snp := -(10 : ℚ) ^ 99
              peak_obj_vector := sort_by_center (sort_by_windows c.peak_obj_vector) }
            (min (2 - tallest.peak_index)
              ⌊(c.first_peak_obj.peak_center_int : ℚ) / (c.period_int : ℚ) + 1 / 5⌋)).best_logL_snp,
          snp_hypothesis_step K maf_scoring logf sqrtf c.first_peak_obj.peak_center_int
            c.period_int
            { c with
              best_logL_snp := -(10 : ℚ) ^ 99
              peak_obj_vector := sort_by_center (sort_by_windows c.peak_obj_vector) }
            (min (2 - tallest.peak_index)
              ⌊(c.first_peak_obj.peak_center_int : ℚ) / (c.period_int : ℚ) + 1 / 5⌋))) ∧
    (2 < tallest.peak_index →
      infer_no_of_copy_nos_bf_1st_peak_for_one_period_by_logL_snp K sort_by_windows
          sort_by_center maf_scoring logf sqrtf c =
        some (-(10 : ℚ) ^ 99,
          { c with
            best_logL_snp := -(10 : ℚ) ^ 99
            peak_obj_vector := sort_by_windows c.peak_obj_vector })) := by
  refine ⟨?_, ?_⟩
  · intro ht0 ht2
    obtain ⟨h1, h2, h3⟩ := copy_no_hypotheses_single c.first_peak_obj.peak_center_int
      c.period_int tallest.peak_index hp hfp ht0 ht2
    refine ⟨h1, h2, h3, ?_⟩
    unfold infer_no_of_copy_nos_bf_1st_peak_for_one_period_by_logL_snp
    simp only [hsort]
    rw [if_neg (by omega), if_neg (by omega), h1]
    rfl
  · intro ht
    unfold infer_no_of_copy_nos_bf_1st_peak_for_one_period_by_logL_snp
    simp only [hsort]
    rw [if_pos ht]

/-- C29 at the candidate of period 500 with first peak at bin 450, whose
tallest peak has index 1: the one hypothesis is `min(1, floor(0.9 + 0.2)) = 1`. -/
theorem C29_witness :
    copy_no_hypotheses c3_candidate.first_peak_obj.peak_center_int c3_candidate.period_int 1 =
      [min (2 - 1)
        ⌊(c3_candidate.first_peak_obj.peak_center_int : ℚ) / (c3_candidate.period_int : ℚ)
          + 1 / 5⌋] ∧
    0 ≤ min (2 - (1 : Int))
        ⌊(c3_candidate.first_peak_obj.peak_center_int : ℚ) / (c3_candidate.period_int : ℚ)
          + 1 / 5⌋ ∧
    min (2 - (1 : Int))
        ⌊(c3_candidate.first_peak_obj.peak_center_int : ℚ) / (c3_candidate.period_int : ℚ)
          + 1 / 5⌋ ≤ 2 ∧
    infer_no_of_copy_nos_bf_1st_peak_for_one_period_by_logL_snp example_constants
        example_sort_by_windows example_sort_by_center example_maf_scoring (fun _ => 0)
        (fun x => x) c3_candidate =
      some ((snp_hypothesis_step example_constants example_maf_scoring (fun _ => 0) (fun x => x)
          c3_candidate.first_peak_obj.peak_center_int c3_candidate.period_int
          { c3_candidate with
            best_logL_snp := -(10 : ℚ) ^ 99
            peak_obj_vector :=
              example_sort_by_center (example_sort_by_windows c3_candidate.peak_obj_vector) }
          (min (2 - 1)
            ⌊(c3_candidate.first_peak_obj.peak_center_int : ℚ) / (c3_candidate.period_int : ℚ)
              + 1 / 5⌋)).best_logL_snp,
        snp_hypothesis_step example_constants example_maf_scoring (fun _ => 0) (fun x => x)
          c3_candidate.first_peak_obj.peak_center_int c3_candidate.period_int
          { c3_candidate with
            best_logL_snp := -(10 : ℚ) ^ 99
            peak_obj_vector :=
              example_sort_by_center (example_sort_by_windows c3_candidate.peak_obj_vector) }
          (min (2 - 1)
            ⌊(c3_candidate.first_peak_obj.peak_center_int : ℚ) / (c3_candidate.period_int : ℚ)
              + 1 / 5⌋)) :=
  (C29_single_hypothesis example_constants example_sort_by_windows
    example_sort_by_center example_maf_scoring (fun _ => 0) (fun x => x) c3_candidate
    { OnePeak.ctor5 950 1 850 1050 100 with no_of_windows := 50, no_of_snps := 40 }
    [ { OnePeak.ctor5 450 0 350 550 100 with no_of_windows := 10, no_of_snps := 40 },
      { OnePeak.ctor5 1450 2 1350 1550 100 with no_of_windows := 5, no_of_snps := 20 } ]
    (by decide!) (by decide) (by decide)).1 (by decide) (by decide)

/-! ### Range of the theoretical MAF -/

theorem ceil_half_eq (cp : Int) (hcp : 0 ≤ cp) : ⌈(cp : ℚ) / 2⌉ = Int.tdiv (1 + cp) 2 := by
  rw [Int.tdiv_eq_ediv (by omega) (by decide)]
  rw [Int.ceil_eq_iff]
  have h1 : 2 * ((1 + cp) / 2) ≤ 1 + cp := by omega
  have h2 : 1 + cp < 2 * ((1 + cp) / 2) + 2 := by omega
  constructor
  · have : ((2 * ((1 + cp) / 2) - 2 : Int) : ℚ) < (cp : ℚ) := by exact_mod_cast (by omega)
    push_cast at this ⊢
    linarith
  · have : ((cp : Int) : ℚ) ≤ ((2 * ((1 + cp) / 2) : Int) : ℚ) := by exact_mod_cast (by omega)
    push_cast at this ⊢
    linarith

theorem length_int_range (lo hi : Int) : (int_range lo hi).length = (hi - lo + 1).toNat := by
  unfold int_range
  simp

theorem theoretical_maf_bounds (p : ℚ) (cp m : Int) (hp0 : 0 < p) (hp1 : p < 1) (hcp : 0 ≤ cp)
    (hm1 : ⌈(cp : ℚ) / 2⌉ ≤ m) (hm2 : m ≤ cp) :
    1 / 2 ≤ theoretical_maf p cp m ∧ theoretical_maf p cp m < 1 := by
  have hcpq : (0 : ℚ) ≤ (cp : ℚ) := by exact_mod_cast hcp
  have hden : 0 < 2 - 2 * p + (cp : ℚ) * p := by nlinarith
  have hm1q : (cp : ℚ) / 2 ≤ (m : ℚ) :=
    le_trans (Int.le_ceil _) (by exact_mod_cast hm1)
  have hm2q : (m : ℚ) ≤ (cp : ℚ) := by exact_mod_cast hm2
  unfold theoretical_maf
  constructor
  · rw [div_le_div_iff₀ (by norm_num) hden]
    nlinarith
  · rw [div_lt_one hden]
    nlinarith

theorem theoretical_maf_strictMono (p : ℚ) (cp m m2 : Int) (hp0 : 0 < p) (hp1 : p < 1)
    (hcp : 0 ≤ cp) (h : m < m2) : theoretical_maf p cp m < theoretical_maf p cp m2 := by
  have hcpq : (0 : ℚ) ≤ (cp : ℚ) := by exact_mod_cast hcp
  have hden : 0 < 2 - 2 * p + (cp : ℚ) * p := by nlinarith
  have hq : (m : ℚ) < (m2 : ℚ) := by exact_mod_cast h
  unfold theoretical_maf
  apply div_lt_div_of_pos_right _ hden
  nlinarith

/-- C30: for `0 < purity < 1` and `cp >= 0`, the theoretical MAF of every
major-allele copy number `m` in `[ceil(cp/2), cp]` lies in `[0.5, 1]` (below 1
even) and grows strictly with `m`; the SNP scoring and the copy-number caller
discard none of these values, so both expected-MAF lists have
`cp - ceil(cp/2) + 1` entries, and `index + (1 + cp)/2` lies in
`[ceil(cp/2), cp]` for every index of the list. -/
theorem C30_theoretical_maf_range (adjust_maf_expect : Dbl → ℚ → ℚ → ℚ) (ratio p : ℚ) (cp : Int)
    (pk : OnePeak) (hp0 : 0 < p) (hp1 : p < 1) (hcp : 0 ≤ cp) :
    (∀ m, maf_expected (Dbl.fin p) cp m = Dbl.fin (theoretical_maf p cp m)) ∧
    (∀ m, ⌈(cp : ℚ) / 2⌉ ≤ m → m ≤ cp →
      1 / 2 ≤ theoretical_maf p cp m ∧ theoretical_maf p cp m ≤ 1) ∧
    (∀ m m2 : Int, m < m2 → theoretical_maf p cp m < theoretical_maf p cp m2) ∧
    ((scorer_maf_expected_vector adjust_maf_expect ratio (Dbl.fin p) cp pk).length : Int) =
      cp - ⌈(cp : ℚ) / 2⌉ + 1 ∧
    ((caller_maf_expected_vector adjust_maf_expect ratio (Dbl.fin p) cp pk).length : Int) =
      cp - ⌈(cp : ℚ) / 2⌉ + 1 ∧
    (∀ i : Int, 0 ≤ i →
      i < ((caller_maf_expected_vector adjust_maf_expect ratio (Dbl.fin p) cp pk).length : Int) →
      ⌈(cp : ℚ) / 2⌉ ≤ i + Int.tdiv (1 + cp) 2 ∧ i + Int.tdiv (1 + cp) 2 ≤ cp) := by
  have hcpq : (0 : ℚ) ≤ (cp : ℚ) := by exact_mod_cast hcp
  have hden : 2 - 2 * p + (cp : ℚ) * p ≠ 0 := by
    have : 0 < 2 - 2 * p + (cp : ℚ) * p := by nlinarith
    exact ne_of_gt this
  have hm := fun j => maf_expected_fin p cp j hden
  have hceil := ceil_half_eq cp hcp
  have hrange : ⌈(cp : ℚ) / 2⌉ ≤ cp + 1 := by
    rw [hceil, Int.tdiv_eq_ediv (by omega) (by decide)]
    omega
  have hlen : ((int_range ⌈(cp : ℚ) / 2⌉ cp).length : Int) = cp - ⌈(cp : ℚ) / 2⌉ + 1 := by
    rw [length_int_range]
    omega
  have hscorer : scorer_maf_expected_vector adjust_maf_expect ratio (Dbl.fin p) cp pk =
      (int_range ⌈(cp : ℚ) / 2⌉ cp).map (fun j =>
        adjust_maf_expect (maf_expected (Dbl.fin p) cp j) pk.snp_coverage_mean
          (pk.snp_coverage_mean * ratio)) := by
    unfold scorer_maf_expected_vector
    rw [← List.filterMap_eq_map]
    apply List.filterMap_congr
    intro j hj
    rw [mem_int_range] at hj
    obtain ⟨b1, b2⟩ := theoretical_maf_bounds p cp j hp0 hp1 hcp hj.1 hj.2
    simp only [Function.comp_apply, hm]
    rw [if_neg ((scorer_keeps_iff _).mpr ⟨b1, le_of_lt b2⟩)]
  have hcaller : caller_maf_expected_vector adjust_maf_expect ratio (Dbl.fin p) cp pk =
      (int_range ⌈(cp : ℚ) / 2⌉ cp).map (fun j =>
        adjust_maf_expect (maf_expected (Dbl.fin p) cp j) pk.snp_coverage_mean
          (pk.snp_coverage_mean * ratio)) := by
    unfold caller_maf_expected_vector
    rw [← List.filterMap_eq_map]
    apply List.filterMap_congr
    intro j hj
    rw [mem_int_range] at hj
    obtain ⟨b1, b2⟩ := theoretical_maf_bounds p cp j hp0 hp1 hcp hj.1 hj.2
    simp only [Function.comp_apply, hm]
    rw [if_neg ((caller_keeps_iff _).mpr ⟨b1, ne_of_lt b2⟩)]
  refine ⟨hm, ?_, ?_, ?_, ?_, ?_⟩
  · intro m h1 h2
    obtain ⟨b1, b2⟩ := theoretical_maf_bounds p cp m hp0 hp1 hcp h1 h2
    exact ⟨b1, le_of_lt b2⟩
  · intro m m2 h
    exact theoretical_maf_strictMono p cp m m2 hp0 hp1 hcp h
  · rw [hscorer, List.length_map, hlen]
  · rw [hcaller, List.length_map, hlen]
  · intro i hi0 hi
    rw [hcaller, List.length_map, hlen] at hi
    rw [← hceil]
    omega

/-- C30 at purity 1/2 and copy number 3: the values are 3/5 and 4/5. -/
theorem C30_witness :
    (∀ m, maf_expected (Dbl.fin (1 / 2)) 3 m = Dbl.fin (theoretical_maf (1 / 2) 3 m)) ∧
    (∀ m, ⌈((3 : Int) : ℚ) / 2⌉ ≤ m → m ≤ 3 →
      1 / 2 ≤ theoretical_maf (1 / 2) 3 m ∧ theoretical_maf (1 / 2) 3 m ≤ 1) ∧
    (∀ m m2 : Int, m < m2 → theoretical_maf (1 / 2) 3 m < theoretical_maf (1 / 2) 3 m2) ∧
    ((scorer_maf_expected_vector example_adjust_maf_expect 1 (Dbl.fin (1 / 2)) 3
      example_peak).length : Int) = 3 - ⌈((3 : Int) : ℚ) / 2⌉ + 1 ∧
    ((caller_maf_expected_vector example_adjust_maf_expect 1 (Dbl.fin (1 / 2)) 3
      example_peak).length : Int) = 3 - ⌈((3 : Int) : ℚ) / 2⌉ + 1 ∧
    (∀ i : Int, 0 ≤ i →
      i < ((caller_maf_expected_vector example_adjust_maf_expect 1 (Dbl.fin (1 / 2)) 3
        example_peak).length : Int) →
      ⌈((3 : Int) : ℚ) / 2⌉ ≤ i + Int.tdiv (1 + 3) 2 ∧ i + Int.tdiv (1 + 3) 2 ≤ 3) :=
  C30_theoretical_maf_range example_adjust_maf_expect 1 (1 / 2) 3 example_peak (by norm_num)
    (by norm_num) (by decide)

/-! ### The SNP sentinel -/

theorem foldlM_fixed {α β : Type} (f : α → β → Option α) (a : α) (l : List β)
    (h : ∀ b ∈ l, f a b = some a) : l.foldlM f a = some a := by
  induction l with
  | nil => rfl
  | cons b rest ih =>
    rw [List.foldlM_cons, h b (List.mem_cons_self _ _)]
    exact ih (fun x hx => h x (List.mem_cons_of_mem _ hx))

theorem getD_indexOf_self {α : Type} [DecidableEq α] (l : List α) (a : α) :
    l.getD (l.indexOf a) a = a := by
  by_cases h : a ∈ l
  · have hlt := List.indexOf_lt_length.mpr h
    rw [List.getD_eq_getElem l a hlt]
    exact List.indexOf_get hlt
  · have : l.indexOf a = l.length := List.indexOf_eq_length.mpr h
    rw [this]
    exact List.getD_eq_default _ _ (le_refl _)

/-- When each of the first `no_of_peaks_for_logL` peaks has at most 5 SNPs, the
peak loop leaves the state as the reset made it. -/
theorem maf_peak_loop_skips (adjust_maf_expect : Dbl → ℚ → ℚ → ℚ) (ratio : ℚ)
    (logf sqrtf : ℚ → ℚ) (PI : ℚ) (c : OnePeriod) (n : Int) (purity : Dbl)
    (hn0 : 0 ≤ c.no_of_peaks_for_logL)
    (hn : c.no_of_peaks_for_logL ≤ (c.peak_obj_vector.length : Int))
    (hsnps : ∀ pk ∈ c.peak_obj_vector.take c.no_of_peaks_for_logL.toNat, pk.no_of_snps ≤ 5) :
    maf_peak_loop adjust_maf_expect ratio logf sqrtf PI c n purity =
      some { peak_obj_vector := c.peak_obj_vector, no_of_snps := 0, no_of_maf_peaks := 0
             logL_snp := 0, lod_snp := 0, ssum_sq_diff := 0 } := by
  unfold maf_peak_loop
  simp only [OnePeriod.ResetSNPCounters]
  rw [if_neg (by omega)]
  apply foldlM_fixed
  intro i hi
  rw [List.mem_range] at hi
  have hlen : i < c.peak_obj_vector.length := by omega
  unfold maf_peak_step
  simp only [List.getElem?_eq_getElem hlen]
  have hmem : c.peak_obj_vector[i] ∈ c.peak_obj_vector.take c.no_of_peaks_for_logL.toNat := by
    rw [List.mem_take_iff_getElem]
    exact ⟨i, by simp; omega, rfl⟩
  rw [if_pos (hsnps _ hmem)]

/-- The score of a candidate none of whose scored peaks has more than 5 SNPs. -/
theorem maf_scoring_skips (adjust_maf_expect : Dbl → ℚ → ℚ → ℚ) (ratio : ℚ)
    (logf sqrtf : ℚ → ℚ) (PI : ℚ) (c : OnePeriod) (n : Int) (purity ploidy : Dbl)
    (hn0 : 0 ≤ c.no_of_peaks_for_logL)
    (hn : c.no_of_peaks_for_logL ≤ (c.peak_obj_vector.length : Int))
    (hsnps : ∀ pk ∈ c.peak_obj_vector.take c.no_of_peaks_for_logL.toNat, pk.no_of_snps ≤ 5) :
    (maf_scoring adjust_maf_expect ratio logf sqrtf PI c n purity ploidy).no_of_snps = 0 ∧
    (maf_scoring adjust_maf_expect ratio logf sqrtf PI c n purity ploidy).no_of_maf_peaks = 0 ∧
    ∀ pk, (maf_scoring adjust_maf_expect ratio logf sqrtf PI c n purity ploidy).peak_fields pk =
      (pk.no_of_maf_peaks, pk.snp_maf_var) := by
  unfold maf_scoring
  rw [maf_peak_loop_skips adjust_maf_expect ratio logf sqrtf PI c n purity hn0 hn hsnps]
  refine ⟨rfl, rfl, ?_⟩
  intro pk
  simp only [getD_indexOf_self]

theorem snp_hypothesis_step_skips (K : Constants) (adjust_maf_expect : Dbl → ℚ → ℚ → ℚ)
    (ratio : ℚ) (logf sqrtf : ℚ → ℚ) (PI : ℚ) (fp p : Int) (c : OnePeriod) (n : Int)
    (hn0 : 0 ≤ c.no_of_peaks_for_logL)
    (hn : c.no_of_peaks_for_logL ≤ (c.peak_obj_vector.length : Int))
    (hsnps : ∀ pk ∈ c.peak_obj_vector.take c.no_of_peaks_for_logL.toNat, pk.no_of_snps ≤ 5) :
    SnpUntouched c (snp_hypothesis_step K (maf_scoring adjust_maf_expect ratio logf sqrtf PI)
      logf sqrtf fp p c n) := by
  unfold snp_hypothesis_step
  simp only
  split_ifs with h1 h2
  · exact ⟨rfl, rfl, rfl, rfl, rfl, rfl, rfl, rfl, rfl, rfl, rfl, rfl, rfl, rfl⟩
  · refine ⟨?_, rfl, rfl, rfl, rfl, rfl, rfl, rfl, rfl, rfl, rfl, rfl, rfl, rfl⟩
    simp only [(maf_scoring_skips adjust_maf_expect ratio logf sqrtf PI c n _ _ hn0 hn hsnps).2.2]
    exact List.map_id _
  · exfalso
    apply h2
    simp only [(maf_scoring_skips adjust_maf_expect ratio logf sqrtf PI c n _ _ hn0 hn hsnps).1]
    decide
  · exfalso
    apply h2
    simp only [(maf_scoring_skips adjust_maf_expect ratio logf sqrtf PI c n _ _ hn0 hn hsnps).1]
    decide

theorem snp_fold_skips (K : Constants) (adjust_maf_expect : Dbl → ℚ → ℚ → ℚ)
    (ratio : ℚ) (logf sqrtf : ℚ → ℚ) (PI : ℚ) (fp p : Int) (ns : List Int) (c0 c : OnePeriod)
    (hc : SnpUntouched c0 c)
    (hn0 : 0 ≤ c0.no_of_peaks_for_logL)
    (hn : c0.no_of_peaks_for_logL ≤ (c0.peak_obj_vector.length : Int))
    (hsnps : ∀ pk ∈ c0.peak_obj_vector.take c0.no_of_peaks_for_logL.toNat, pk.no_of_snps ≤ 5) :
    SnpUntouched c0 (ns.foldl (snp_hypothesis_step K
      (maf_scoring adjust_maf_expect ratio logf sqrtf PI) logf sqrtf fp p) c) := by
  induction ns generalizing c with
  | nil => exact hc
  | cons n rest ih =>
    rw [List.foldl_cons]
    apply ih
    have hpv := hc.1
    have hnp := hc.2.1
    have hs := snp_hypothesis_step_skips K adjust_maf_expect ratio logf sqrtf PI fp p c n
      (by rw [hnp]; exact hn0) (by rw [hnp, hpv]; exact hn) (by rw [hnp, hpv]; exact hsnps)
    unfold SnpUntouched at hs hc ⊢
    obtain ⟨a1, a2, a3, a4, a5, a6, a7, a8, a9, a10, a11, a12, a13, a14⟩ := hs
    obtain ⟨b1, b2, b3, b4, b5, b6, b7, b8, b9, b10, b11, b12, b13, b14⟩ := hc
    exact ⟨a1.trans b1, a2.trans b2, a3.trans b3, a4.trans b4, a5.trans b5, a6.trans b6,
      a7.trans b7, a8.trans b8, a9.trans b9, a10.trans b10, a11.trans b11, a12.trans b12,
      a13.trans b13, a14.trans b14⟩

/-- C21: when each of the scored peaks (the first `no_of_peaks_for_logL` peaks
in the order of line 1202) has at most 5 SNPs,
`infer_no_of_copy_nos_bf_1st_peak_for_one_period_by_logL_snp` returns `-1e99`,
`best_logL_snp` is `-1e99`, nothing is appended to the per-hypothesis vectors,
and `best_purity`, `best_ploidy` and `best_no_of_copy_nos_bf_1st_peak` are as
they were. -/
theorem C21_snp_sentinel (K : Constants)
    (sort_by_windows sort_by_center : List OnePeak → List OnePeak)
    (adjust_maf_expect : Dbl → ℚ → ℚ → ℚ) (ratio : ℚ) (logf sqrtf : ℚ → ℚ) (PI : ℚ)
    (c : OnePeriod) (tallest : OnePeak) (rest : List OnePeak)
    (hsort : sort_by_windows c.peak_obj_vector = tallest :: rest)
    (hp : c.period_int ≠ 0)
    (hn0 : 0 ≤ c.no_of_peaks_for_logL)
    (hn : c.no_of_peaks_for_logL ≤
      ((sort_by_center (sort_by_windows c.peak_obj_vector)).length : Int))
    (hsnps : ∀ pk ∈ (sort_by_center (sort_by_windows c.peak_obj_vector)).take
      c.no_of_peaks_for_logL.toNat, pk.no_of_snps ≤ 5) :
    ∃ c2, infer_no_of_copy_nos_bf_1st_peak_for_one_period_by_logL_snp K sort_by_windows
        sort_by_center (maf_scoring adjust_maf_expect ratio logf sqrtf PI) logf sqrtf c =
        some (-(10 : ℚ) ^ 99, c2) ∧
      c2.best_logL_snp = -(10 : ℚ) ^ 99 ∧
      c2.logL_snp_vector = c.logL_snp_vector ∧
      c2.lod_snp_vector = c.lod_snp_vector ∧
      c2.purity_vector = c.purity_vector ∧
      c2.ploidy_vector = c.ploidy_vector ∧
      c2.no_of_copy_nos_bf_1st_peak_vector = c.no_of_copy_nos_bf_1st_peak_vector ∧
      c2.snp_penalty_vector = c.snp_penalty_vector ∧
      c2.snp_no_of_parameters_vector = c.snp_no_of_parameters_vector ∧
      c2.best_purity = c.best_purity ∧
      c2.best_ploidy = c.best_ploidy ∧
      c2.best_no_of_copy_nos_bf_1st_peak = c.best_no_of_copy_nos_bf_1st_peak := by
  unfold infer_no_of_copy_nos_bf_1st_peak_for_one_period_by_logL_snp
  simp only [hsort]
  by_cases ht : tallest.peak_index > 2
  · rw [if_pos ht]
    exact ⟨_, rfl, rfl, rfl, rfl, rfl, rfl, rfl, rfl, rfl, rfl, rfl, rfl⟩
  · rw [if_neg ht, if_neg hp]
    rw [hsort] at hn hsnps
    have h := snp_fold_skips K adjust_maf_expect ratio logf sqrtf PI
      c.first_peak_obj.peak_center_int c.period_int
      (copy_no_hypotheses c.first_peak_obj.peak_center_int c.period_int tallest.peak_index)
      { c with best_logL_snp := -(10 : ℚ) ^ 99
               peak_obj_vector := sort_by_center (tallest :: rest) }
      { c with best_logL_snp := -(10 : ℚ) ^ 99
               peak_obj_vector := sort_by_center (tallest :: rest) }
      ⟨rfl, rfl, rfl, rfl, rfl, rfl, rfl, rfl, rfl, rfl, rfl, rfl, rfl, rfl⟩ hn0 hn hsnps
    obtain ⟨_, _, a3, a4, a5, a6, a7, a8, a9, a10, a11, a12, a13, _⟩ := h
    refine ⟨_, ?_, a3, a4, a5, a6, a7, a8, a9, a10, a11, a12, a13⟩
    rw [a3]

/-- C21 at a candidate whose three peaks have no SNPs. -/
theorem C21_witness :
    ∃ c2, infer_no_of_copy_nos_bf_1st_peak_for_one_period_by_logL_snp example_constants
        example_sort_by_windows example_sort_by_center
        (maf_scoring example_adjust_maf_expect 1 (fun _ => 0) (fun x => x) (22 / 7))
        (fun _ => 0) (fun x => x) c21_candidate = some (-(10 : ℚ) ^ 99, c2) ∧
      c2.best_logL_snp = -(10 : ℚ) ^ 99 ∧
      c2.logL_snp_vector = c21_candidate.logL_snp_vector ∧
      c2.lod_snp_vector = c21_candidate.lod_snp_vector ∧
      c2.purity_vector = c21_candidate.purity_vector ∧
      c2.ploidy_vector = c21_candidate.ploidy_vector ∧
      c2.no_of_copy_nos_bf_1st_peak_vector = c21_candidate.no_of_copy_nos_bf_1st_peak_vector ∧
      c2.snp_penalty_vector = c21_candidate.snp_penalty_vector ∧
      c2.snp_no_of_parameters_vector = c21_candidate.snp_no_of_parameters_vector ∧
      c2.best_purity = c21_candidate.best_purity ∧
      c2.best_ploidy = c21_candidate.best_ploidy ∧
      c2.best_no_of_copy_nos_bf_1st_peak = c21_candidate.best_no_of_copy_nos_bf_1st_peak :=
  C21_snp_sentinel example_constants example_sort_by_windows example_sort_by_center
    example_adjust_maf_expect 1 (fun _ => 0) (fun x => x) (22 / 7) c21_candidate
    { OnePeak.ctor5 950 1 850 1050 100 with no_of_windows := 50 }
    [ { OnePeak.ctor5 450 0 350 550 100 with no_of_windows := 10 },
      { OnePeak.ctor5 1450 2 1350 1550 100 with no_of_windows := 5 } ]
    (by decide!) (by decide) (by decide) (by decide!) (by decide!)

/-! ### The combined score -/

theorem snp_hypothesis_step_logL (K : Constants)
    (maf_scoring : OnePeriod → Int → Dbl → Dbl → MafScore) (logf sqrtf : ℚ → ℚ)
    (fp p : Int) (c : OnePeriod) (n : Int) :
    (snp_hypothesis_step K maf_scoring logf sqrtf fp p c n).logL = c.logL ∧
    (snp_hypothesis_step K maf_scoring logf sqrtf fp p c n).no_of_peaks_for_logL =
      c.no_of_peaks_for_logL ∧
    (snp_hypothesis_step K maf_scoring logf sqrtf fp p c n).logL_rc = c.logL_rc := by
  unfold snp_hypothesis_step
  simp only
  split_ifs <;> exact ⟨rfl, rfl, rfl⟩

theorem snp_fold_logL (K : Constants)
    (maf_scoring : OnePeriod → Int → Dbl → Dbl → MafScore) (logf sqrtf : ℚ → ℚ)
    (fp p : Int) (ns : List Int) (c : OnePeriod) :
    (ns.foldl (snp_hypothesis_step K maf_scoring logf sqrtf fp p) c).logL = c.logL ∧
    (ns.foldl (snp_hypothesis_step K maf_scoring logf sqrtf fp p) c).no_of_peaks_for_logL =
      c.no_of_peaks_for_logL ∧
    (ns.foldl (snp_hypothesis_step K maf_scoring logf sqrtf fp p) c).logL_rc = c.logL_rc := by
  induction ns generalizing c with
  | nil => exact ⟨rfl, rfl, rfl⟩
  | cons n rest ih =>
    rw [List.foldl_cons]
    obtain ⟨a1, a2, a3⟩ := ih (snp_hypothesis_step K maf_scoring logf sqrtf fp p c n)
    obtain ⟨b1, b2, b3⟩ := snp_hypothesis_step_logL K maf_scoring logf sqrtf fp p c n
    exact ⟨a1.trans b1, a2.trans b2, a3.trans b3⟩

/-- The SNP scoring of a candidate with a peak and a non-zero period returns,
and leaves `logL`, `logL_rc` and `no_of_peaks_for_logL` alone. -/
theorem snp_scoring_logL (K : Constants)
    (sort_by_windows sort_by_center : List OnePeak → List OnePeak)
    (maf_scoring : OnePeriod → Int → Dbl → Dbl → MafScore) (logf sqrtf : ℚ → ℚ)
    (c : OnePeriod) (tallest : OnePeak) (rest : List OnePeak)
    (hsort : sort_by_windows c.peak_obj_vector = tallest :: rest) (hp : c.period_int ≠ 0) :
    ∃ r, infer_no_of_copy_nos_bf_1st_peak_for_one_period_by_logL_snp K sort_by_windows
        sort_by_center maf_scoring logf sqrtf c = some r ∧
      r.1 = r.2.best_logL_snp ∧ r.2.logL = c.logL ∧
      r.2.no_of_peaks_for_logL = c.no_of_peaks_for_logL ∧ r.2.logL_rc = c.logL_rc := by
  unfold infer_no_of_copy_nos_bf_1st_peak_for_one_period_by_logL_snp
  simp only [hsort]
  by_cases ht : tallest.peak_index > 2
  · rw [if_pos ht]
    exact ⟨_, rfl, rfl, rfl, rfl, rfl⟩
  · rw [if_neg ht, if_neg hp]
    refine ⟨_, rfl, rfl, ?_⟩
    exact snp_fold_logL K maf_scoring logf sqrtf _ _ _ _

/-- C22 (as amended): past the test of line 994, for a candidate with a peak, a
non-zero period and a non-zero `no_of_peaks_for_logL`, the combined `logL` is
`(coverage sum + coverage penalty + best_logL_snp) / no_of_peaks_for_logL`; when
the SNP scoring recorded no hypothesis, `best_logL_snp` is the sentinel `-1e99`
and the combined `logL` is
`(coverage sum + coverage penalty - 1e99) / no_of_peaks_for_logL`, while the
coverage score is kept in `logL_rc`. -/
theorem C22_combined_logL (K : Constants)
    (sort_by_windows sort_by_center : List OnePeak → List OnePeak)
    (maf_scoring : OnePeriod → Int → Dbl → Dbl → MafScore) (logf sqrtf : ℚ → ℚ)
    (sum_adj_logL : ℚ) (c : OnePeriod) (tallest : OnePeak) (rest : List OnePeak)
    (hsort : sort_by_windows c.peak_obj_vector = tallest :: rest) (hp : c.period_int ≠ 0)
    (hn : c.no_of_peaks_for_logL ≠ 0) :
    ∃ c2, combined_logL_stage K sort_by_windows sort_by_center maf_scoring logf sqrtf
        sum_adj_logL c = some c2 ∧
      c2.logL = (c.logL + logL_rc_penalty_value K logf c + c2.best_logL_snp) /
        (c.no_of_peaks_for_logL : ℚ) ∧
      c2.logL_rc = c.logL + logL_rc_penalty_value K logf c ∧
      (c2.best_logL_snp = -(10 : ℚ) ^ 99 →
        c2.logL = (c.logL + logL_rc_penalty_value K logf c - (10 : ℚ) ^ 99) /
          (c.no_of_peaks_for_logL : ℚ)) := by
  unfold combined_logL_stage
  rw [if_neg hp]
  obtain ⟨r, hr, _, h2, h3, h4⟩ := snp_scoring_logL K sort_by_windows sort_by_center maf_scoring
    logf sqrtf
    { c with
      logL_rc_penalty := logL_rc_penalty_value K logf c
      logL := c.logL + logL_rc_penalty_value K logf c
      logL_rc := c.logL + logL_rc_penalty_value K logf c
      adj_logL_rc :=
        -logf (sqrtf (sum_adj_logL / (c.no_of_windows : ℚ)) / (c.period_int : ℚ) *
          K.FRESOLUTION) }
    tallest rest hsort hp
  simp only [hr]
  have h3b : r.2.no_of_peaks_for_logL = c.no_of_peaks_for_logL := h3
  have h2b : r.2.logL = c.logL + logL_rc_penalty_value K logf c := h2
  have h4b : r.2.logL_rc = c.logL + logL_rc_penalty_value K logf c := h4
  rw [if_neg (by rw [h3b]; exact hn)]
  refine ⟨_, rfl, ?_, h4b, ?_⟩
  · simp only [h2b, h3b]
  · intro hs
    simp only [h2b, h3b] at hs ⊢
    rw [hs]
    ring

/-- C22 (as amended) at the candidate `c22_candidate`. -/
theorem C22_witness :
    ∃ c2, combined_logL_stage example_constants example_sort_by_windows example_sort_by_center
        (maf_scoring example_adjust_maf_expect 1 (fun x => x - 1) (fun x => x) (22 / 7))
        (fun x => x - 1) (fun x => x) 0 c22_candidate = some c2 ∧
      c2.logL = (c22_candidate.logL +
          logL_rc_penalty_value example_constants (fun x => x - 1) c22_candidate +
          c2.best_logL_snp) / (c22_candidate.no_of_peaks_for_logL : ℚ) ∧
      c2.logL_rc = c22_candidate.logL +
        logL_rc_penalty_value example_constants (fun x => x - 1) c22_candidate ∧
      (c2.best_logL_snp = -(10 : ℚ) ^ 99 →
        c2.logL = (c22_candidate.logL +
            logL_rc_penalty_value example_constants (fun x => x - 1) c22_candidate -
            (10 : ℚ) ^ 99) / (c22_candidate.no_of_peaks_for_logL : ℚ)) :=
  C22_combined_logL example_constants example_sort_by_windows example_sort_by_center
    (maf_scoring example_adjust_maf_expect 1 (fun x => x - 1) (fun x => x) (22 / 7))
    (fun x => x - 1) (fun x => x) 0 c22_candidate
    { OnePeak.ctor5 950 1 850 1050 100 with no_of_windows := 50 }
    [ { OnePeak.ctor5 450 0 350 550 100 with no_of_windows := 10 },
      { OnePeak.ctor5 1450 2 1350 1550 100 with no_of_windows := 5 } ]
    (by decide!) (by decide) (by decide)

/-- C22 (as stated) fails: no peak of `c22_candidate` has a SNP, so its SNP
scoring records no hypothesis and `best_logL_snp` stays at `-1e99`.  The
coverage sum is -30 and the coverage penalty `-0.5 * 64 * 9550 / 500 = -611.2`
(with `x - 1` in the place of `log x`), so the coverage score over the 3 scored
peaks is `-641.2 / 3`; the combined `logL` is `(-641.2 - 1e99) / 3`. -/
theorem C22_counterexample :
    logL_rc_penalty_value example_constants (fun x => x - 1) c22_candidate = -3056 / 5 ∧
    (combined_logL_stage example_constants example_sort_by_windows example_sort_by_center
        (maf_scoring example_adjust_maf_expect 1 (fun x => x - 1) (fun x => x) (22 / 7))
        (fun x => x - 1) (fun x => x) 0 c22_candidate).map
      (fun c2 => (c2.best_logL_snp, c2.logL_snp_vector, c2.logL)) =
      some (-(10 : ℚ) ^ 99, [], (-30 - 3056 / 5 - (10 : ℚ) ^ 99) / 3) ∧
    (-30 - 3056 / 5 - (10 : ℚ) ^ 99) / 3 ≠
      (c22_candidate.logL +
        logL_rc_penalty_value example_constants (fun x => x - 1) c22_candidate) /
      (c22_candidate.no_of_peaks_for_logL : ℚ) := by
  decide!

/-! ### The shift-1 difference -/

/-- C24 (as amended): for every autocorrelation array with `_cor_array[0] > 1`
and every shift `i < kPeriodMax` with `_cor_array[i] > 0` and
`_cor_array[i+1] > 0`, the divisor `log10(corr[0])` is not zero, `all_diff[i]`
is `log10(corr[i+1])/log10(corr[0]) - log10(corr[i])/log10(corr[0])`, and it is
positive exactly when `corr[i+1] > corr[i]`. -/
theorem C24_shift_diff_sign (K : Constants) (cor_array : List ℚ) (i : Nat)
    (hi : i < K.kPeriodMax) (h0 : 1 < cor_array.getD 0 0) (hci : 0 < cor_array.getD i 0)
    (hci1 : 0 < cor_array.getD (i + 1) 0) :
    Real.logb 10 ((cor_array.getD 0 0 : ℚ) : ℝ) ≠ 0 ∧
    (calc_autocor_shift_diff K (fun q => Real.logb 10 ((q : ℚ) : ℝ)) cor_array)[i]? =
      some (some
        (Real.logb 10 ((cor_array.getD (i + 1) 0 : ℚ) : ℝ) /
            Real.logb 10 ((cor_array.getD 0 0 : ℚ) : ℝ) -
          Real.logb 10 ((cor_array.getD i 0 : ℚ) : ℝ) /
            Real.logb 10 ((cor_array.getD 0 0 : ℚ) : ℝ))) ∧
    (0 < Real.logb 10 ((cor_array.getD (i + 1) 0 : ℚ) : ℝ) /
            Real.logb 10 ((cor_array.getD 0 0 : ℚ) : ℝ) -
          Real.logb 10 ((cor_array.getD i 0 : ℚ) : ℝ) /
            Real.logb 10 ((cor_array.getD 0 0 : ℚ) : ℝ) ↔
      cor_array.getD i 0 < cor_array.getD (i + 1) 0) := by
  have h0r : (1 : ℝ) < ((cor_array.getD 0 0 : ℚ) : ℝ) := by exact_mod_cast h0
  have hcir : (0 : ℝ) < ((cor_array.getD i 0 : ℚ) : ℝ) := by exact_mod_cast hci
  have hci1r : (0 : ℝ) < ((cor_array.getD (i + 1) 0 : ℚ) : ℝ) := by exact_mod_cast hci1
  have hs : 0 < Real.logb 10 ((cor_array.getD 0 0 : ℚ) : ℝ) :=
    Real.logb_pos (by norm_num) h0r
  have hscale : autocor_scale (fun q => Real.logb 10 ((q : ℚ) : ℝ)) cor_array =
      Real.logb 10 ((cor_array.getD 0 0 : ℚ) : ℝ) := by
    unfold autocor_scale
    rw [if_neg (by linarith)]
  refine ⟨ne_of_gt hs, ?_, ?_⟩
  · unfold calc_autocor_shift_diff
    rw [List.getElem?_map, List.getElem?_range hi]
    simp only [Option.map_some']
    unfold autocor_shift_diff
    rw [if_neg (by
      intro h
      rcases h with h | h
      · exact absurd hci1 (not_lt.mpr h)
      · exact absurd hci (not_lt.mpr h)), hscale, if_neg (ne_of_gt hs)]
  · rw [← sub_div, div_pos_iff_of_pos_right hs, sub_pos,
      Real.logb_lt_logb_iff (by norm_num) hcir hci1r]
    exact_mod_cast Iff.rfl

/-- C24 (as amended) at the array `[10, 1, 10]` and the shift 1. -/
theorem C24_witness :
    Real.logb 10 ((([10, 1, 10] : List ℚ).getD 0 0 : ℚ) : ℝ) ≠ 0 ∧
    (calc_autocor_shift_diff small_constants (fun q => Real.logb 10 ((q : ℚ) : ℝ))
        [10, 1, 10])[1]? =
      some (some
        (Real.logb 10 ((([10, 1, 10] : List ℚ).getD (1 + 1) 0 : ℚ) : ℝ) /
            Real.logb 10 ((([10, 1, 10] : List ℚ).getD 0 0 : ℚ) : ℝ) -
          Real.logb 10 ((([10, 1, 10] : List ℚ).getD 1 0 : ℚ) : ℝ) /
            Real.logb 10 ((([10, 1, 10] : List ℚ).getD 0 0 : ℚ) : ℝ))) ∧
    (0 < Real.logb 10 ((([10, 1, 10] : List ℚ).getD (1 + 1) 0 : ℚ) : ℝ) /
            Real.logb 10 ((([10, 1, 10] : List ℚ).getD 0 0 : ℚ) : ℝ) -
          Real.logb 10 ((([10, 1, 10] : List ℚ).getD 1 0 : ℚ) : ℝ) /
            Real.logb 10 ((([10, 1, 10] : List ℚ).getD 0 0 : ℚ) : ℝ) ↔
      ([10, 1, 10] : List ℚ).getD 1 0 < ([10, 1, 10] : List ℚ).getD (1 + 1) 0) :=
  C24_shift_diff_sign small_constants [10, 1, 10] 1 (by decide) (by decide!) (by decide!)
    (by decide!)

/-- C24 (as stated) fails: for the array `[1/10, 1/100, 1/10]` all three
entries are positive and `corr[2] > corr[1]`, a rising slope; `log10(corr[0])`
is `-1`, and `all_diff[1]` is `(-1)/(-1) - (-2)/(-1) = -1`, which is not
positive. -/
theorem C24_counterexample :
    0 < ([1 / 10, 1 / 100, 1 / 10] : List ℚ).getD 0 0 ∧
    0 < ([1 / 10, 1 / 100, 1 / 10] : List ℚ).getD 1 0 ∧
    0 < ([1 / 10, 1 / 100, 1 / 10] : List ℚ).getD 2 0 ∧
    ([1 / 10, 1 / 100, 1 / 10] : List ℚ).getD 1 0 < ([1 / 10, 1 / 100, 1 / 10] : List ℚ).getD 2 0 ∧
    (calc_autocor_shift_diff small_constants (fun q => Real.logb 10 ((q : ℚ) : ℝ))
        [1 / 10, 1 / 100, 1 / 10])[1]? = some (some (-1 : ℝ)) ∧
    ¬ (0 : ℝ) < -1 := by
  have l10 : Real.logb 10 ((10 : ℝ)⁻¹) = -1 := by
    rw [Real.logb_inv, Real.logb_self_eq_one (by norm_num)]
  have l100 : Real.logb 10 ((100 : ℝ)⁻¹) = -2 := by
    rw [Real.logb_inv]
    have : (100 : ℝ) = 10 * 10 := by norm_num
    rw [this, Real.logb_mul (by norm_num) (by norm_num), Real.logb_self_eq_one (by norm_num)]
    norm_num
  refine ⟨by decide!, by decide!, by decide!, by decide!, ?_, by norm_num⟩
  unfold calc_autocor_shift_diff
  rw [List.getElem?_map, List.getElem?_range (by decide)]
  simp only [Option.map_some']
  have hscale : autocor_scale (fun q => Real.logb 10 ((q : ℚ) : ℝ))
      [1 / 10, 1 / 100, 1 / 10] = -1 := by
    unfold autocor_scale
    rw [if_neg (by decide!)]
    simp only [List.getD_cons_zero]
    push_cast
    rw [one_div, l10]
  unfold autocor_shift_diff
  rw [if_neg (by decide!), hscale, if_neg (by norm_num)]
  simp only [List.getD_cons_succ, List.getD_cons_zero]
  push_cast
  rw [one_div, one_div, l10, l100]
  norm_num

/-! ### The scratch array of the first-peak search -/

/-- C28: with `kFirstPeakMax = 10` and `kPeakHalfWidthMax = 3` the array
`all_sum` has 13 entries, the indices `0 .. 12`, and `find_first_peak_ab_init`
searches the window `[2, 13]`.  For a density whose bin 13 reaches
`kPeakHeightMin`, line 735 writes `all_sum[13]`: the search of bin 13 from the
untouched array has no defined result, and so has the call.  For a density with
its mass at bin 12 the search ends with the centre 12, and the half-width loop
of lines 770-781 reads `all_sum[12 + 1]` (line 778). -/
theorem C28_all_sum_index_past_end :
    small_constants.kFirstPeakMin = 2 ∧
    small_constants.kFirstPeakMax + small_constants.kPeakHalfWidthMax = 13 ∧
    (List.replicate (small_constants.kFirstPeakMax +
      small_constants.kPeakHalfWidthMax).toNat (0 : ℚ)).length = 13 ∧
    getc c28_density 13 = some 2 ∧
    ¬ (2 : ℚ) < small_constants.kPeakHeightMin ∧
    addc (List.replicate 13 0) 13 2 = none ∧
    first_peak_scan_step small_constants c28_density 5 (List.replicate 13 0, -1, 0) 13 = none ∧
    find_first_peak_ab_init small_constants example_peak 0 c28_density 5 = none ∧
    (int_range 2 13).foldlM (first_peak_scan_step small_constants c28_density_b 5)
      (List.replicate 13 0, -1, 0) =
      some (List.replicate 12 0 ++ [2], 2, 12) ∧
    getc (List.replicate 12 (0 : ℚ) ++ [2]) (12 + 1) = none ∧
    first_peak_half_width small_constants (List.replicate 12 0 ++ [2]) 12 4 1 = none ∧
    find_first_peak_ab_init small_constants example_peak 0 c28_density_b 5 = none := by
  decide!

/-! ### The refinement of the autocorrelation period -/

/-- C25: for `c25_cor_array` the scan finds `dmax_idx = 100` with the bounds
52 and 148, a span of 96, so the refinement runs with the midpoint 50 and the
window `[34, 66]`.  The local peaks are 35, 60 and 100; the peaks 35 and 60 both
lie in the window and both rise at least `0.25 * 8 = 2` above the running
minimum.  The peak 60 is 10 away from the midpoint and the peak 35 is 15 away,
and the loop of lines 653-684 leaves at line 682 after the peak 35:
`period_int` is 35. -/
theorem C25_first_qualifying_peak_taken :
    c25_cor_array.length = 161 ∧
    (autocor_scan c25_constants c25_cor_array 0).dmax_idx = 100 ∧
    period_bounds c25_constants c25_cor_array 100 = (52, 148) ∧
    (int_range 1 (c25_constants.kPeriodMax : Int)).filter
      (is_autocor_peak c25_constants c25_cor_array) = [35, 60, 100] ∧
    rd (autocor_scan c25_constants c25_cor_array 0).all_dif 35 ≥
      (1 / 4) * rd c25_cor_array 100 ∧
    rd (autocor_scan c25_constants c25_cor_array 0).all_dif 60 ≥
      (1 / 4) * rd c25_cor_array 100 ∧
    |((60 : Int) : ℚ) - 100 / 2| < |((35 : Int) : ℚ) - 100 / 2| ∧
    (infer_candidate_period_by_autocor c25_constants c25_cor_array 0 example_period).1 = 0 ∧
    (infer_candidate_period_by_autocor c25_constants c25_cor_array 0
      example_period).2.1.period_int = 35 := by
  decide!

/-! ### The first-peak arg-max -/

theorem addc_eq (a : List ℚ) (f : Int) (v : ℚ) (h0 : 0 ≤ f) (h1 : f < (a.length : Int)) :
    addc a f v = some (add_at a f v) := by
  unfold addc add_at
  rw [if_pos ⟨h0, h1⟩]

theorem add_at_length (a : List ℚ) (f : Int) (x : ℚ) : (add_at a f x).length = a.length := by
  unfold add_at
  simp

theorem add_at_getD_self (a : List ℚ) (f : Int) (x : ℚ) (h : f.toNat < a.length) :
    (add_at a f x).getD f.toNat 0 = a.getD f.toNat 0 + x := by
  unfold add_at
  rw [List.getD_eq_getElem?_getD, List.getElem?_set_self h]
  rfl

theorem add_at_getD_ne (a : List ℚ) (f : Int) (x : ℚ) (q : Nat) (h : f.toNat ≠ q) :
    (add_at a f x).getD q 0 = a.getD q 0 := by
  unfold add_at
  simp [List.getD_eq_getElem?_getD, List.getElem?_set_ne h]

theorem add_at_add_at (a : List ℚ) (f : Int) (x y : ℚ) (h : f.toNat < a.length) :
    add_at (add_at a f x) f y = add_at a f (x + y) := by
  have h2 := add_at_getD_self a f x h
  unfold add_at at h2 ⊢
  rw [h2, List.set_set, add_assoc]

theorem getc_eq_rd (pdf : List ℚ) (i : Int) (h0 : 0 ≤ i) (h1 : i < (pdf.length : Int)) :
    getc pdf i = some (rd pdf i) := by
  unfold getc rd
  have h : i.toNat < pdf.length := by omega
  rw [if_pos h0, if_neg (by omega), List.getElem?_eq_getElem h, List.getD_eq_getElem _ _ h]

theorem rd_nonneg (pdf : List ℚ) (hnonneg : ∀ v ∈ pdf, 0 ≤ v) (i : Int) : 0 ≤ rd pdf i := by
  unfold rd
  split_ifs with h
  · exact le_refl _
  · by_cases hl : i.toNat < pdf.length
    · rw [List.getD_eq_getElem _ _ hl]
      exact hnonneg _ (List.getElem_mem hl)
    · rw [List.getD_eq_default _ _ (by omega)]

theorem window_mass_nonneg (pdf : List ℚ) (hnonneg : ∀ v ∈ pdf, 0 ≤ v) (pw c : Int) :
    0 ≤ window_mass pdf pw c := by
  unfold window_mass
  apply add_nonneg (rd_nonneg pdf hnonneg c)
  apply List.sum_nonneg
  intro x hx
  rw [List.mem_map] at hx
  obtain ⟨j, _, rfl⟩ := hx
  exact add_nonneg (rd_nonneg pdf hnonneg _) (rd_nonneg pdf hnonneg _)

theorem periodic_window_sum_nonneg (pdf : List ℚ) (hnonneg : ∀ v ∈ pdf, 0 ≤ v)
    (period p : Int) : 0 ≤ periodic_window_sum pdf period p := by
  unfold periodic_window_sum
  apply add_nonneg (window_mass_nonneg pdf hnonneg _ _)
  apply Finset.sum_nonneg
  intro k _
  exact window_mass_nonneg pdf hnonneg _ _

/-- A loop whose iterations each add a term to `a[f]` adds the sum of the
terms. -/
theorem foldlM_add_at (a : List ℚ) (f : Int) (g : List ℚ → Int → Option (List ℚ))
    (t : Int → ℚ) (l : List Int)
    (hg : ∀ j ∈ l, ∀ x, g (add_at a f x) j = some (add_at a f (x + t j))) (x : ℚ) :
    l.foldlM g (add_at a f x) = some (add_at a f (x + (l.map t).sum)) := by
  induction l generalizing x with
  | nil => simp
  | cons j rest ih =>
    rw [List.foldlM_cons, hg j (List.mem_cons_self _ _) x]
    simp only [Option.some_bind, Option.bind_eq_bind]
    rw [ih (fun j hj => hg j (List.mem_cons_of_mem _ hj)), List.map_cons, List.sum_cons,
      add_assoc]

/-- Lines 735-743 and 749-758 add the window mass around `c` to `all_sum[f]`. -/
theorem first_peak_window_sum_eq (pdf : List ℚ) (pw f c : Int) (a : List ℚ) (x : ℚ)
    (hf0 : 0 ≤ f) (hf : f < (a.length : Int)) (hc0 : pw ≤ c)
    (hc1 : c + pw < (pdf.length : Int)) (hc2 : 0 ≤ c) (hc3 : c < (pdf.length : Int)) :
    first_peak_window_sum pdf pw f c (add_at a f x) =
      some (add_at a f (x + window_mass pdf pw c)) := by
  unfold first_peak_window_sum
  have hft : f.toNat < a.length := by omega
  rw [getc_eq_rd pdf c hc2 hc3]
  simp only
  rw [addc_eq _ f _ hf0 (by rw [add_at_length]; exact hf)]
  simp only
  rw [add_at_add_at a f _ _ hft]
  refine (foldlM_add_at a f _ (fun j => rd pdf (c - j) + rd pdf (c + j)) (int_range 1 pw) ?_
    (x + rd pdf c)).trans ?_
  · intro j hj y
    rw [mem_int_range] at hj
    simp only
    rw [getc_eq_rd pdf (c - j) (by omega) (by omega), getc_eq_rd pdf (c + j) (by omega) (by omega)]
    simp only
    rw [addc_eq _ f _ hf0 (by rw [add_at_length]; exact hf)]
    simp only
    rw [addc_eq _ f _ hf0 (by rw [add_at_length, add_at_length]; exact hf)]
    rw [add_at_add_at a f _ _ hft, add_at_add_at a f _ _ hft]
    congr 2
    ring
  · unfold window_mass
    congr 2
    ring

theorem add_at_zero (a : List ℚ) (f : Int) (h : f.toNat < a.length) : add_at a f 0 = a := by
  unfold add_at
  rw [List.getD_eq_getElem _ _ h, add_zero]
  apply List.ext_getElem?
  intro i
  rw [List.getElem?_set]
  split_ifs with h1
  · subst h1
    exact (List.getElem?_eq_getElem h).symm
  · rfl

/-- The loop of lines 745-759 adds the window masses of the `m` periodic
positions below `size - peak_width_assumed`. -/
theorem first_peak_periodic_eq (pdf : List ℚ) (period pw f : Int) (a : List ℚ)
    (hperiod : 1 ≤ period) (hpw : 0 ≤ pw) (hL : pw ≤ (pdf.length : Int))
    (h64 : (pdf.length : Int) + period < 2 ^ 64) (hf0 : 0 ≤ f) (hf : f < (a.length : Int)) :
    ∀ (m fuel : Nat) (a_peak : Int) (x : ℚ), m < fuel → pw ≤ a_peak →
      a_peak < (pdf.length : Int) - pw + period →
      (∀ k : Nat, k < m → a_peak + (k : Int) * period < (pdf.length : Int) - pw) →
      ¬ (a_peak + (m : Int) * period < (pdf.length : Int) - pw) →
      first_peak_periodic pdf period pw f fuel a_peak (add_at a f x) =
        some (add_at a f (x + Finset.sum (Finset.range m)
          (fun k : Nat => window_mass pdf pw (a_peak + (k : Int) * period)))) := by
  intro m
  induction m with
  | zero =>
    intro fuel a_peak x hfuel hap hbound _ hnot
    cases fuel with
    | zero => omega
    | succ fuel =>
      unfold first_peak_periodic
      have e1 : a_peak % 2 ^ 64 = a_peak := Int.emod_eq_of_lt (by omega) (by omega)
      have e2 : ((pdf.length : Int) - pw) % 2 ^ 64 = (pdf.length : Int) - pw :=
        Int.emod_eq_of_lt (by omega) (by omega)
      rw [e1, e2, if_neg (by simpa using hnot)]
      simp
  | succ m ih =>
    intro fuel a_peak x hfuel hap hbound hall hnot
    cases fuel with
    | zero => omega
    | succ fuel =>
      unfold first_peak_periodic
      have e1 : a_peak % 2 ^ 64 = a_peak := Int.emod_eq_of_lt (by omega) (by omega)
      have e2 : ((pdf.length : Int) - pw) % 2 ^ 64 = (pdf.length : Int) - pw :=
        Int.emod_eq_of_lt (by omega) (by omega)
      have h0 : a_peak < (pdf.length : Int) - pw := by
        have := hall 0 (by omega)
        simpa using this
      rw [e1, e2, if_pos h0]
      rw [first_peak_window_sum_eq pdf pw f a_peak a x hf0 hf hap (by omega) (by omega) (by omega)]
      simp only
      rw [ih fuel (a_peak + period) (x + window_mass pdf pw a_peak) (by omega) (by omega)
        (by omega)
        (by
          intro k hk
          have := hall (k + 1) (by omega)
          push_cast at this
          linarith)
        (by
          intro h
          apply hnot
          push_cast
          linarith)]
      rw [Finset.sum_range_succ']
      congr 2
      rw [add_assoc]
      congr 1
      rw [add_comm]
      congr 1
      · apply Finset.sum_congr rfl
        intro k _
        congr 1
        push_cast
        ring
      · congr 1
        simp

/-- The sum `S(p)` as the loop forms it: the window mass at `p` and at the `m`
positions `p + period, p + 2 * period, ...` below `size - period/4`. -/
theorem periodic_window_sum_eq (pdf : List ℚ) (period p : Int) (hperiod : 1 ≤ period)
    (hp : 0 ≤ p) (hpw : 0 ≤ Int.tdiv period 4) :
    ∃ m : Nat, m ≤ pdf.length ∧
      (∀ k : Nat, k < m →
        p + period + (k : Int) * period < (pdf.length : Int) - Int.tdiv period 4) ∧
      ¬ (p + period + (m : Int) * period < (pdf.length : Int) - Int.tdiv period 4) ∧
      periodic_window_sum pdf period p =
        window_mass pdf (Int.tdiv period 4) p +
          Finset.sum (Finset.range m)
            (fun k : Nat => window_mass pdf (Int.tdiv period 4) (p + period + (k : Int) * period)) := by
  have hmul : ∀ k : Nat, (k : Int) ≤ (k : Int) * period := by
    intro k
    have hk : (0 : Int) ≤ (k : Int) := Int.natCast_nonneg k
    nlinarith
  have hex : ∃ k : Nat,
      ¬ (p + period + (k : Int) * period < (pdf.length : Int) - Int.tdiv period 4) := by
    refine ⟨pdf.length, ?_⟩
    have := hmul pdf.length
    omega
  have hmono : ∀ k j : Nat, k ≤ j → (k : Int) * period ≤ (j : Int) * period := by
    intro k j hkj
    have : (k : Int) ≤ (j : Int) := by exact_mod_cast hkj
    nlinarith
  have hfind := Nat.find_spec hex
  have hmin := fun k (hk : k < Nat.find hex) => Nat.find_min hex hk
  have hle : Nat.find hex ≤ pdf.length := by
    apply Nat.find_min'
    have := hmul pdf.length
    omega
  refine ⟨Nat.find hex, hle, ?_, hfind, ?_⟩
  · intro k hk
    exact not_not.mp (hmin k hk)
  · unfold periodic_window_sum
    congr 1
    have hfilter : (Finset.range pdf.length).filter
        (fun k : Nat => p + ((k : Int) + 1) * period <
          (pdf.length : Int) - Int.tdiv period 4) = Finset.range (Nat.find hex) := by
      ext k
      rw [Finset.mem_filter, Finset.mem_range, Finset.mem_range]
      constructor
      · rintro ⟨_, hc⟩
        by_contra hnot
        have hge : Nat.find hex ≤ k := by omega
        have := hmono _ _ hge
        apply hfind
        linarith
      · intro hk
        have hc := not_not.mp (hmin k hk)
        have h1 := hmul k
        refine ⟨?_, by linarith⟩
        omega
    rw [hfilter]
    apply Finset.sum_congr rfl
    intro k _
    congr 1
    ring

/-- One iteration of the search loop at a bin that reaches `kPeakHeightMin` and
whose entry of `all_sum` is still zero. -/
theorem first_peak_scan_step_eq (K : Constants) (pdf : List ℚ) (period : Int)
    (st : List ℚ × ℚ × Int) (f : Int) (hperiod : 1 ≤ period)
    (h64 : (pdf.length : Int) + period < 2 ^ 64)
    (hf0 : Int.tdiv period 4 ≤ f) (hf : f < (st.1.length : Int))
    (hfl : f < (pdf.length : Int) - Int.tdiv period 4)
    (hq : K.kPeakHeightMin ≤ rd pdf f) (hzero : st.1.getD f.toNat 0 = 0) :
    first_peak_scan_step K pdf period st f =
      some (if periodic_window_sum pdf period f > st.2.1 then
        (add_at st.1 f (periodic_window_sum pdf period f), periodic_window_sum pdf period f, f)
      else (add_at st.1 f (periodic_window_sum pdf period f), st.2.1, st.2.2)) := by
  have hpw : 0 ≤ Int.tdiv period 4 := Int.tdiv_nonneg (by omega) (by decide)
  have hft : f.toNat < st.1.length := by omega
  obtain ⟨m, hm, hall, hnot, hS⟩ := periodic_window_sum_eq pdf period f hperiod (by omega) hpw
  unfold first_peak_scan_step
  rw [getc_eq_rd pdf f (by omega) (by omega)]
  simp only
  rw [if_neg (not_lt.mpr hq)]
  have hw := first_peak_window_sum_eq pdf (Int.tdiv period 4) f f st.1 0 (by omega) hf hf0
    (by omega) (by omega) (by omega)
  rw [add_at_zero st.1 f hft, zero_add] at hw
  rw [hw]
  simp only
  rw [first_peak_periodic_eq pdf period (Int.tdiv period 4) f st.1 hperiod hpw (by omega) h64
    (by omega) hf m (pdf.length + 1) (f + period) _ (by omega) (by omega) (by omega) hall hnot]
  simp only
  rw [← hS]
  rw [getc_eq_rd _ f (by omega) (by rw [add_at_length]; exact hf)]
  simp only
  have hval : rd (add_at st.1 f (periodic_window_sum pdf period f)) f =
      periodic_window_sum pdf period f := by
    unfold rd
    rw [if_neg (by omega), add_at_getD_self _ _ _ hft, hzero, zero_add]
  rw [hval]
  split_ifs <;> rfl

theorem pairwise_int_range (lo hi : Int) : (int_range lo hi).Pairwise (fun a b => a < b) := by
  unfold int_range
  rw [List.pairwise_map]
  apply List.Pairwise.imp _ (List.pairwise_lt_range _)
  intro a b h
  omega

/-- The search loop keeps `FirstPeakInv`. -/
theorem first_peak_scan_inv (K : Constants) (pdf : List ℚ) (period : Int) (n : Nat)
    (center0 : Int) (hperiod : 1 ≤ period) (h64 : (pdf.length : Int) + period < 2 ^ 64)
    (hnonneg : ∀ v ∈ pdf, 0 ≤ v) :
    ∀ (l done : List Int) (st : List ℚ × ℚ × Int),
      (done ++ l).Pairwise (fun a b => a < b) →
      (∀ f ∈ l, Int.tdiv period 4 ≤ f ∧ f < (n : Int) ∧
        f < (pdf.length : Int) - Int.tdiv period 4) →
      FirstPeakInv K pdf period n center0 done st →
      ∃ st2, l.foldlM (first_peak_scan_step K pdf period) st = some st2 ∧
        FirstPeakInv K pdf period n center0 (done ++ l) st2 := by
  have hpw : 0 ≤ Int.tdiv period 4 := Int.tdiv_nonneg (by omega) (by decide)
  intro l
  induction l with
  | nil =>
    intro done st _ _ hinv
    exact ⟨st, rfl, by simpa using hinv⟩
  | cons f rest ih =>
    intro done st hpair hin hinv
    obtain ⟨hf0, hfn, hfl⟩ := hin f (List.mem_cons_self _ _)
    have hpair2 : ((done ++ [f]) ++ rest).Pairwise (fun a b => a < b) := by
      simpa using hpair
    have hdone_lt : ∀ q ∈ done, q < f := by
      intro q hq
      rw [List.pairwise_append] at hpair
      exact hpair.2.2 q hq f (List.mem_cons_self _ _)
    have hfdone : f ∉ done := fun h => lt_irrefl f (hdone_lt f h)
    obtain ⟨hlen, hzero, hbest⟩ := hinv
    rw [List.foldlM_cons]
    have happ : done ++ f :: rest = (done ++ [f]) ++ rest := by simp
    rw [happ]
    by_cases hq : K.kPeakHeightMin ≤ rd pdf f
    · rw [first_peak_scan_step_eq K pdf period st f hperiod h64 hf0 (by rw [hlen]; exact hfn) hfl hq
        (hzero f (by omega) hfdone)]
      apply ih (done ++ [f]) _ hpair2 (fun g hg => hin g (List.mem_cons_of_mem _ hg))
      have hz2 : ∀ q : Int, 0 ≤ q → q ∉ done ++ [f] →
          (add_at st.1 f (periodic_window_sum pdf period f)).getD q.toNat 0 = 0 := by
        intro q hq0 hqn
        rw [List.mem_append, List.mem_singleton, not_or] at hqn
        rw [add_at_getD_ne _ _ _ _ (by omega)]
        exact hzero q hq0 hqn.1
      rcases hbest with ⟨hmx, _, hnone⟩ | ⟨hcd, hcq, hmx, hall⟩
      · have hpos : periodic_window_sum pdf period f > st.2.1 := by
          rw [hmx]
          have := periodic_window_sum_nonneg pdf hnonneg period f
          linarith
        rw [if_pos hpos]
        refine ⟨by rw [add_at_length]; exact hlen, hz2, Or.inr ⟨by simp, hq, rfl, ?_⟩⟩
        intro q hqm hqq
        rw [List.mem_append, List.mem_singleton] at hqm
        rcases hqm with hqd | rfl
        · exact absurd hqq (not_le.mpr (hnone q hqd))
        · exact ⟨le_refl _, fun h => absurd h (lt_irrefl _)⟩
      · by_cases hgt : periodic_window_sum pdf period f > st.2.1
        · rw [if_pos hgt]
          refine ⟨by rw [add_at_length]; exact hlen, hz2, Or.inr ⟨by simp, hq, rfl, ?_⟩⟩
          intro q hqm hqq
          rw [List.mem_append, List.mem_singleton] at hqm
          rcases hqm with hqd | rfl
          · have := (hall q hqd hqq).1
            rw [hmx] at hgt
            exact ⟨by linarith, fun _ => by linarith⟩
          · exact ⟨le_refl _, fun h => absurd h (lt_irrefl _)⟩
        · rw [if_neg hgt]
          refine ⟨by rw [add_at_length]; exact hlen, hz2,
            Or.inr ⟨List.mem_append_left _ hcd, hcq, hmx, ?_⟩⟩
          intro q hqm hqq
          rw [List.mem_append, List.mem_singleton] at hqm
          rcases hqm with hqd | rfl
          · exact hall q hqd hqq
          · rw [hmx] at hgt
            refine ⟨by linarith, fun h => ?_⟩
            exact absurd (hdone_lt _ hcd) (not_lt.mpr (le_of_lt h))
    · have hstep : first_peak_scan_step K pdf period st f = some st := by
        unfold first_peak_scan_step
        rw [getc_eq_rd pdf f (by omega) (by omega)]
        simp only
        rw [if_pos (not_le.mp hq)]
      rw [hstep]
      apply ih (done ++ [f]) _ hpair2 (fun g hg => hin g (List.mem_cons_of_mem _ hg))
      refine ⟨hlen, ?_, ?_⟩
      · intro q hq0 hqn
        rw [List.mem_append, not_or] at hqn
        exact hzero q hq0 hqn.1
      · rcases hbest with ⟨hmx, hc, hnone⟩ | ⟨hcd, hcq, hmx, hall⟩
        · refine Or.inl ⟨hmx, hc, ?_⟩
          intro q hqm
          rw [List.mem_append, List.mem_singleton] at hqm
          rcases hqm with hqd | rfl
          · exact hnone q hqd
          · exact not_le.mp hq
        · refine Or.inr ⟨List.mem_append_left _ hcd, hcq, hmx, ?_⟩
          intro q hqm hqq
          rw [List.mem_append, List.mem_singleton] at hqm
          rcases hqm with hqd | rfl
          · exact hall q hqd hqq
          · exact absurd hqq hq

theorem first_peak_half_width_some (K : Constants) (a : List ℚ) (d : Int)
    (hn : (a.length : Int) = K.kFirstPeakMax + K.kPeakHalfWidthMax)
    (hmin : 0 ≤ K.kFirstPeakMin) (hd : d < K.kFirstPeakMax) (fuel : Nat) (hw : Int)
    (hhw : 1 ≤ hw) (hfuel : K.kPeakHalfWidthMax + 2 ≤ (fuel : Int) + hw) (hf1 : 1 ≤ fuel) :
    ∃ r, first_peak_half_width K a d fuel hw = some r := by
  induction fuel generalizing hw with
  | zero => omega
  | succ fuel ih =>
    unfold first_peak_half_width
    split_ifs with hc
    · obtain ⟨h1, h2, h3⟩ := hc
      rw [getc_eq_rd a (d - hw) (by omega) (by omega), getc_eq_rd a (d + hw) (by omega) (by omega),
        getc_eq_rd a d (by omega) (by omega)]
      simp only
      split_ifs
      · exact ⟨hw, rfl⟩
      · exact ih (hw + 1) (by omega) (by push_cast at hfuel ⊢; omega) (by push_cast at hfuel; omega)
    · exact ⟨hw, rfl⟩

/-- Inside the arrays the search finds the arg-max: for a density without
negative entries, a period of at least 1 and a search window `[lower, upper]`
with `period/4 <= lower`, `upper < kFirstPeakMax` and
`kFirstPeakMax + period/4 <= size` (no read or write leaves an array) that holds
a bin with density at least `kPeakHeightMin`, `find_first_peak_given_bounds`
returns a peak whose centre is a bin of the window with density at least
`kPeakHeightMin`, whose periodic windowed sum `S` is largest among such bins and
larger than that of every such bin before it; the returned half-width is at
most `period/4`, and twice it at most the period. -/
theorem first_peak_argmax_inside (K : Constants) (OnePeak_ctor : OnePeak) (debug : Int)
    (pdf : List ℚ) (period lower upper : Int)
    (hperiod : 1 ≤ period) (hnonneg : ∀ v ∈ pdf, 0 ≤ v)
    (hlow : Int.tdiv period 4 ≤ lower) (hup : upper < K.kFirstPeakMax)
    (hmin : 0 ≤ K.kFirstPeakMin) (hhalf : 0 ≤ K.kPeakHalfWidthMax)
    (hlen : K.kFirstPeakMax + Int.tdiv period 4 ≤ (pdf.length : Int))
    (h64 : (pdf.length : Int) + period < 2 ^ 64)
    (hqual : ∃ p, lower ≤ p ∧ p ≤ upper ∧ K.kPeakHeightMin ≤ rd pdf p) :
    ∃ pk, find_first_peak_given_bounds K OnePeak_ctor debug pdf period lower upper = some pk ∧
      lower ≤ pk.peak_center_int ∧ pk.peak_center_int ≤ upper ∧
      K.kPeakHeightMin ≤ rd pdf pk.peak_center_int ∧
      (∀ q, lower ≤ q → q ≤ upper → K.kPeakHeightMin ≤ rd pdf q →
        periodic_window_sum pdf period q ≤ periodic_window_sum pdf period pk.peak_center_int ∧
        (q < pk.peak_center_int →
          periodic_window_sum pdf period q <
            periodic_window_sum pdf period pk.peak_center_int)) ∧
      pk.half_width_int ≤ Int.tdiv period 4 ∧ 2 * pk.half_width_int ≤ period := by
  have hpw : 0 ≤ Int.tdiv period 4 := Int.tdiv_nonneg (by omega) (by decide)
  obtain ⟨p, hp1, hp2, hp3⟩ := hqual
  have hU : 0 ≤ K.kFirstPeakMax + K.kPeakHalfWidthMax := by omega
  have hn : (((K.kFirstPeakMax + K.kPeakHalfWidthMax).toNat : Nat) : Int) =
      K.kFirstPeakMax + K.kPeakHalfWidthMax := Int.toNat_of_nonneg hU
  obtain ⟨st, hfold, hlenst, _, hbest⟩ := first_peak_scan_inv K pdf period
    (K.kFirstPeakMax + K.kPeakHalfWidthMax).toNat OnePeak_ctor.peak_center_int hperiod h64
    hnonneg (int_range lower upper) []
    (List.replicate (K.kFirstPeakMax + K.kPeakHalfWidthMax).toNat 0, (-1 : ℚ),
      OnePeak_ctor.peak_center_int)
    (by simpa using pairwise_int_range lower upper)
    (by
      intro f hf
      rw [mem_int_range] at hf
      omega)
    ⟨by simp, by
      intro q _ _
      simp only [List.getD_eq_getElem?_getD, List.getElem?_replicate]
      split_ifs <;> rfl, Or.inl ⟨rfl, rfl, by simp⟩⟩
  rw [List.nil_append] at hbest
  rcases hbest with ⟨_, _, hnone⟩ | ⟨hcd, hcq, _, hall⟩
  · exact absurd hp3 (not_le.mpr (hnone p ((mem_int_range _ _ _).mpr ⟨hp1, hp2⟩)))
  · rw [mem_int_range] at hcd
    obtain ⟨r, hr⟩ := first_peak_half_width_some K st.1 st.2.2 (by rw [hlenst, hn]) hmin
      (by omega) (K.kPeakHalfWidthMax.toNat + 1) 1 (le_refl _) (by push_cast; omega) (by omega)
    have htd : 2 * Int.tdiv period 4 ≤ period := by
      rw [Int.tdiv_eq_ediv (by omega) (by decide)]
      omega
    have hresult : ∃ pk, find_first_peak_given_bounds K OnePeak_ctor debug pdf period lower
        upper = some pk ∧ pk.peak_center_int = st.2.2 ∧
        pk.half_width_int = min r (Int.tdiv period 4) := by
      unfold find_first_peak_given_bounds
      simp only [hfold, hr]
      by_cases hdb : debug > 0
      · rw [if_pos hdb, getc_eq_rd st.1 st.2.2 (by omega) (by rw [hlenst, hn]; omega)]
        exact ⟨_, rfl, rfl, rfl⟩
      · rw [if_neg hdb]
        exact ⟨_, rfl, rfl, rfl⟩
    obtain ⟨pk, hpk, hc, hh⟩ := hresult
    refine ⟨pk, hpk, ?_, ?_, ?_, ?_, ?_, ?_⟩
    · rw [hc]; exact hcd.1
    · rw [hc]; exact hcd.2
    · rw [hc]; exact hcq
    · intro q hq1 hq2 hq3
      rw [hc]
      exact hall q ((mem_int_range _ _ _).mpr ⟨hq1, hq2⟩) hq3
    · rw [hh]; exact min_le_right _ _
    · rw [hh]
      have := min_le_right r (Int.tdiv period 4)
      omega

/-! ### Rounding to `float` and peak disjointness -/

theorem find_peaks_float_id (K : Constants) (segments : List OneSegment) (period_obj : OnePeriod)
    (first_peak_obj : OnePeak) :
    find_peaks_float (fun x => x) K segments period_obj first_peak_obj =
      find_peaks K segments period_obj first_peak_obj := by
  have hbin : ∀ sg, ratio_high_res_float (fun x => x) K sg = ratio_high_res K sg := fun _ => rfl
  have htab : ∀ b, rc_ratio_segments_float (fun x => x) K segments b =
      rc_ratio_segments K segments b := fun _ => rfl
  have href : ∀ pk v, refine_peak_center_float (fun x => x) K segments pk v =
      refine_peak_center K segments pk v := fun _ _ => rfl
  have hone : ∀ p hw c i, find_peaks_project_one_float (fun x => x) K segments p hw c i =
      find_peaks_project_one K segments p hw c i := fun _ _ _ _ => rfl
  have hproj : ∀ p hw c fuel i, find_peaks_project_float (fun x => x) K segments p hw c fuel i =
      find_peaks_project K segments p hw c fuel i := by
    intro p hw c fuel
    induction fuel with
    | zero => intro i; rfl
    | succ fuel ih =>
      intro i
      unfold find_peaks_project_float find_peaks_project
      rw [ih (i + 1), hone]
  have hagg : ∀ pk, find_peaks_aggregate_float (fun x => x) K segments pk =
      find_peaks_aggregate K segments pk := fun _ => rfl
  unfold find_peaks_float find_peaks
  simp only [hproj]
  have : find_peaks_aggregate_float (fun x => x) K segments = find_peaks_aggregate K segments :=
    funext hagg
  rw [this]

theorem cpp_trunc_le_imp (f : ℚ) (up : Int) (h0 : 0 ≤ up) (h : cpp_trunc f ≤ up) :
    f < (up : ℚ) + 1 := by
  unfold cpp_trunc at h
  split_ifs at h with hf
  · have : ⌊f⌋ < up + 1 := by omega
    have := Int.floor_lt.mp this
    push_cast at this
    exact this
  · have h1 : f < 0 := not_le.mp hf
    have h2 : (0 : ℚ) ≤ (up : ℚ) := by exact_mod_cast h0
    linarith

theorem le_cpp_trunc_imp (f : ℚ) (lo : Int) (h1 : 1 ≤ lo) (h : lo ≤ cpp_trunc f) :
    (lo : ℚ) ≤ f := by
  unfold cpp_trunc at h
  split_ifs at h with hf
  · exact Int.le_floor.mp h
  · exfalso
    have h2 : ⌈f⌉ ≤ 0 := Int.ceil_le.mpr (by simpa using le_of_lt (not_le.mp hf))
    omega

theorem nonneg_cpp_trunc_imp (f : ℚ) (h : 0 ≤ cpp_trunc f) : -1 < f := by
  unfold cpp_trunc at h
  split_ifs at h with hf
  · linarith
  · have : (-1 : Int) < ⌈f⌉ := by omega
    have := Int.lt_ceil.mp this
    push_cast at this
    exact this

theorem cpp_trunc_le_of_le (y : ℚ) (up : Int) (h0 : 0 ≤ up) (h : y ≤ (up : ℚ) + 3 / 2) :
    cpp_trunc y ≤ up + 1 := by
  unfold cpp_trunc
  split_ifs with hy
  · have : ⌊y⌋ < up + 2 := by
      apply Int.floor_lt.mpr
      push_cast
      linarith
    omega
  · have h2 : ⌈y⌉ ≤ 0 := Int.ceil_le.mpr (by simpa using le_of_lt (not_le.mp hy))
    omega

theorem le_cpp_trunc_of_le (y : ℚ) (lo : Int) (h0 : 0 ≤ lo)
    (h : (if 1 ≤ lo then (lo : ℚ) - 1 else -3 / 2) ≤ y) : lo - 1 ≤ cpp_trunc y := by
  unfold cpp_trunc
  by_cases h1 : 1 ≤ lo
  · rw [if_pos h1] at h
    have hlo : (1 : ℚ) ≤ (lo : ℚ) := by exact_mod_cast h1
    have hy : 0 ≤ y := by linarith
    rw [if_pos hy]
    apply Int.le_floor.mpr
    push_cast
    exact h
  · rw [if_neg h1] at h
    have hlo : lo = 0 := by omega
    subst hlo
    split_ifs with hy
    · have := Int.floor_nonneg.mpr hy
      omega
    · have : (-2 : Int) < ⌈y⌉ := by
        apply Int.lt_ceil.mpr
        push_cast
        linarith
      omega

/-- One term of the sum of line 1974, times `RESOLUTION`, for a segment filed
under a bin of `[lo, up]`: it lies between `no_of_windows` times `lo - 1`
(`-3/2` for `lo = 0`) and `no_of_windows` times `up + 3/2`. -/
theorem float_term_bounds (fl : ℚ → ℚ) (hfl : FloatRounding fl) (R lo up w : Int) (r : ℚ)
    (hR1 : 1 ≤ R) (hR2 : R ≤ 2 ^ 20) (hlo : 0 ≤ lo) (hup : up + 2 ≤ 2 ^ 20) (hw : 0 ≤ w)
    (h1 : lo ≤ cpp_trunc (fl (r * (R : ℚ)))) (h2 : cpp_trunc (fl (r * (R : ℚ))) ≤ up) :
    (w : ℚ) * (if 1 ≤ lo then (lo : ℚ) - 1 else -3 / 2) ≤ fl (r * (w : ℚ)) * (R : ℚ) ∧
    fl (r * (w : ℚ)) * (R : ℚ) ≤ (w : ℚ) * ((up : ℚ) + 3 / 2) := by
  obtain ⟨hfl0, hflx⟩ := hfl
  have hup0 : 0 ≤ up := by omega
  by_cases hw0 : w = 0
  · subst hw0
    simp [hfl0]
  have hw1 : (1 : ℚ) ≤ (w : ℚ) := by
    have : 1 ≤ w := by omega
    exact_mod_cast this
  have hRq1 : (1 : ℚ) ≤ (R : ℚ) := by exact_mod_cast hR1
  have hRq2 : (R : ℚ) ≤ 2 ^ 20 := by exact_mod_cast hR2
  have hupq : (up : ℚ) + 2 ≤ 2 ^ 20 := by exact_mod_cast hup
  have hloq : (0 : ℚ) ≤ (lo : ℚ) := by exact_mod_cast hlo
  -- the filed value `f` and the exact product `x`
  obtain ⟨f, hf⟩ : ∃ f, f = fl (r * (R : ℚ)) := ⟨_, rfl⟩
  obtain ⟨g, hg⟩ : ∃ g, g = fl (r * (w : ℚ)) := ⟨_, rfl⟩
  obtain ⟨a, ha⟩ : ∃ a, a = |r| := ⟨_, rfl⟩
  have ha0 : 0 ≤ a := by rw [ha]; exact abs_nonneg _
  rw [← hf] at h1 h2
  rw [← hg]
  have hfup : f < (up : ℚ) + 1 := cpp_trunc_le_imp f up hup0 h2
  have hflo : -1 < f := nonneg_cpp_trunc_imp f (le_trans hlo h1)
  have e2 := hflx (r * (R : ℚ))
  have e1 := hflx (r * (w : ℚ))
  rw [← hf, abs_mul, abs_of_pos (by linarith : (0 : ℚ) < (R : ℚ)), ← ha] at e2
  rw [← hg, abs_mul, abs_of_pos (by linarith : (0 : ℚ) < (w : ℚ)), ← ha] at e1
  rw [abs_le] at e1 e2
  obtain ⟨e1a, e1b⟩ := e1
  obtain ⟨e2a, e2b⟩ := e2
  -- a bound on `|x| = a * R`
  have hx1 : a * (R : ℚ) ≤ r * (R : ℚ) ∨ a * (R : ℚ) ≤ -(r * (R : ℚ)) := by
    rcases le_total 0 r with hr | hr
    · left; rw [ha, abs_of_nonneg hr]
    · right; rw [ha, abs_of_nonpos hr]; linarith
  have haR : a * (R : ℚ) ≤ 2 ^ 21 + 2 := by
    have hpos : 0 ≤ a * (R : ℚ) := mul_nonneg ha0 (by linarith)
    have hsmall : a * (R : ℚ) / 2 ^ 24 ≤ a * (R : ℚ) / 2 := by
      apply div_le_div_of_nonneg_left hpos (by norm_num) (by norm_num)
    have hη : (1 : ℚ) / 2 ^ 150 ≤ 1 := by norm_num
    rcases hx1 with h | h <;>
      linarith only [h, e2a, e2b, hfup, hflo, hupq, hsmall, hη, hpos]
  have hE : a * (R : ℚ) / 2 ^ 24 ≤ 1 / 8 + 1 / 2 ^ 22 := by
    rw [div_le_iff₀ (by norm_num)]
    have : ((1 : ℚ) / 8 + 1 / 2 ^ 22) * 2 ^ 24 = 2 ^ 21 + 4 := by norm_num
    linarith only [this, haR]
  have hηR : (1 : ℚ) / 2 ^ 150 * (R : ℚ) ≤ 1 / 2 ^ 130 := by
    have : (1 : ℚ) / 2 ^ 150 * (R : ℚ) ≤ 1 / 2 ^ 150 * 2 ^ 20 :=
      mul_le_mul_of_nonneg_left hRq2 (by norm_num)
    have h3 : (1 : ℚ) / 2 ^ 150 * 2 ^ 20 = 1 / 2 ^ 130 := by norm_num
    linarith only [this, h3]
  -- the two products `g * R` and `w * f` differ by at most `w / 2`
  have key1 : g * (R : ℚ) - (w : ℚ) * (r * (R : ℚ)) ≤
      (w : ℚ) * (a * (R : ℚ) / 2 ^ 24) + 1 / 2 ^ 150 * (R : ℚ) := by
    have := mul_le_mul_of_nonneg_right e1b (by linarith only [hRq1] : (0 : ℚ) ≤ (R : ℚ))
    have e : (g - r * (w : ℚ)) * (R : ℚ) = g * (R : ℚ) - (w : ℚ) * (r * (R : ℚ)) := by ring
    have e' : (a * (w : ℚ) / 2 ^ 24 + 1 / 2 ^ 150) * (R : ℚ) =
        (w : ℚ) * (a * (R : ℚ) / 2 ^ 24) + 1 / 2 ^ 150 * (R : ℚ) := by ring
    linarith only [this, e, e']
  have key2 : -((w : ℚ) * (a * (R : ℚ) / 2 ^ 24) + 1 / 2 ^ 150 * (R : ℚ)) ≤
      g * (R : ℚ) - (w : ℚ) * (r * (R : ℚ)) := by
    have := mul_le_mul_of_nonneg_right e1a (by linarith only [hRq1] : (0 : ℚ) ≤ (R : ℚ))
    have e : (g - r * (w : ℚ)) * (R : ℚ) = g * (R : ℚ) - (w : ℚ) * (r * (R : ℚ)) := by ring
    have e' : -(a * (w : ℚ) / 2 ^ 24 + 1 / 2 ^ 150) * (R : ℚ) =
        -((w : ℚ) * (a * (R : ℚ) / 2 ^ 24) + 1 / 2 ^ 150 * (R : ℚ)) := by ring
    linarith only [this, e, e']
  have key3 : (w : ℚ) * (r * (R : ℚ)) - (w : ℚ) * f ≤
      (w : ℚ) * (a * (R : ℚ) / 2 ^ 24 + 1 / 2 ^ 150) := by
    have := mul_le_mul_of_nonneg_left (by linarith only [e2a] : r * (R : ℚ) - f ≤
      a * (R : ℚ) / 2 ^ 24 + 1 / 2 ^ 150) (by linarith only [hw1] : (0 : ℚ) ≤ (w : ℚ))
    linarith only [this]
  have key4 : -((w : ℚ) * (a * (R : ℚ) / 2 ^ 24 + 1 / 2 ^ 150)) ≤
      (w : ℚ) * (r * (R : ℚ)) - (w : ℚ) * f := by
    have := mul_le_mul_of_nonneg_left (by linarith only [e2b] : -(a * (R : ℚ) / 2 ^ 24 + 1 / 2 ^ 150) ≤
      r * (R : ℚ) - f) (by linarith only [hw1] : (0 : ℚ) ≤ (w : ℚ))
    linarith only [this]
  have hwE : (w : ℚ) * (a * (R : ℚ) / 2 ^ 24) ≤ (w : ℚ) * (1 / 8 + 1 / 2 ^ 22) :=
    mul_le_mul_of_nonneg_left hE (by linarith only [hw1])
  have hwη : (1 : ℚ) / 2 ^ 150 * (R : ℚ) ≤ (w : ℚ) * (1 / 2 ^ 130) := by
    have : (1 : ℚ) / 2 ^ 130 ≤ (w : ℚ) * (1 / 2 ^ 130) := by
      have := mul_le_mul_of_nonneg_right hw1 (by norm_num : (0 : ℚ) ≤ 1 / 2 ^ 130)
      linarith only [this]
    linarith only [this, hηR]
  have hsmall : (w : ℚ) * (2 * (1 / 8 + 1 / 2 ^ 22) + 1 / 2 ^ 150 + 1 / 2 ^ 130) ≤
      (w : ℚ) * (1 / 2) :=
    mul_le_mul_of_nonneg_left (by norm_num) (by linarith only [hw1])
  have hclose_up : g * (R : ℚ) ≤ (w : ℚ) * f + (w : ℚ) * (1 / 2) := by
    have e : (w : ℚ) * (a * (R : ℚ) / 2 ^ 24 + 1 / 2 ^ 150) =
        (w : ℚ) * (a * (R : ℚ) / 2 ^ 24) + (w : ℚ) * (1 / 2 ^ 150) := by ring
    have e2 : (w : ℚ) * (2 * (1 / 8 + 1 / 2 ^ 22) + 1 / 2 ^ 150 + 1 / 2 ^ 130) =
        2 * ((w : ℚ) * (1 / 8 + 1 / 2 ^ 22)) + (w : ℚ) * (1 / 2 ^ 150) +
          (w : ℚ) * (1 / 2 ^ 130) := by ring
    linarith only [key1, key3, e, e2, hwE, hwη, hsmall]
  have hclose_lo : (w : ℚ) * f - (w : ℚ) * (1 / 2) ≤ g * (R : ℚ) := by
    have e : (w : ℚ) * (a * (R : ℚ) / 2 ^ 24 + 1 / 2 ^ 150) =
        (w : ℚ) * (a * (R : ℚ) / 2 ^ 24) + (w : ℚ) * (1 / 2 ^ 150) := by ring
    have e2 : (w : ℚ) * (2 * (1 / 8 + 1 / 2 ^ 22) + 1 / 2 ^ 150 + 1 / 2 ^ 130) =
        2 * ((w : ℚ) * (1 / 8 + 1 / 2 ^ 22)) + (w : ℚ) * (1 / 2 ^ 150) +
          (w : ℚ) * (1 / 2 ^ 130) := by ring
    linarith only [key2, key4, e, e2, hwE, hwη, hsmall]
  constructor
  · have hA : (if 1 ≤ lo then (lo : ℚ) - 1 else -3 / 2) ≤ f - 1 / 2 := by
      by_cases hl : 1 ≤ lo
      · rw [if_pos hl]
        have := le_cpp_trunc_imp f lo hl h1
        linarith only [this]
      · rw [if_neg hl]
        linarith only [hflo]
    have := mul_le_mul_of_nonneg_left hA (by linarith only [hw1] : (0 : ℚ) ≤ (w : ℚ))
    have e : (w : ℚ) * (f - 1 / 2) = (w : ℚ) * f - (w : ℚ) * (1 / 2) := by ring
    linarith only [this, e, hclose_lo]
  · have hB : f + 1 / 2 ≤ (up : ℚ) + 3 / 2 := by linarith only [hfup]
    have := mul_le_mul_of_nonneg_left hB (by linarith only [hw1] : (0 : ℚ) ≤ (w : ℚ))
    have e : (w : ℚ) * (f + 1 / 2) = (w : ℚ) * f + (w : ℚ) * (1 / 2) := by ring
    linarith only [this, e, hclose_up]

theorem pow2_eq (e : Int) : pow2 e = (2 : ℚ) ^ e := by
  unfold pow2
  split_ifs with h
  · have h1 : ((e.toNat : Nat) : Int) = e := Int.toNat_of_nonneg h
    have h2 : (2 : ℚ) ^ e = (2 : ℚ) ^ ((e.toNat : Nat) : Int) := by rw [h1]
    rw [h2, zpow_natCast]
    push_cast
    rfl
  · have h0 : 0 ≤ -e := by omega
    have h1 : (((-e).toNat : Nat) : Int) = -e := Int.toNat_of_nonneg h0
    have h2 : (2 : ℚ) ^ e = ((2 : ℚ) ^ (((-e).toNat : Nat) : Int))⁻¹ := by
      rw [h1, zpow_neg, inv_inv]
    rw [h2, zpow_natCast]
    push_cast
    rw [one_div]

theorem pow2_pos (e : Int) : 0 < pow2 e := by
  rw [pow2_eq]
  positivity

theorem bit_length_spec (fuel n : Nat) (hf : n ≤ fuel) (hn : 0 < n) :
    2 ^ bit_length fuel n ≤ 2 * n ∧ n < 2 ^ bit_length fuel n := by
  induction fuel generalizing n with
  | zero => omega
  | succ fuel ih =>
    unfold bit_length
    rw [if_neg (by omega)]
    by_cases h2 : n / 2 = 0
    · have h1 : n = 1 := by omega
      subst h1
      cases fuel with
      | zero => simp [bit_length]
      | succ k => simp [bit_length]
    · obtain ⟨a, b⟩ := ih (n / 2) (by omega) (by omega)
      rw [pow_succ]
      constructor <;> omega

theorem float_exponent_le (a : ℚ) (ha : 0 < a) : pow2 (float_exponent a) ≤ a := by
  unfold float_exponent
  simp only
  split_ifs with h
  · exact h
  · have hnum : 0 < a.num := Rat.num_pos.mpr ha
    have hden : 0 < a.den := a.den_pos
    have hnat : 0 < a.num.natAbs := by omega
    obtain ⟨n1, _⟩ := bit_length_spec a.num.natAbs a.num.natAbs le_rfl hnat
    obtain ⟨_, d2⟩ := bit_length_spec a.den a.den le_rfl hden
    have hn1 : ((2 : ℚ) ^ bit_length a.num.natAbs a.num.natAbs) ≤ 2 * (a.num.natAbs : ℚ) := by
      exact_mod_cast n1
    have hd2 : (a.den : ℚ) ≤ (2 : ℚ) ^ bit_length a.den a.den := by
      exact_mod_cast le_of_lt d2
    have hcast : ((a.num.natAbs : Nat) : ℚ) = (a.num : ℚ) := by
      have h0 : ((a.num.natAbs : Nat) : Int) = a.num := Int.natAbs_of_nonneg (le_of_lt hnum)
      rw [← Int.cast_natCast, h0]
    rw [hcast] at hn1
    have hdq : (0 : ℚ) < (a.den : ℚ) := by exact_mod_cast hden
    have hval : a = (a.num : ℚ) / (a.den : ℚ) := (Rat.num_div_den a).symm
    rw [pow2_eq, zpow_sub₀ (by norm_num : (2 : ℚ) ≠ 0), zpow_sub₀ (by norm_num : (2 : ℚ) ≠ 0),
      zpow_natCast, zpow_natCast, zpow_one]
    have hP : (0 : ℚ) < (2 : ℚ) ^ bit_length a.den a.den := by positivity
    rw [div_div, div_le_iff₀ (by positivity)]
    have hnq : (0 : ℚ) < (a.num : ℚ) := by exact_mod_cast hnum
    calc (2 : ℚ) ^ bit_length a.num.natAbs a.num.natAbs
        ≤ 2 * (a.num : ℚ) := hn1
      _ = (a.num : ℚ) / (a.den : ℚ) * ((a.den : ℚ) * 2) := by field_simp; ring
      _ ≤ (a.num : ℚ) / (a.den : ℚ) * ((2 : ℚ) ^ bit_length a.den a.den * 2) := by
          apply mul_le_mul_of_nonneg_left _ (le_of_lt (div_pos hnq hdq))
          linarith only [hd2]
      _ = a * ((2 : ℚ) ^ bit_length a.den a.den * 2) := by rw [← hval]

/-- `float_round` is a rounding in the sense of `FloatRounding`. -/
theorem float_round_rounding : FloatRounding float_round := by
  refine ⟨by simp [float_round], ?_⟩
  intro x
  by_cases hx : x = 0
  · subst hx
    simp [float_round]
  unfold float_round
  rw [if_neg hx]
  simp only
  obtain ⟨e, he⟩ : ∃ e, e = max (float_exponent |x|) (-126) := ⟨_, rfl⟩
  rw [← he]
  obtain ⟨u, hu⟩ : ∃ u, u = pow2 (e - 23) := ⟨_, rfl⟩
  rw [← hu]
  have hupos : 0 < u := hu ▸ pow2_pos _
  obtain ⟨q, hq⟩ : ∃ q, q = x / u := ⟨_, rfl⟩
  rw [← hq]
  have hxq : x = q * u := by rw [hq]; field_simp
  have hf1 : ((⌊q⌋ : Int) : ℚ) ≤ q := Int.floor_le q
  have hf2 : q < ((⌊q⌋ : Int) : ℚ) + 1 := Int.lt_floor_add_one q
  have hn : ∀ n : Int, |(n : ℚ) - q| ≤ 1 / 2 → |(n : ℚ) * u - x| ≤ |x| / 2 ^ 24 + 1 / 2 ^ 150 := by
    intro n hn
    have e1 : (n : ℚ) * u - x = ((n : ℚ) - q) * u := by rw [hxq]; ring
    rw [e1, abs_mul, abs_of_pos hupos]
    have h1 : |(n : ℚ) - q| * u ≤ 1 / 2 * u := mul_le_mul_of_nonneg_right hn (le_of_lt hupos)
    have h2 : 1 / 2 * u = (2 : ℚ) ^ (e - 24) := by
      rw [hu, pow2_eq]
      have : e - 24 = (e - 23) - 1 := by ring
      rw [this, zpow_sub₀ (by norm_num : (2 : ℚ) ≠ 0) (e - 23) 1, zpow_one]
      ring
    have hax : 0 ≤ |x| / 2 ^ 24 := by positivity
    rcases le_total (float_exponent |x|) (-126) with hc | hc
    · have e0 : e = -126 := by rw [he]; exact max_eq_right hc
      have h3 : (2 : ℚ) ^ (e - 24) = 1 / 2 ^ 150 := by
        rw [e0]
        norm_num [zpow_neg]
      linarith only [h1, h2, h3, hax]
    · have e0 : e = float_exponent |x| := by rw [he]; exact max_eq_left hc
      have h3 := float_exponent_le |x| (abs_pos.mpr hx)
      rw [← e0, pow2_eq] at h3
      have h4 : (2 : ℚ) ^ (e - 24) = (2 : ℚ) ^ e / 2 ^ 24 := by
        rw [zpow_sub₀ (by norm_num : (2 : ℚ) ≠ 0)]
        norm_num
      have h5 : (2 : ℚ) ^ e / 2 ^ 24 ≤ |x| / 2 ^ 24 :=
        div_le_div_of_nonneg_right h3 (by positivity)
      have h6 : (0 : ℚ) ≤ 1 / 2 ^ 150 := by positivity
      linarith only [h1, h2, h4, h5, h6]
  split_ifs with c1 c2 c3
  · apply hn
    rw [abs_le]
    constructor <;> linarith only [c1, hf1]
  · apply hn
    push_cast
    rw [abs_le]
    constructor <;> linarith only [c2, hf2]
  · apply hn
    rw [abs_le]
    constructor <;> linarith only [c1, c2, hf1]
  · apply hn
    push_cast
    rw [abs_le]
    constructor <;> linarith only [c1, c2, hf2]

theorem mem_flatMap_rc_ratio_segments_float (fl : ℚ → ℚ) (K : Constants)
    (segments : List OneSegment) (lo up : Int) (sg : OneSegment) :
    sg ∈ (int_range lo up).flatMap (rc_ratio_segments_float fl K segments) ↔
      sg ∈ segments ∧ lo ≤ ratio_high_res_float fl K sg ∧ ratio_high_res_float fl K sg ≤ up := by
  simp only [List.mem_flatMap, rc_ratio_segments_float, List.mem_filter, mem_int_range,
    decide_eq_true_eq]
  constructor
  · rintro ⟨b, ⟨h1, h2⟩, hs, rfl⟩
    exact ⟨hs, h1, h2⟩
  · rintro ⟨hs, h1, h2⟩
    exact ⟨_, ⟨h1, h2⟩, hs, rfl⟩

/-- Terms `t s` between `w s * A` and `w s * B` sum to a total between
`(Σ w) * A` and `(Σ w) * B`. -/
theorem weighted_sum_bounds {α : Type} (l : List α) (t : α → ℚ) (w : α → Int) (A B : ℚ)
    (h : ∀ s ∈ l, (w s : ℚ) * A ≤ t s ∧ t s ≤ (w s : ℚ) * B) :
    (((l.map w).sum : Int) : ℚ) * A ≤ (l.map t).sum ∧
      (l.map t).sum ≤ (((l.map w).sum : Int) : ℚ) * B := by
  induction l with
  | nil => simp
  | cons a rest ih =>
    obtain ⟨h1, h2⟩ := h a (List.mem_cons_self _ _)
    obtain ⟨h3, h4⟩ := ih (fun s hs => h s (List.mem_cons_of_mem _ hs))
    simp only [List.map_cons, List.sum_cons, Int.cast_add, add_mul]
    exact ⟨add_le_add h1 h3, add_le_add h2 h4⟩

theorem sum_div_mul_resolution_float (fl : ℚ → ℚ) (l : List OneSegment) (c R : ℚ) :
    (l.map (fun sg => fl (sg.rc_ratio * (sg.no_of_windows : ℚ)))).sum / c * R =
      (l.map (fun sg => fl (sg.rc_ratio * (sg.no_of_windows : ℚ)) * R)).sum / c := by
  rw [div_mul_eq_mul_div]
  congr 1
  induction l with
  | nil => simp
  | cons a rest ih =>
    simp only [List.map_cons, List.sum_cons, add_mul, ih]

/-- With `float` products, `refine_peak_center` leaves the peak alone or moves
its centre to a bin at most one bin outside the scanned range and re-clips the
bounds around it. -/
theorem refine_peak_center_float_range (fl : ℚ → ℚ) (hfl : FloatRounding fl) (K : Constants)
    (segments : List OneSegment) (pk : OnePeak) (lo up : Int)
    (hR1 : 1 ≤ K.RESOLUTION) (hR2 : K.RESOLUTION ≤ 2 ^ 20) (hlo : 0 ≤ lo)
    (hup : up + 2 ≤ 2 ^ 20) (hw : ∀ sg ∈ segments, 0 ≤ sg.no_of_windows) :
    refine_peak_center_float fl K segments pk (int_range lo up) = pk ∨
    (lo - 1 ≤ (refine_peak_center_float fl K segments pk (int_range lo up)).peak_center_int ∧
      (refine_peak_center_float fl K segments pk (int_range lo up)).peak_center_int ≤ up + 1 ∧
      (refine_peak_center_float fl K segments pk (int_range lo up)).lower_bound_int =
        max ((refine_peak_center_float fl K segments pk (int_range lo up)).peak_center_int
          - pk.half_width_int) 0 ∧
      (refine_peak_center_float fl K segments pk (int_range lo up)).upper_bound_int =
        min ((refine_peak_center_float fl K segments pk (int_range lo up)).peak_center_int
          + pk.half_width_int) K.MAX_RATIO_HIGH_RES ∧
      (refine_peak_center_float fl K segments pk (int_range lo up)).half_width_int =
        pk.half_width_int ∧
      (refine_peak_center_float fl K segments pk (int_range lo up)).peak_index =
        pk.peak_index) := by
  unfold refine_peak_center_float
  simp only
  split_ifs with hcnt
  · right
    simp only [and_true, true_and]
    obtain ⟨all, hall⟩ : ∃ all, all =
      (int_range lo up).flatMap (rc_ratio_segments_float fl K segments) := ⟨_, rfl⟩
    rw [← hall] at hcnt ⊢
    have hmem : ∀ sg ∈ all, sg ∈ segments ∧ lo ≤ ratio_high_res_float fl K sg ∧
        ratio_high_res_float fl K sg ≤ up := fun sg hsg =>
      (mem_flatMap_rc_ratio_segments_float fl K segments lo up sg).mp (hall ▸ hsg)
    have hne : all ≠ [] := by
      intro h
      rw [h] at hcnt
      simp at hcnt
    obtain ⟨s0, hs0⟩ := List.exists_mem_of_ne_nil all hne
    have hup0 : 0 ≤ up := by
      have := hmem s0 hs0
      omega
    obtain ⟨b1, b2⟩ := weighted_sum_bounds all
      (fun sg => fl (sg.rc_ratio * (sg.no_of_windows : ℚ)) * (K.RESOLUTION : ℚ))
      (fun sg => sg.no_of_windows)
      (if 1 ≤ lo then (lo : ℚ) - 1 else -3 / 2) ((up : ℚ) + 3 / 2)
      (fun sg hsg => float_term_bounds fl hfl K.RESOLUTION lo up sg.no_of_windows sg.rc_ratio
        hR1 hR2 hlo hup (hw sg (hmem sg hsg).1) (hmem sg hsg).2.1 (hmem sg hsg).2.2)
    rw [sum_div_mul_resolution_float]
    have hcq : (0 : ℚ) < (((all.map (fun sg => sg.no_of_windows)).sum : Int) : ℚ) := by
      exact_mod_cast hcnt
    constructor
    · apply le_cpp_trunc_of_le _ lo hlo
      rw [le_div_iff₀ hcq]
      linarith only [b1]
    · apply cpp_trunc_le_of_le _ up hup0
      rw [div_le_iff₀ hcq]
      linarith only [b2]
  · left; rfl

theorem find_peaks_project_one_float_facts (fl : ℚ → ℚ) (hfl : FloatRounding fl) (K : Constants)
    (segments : List OneSegment) (p hw c0 i : Int)
    (hR1 : 1 ≤ K.RESOLUTION) (hR2 : K.RESOLUTION ≤ 2 ^ 20)
    (hmax : K.MAX_RATIO_HIGH_RES + 2 ≤ 2 ^ 20) (hw0 : 0 ≤ hw)
    (hwin : ∀ sg ∈ segments, 0 ≤ sg.no_of_windows) :
    c0 + p * i - hw - 1 ≤ (find_peaks_project_one_float fl K segments p hw c0 i).peak_center_int ∧
    (find_peaks_project_one_float fl K segments p hw c0 i).peak_center_int ≤ c0 + p * i + hw + 1 ∧
    (find_peaks_project_one_float fl K segments p hw c0 i).lower_bound_int =
      max ((find_peaks_project_one_float fl K segments p hw c0 i).peak_center_int - hw) 0 ∧
    (find_peaks_project_one_float fl K segments p hw c0 i).upper_bound_int =
      min ((find_peaks_project_one_float fl K segments p hw c0 i).peak_center_int + hw)
        K.MAX_RATIO_HIGH_RES := by
  unfold find_peaks_project_one_float
  simp only
  rcases refine_peak_center_float_range fl hfl K segments
    { (OnePeak.ctor5 (c0 + p * i) i (max (c0 + p * i - hw) 0)
        (min (c0 + p * i + hw) K.MAX_RATIO_HIGH_RES) hw).ResetCounters with
      no_of_periods_since_1st_peak := i }
    (max (c0 + p * i - hw) 0) (min (c0 + p * i + hw) K.MAX_RATIO_HIGH_RES) hR1 hR2
    (le_max_right _ _) (by omega) hwin with h | h
  · rw [h]
    simp only [OnePeak.ctor5, OnePeak.ResetCounters]
    refine ⟨by omega, by omega, trivial, trivial⟩
  · obtain ⟨h1, h2, h3, h4, h5, h6⟩ := h
    simp only [OnePeak.ctor5, OnePeak.ResetCounters] at h1 h2 h3 h4 h5 h6
    simp only [OnePeak.ctor5, OnePeak.ResetCounters]
    refine ⟨by omega, by omega, ?_, ?_⟩
    · rw [h3]
    · rw [h4]

/-- The projection loop with enough fuel: its peaks are exactly the projections
for the indices `k ≥ i` with centre on the axis, in increasing order. -/
theorem find_peaks_project_float_spec (fl : ℚ → ℚ) (K : Constants) (segments : List OneSegment)
    (p hw c0 : Int) (hp : 1 ≤ p) (fuel : Nat) (i : Int)
    (hfuel : (K.MAX_RATIO_HIGH_RES - (c0 + p * i) + 1).toNat ≤ fuel) :
    ∃ n : Nat, find_peaks_project_float fl K segments p hw c0 fuel i =
        (List.range n).map
          (fun (k : Nat) => find_peaks_project_one_float fl K segments p hw c0 (i + k)) ∧
      (∀ k : Nat, k < n ↔ c0 + p * (i + k) ≤ K.MAX_RATIO_HIGH_RES) := by
  induction fuel generalizing i with
  | zero =>
    refine ⟨0, by simp [find_peaks_project_float], ?_⟩
    intro k
    have hk : p * (i + k) = p * i + p * k := by ring
    have hpk : 0 ≤ p * (k : Int) := mul_nonneg (by omega) (by omega)
    constructor
    · intro h; omega
    · intro h; omega
  | succ fuel ih =>
    unfold find_peaks_project_float
    split_ifs with hcond
    · have hi1 : p * (i + 1) = p * i + p := by ring
      obtain ⟨n, hn, hspec⟩ := ih (i + 1) (by omega)
      refine ⟨n + 1, ?_, ?_⟩
      · rw [hn, List.range_succ_eq_map]
        simp only [List.map_cons, List.map_map, Nat.cast_zero, add_zero]
        congr 1
        apply List.map_congr_left
        intro k _
        simp only [Function.comp]
        congr 1
        push_cast
        ring
      · intro k
        cases k with
        | zero => simpa using hcond
        | succ k =>
          have := hspec k
          have e : i + ((k + 1 : Nat) : Int) = i + 1 + (k : Int) := by push_cast; ring
          rw [e]
          omega
    · refine ⟨0, by simp, ?_⟩
      intro k
      have hk : p * (i + k) = p * i + p * k := by ring
      have hpk : 0 ≤ p * (k : Int) := mul_nonneg (by omega) (by omega)
      constructor
      · intro h; omega
      · intro h; omega

theorem find_peaks_bins_float_facts (fl : ℚ → ℚ) (K : Constants) (segments : List OneSegment)
    (bins : List Int) (acc : OnePeak × ℚ) :
    (bins.foldl (fun acc rc_ratio_int =>
      (rc_ratio_segments_float fl K segments rc_ratio_int).foldl find_peaks_add_segment
        ({ acc.1 with segment_rc_ratio_vector := acc.1.segment_rc_ratio_vector ++ [rc_ratio_int] },
          acc.2)) acc).1.position = acc.1.position ∧
    (bins.foldl (fun acc rc_ratio_int =>
      (rc_ratio_segments_float fl K segments rc_ratio_int).foldl find_peaks_add_segment
        ({ acc.1 with segment_rc_ratio_vector := acc.1.segment_rc_ratio_vector ++ [rc_ratio_int] },
          acc.2)) acc).1.segment_obj_vector =
      acc.1.segment_obj_vector ++ bins.flatMap (rc_ratio_segments_float fl K segments) := by
  induction bins generalizing acc with
  | nil => simp
  | cons b rest ih =>
    simp only [List.foldl_cons, List.flatMap_cons]
    obtain ⟨h1, h2⟩ := ih ((rc_ratio_segments_float fl K segments b).foldl find_peaks_add_segment
      ({ acc.1 with segment_rc_ratio_vector := acc.1.segment_rc_ratio_vector ++ [b] }, acc.2))
    obtain ⟨h3, h4⟩ := find_peaks_add_segments_facts (rc_ratio_segments_float fl K segments b)
      ({ acc.1 with segment_rc_ratio_vector := acc.1.segment_rc_ratio_vector ++ [b] }, acc.2)
    refine ⟨h1.trans (h3.trans rfl), ?_⟩
    rw [h2, h4]
    simp

/-- The aggregation pass keeps a peak where it is and fills its
`segment_obj_vector` with the segments filed under the bins of its range. -/
theorem find_peaks_aggregate_float_facts (fl : ℚ → ℚ) (K : Constants)
    (segments : List OneSegment) (pk : OnePeak) :
    (find_peaks_aggregate_float fl K segments pk).position = pk.position ∧
    (find_peaks_aggregate_float fl K segments pk).segment_obj_vector =
      (int_range pk.lower_bound_int pk.upper_bound_int).flatMap
        (rc_ratio_segments_float fl K segments) := by
  unfold find_peaks_aggregate_float
  simp only
  obtain ⟨h1, h2⟩ := find_peaks_bins_float_facts fl K segments
    (int_range pk.ResetCounters.lower_bound_int pk.ResetCounters.upper_bound_int)
    (pk.ResetCounters, 0)
  have hpos : pk.ResetCounters.position = pk.position := rfl
  have hseg : pk.ResetCounters.segment_obj_vector = [] := rfl
  have hlo : pk.ResetCounters.lower_bound_int = pk.lower_bound_int := rfl
  have hup : pk.ResetCounters.upper_bound_int = pk.upper_bound_int := rfl
  rw [hlo, hup] at h1 h2 ⊢
  split_ifs
  · refine ⟨?_, ?_⟩
    · exact (h1.trans hpos)
    · simpa [hseg] using h2
  · exact ⟨h1.trans hpos, by simpa [hseg] using h2⟩

/-- Shape of the result of `find_peaks` with `float` products for
`period ≥ 1`: one aggregated projection per index `k` with
`first centre + k*period` on the axis. -/
theorem find_peaks_float_shape (fl : ℚ → ℚ) (K : Constants) (segments : List OneSegment)
    (period_obj : OnePeriod) (first_peak_obj : OnePeak) (hp : 1 ≤ period_obj.period_int) :
    ∃ n : Nat, find_peaks_float fl K segments period_obj first_peak_obj =
        some ((List.range n).map (fun (k : Nat) =>
          find_peaks_aggregate_float fl K segments (find_peaks_project_one_float fl K segments
            period_obj.period_int (find_peaks_half_width period_obj.period_int first_peak_obj)
            first_peak_obj.peak_center_int k))) ∧
      (∀ k : Nat, k < n ↔
        first_peak_obj.peak_center_int + period_obj.period_int * k ≤ K.MAX_RATIO_HIGH_RES) := by
  obtain ⟨n, hn, hspec⟩ := find_peaks_project_float_spec fl K segments period_obj.period_int
    (find_peaks_half_width period_obj.period_int first_peak_obj)
    first_peak_obj.peak_center_int hp
    (K.MAX_RATIO_HIGH_RES - first_peak_obj.peak_center_int + 1).toNat 0 (by simp)
  refine ⟨n, ?_, ?_⟩
  · unfold find_peaks_float
    simp only
    rw [if_neg (by omega), hn]
    simp [List.map_map, Function.comp_def]
  · intro k
    simpa using hspec k

/-- C5 (as stated) fails: with period 194 and a first peak at bin 968 of
half-width 48, the segment read as 1.017 is filed under bin 1016 of the first
range `[920, 1016]` and moves the first centre to bin 1017; the segment read
as 1.114 is filed under bin 1114 of the second range `[1114, 1210]` and moves
the second centre to bin 1113; the refined ranges `[969, 1065]` and
`[1065, 1161]` share bin 1065, and the segment read as 1.0655 is in the
`segment_obj_vector` of both peaks. -/
theorem C5_counterexample :
    c5_float_segments.map (fun sg => (sg.rc_ratio, ratio_high_res_float float_round
        example_constants sg)) =
      [(4265607 / 4194304, 1016), (9344909 / 8388608, 1114), (4469031 / 4194304, 1065)] ∧
    (find_peaks_float float_round example_constants c5_float_segments c5_float_period
        c5_float_first_peak).map
      (fun peaks => peaks.map (fun pk =>
        (pk.peak_center_int, pk.lower_bound_int, pk.upper_bound_int,
          pk.segment_obj_vector.map (fun sg => sg.rc_ratio))))
    = some [(1017, 969, 1065, [4265607 / 4194304, 4469031 / 4194304]),
        (1113, 1065, 1161, [4469031 / 4194304, 9344909 / 8388608]),
        (1356, 1308, 1404, []), (1550, 1502, 1598, []), (1744, 1696, 1792, []),
        (1938, 1890, 1986, []), (2132, 2084, 2180, []), (2326, 2278, 2374, [])] := by
  constructor <;> decide!

/-- C5 (amended): for a rounding `fl` of the `float` products of lines 1680
and 1974, `1 ≤ RESOLUTION ≤ 2^20`, `MAX_RATIO_HIGH_RES + 2 ≤ 2^20`,
`period ≥ 1`, a first peak with `0 ≤ half_width` and
`4 * half_width + 2 < period`, and non-negative window counts, the refined bin
ranges of any two distinct peaks returned by `find_peaks` are disjoint (the
earlier peak's upper bound is below the later peak's lower bound), and no
segment is in the `segment_obj_vector` of both. -/
theorem C5_peak_ranges_disjoint (fl : ℚ → ℚ) (K : Constants) (segments : List OneSegment)
    (period_obj : OnePeriod) (first_peak_obj : OnePeak) (hfl : FloatRounding fl)
    (hR1 : 1 ≤ K.RESOLUTION) (hR2 : K.RESOLUTION ≤ 2 ^ 20)
    (hmax : K.MAX_RATIO_HIGH_RES + 2 ≤ 2 ^ 20) (hp : 1 ≤ period_obj.period_int)
    (hhw0 : 0 ≤ first_peak_obj.half_width_int)
    (hhw : 4 * first_peak_obj.half_width_int + 2 < period_obj.period_int)
    (hwin : ∀ sg ∈ segments, 0 ≤ sg.no_of_windows) :
    ∃ peaks, find_peaks_float fl K segments period_obj first_peak_obj = some peaks ∧
      ∀ (i j : Nat) (a b : OnePeak), i < j → peaks[i]? = some a → peaks[j]? = some b →
        a.upper_bound_int < b.lower_bound_int ∧
        ∀ sg, sg ∈ a.segment_obj_vector → sg ∉ b.segment_obj_vector := by
  obtain ⟨n, hn, _⟩ := find_peaks_float_shape fl K segments period_obj first_peak_obj hp
  refine ⟨_, hn, ?_⟩
  intro i j a b hij ha hb
  have hhalf : find_peaks_half_width period_obj.period_int first_peak_obj =
      first_peak_obj.half_width_int := by
    unfold find_peaks_half_width
    rw [if_neg]
    have h2 : Int.tdiv period_obj.period_int 2 = period_obj.period_int / 2 :=
      Int.tdiv_eq_ediv (show (0 : Int) ≤ period_obj.period_int by omega) (by decide)
    rw [h2]
    omega
  rw [hhalf] at ha hb
  simp only [List.getElem?_map, Option.map_eq_some'] at ha hb
  obtain ⟨ki, hki, rfl⟩ := ha
  obtain ⟨kj, hkj, rfl⟩ := hb
  have ei : ki = i := by
    rcases List.getElem?_eq_some_iff.mp hki with ⟨h, e⟩
    simpa using e.symm
  have ej : kj = j := by
    rcases List.getElem?_eq_some_iff.mp hkj with ⟨h, e⟩
    simpa using e.symm
  subst ei; subst ej
  obtain ⟨pa, sa⟩ := find_peaks_aggregate_float_facts fl K segments
    (find_peaks_project_one_float fl K segments
      period_obj.period_int first_peak_obj.half_width_int first_peak_obj.peak_center_int ki)
  obtain ⟨pb, sb⟩ := find_peaks_aggregate_float_facts fl K segments
    (find_peaks_project_one_float fl K segments
      period_obj.period_int first_peak_obj.half_width_int first_peak_obj.peak_center_int kj)
  obtain ⟨_, ca, _, ua⟩ := find_peaks_project_one_float_facts fl hfl K segments
    period_obj.period_int first_peak_obj.half_width_int first_peak_obj.peak_center_int ki
    hR1 hR2 hmax hhw0 hwin
  obtain ⟨cb, _, lb, _⟩ := find_peaks_project_one_float_facts fl hfl K segments
    period_obj.period_int first_peak_obj.half_width_int first_peak_obj.peak_center_int kj
    hR1 hR2 hmax hhw0 hwin
  simp only [OnePeak.position, Prod.mk.injEq] at pa pb
  have hstep : period_obj.period_int * (ki : Int) + period_obj.period_int ≤
      period_obj.period_int * (kj : Int) := by
    have h1 : (ki : Int) + 1 ≤ (kj : Int) := by omega
    have := mul_le_mul_of_nonneg_left h1 (show (0 : Int) ≤ period_obj.period_int by omega)
    linarith
  have hlt : (find_peaks_aggregate_float fl K segments (find_peaks_project_one_float fl K segments
      period_obj.period_int first_peak_obj.half_width_int first_peak_obj.peak_center_int
      ki)).upper_bound_int <
      (find_peaks_aggregate_float fl K segments (find_peaks_project_one_float fl K segments
      period_obj.period_int first_peak_obj.half_width_int first_peak_obj.peak_center_int
      kj)).lower_bound_int := by
    rw [pa.2.2.2.1, pb.2.2.1, ua, lb]
    omega
  refine ⟨hlt, ?_⟩
  intro sg hsa hsb
  rw [sa] at hsa
  rw [sb] at hsb
  have ma := (mem_flatMap_rc_ratio_segments_float fl K segments _ _ sg).mp hsa
  have mb := (mem_flatMap_rc_ratio_segments_float fl K segments _ _ sg).mp hsb
  rw [pa.2.2.2.1, pb.2.2.1] at hlt
  omega

/-- C5 (amended) at a concrete input: `float` rounding, period 194,
half-width 47. -/
theorem C5_witness :
    ∃ peaks, find_peaks_float float_round example_constants c5_float_segments c5_float_period
        c5_float_narrow_first_peak = some peaks ∧
      ∀ (i j : Nat) (a b : OnePeak), i < j → peaks[i]? = some a → peaks[j]? = some b →
        a.upper_bound_int < b.lower_bound_int ∧
        ∀ sg, sg ∈ a.segment_obj_vector → sg ∉ b.segment_obj_vector :=
  C5_peak_ranges_disjoint float_round example_constants c5_float_segments c5_float_period
    c5_float_narrow_first_peak float_round_rounding (by decide) (by decide) (by decide)
    (by decide) (by decide) (by decide) (by decide!)

/-! ### Changepoint candidate precondition -/

/-- The candidate for the signal of `c11_peak_all_diff`: the boundary after
segment 0 gives the period 9. -/
theorem c11_peak_candidate :
    (infer_candidate_period_by_GADA small_constants c11_peak_cor_array example_period
      c11_peak_solver example_sort_desc c11_peak_all_diff (-3 / 8) (3 / 8) 1).map
        (List.map (fun c => (c.period_int, c.auto_cor_value))) = some [(9, 10 ^ 10)] := by
  decide!

/-! ### Reversed segments -/

/-- C20: the data lines `c20_failing_records` are both loaded; the line with
`start = 100` and `end = 50` passes the tests of lines 1671 and 1681 like any
other and is filed under bin 12 (with or without the rounding of the product
of line 1680 to `float`) with a null SNP aggregate.  For the winning
period of 5 bins with first peak at bin 10, `find_peaks` makes the peaks at the
bins 10, 15, 20 and 25; the first segment lies in the peak at bin 10, the
reversed one in no peak.  `output_copy_number_segments` writes a row for both
and adds the lengths `100` and `50 - 100 + 1 = -49`: `_genome_len_cnv_all`
ends at 51. -/
theorem C20_reversed_segment_negative_length :
    (getSegmentDataFromFile small_constants example_null_snps example_robust 1 1 (fun _ => 1)
        [c20_snps] 0 (List.replicate 26 0) c20_failing_records).map
      (fun loaded => loaded.segments.map
        (fun sg => (sg.start_pos, sg.end_pos, ratio_high_res small_constants sg,
          ratio_high_res_float float_round small_constants sg))) =
      some [(1, 100, 10, 10), (100, 50, 12, 12)] ∧
    ((getSegmentDataFromFile small_constants example_null_snps example_robust 1 1 (fun _ => 1)
        [c20_snps] 0 (List.replicate 26 0) c20_failing_records).bind
      (fun loaded =>
        find_peaks small_constants loaded.segments c17_period c17_period.first_peak_obj)).map
      (fun peaks => peaks.map (fun pk => (pk.lower_bound_int, pk.upper_bound_int))) =
      some [(9, 11), (14, 16), (19, 21), (24, 25)] ∧
    ((getSegmentDataFromFile small_constants example_null_snps example_robust 1 1 (fun _ => 1)
        [c20_snps] 0 (List.replicate 26 0) c20_failing_records).bind
      (fun loaded =>
        (find_peaks small_constants loaded.segments c17_period c17_period.first_peak_obj).bind
          (fun peaks =>
            output_copy_number_segments small_constants loaded.segments
              example_adjust_maf_expect 1 1 c17_period peaks))).map
      (fun out => (out.state.rows.map (fun r => (r.segment.start_pos, r.segment.end_pos)),
        out.state.added_lengths, out.state.genome_len_cnv_all)) =
      some ([(1, 100), (100, 50)], [100, -49], 51) := by
  decide!

/-! ### The maximiser at the end of the search window -/

/-- C26: `find_first_peak_ab_init` searches the window `[2, 13]` for
`small_constants`.  In `c26_failing_density` the bins 5 and 13 of the window
reach `kPeakHeightMin = 1`; for the period 5 their periodic windowed sums are
`S(5) = 1` and `S(13) = 3`, so bin 13 is the position with the largest sum.
After the bins `2 .. 12` the search holds the centre 5 with `max_sum = 1`; at
bin 13 line 735 writes `all_sum[13]`, past the 13 entries of `all_sum`, and the
call has no defined result. -/
theorem C26_maximiser_at_window_end :
    small_constants.kFirstPeakMin = 2 ∧
    small_constants.kFirstPeakMax + small_constants.kPeakHalfWidthMax = 13 ∧
    small_constants.kPeakHeightMin ≤ rd c26_failing_density 5 ∧
    small_constants.kPeakHeightMin ≤ rd c26_failing_density 13 ∧
    (∀ p, 2 ≤ p → p ≤ 13 → small_constants.kPeakHeightMin ≤ rd c26_failing_density p →
      p = 5 ∨ p = 13) ∧
    periodic_window_sum c26_failing_density 5 5 = 1 ∧
    periodic_window_sum c26_failing_density 5 13 = 3 ∧
    (int_range 2 12).foldlM (first_peak_scan_step small_constants c26_failing_density 5)
      (List.replicate 13 0, -1, 0) =
      some (List.replicate 5 0 ++ [1] ++ List.replicate 7 0, 1, 5) ∧
    first_peak_scan_step small_constants c26_failing_density 5
      (List.replicate 5 0 ++ [1] ++ List.replicate 7 0, 1, 5) 13 = none ∧
    find_first_peak_ab_init small_constants example_peak 0 c26_failing_density 5 = none := by
  refine ⟨by decide, by decide, by decide!, by decide!, ?_, ?_, ?_, by decide!, by decide!,
    by decide!⟩
  · intro p h1 h2 h3
    have hp : p = 2 ∨ p = 3 ∨ p = 4 ∨ p = 5 ∨ p = 6 ∨ p = 7 ∨ p = 8 ∨ p = 9 ∨ p = 10 ∨
        p = 11 ∨ p = 12 ∨ p = 13 := by omega
    rcases hp with rfl | rfl | rfl | rfl | rfl | rfl | rfl | rfl | rfl | rfl | rfl | rfl
    all_goals first
      | exact Or.inl rfl
      | exact Or.inr rfl
      | exact absurd h3 (by decide!)
  · decide!
  · decide!

/-! ### Subclonal single-integer call -/

/-- C27: with `_segment_stddev_divider = 16` the data lines `c27_records` are
both loaded (the second has ratio 0.25 and stored deviation 0.03125, so the
test of line 1671 keeps it) and the second is filed under bin 2 (with or
without the rounding of the product of line 1680 to `float`), outside the
peaks at the bins 10, 15, 20 and 25 that `find_peaks` makes for the winning
period of 5 bins with first peak at bin 10, two copy numbers before it, purity
1 and ploidy 2.  Its fractional copy number is `(2 - 10)/5 + 2 = 0.4` and its
uncertainty `cp_stddev` is `2 * (0.03125 * 16) = 1`, so the interval is
`[-0.6, 1.4]`, which contains the integers 0 and 1.  Both ends truncate toward
zero, to 0 and to 1, the test of line 2224 takes the difference 1 for a single
integer, and the row is written with the integer copy number 0. -/
theorem C27_two_integers_called_as_one :
    (getSegmentDataFromFile small_constants example_null_snps example_robust 1 16 (fun _ => 1)
        [c20_snps] 0 (List.replicate 26 0) c27_records).map
      (fun loaded => loaded.segments.map
        (fun sg => (sg.start_pos, sg.end_pos, sg.stddev, ratio_high_res small_constants sg,
          ratio_high_res_float float_round small_constants sg))) =
      some [(1, 100, 1 / 128, 10, 10), (101, 200, 1 / 32, 2, 2)] ∧
    subclonal_cp_stddev 16 (Dbl.fin 1) (Dbl.fin 2) c27_loaded_segment = Dbl.fin 1 ∧
    Dbl.toInt (Dbl.sub (Dbl.fin (2 / 5)) (Dbl.fin 1)) = some 0 ∧
    Dbl.toInt (Dbl.add (Dbl.fin (2 / 5)) (Dbl.fin 1)) = some 1 ∧
    Dbl.le (Dbl.sub (Dbl.fin (2 / 5)) (Dbl.fin 1)) (Dbl.fin 0) = true ∧
    Dbl.le (Dbl.fin 1) (Dbl.add (Dbl.fin (2 / 5)) (Dbl.fin 1)) = true ∧
    subclonal_row 16 (Dbl.fin 1) (Dbl.fin 2) (Dbl.fin (2 / 5)) c27_loaded_segment =
      some { segment := c27_loaded_segment, cp := Dbl.fin 0, major_allele_cp := none
             copy_no_float := some (Dbl.fin (2 / 5)), maf_expected := none } ∧
    ((getSegmentDataFromFile small_constants example_null_snps example_robust 1 16 (fun _ => 1)
        [c20_snps] 0 (List.replicate 26 0) c27_records).bind
      (fun loaded =>
        (find_peaks small_constants loaded.segments c17_period c17_period.first_peak_obj).bind
          (fun peaks =>
            output_copy_number_segments small_constants loaded.segments
              example_adjust_maf_expect 1 16 c17_period peaks))).map
      (fun out => out.state.rows.filter (fun r => decide (r.segment.start_pos = 101))) =
      some [{ segment := c27_loaded_segment, cp := Dbl.fin 0, major_allele_cp := none
              copy_no_float := some (Dbl.fin (2 / 5)), maf_expected := none }] := by
  decide!

end Accurity
